import Mathlib

/-! # uxen device model: VM save / restore (`dm/vm-save.c`)

A shallow embedding of the snapshot engine of `dm/vm-save.c` and the
properties its specification states about it.

Conventions of the embedding

* A byte is a natural number below 256; a file or buffer is a `List Nat`.
  Fixed-width integers are written little-endian (`le_bytes`) and read back
  with `le_value`; signed 32-bit values use two's complement (`enc_i32`,
  `dec_i32`).
* C `int` return codes are `Int`; `goto out` is an early return.
* Sizes of the on-disk structures are the `sizeof` values of the C structs
  under natural alignment (`sizeof_*` below).
* Hypercalls and the LZ4 library are external: their results are supplied by
  an environment record, and every call is appended to a trace of `Event`s.
-/

namespace VmSave

/-! ## Constants of `vm-save.c` -/

def SAVE_FORMAT_VERSION : Nat := 4
def DECOMPRESS_THREADS : Nat := 2

def XC_SAVE_ID_VCPU_INFO : Int := -2
def XC_SAVE_ID_HVM_IDENT_PT : Int := -3
def XC_SAVE_ID_HVM_VM86_TSS : Int := -4
def XC_SAVE_ID_TSC_INFO : Int := -7
def XC_SAVE_ID_HVM_CONSOLE_PFN : Int := -8
def XC_SAVE_ID_HVM_ACPI_IOPORTS_LOCATION : Int := -10
def XC_SAVE_ID_HVM_MAGIC_PFNS : Int := -11
def XC_SAVE_ID_HVM_CONTEXT : Int := -12
def XC_SAVE_ID_HVM_DM : Int := -13
def XC_SAVE_ID_VM_UUID : Int := -14
def XC_SAVE_ID_VM_TEMPLATE_UUID : Int := -15
def XC_SAVE_ID_VERSION : Int := -16
def XC_SAVE_ID_HVM_INTROSPEC : Int := -17
def XC_SAVE_ID_MAPCACHE_PARAMS : Int := -18
def XC_SAVE_ID_VM_TEMPLATE_FILE : Int := -19
def XC_SAVE_ID_PAGE_OFFSETS : Int := -20
def XC_SAVE_ID_ZERO_BITMAP : Int := -21

def MAX_BATCH_SIZE : Nat := 1023

/-- The page shift of the platform headers (4 KiB pages). -/
def PAGE_SHIFT : Nat := 12
def PAGE_SIZE : Nat := 4096

/-- Size of `cs16_t` (`uint16_t`), the per-page length prefix. -/
def sizeof_cs16 : Nat := 2

def PAGE_OFFSET_INDEX_PFN_OFF_COMPRESSED : Nat := 2 ^ 63
def PAGE_OFFSET_INDEX_PFN_OFF_MASK : Nat := 2 ^ 63 - 1

/-! `errno` values used by the file -/

def EPERM : Int := 1
def EIO_errno : Int := 5
def ENOMEM : Int := 12
def EINVAL : Int := 22

/-! `sizeof` of the record structures -/

def sizeof_marker : Nat := 4
def sizeof_xc_save_generic : Nat := 8
def sizeof_xc_save_version_info : Nat := 8
def sizeof_xc_save_tsc_info : Nat := 24
def sizeof_xc_save_vcpu_info : Nat := 16
def sizeof_xc_save_hvm_generic_chunk : Nat := 16
def sizeof_xc_save_hvm_magic_pfns : Nat := 48
def sizeof_xc_save_hvm_context : Nat := 8
def sizeof_xc_save_hvm_dm : Nat := 8
def sizeof_xc_save_vm_uuid : Nat := 20
def sizeof_xc_save_vm_template_uuid : Nat := 20
def sizeof_xc_save_mapcache_params : Nat := 16
def sizeof_xc_save_vm_template_file : Nat := 8
def sizeof_xc_save_vm_page_offsets : Nat := 16
def sizeof_xc_save_zero_bitmap : Nat := 12
def sizeof_xc_save_index : Nat := 12

/-- Constants that `vm-save.c` takes from headers outside this file. -/
structure Consts where
  /-- Value of `PCI_HOLE_START >> UXEN_PAGE_SHIFT`. -/
  PCI_HOLE_START_PFN : Nat
  /-- Value of `PCI_HOLE_END >> UXEN_PAGE_SHIFT`. -/
  PCI_HOLE_END_PFN : Nat
  /-- Value of `XEN_DOMCTL_PFINFO_LTAB_MASK`, a 32-bit mask. -/
  XEN_DOMCTL_PFINFO_LTAB_MASK : Nat
  /-- Value of `sizeof(struct guest_introspect_info_header)`. -/
  sizeof_introspect_header : Nat
  /-- Value of `sizeof(struct immutable_range)`. -/
  sizeof_immutable_range : Nat
  /-- The field `n_immutable_ranges` of a `struct guest_introspect_info_header`. -/
  n_immutable_ranges : List Nat → Nat

/-! ## Fixed-width integers -/

/-- The `w` little-endian bytes of `n` (truncated to `w` bytes). -/
def le_bytes : Nat → Nat → List Nat
  | 0, _ => []
  | w + 1, n => n % 256 :: le_bytes w (n / 256)

/-- Value of a little-endian byte string. -/
def le_value : List Nat → Nat
  | [] => 0
  | b :: bs => b + 256 * le_value bs

/-- Conversion of a C `int` to `unsigned int`. -/
def to_u32 (x : Int) : Nat := (x % 4294967296).toNat

/-- Conversion of an `unsigned int` bit pattern to `int`. -/
def to_i32 (n : Nat) : Int :=
  if n % 4294967296 < 2147483648 then ((n % 4294967296 : Nat) : Int)
  else ((n % 4294967296 : Nat) : Int) - 4294967296

def enc_u16 (n : Nat) : List Nat := le_bytes 2 n
def enc_u32 (n : Nat) : List Nat := le_bytes 4 n
def enc_u64 (n : Nat) : List Nat := le_bytes 8 n
def enc_i32 (x : Int) : List Nat := le_bytes 4 (to_u32 x)
def dec_i32 (bs : List Nat) : Int := to_i32 (le_value bs)

/-- The first `n` bytes of a buffer, reading zero past its end. -/
def take_pad : Nat → List Nat → List Nat
  | 0, _ => []
  | n + 1, [] => 0 :: take_pad n []
  | n + 1, b :: bs => b :: take_pad n bs

/-- The bytes `buf[off .. off + n)`. -/
def buf_read (buf : List Nat) (off n : Nat) : List Nat := take_pad n (buf.drop off)

/-! ## Page-batch markers -/

/-- Compression modes of a save session (`VM_SAVE_COMPRESS_*`). -/
inductive compress_mode where
  | VM_SAVE_COMPRESS_NONE
  | VM_SAVE_COMPRESS_LZ4
  deriving DecidableEq, Repr

open compress_mode

/-- Modelled from the spec: the macro `vm_save_compress_mode_batched` of
`vm-save.h`. Every mode of the specification (none, bulk LZ4, per-page LZ4)
writes page-batch records. -/
def vm_save_compress_mode_batched : compress_mode → Bool
  | VM_SAVE_COMPRESS_NONE => true
  | VM_SAVE_COMPRESS_LZ4 => true

/-- The value of `_batch` at `filebuf_write(f, &_batch, sizeof(_batch))` in
`uxenvm_savevm_write_pages`. -/
def batch_marker (mode : compress_mode) (single_page : Bool) (_batch : Nat) : Nat :=
  if mode = VM_SAVE_COMPRESS_LZ4 then
    _batch + (if single_page then 2 * MAX_BATCH_SIZE else MAX_BATCH_SIZE)
  else _batch

/-- The marker decoding at the head of `uxenvm_load_batch`: the error
`-EINVAL`, or the batch count with the `decompress` and `single_page` flags. -/
def uxenvm_load_batch_decode (marker : Int) : Except Int (Int × Bool × Bool) :=
  if to_u32 marker > 3 * MAX_BATCH_SIZE then .error (-EINVAL)
  else if marker > 2 * (MAX_BATCH_SIZE : Int) then
    .ok (marker - 2 * (MAX_BATCH_SIZE : Int), true, true)
  else if marker > (MAX_BATCH_SIZE : Int) then
    .ok (marker - (MAX_BATCH_SIZE : Int), true, false)
  else .ok (marker, false, false)

/-! ## External collaborators -/

/-- The LZ4 library (`lz4.h`, `lz4hc.h`). A compressor returns the compressed
bytes (the C return value is their number); `LZ4_decompress_fast src osize`
returns the C return value (bytes consumed, negative on error) and the
`osize` output bytes. -/
structure LZ4 where
  LZ4_compress : List Nat → List Nat
  LZ4_compressHC : List Nat → List Nat
  LZ4_decompress_fast : List Nat → Nat → Int × List Nat

/-- Hypervisor parameters set or read by the file (`HVM_PARAM_*`). -/
inductive hvm_param where
  | HVM_PARAM_IDENT_PT
  | HVM_PARAM_VM86_TSS
  | HVM_PARAM_CONSOLE_PFN
  | HVM_PARAM_ACPI_IOPORTS_LOCATION
  | HVM_PARAM_IO_PFN_FIRST
  | HVM_PARAM_IO_PFN_LAST
  | HVM_PARAM_SHARED_INFO_PFN
  | HVM_PARAM_DMREQ_PFN
  | HVM_PARAM_DMREQ_VCPU_PFN
  deriving DecidableEq, Repr

/-- Calls into the hypervisor-call layer and other collaborators, in the order
issued. -/
inductive Event where
  /-- `xc_domain_memory_capture` of `batch` frames from `pfn`; `remove` is
  `XENMEM_MCGI_FLAGS_REMOVE_PFN`. -/
  | memory_capture (pfn batch : Nat) (remove : Bool)
  /-- `xc_domain_populate_physmap(..., XENMEMF_populate_on_demand, pfns)`. -/
  | populate_physmap (pfns : List Nat)
  /-- `xc_domain_clone_physmap`. -/
  | clone_physmap
  /-- `xc_domain_populate_physmap_exact` with `XENMEMF_populate_on_demand`;
  `dmreq` is `XENMEMF_populate_on_demand_dmreq`. -/
  | populate_physmap_exact (pfns : List Nat) (dmreq : Bool)
  /-- `xc_map_foreign_bulk` of the frames. -/
  | map_foreign_bulk (pfns : List Nat)
  /-- File bytes read into the mapping of the frames. -/
  | write_mapped (pfns : List Nat) (bytes : List Nat)
  /-- `xc_domain_populate_physmap_from_buffer`; `compressed` is
  `XENMEMF_populate_from_buffer_compressed`. -/
  | populate_physmap_from_buffer (pfns : List Nat) (buffer : List Nat) (compressed : Bool)
  /-- `xc_hypercall_buffer_alloc_pages` for a pool buffer. -/
  | alloc_pp_buffer
  /-- `xc__hypercall_buffer_free_pages` of a pool buffer. -/
  | free_pp_buffer
  | sethandle
  | apply_immutable_memory (nranges : Nat)
  | mapcache_init_restore (end_low_pfn start_high_pfn end_high_pfn : Nat)
  | mapcache_init
  | set_tsc_info (tsc_mode nsec khz incarn : Nat)
  | set_hvm_param (param : hvm_param) (value : Nat)
  | clear_domain_page (pfn : Nat)
  | add_to_physmap_shared_info (pfn : Nat)
  | dmreq_init
  | hvm_setcontext (context : List Nat)
  deriving DecidableEq, Repr

/-! ## Save: `uxenvm_savevm_write_pages` -/

/-- Page types reported by the capture primitive, after masking with
`XENMEM_MCGI_TYPE_MASK`; `OTHER` stands for every remaining value. -/
inductive mcgi_type where
  | XENMEM_MCGI_TYPE_NORMAL
  | XENMEM_MCGI_TYPE_ZERO
  | XENMEM_MCGI_TYPE_POD
  | OTHER
  deriving DecidableEq, Repr

open mcgi_type

/-- The fields of `xen_memory_capture_gpfn_info_t` filled in by the capture. -/
structure gpfn_info where
  type : mcgi_type
  offset : Nat
  deriving DecidableEq, Repr

/-- Outcome of one `xc_domain_memory_capture` call: the return value,
`batch_done`, the entries filled in (entry `j` for `j < batch_done`) and the
contents of `mem_buffer`. -/
structure capture_result where
  ret : Int
  batch_done : Nat
  info : List gpfn_info
  mem_buffer : List Nat
  deriving DecidableEq, Repr

/-- The fields of `vm_save_info` read by the page writer. -/
structure vm_save_info where
  compress_mode : compress_mode
  single_page : Bool
  free_mem : Bool
  high_compress : Bool
  deriving DecidableEq, Repr

/-- Everything the page writer obtains from outside. The two flags are polled;
`save_abort k` and `vm_quit_interrupt k` are their values at the `k`-th test
of the function (one per loop test, then the two tests after the loop). -/
structure SaveEnv where
  lz4 : LZ4
  K : Consts
  vm_mem_mb : Nat
  xc_domain_maximum_gpfn : Int
  xc_domain_memory_capture : Nat → Nat → Bool → capture_result
  /-- Contents of the freshly allocated `gpfn_info_list`. -/
  gpfn_info_list0 : Nat → gpfn_info
  save_abort : Nat → Bool
  vm_quit_interrupt : Nat → Bool
  /-- Padding bytes of structures written from the stack. -/
  padding : List Nat

def uxenvm_compress_lz4 (lz4 : LZ4) (high_compress : Bool) (src : List Nat) : List Nat :=
  if high_compress then lz4.LZ4_compressHC src else lz4.LZ4_compress src

def skip_pci_hole (K : Consts) (pfn : Nat) : Nat :=
  if pfn < K.PCI_HOLE_END_PFN then pfn
  else pfn - (K.PCI_HOLE_END_PFN - K.PCI_HOLE_START_PFN)

def poi_valid_pfn (K : Consts) (max_gpfn pfn : Nat) : Bool :=
  decide (pfn < max_gpfn) &&
    (decide (pfn < K.PCI_HOLE_START_PFN) || decide (pfn ≥ K.PCI_HOLE_END_PFN))

def poi_pfn_index (K : Consts) (pfn : Nat) : Nat := skip_pci_hole K pfn

/-- Assignment `pfn_off[idx] = v` of a 64-bit entry. -/
def pfn_off_set (pfn_off : Nat → Nat) (idx v : Nat) : Nat → Nat :=
  fun k => if k = idx then v % 18446744073709551616 else pfn_off k

/-- Bit `nr` of the byte array `addr` set (`__set_bit` of `bitops.h`). -/
def __set_bit (nr : Nat) (addr : List Nat) : List Nat :=
  addr.set (nr / 8) (addr.getD (nr / 8) 0 ||| 1 <<< (nr % 8))

/-- Bit `nr` of the byte array `addr` (`test_bit` of `bitops.h`). -/
def test_bit (nr : Nat) (addr : List Nat) : Bool :=
  (addr.getD (nr / 8) 0).testBit (nr % 8)

/-- The first `n` 64-bit words of a byte buffer. -/
def page_words : Nat → List Nat → List Nat
  | 0, _ => []
  | n + 1, bs => le_value (take_pad 8 bs) :: page_words n (bs.drop 8)

/-- The scan `while (i < (PAGE_SIZE >> 3) && !p[i]) i++` over the words `p`,
started at `i`; returns the final `i`. -/
def zero_scan : List Nat → Nat → Nat
  | [], i => i
  | w :: ws, i => if w = 0 then zero_scan ws (i + 1) else i

/-- The test `i == (PAGE_SIZE >> 3)` after the scan of the page at
`mem_buffer[offset]`. -/
def page_is_zero (mem_buffer : List Nat) (offset : Nat) : Bool :=
  decide (zero_scan (page_words (PAGE_SIZE >>> 3) (mem_buffer.drop offset)) 0 = PAGE_SIZE >>> 3)

/-- State of the classification loop over a captured batch. -/
structure classify_state where
  gpfn_info_list : Nat → gpfn_info
  pfn_batch : List Nat
  zero_bitmap : List Nat
  rezero_pfns : List Nat
  rezero : Nat
  _zero : Nat
  clone : Nat

/-- The type of an entry after the rescan at the head of the loop body: a
Normal page whose words are all zero becomes Zero. -/
def rescan_type (mem_buffer : List Nat) (e : gpfn_info) : mcgi_type :=
  if (decide (e.type = XENMEM_MCGI_TYPE_NORMAL) && page_is_zero mem_buffer e.offset) = true then
    XENMEM_MCGI_TYPE_ZERO
  else e.type

/-- Body of `for (j = 0; j < batch_done; j++)`. -/
def classify_step (free_mem : Bool) (mem_buffer : List Nat) (pfn j : Nat)
    (s : classify_state) : classify_state :=
  let e := s.gpfn_info_list j
  let rz : Bool := decide (e.type = XENMEM_MCGI_TYPE_NORMAL) && page_is_zero mem_buffer e.offset
  let t : mcgi_type := rescan_type mem_buffer e
  { gpfn_info_list := fun k => if k = j then { e with type := t } else s.gpfn_info_list k
    pfn_batch := if t = XENMEM_MCGI_TYPE_NORMAL then s.pfn_batch ++ [pfn + j] else s.pfn_batch
    zero_bitmap := if t = XENMEM_MCGI_TYPE_ZERO then __set_bit (pfn + j) s.zero_bitmap
      else s.zero_bitmap
    rezero_pfns := if rz && !free_mem then s.rezero_pfns ++ [pfn + j] else s.rezero_pfns
    rezero := if rz then s.rezero + 1 else s.rezero
    _zero := if t = XENMEM_MCGI_TYPE_ZERO then s._zero + 1 else s._zero
    clone := if t = XENMEM_MCGI_TYPE_POD then s.clone + 1 else s.clone }

/-- The loop `for (j = 0; j < batch_done; j++)`: `n` remaining iterations from `j`. -/
def classify (free_mem : Bool) (mem_buffer : List Nat) (pfn : Nat) :
    Nat → Nat → classify_state → classify_state
  | 0, _, s => s
  | n + 1, j, s => classify free_mem mem_buffer pfn n (j + 1)
      (classify_step free_mem mem_buffer pfn j s)

/-- The 32-bit little-endian encodings of a list of numbers, concatenated. -/
def enc_u32_list : List Nat → List Nat
  | [] => []
  | x :: xs => enc_u32 x ++ enc_u32_list xs

/-- The 64-bit little-endian encodings of a list of numbers, concatenated. -/
def enc_u64_list : List Nat → List Nat
  | [] => []
  | x :: xs => enc_u64 x ++ enc_u64_list xs

/-- State of the writer while it emits one batch. `runs` records the runs
`(run, b_run)` handed to the writer, in order. -/
structure batch_state where
  f : List Nat
  pfn_off : Nat → Nat
  compress_mem : List Nat
  compress_buf : List Nat
  compress_size : Nat
  mem_pos : Nat
  m_run : Nat
  v_run : Nat
  _batch : Int
  total_pages : Nat
  runs : List (Nat × Nat)

/-- The index loop of the uncompressed branch:
`for (i = 0; i < b_run; i++) if (poi_valid_pfn(..)) pfn_off[..] = pos + (i << PAGE_SHIFT)`. -/
def index_run_raw (K : Consts) (max_gpfn pos pfn run : Nat) :
    Nat → Nat → (Nat → Nat) → (Nat → Nat)
  | 0, _, po => po
  | n + 1, i, po => index_run_raw K max_gpfn pos pfn run n (i + 1)
      (if poi_valid_pfn K max_gpfn (pfn + run + i) then
        pfn_off_set po (poi_pfn_index K (pfn + run + i)) (pos + (i <<< PAGE_SHIFT))
       else po)

/-- One page of the per-page branch: compress, fall back to the raw page when
the result is not smaller, record the index entry, append length and data to
`compress_buf`. -/
def compress_page_step (lz4 : LZ4) (K : Consts) (info : vm_save_info) (max_gpfn : Nat)
    (mem_buffer : List Nat) (gl : Nat → gpfn_info) (pfn run i : Nat)
    (s : batch_state) : batch_state :=
  let page := buf_read mem_buffer (gl (run + i)).offset PAGE_SIZE
  let c := uxenvm_compress_lz4 lz4 info.high_compress page
  let in_vain : Bool := decide (c.length ≥ PAGE_SIZE)
  let cs1 : Nat := if in_vain then PAGE_SIZE else c.length
  let data : List Nat := if in_vain then page else c
  { s with
    pfn_off := if poi_valid_pfn K max_gpfn (pfn + run + i) then
        pfn_off_set s.pfn_off (poi_pfn_index K (pfn + run + i))
          ((s.mem_pos + s.compress_size) +
            (if cs1 = PAGE_SIZE then sizeof_cs16 else PAGE_OFFSET_INDEX_PFN_OFF_COMPRESSED))
      else s.pfn_off
    compress_buf := buf_read s.compress_buf 0 s.compress_size ++ enc_u16 cs1 ++ data
    compress_size := s.compress_size + sizeof_cs16 + cs1
    m_run := if in_vain then s.m_run else s.m_run + 1
    v_run := if in_vain then s.v_run + 1 else s.v_run }

/-- The loop `for (i = 0; i < b_run; i++)` of the per-page branch. -/
def compress_run_single_page (lz4 : LZ4) (K : Consts) (info : vm_save_info) (max_gpfn : Nat)
    (mem_buffer : List Nat) (gl : Nat → gpfn_info) (pfn run : Nat) :
    Nat → Nat → batch_state → batch_state
  | 0, _, s => s
  | n + 1, i, s => compress_run_single_page lz4 K info max_gpfn mem_buffer gl pfn run n (i + 1)
      (compress_page_step lz4 K info max_gpfn mem_buffer gl pfn run i s)

/-- The body of `if (run != j)`: one run of `b_run` pages starting at entry `run`. -/
def write_run (lz4 : LZ4) (K : Consts) (info : vm_save_info) (max_gpfn : Nat)
    (mem_buffer : List Nat) (gl : Nat → gpfn_info) (pfn run b_run : Nat)
    (s : batch_state) : batch_state :=
  let s1 : batch_state :=
    match info.compress_mode with
    | VM_SAVE_COMPRESS_NONE =>
      { s with
        pfn_off := index_run_raw K max_gpfn s.f.length pfn run b_run 0 s.pfn_off
        f := s.f ++ buf_read mem_buffer (gl run).offset (b_run <<< PAGE_SHIFT) }
    | VM_SAVE_COMPRESS_LZ4 =>
      if info.single_page then
        compress_run_single_page lz4 K info max_gpfn mem_buffer gl pfn run b_run 0 s
      else
        { s with
          compress_mem := buf_read s.compress_mem 0 (s.m_run <<< PAGE_SHIFT) ++
            buf_read mem_buffer (gl run).offset (b_run <<< PAGE_SHIFT)
          m_run := s.m_run + b_run }
  { s1 with
    _batch := s1._batch - (b_run : Int)
    total_pages := s1.total_pages + b_run
    runs := s1.runs ++ [(run, b_run)] }

/-- The scan `while (j != batch && type[j] != NORMAL) j++`, with `rem = batch - j`. -/
def scan_not_normal (gl : Nat → gpfn_info) : Nat → Nat → Nat
  | 0, j => j
  | rem + 1, j =>
    if (gl j).type ≠ XENMEM_MCGI_TYPE_NORMAL then scan_not_normal gl rem (j + 1) else j

/-- The scan `while (j != batch && type[j] == NORMAL) j++`, with `rem = batch - j`. -/
def scan_normal (gl : Nat → gpfn_info) : Nat → Nat → Nat
  | 0, j => j
  | rem + 1, j =>
    if (gl j).type = XENMEM_MCGI_TYPE_NORMAL then scan_normal gl rem (j + 1) else j

/-- The loop `while (j != batch)` over the runs of a batch; the first argument
bounds the number of iterations (`batch` suffices, every iteration advances `j`). -/
def run_loop (lz4 : LZ4) (K : Consts) (info : vm_save_info) (max_gpfn : Nat)
    (mem_buffer : List Nat) (gl : Nat → gpfn_info) (pfn batch : Nat) :
    Nat → Nat → batch_state → batch_state
  | 0, _, s => s
  | n + 1, j, s =>
    if j ≠ batch then
      let run := scan_not_normal gl (batch - j) j
      let j2 := scan_normal gl (batch - run) run
      run_loop lz4 K info max_gpfn mem_buffer gl pfn batch n j2
        (if run ≠ j2 then write_run lz4 K info max_gpfn mem_buffer gl pfn run (j2 - run) s
         else s)
    else s

/-- The writes after the run loop: the compressed payload of the batch. -/
def finish_batch (lz4 : LZ4) (info : vm_save_info) (s : batch_state) : batch_state :=
  match info.compress_mode with
  | VM_SAVE_COMPRESS_NONE => s
  | VM_SAVE_COMPRESS_LZ4 =>
    if !info.single_page then
      let src := buf_read s.compress_mem 0 (s.m_run <<< PAGE_SHIFT)
      let c := uxenvm_compress_lz4 lz4 info.high_compress src
      let compress_size : Nat :=
        if c.length ≥ s.m_run <<< PAGE_SHIFT then 4294967295 else c.length
      { s with
        compress_size := compress_size
        f := s.f ++ enc_u32 compress_size ++ (if compress_size ≠ 4294967295 then c else src) }
    else
      { s with f := s.f ++ enc_u32 s.compress_size ++ buf_read s.compress_buf 0 s.compress_size }

/-- What the writer did for one batch of the page loop. -/
structure batch_log where
  pfn : Nat
  batch : Nat
  /-- Outcome of the capture of this batch. -/
  capture : capture_result
  /-- The array `gpfn_info_list` after the capture. -/
  captured : Nat → gpfn_info
  /-- The array `gpfn_info_list` after the classification loop. -/
  classified : Nat → gpfn_info
  /-- The frame list `pfn_batch[0 .. _batch)`. -/
  pfn_batch : List Nat
  /-- File position at which the batch record starts (when one is written). -/
  record_pos : Nat
  /-- The runs `(run, b_run)` written as payload. -/
  runs : List (Nat × Nat)
  /-- The value of `_batch` after the run loop (the stray pages). -/
  stray : Int

/-- State of `uxenvm_savevm_write_pages` across the page loop. -/
structure save_state where
  f : List Nat
  zero_bitmap : List Nat
  pfn_off : Nat → Nat
  gpfn_info_list : Nat → gpfn_info
  compress_size : Nat
  mem_pos : Nat
  total_pages : Nat
  pfn : Nat
  /-- Number of tests of the abort flags so far. -/
  polls : Nat
  trace : List Event
  log : List batch_log

/-- The loop `while ((pfn + batch) < p2m_size && batch < MAX_BATCH_SIZE) batch++`;
the first argument bounds the iterations (`MAX_BATCH_SIZE` suffices). -/
def fill_batch (p2m_size pfn : Nat) : Nat → Nat → Nat
  | 0, batch => batch
  | n + 1, batch =>
    if pfn + batch < p2m_size ∧ batch < MAX_BATCH_SIZE then fill_batch p2m_size pfn n (batch + 1)
    else batch

/-- The file after the header of a page batch: the marker and the frame list,
written when the mode is batched. -/
def batch_header (info : vm_save_info) (f : List Nat) (pfn_batch : List Nat) : List Nat :=
  if vm_save_compress_mode_batched info.compress_mode then
    f ++ enc_u32 (batch_marker info.compress_mode info.single_page pfn_batch.length) ++
      enc_u32_list pfn_batch
  else f

/-- The variables of the writer when the run loop of a batch starts: `f1` is
the file after the batch header, `_batch` the number of frames of the batch. -/
def batch_start (info : vm_save_info) (s : save_state) (f1 : List Nat) (_batch : Nat) :
    batch_state :=
  let pp : Bool := vm_save_compress_mode_batched info.compress_mode &&
    decide (info.compress_mode = VM_SAVE_COMPRESS_LZ4) && info.single_page
  { f := f1, pfn_off := s.pfn_off, compress_mem := [], compress_buf := [],
    compress_size := if pp then 0 else s.compress_size,
    mem_pos := if pp then f1.length + 4 else s.mem_pos,
    m_run := 0, v_run := 0, _batch := _batch, total_pages := s.total_pages, runs := [] }

/-- One iteration of the page loop of `uxenvm_savevm_write_pages`. -/
def save_batch (env : SaveEnv) (info : vm_save_info) (p2m_size max_gpfn : Nat)
    (s : save_state) : save_state :=
  let pfn := s.pfn
  let batch := fill_batch p2m_size pfn MAX_BATCH_SIZE 0
  let cap := env.xc_domain_memory_capture pfn batch info.free_mem
  let gl0 : Nat → gpfn_info := fun j =>
    if j < cap.batch_done then cap.info.getD j (s.gpfn_info_list j) else s.gpfn_info_list j
  let c := classify info.free_mem cap.mem_buffer pfn cap.batch_done 0
    { gpfn_info_list := gl0, pfn_batch := [], zero_bitmap := s.zero_bitmap,
      rezero_pfns := [], rezero := 0, _zero := 0, clone := 0 }
  let trace1 := s.trace ++ [Event.memory_capture pfn batch info.free_mem] ++
    (if c.rezero_pfns.length ≠ 0 then [Event.populate_physmap c.rezero_pfns] else [])
  let _batch := c.pfn_batch.length
  if _batch ≠ 0 then
    let b0 := batch_start info s (batch_header info s.f c.pfn_batch) _batch
    let b1 := run_loop env.lz4 env.K info max_gpfn cap.mem_buffer c.gpfn_info_list pfn batch
      batch 0 b0
    let b2 := finish_batch env.lz4 info b1
    let entry : batch_log :=
      { pfn := pfn, batch := batch, capture := cap, captured := gl0,
        classified := c.gpfn_info_list, pfn_batch := c.pfn_batch, record_pos := s.f.length,
        runs := b2.runs, stray := b2._batch }
    { s with
      f := b2.f, zero_bitmap := c.zero_bitmap, pfn_off := b2.pfn_off,
      gpfn_info_list := c.gpfn_info_list, compress_size := b2.compress_size,
      mem_pos := b2.mem_pos, total_pages := b2.total_pages, pfn := pfn + batch,
      trace := trace1,
      log := s.log ++ [entry] }
  else
    let entry0 : batch_log :=
      { pfn := pfn, batch := batch, capture := cap, captured := gl0,
        classified := c.gpfn_info_list, pfn_batch := [], record_pos := s.f.length,
        runs := [], stray := 0 }
    { s with
      zero_bitmap := c.zero_bitmap, gpfn_info_list := c.gpfn_info_list, pfn := pfn + batch,
      trace := trace1,
      log := s.log ++ [entry0] }

/-- The page loop `while (pfn < p2m_size && !save_abort && !vm_quit_interrupt)`;
the first argument bounds the number of loop tests (`p2m_size + 1` suffices,
every iteration advances `pfn`). -/
def write_pages_loop (env : SaveEnv) (info : vm_save_info) (p2m_size max_gpfn : Nat) :
    Nat → save_state → save_state
  | 0, s => s
  | n + 1, s =>
    if s.pfn < p2m_size ∧ env.save_abort s.polls = false ∧
        env.vm_quit_interrupt s.polls = false then
      write_pages_loop env info p2m_size max_gpfn n
        (save_batch env info p2m_size max_gpfn { s with polls := s.polls + 1 })
    else { s with polls := s.polls + 1 }

/-- The zero-bitmap record: header `(marker, size, zero_bitmap_size)` and the
payload, LZ4-compressed unless that is not smaller. -/
def zero_bitmap_record (lz4 : LZ4) (high_compress : Bool) (zero_bitmap : List Nat)
    (zero_bitmap_size : Nat) : List Nat :=
  let src := buf_read zero_bitmap 0 zero_bitmap_size
  let c := uxenvm_compress_lz4 lz4 high_compress src
  let stored : Bool := decide (c.length ≥ zero_bitmap_size)
  let payload := if stored then src else c
  let size := (if stored then zero_bitmap_size else c.length) + sizeof_xc_save_zero_bitmap
  enc_i32 XC_SAVE_ID_ZERO_BITMAP ++ enc_u32 size ++ enc_u32 zero_bitmap_size ++ payload

/-- The page-offsets record: the 16-byte header `(marker, size, pfn_off_nr,
padding)` and the `pfn_off_nr` entries. -/
def page_offsets_record (padding : List Nat) (pfn_off : Nat → Nat) (pfn_off_nr : Nat) :
    List Nat :=
  enc_i32 XC_SAVE_ID_PAGE_OFFSETS ++
    enc_u32 (sizeof_xc_save_vm_page_offsets + pfn_off_nr * 8) ++
    enc_u32 pfn_off_nr ++ take_pad 4 padding ++
    enc_u64_list ((List.range pfn_off_nr).map pfn_off)

/-- The `struct xc_save_index` entry: offset, then marker. -/
def index_entry (offset : Nat) (marker : Int) : List Nat := enc_u64 offset ++ enc_i32 marker

/-- Result of `uxenvm_savevm_write_pages`: the return value, the file, and the
values of the local variables of interest when the function returns. -/
structure save_result where
  ret : Int
  f : List Nat
  p2m_size : Nat
  zero_bitmap : List Nat
  max_gpfn : Nat
  pfn_off : Nat → Nat
  pfn_off_nr : Nat
  /-- The value of `vm_save_info.page_batch_offset`. -/
  page_batch_offset : Nat
  /-- The value of `page_offsets_index.offset`. -/
  page_offsets_offset : Nat
  /-- File length when the page loop was left. -/
  loop_end : Nat
  trace : List Event
  log : List batch_log

/-- The value of `UXEN_PAGE_SHIFT`. -/
def UXEN_PAGE_SHIFT : Nat := 12

/-- The function `uxenvm_savevm_write_pages`, appending to the file `f0`.
Allocations are taken to succeed; the counters that only feed log messages are
left out. -/
def uxenvm_savevm_write_pages (env : SaveEnv) (info : vm_save_info) (f0 : List Nat) :
    save_result :=
  if env.xc_domain_maximum_gpfn < 0 then
    { ret := -EPERM, f := f0, p2m_size := 0, zero_bitmap := [], max_gpfn := 0,
      pfn_off := fun _ => 0, pfn_off_nr := 0, page_batch_offset := 0,
      page_offsets_offset := 0, loop_end := f0.length, trace := [], log := [] }
  else
    let p2m_size := (env.xc_domain_maximum_gpfn + 1).toNat
    let zero_bitmap_size := (p2m_size + 7) / 8
    let max_gpfn0 := env.vm_mem_mb <<< (20 - UXEN_PAGE_SHIFT)
    let max_gpfn := if max_gpfn0 > env.K.PCI_HOLE_START_PFN then
        max_gpfn0 + (env.K.PCI_HOLE_END_PFN - env.K.PCI_HOLE_START_PFN)
      else max_gpfn0
    let s := write_pages_loop env info p2m_size max_gpfn (p2m_size + 1)
      { f := f0, zero_bitmap := List.replicate zero_bitmap_size 0, pfn_off := fun _ => 0,
        gpfn_info_list := env.gpfn_info_list0, compress_size := 0, mem_pos := 0,
        total_pages := 0, pfn := 0, polls := 0, trace := [], log := [] }
    let go1 : Bool := !env.save_abort s.polls && !env.vm_quit_interrupt s.polls
    let pfn_off_nr := poi_pfn_index env.K max_gpfn
    let f1 := if go1 then
        s.f ++ zero_bitmap_record env.lz4 info.high_compress s.zero_bitmap zero_bitmap_size
      else s.f
    let f2 := if go1 then f1 ++ page_offsets_record env.padding s.pfn_off pfn_off_nr else f1
    let go2 : Bool := !env.save_abort (s.polls + 1) && !env.vm_quit_interrupt (s.polls + 1)
    let page_offsets_offset := if go1 then f1.length else 0
    let f3 := if go2 then
        f2 ++ enc_i32 0 ++ index_entry page_offsets_offset XC_SAVE_ID_PAGE_OFFSETS
      else f2
    { ret := 0, f := f3, p2m_size := p2m_size, zero_bitmap := s.zero_bitmap,
      max_gpfn := max_gpfn, pfn_off := s.pfn_off, pfn_off_nr := pfn_off_nr,
      page_batch_offset := f0.length, page_offsets_offset := page_offsets_offset,
      loop_end := s.f.length, trace := s.trace, log := s.log }

/-! ## The file abstraction -/

/-- A file open for reading: its bytes and the cursor. -/
structure filebuf where
  data : List Nat
  pos : Nat
  deriving DecidableEq, Repr

/-- Modelled from the spec: `filebuf_read` of the file I/O abstraction
(`filebuf.c`). Reads up to `size` bytes at the cursor and advances it; the C
return value is the number of bytes read, short at end of file. -/
def filebuf_read (f : filebuf) (size : Nat) : List Nat × filebuf :=
  let bs := (f.data.drop f.pos).take size
  (bs, { f with pos := f.pos + bs.length })

inductive whence where
  | FILEBUF_SEEK_SET
  | FILEBUF_SEEK_CUR
  | FILEBUF_SEEK_END
  deriving DecidableEq, Repr

open whence

/-- Modelled from the spec: `filebuf_seek` of the file I/O abstraction
(`filebuf.c`). Returns the new position, or `-1` and leaves the cursor when
the target is negative. -/
def filebuf_seek (f : filebuf) (offset : Int) (w : whence) : Int × filebuf :=
  let base : Int :=
    match w with
    | FILEBUF_SEEK_SET => 0
    | FILEBUF_SEEK_CUR => (f.pos : Int)
    | FILEBUF_SEEK_END => (f.data.length : Int)
  if base + offset < 0 then (-1, f) else (base + offset, { f with pos := (base + offset).toNat })

/-! ## Load: batches and the decompression pool -/

/-- Restore modes (`VM_RESTORE_*`). -/
inductive restore_mode where
  | VM_RESTORE_NORMAL
  | VM_RESTORE_TEMPLATE
  | VM_RESTORE_CLONE
  deriving DecidableEq, Repr

open restore_mode

/-- The decompression pool `struct decompress_ctx`. `list` is the number of
buffers on the free list; `pending` the number of jobs in flight: added with
`async_op_add` and not yet completed by `decompress_complete`. The worker
callback `decompress_cb` of a job is run when the job is added; when its
completion callback runs is decided by the schedule of the environment.
`polls` counts the calls of `async_op_process` so far. -/
structure decompress_ctx where
  async_op_ctx : Bool
  list : Nat
  pending : Nat
  ret : Int
  polls : Nat
  deriving DecidableEq, Repr

/-- The struct `page_offset_info` (`dm_lazy_load_info`), with the mapped index
as the list of its entries. -/
structure page_offset_info where
  max_gpfn : Nat
  pfn_off : List Nat
  fb : filebuf
  deriving DecidableEq, Repr

/-- Results of the collaborators of the loader. `vm_quit_interrupt k` is the
value of the flag at its `k`-th test. -/
structure LoadEnv where
  lz4 : LZ4
  K : Consts
  vm_mem_mb : Nat
  /-- Whether `uxen_opt_debug` contains `,uncomptmpl,`. -/
  uncomptmpl : Bool
  vm_quit_interrupt : Nat → Bool
  xc_domain_clone_physmap : Int
  xc_domain_populate_physmap_exact : List Nat → Bool → Int
  /-- The error array `pfn_err`, or `none` for a `NULL` mapping. -/
  xc_map_foreign_bulk : List Nat → Option (List Int)
  xc_domain_populate_physmap_from_buffer : List Nat → List Nat → Bool → Int
  xc_domain_sethandle : Int
  xc_domain_add_to_physmap : Nat → Int
  xc_set_hvm_param : hvm_param → Nat → Int
  async_op_add : Int
  /-- The schedule of the worker threads: the number of jobs that the `k`-th
  call of `async_op_process` finds finished (at most the number in flight). -/
  finished : Nat → Nat
  /-- Contents of the template file, when it can be opened. -/
  template_file : List Nat → Option (List Nat)

/-- The variables of a load that reading the file and populating memory act
on: the file, the variable `ret`, the pool and the calls issued so far. -/
structure io_state where
  f : filebuf
  ret : Int
  dc : decompress_ctx
  trace : List Event
  deriving DecidableEq, Repr

/-- The metadata buffered by the record handlers. A record `s_x` is
`some payload` once `uxenvm_load_read_struct` has set its marker. -/
structure saved_records where
  s_tsc_info : Option (List Nat)
  s_vcpu_info : Option (List Nat)
  s_hvm_ident_pt : Option (List Nat)
  s_hvm_vm86_tss : Option (List Nat)
  s_hvm_console_pfn : Option (List Nat)
  s_hvm_acpi_ioports_location : Option (List Nat)
  s_hvm_magic_pfns : Option (List Nat)
  s_hvm_context : Option (List Nat)
  s_hvm_introspec : Option (List Nat)
  s_mapcache_params : Option (List Nat)
  hvm_buf : List Nat
  immutable_ranges : Option (List Nat)
  dm_state_load_buf : Option (List Nat)
  dm_state_load_size : Nat
  zero_bitmap : Option (List Nat)
  deriving DecidableEq, Repr

/-- The global variables a load reads and writes. -/
structure vm_globals where
  vm_has_template_uuid : Bool
  vm_uuid : List Nat
  vm_template_uuid : List Nat
  vm_template_file : Option (List Nat)
  deriving DecidableEq, Repr

/-- Local and global variables of a load. -/
structure LoadState where
  io : io_state
  restore_mode : restore_mode
  do_lazy_load : Bool
  /-- Number of tests of `vm_quit_interrupt` so far. -/
  polls : Nat
  /-- Number of evaluations of `s_version_info.version != SAVE_FORMAT_VERSION`. -/
  version_compares : Nat
  uxenvm_load_progress : Nat
  g : vm_globals
  recs : saved_records
  lli : Option page_offset_info
  deriving DecidableEq, Repr

/-- Where control goes after a step of the loader: on to the next record, to
the code after the record loop, to the label `skip_mem`, or to `out`. -/
inductive ctl where
  | next
  | done
  | skip_mem
  | out
  deriving DecidableEq, Repr

/-- The macro `uxenvm_load_read`: a short read sets `ret = -EIO` and jumps to
the label `out` of the enclosing function; otherwise the code `k` after the
macro runs on the bytes read. -/
def uxenvm_load_read {α : Type} (io : io_state) (size : Nat) (out : io_state → α)
    (k : List Nat → io_state → α) : α :=
  let r := filebuf_read io.f size
  if r.1.length ≠ size then out { io with f := r.2, ret := -EIO_errno }
  else k r.1 { io with f := r.2, ret := (size : Int) }

/-- The macro `uxenvm_load_read_struct` for a structure of `size` bytes: reads
the part after the marker; on a short read `ret` keeps the byte count and
control goes to `out`. -/
def uxenvm_load_read_struct {α : Type} (io : io_state) (size : Nat) (out : io_state → α)
    (k : List Nat → io_state → α) : α :=
  let r := filebuf_read io.f (size - sizeof_marker)
  if r.1.length ≠ size - sizeof_marker then out { io with f := r.2, ret := (r.1.length : Int) }
  else k r.1 { io with f := r.2, ret := (r.1.length : Int) }

/-- The numbers encoded by consecutive 32-bit little-endian words. -/
def dec_u32_list : Nat → List Nat → List Nat
  | 0, _ => []
  | n + 1, bs => le_value (bs.take 4) :: dec_u32_list n (bs.drop 4)

/-- The numbers encoded by consecutive 64-bit little-endian words. -/
def dec_u64_list : Nat → List Nat → List Nat
  | 0, _ => []
  | n + 1, bs => le_value (bs.take 8) :: dec_u64_list n (bs.drop 8)

/-- The field of `w` bytes at offset `off` of a payload. -/
def field (payload : List Nat) (off w : Nat) : Nat := le_value (buf_read payload off w)

/-- The per-page loop of `decompress_batch`: `n` pages left, `decompress_pos`
the cursor in `compress_buf`, `mem` the pages produced so far. Returns the
return value and the output buffer. -/
def decompress_pages (lz4 : LZ4) (compress_buf : List Nat) :
    Nat → Nat → List Nat → Int × List Nat
  | 0, _, mem => (0, mem)
  | n + 1, decompress_pos, mem =>
    let cs1 := field compress_buf decompress_pos sizeof_cs16
    if cs1 > PAGE_SIZE then (-1, mem)
    else
      let pos := decompress_pos + sizeof_cs16
      if cs1 < PAGE_SIZE then
        let r := lz4.LZ4_decompress_fast (compress_buf.drop pos) PAGE_SIZE
        if r.1 ≠ (cs1 : Int) then (-1, mem)
        else decompress_pages lz4 compress_buf n (pos + cs1) (mem ++ take_pad PAGE_SIZE r.2)
      else
        decompress_pages lz4 compress_buf n (pos + cs1) (mem ++ buf_read compress_buf pos PAGE_SIZE)

/-- The function `decompress_batch`: return value and the contents of `mem`. -/
def decompress_batch (lz4 : LZ4) (batch : Nat) (compress_buf : List Nat) (compress_size : Int)
    (single_page : Bool) : Int × List Nat :=
  if single_page then decompress_pages lz4 compress_buf batch 0 []
  else
    let r := lz4.LZ4_decompress_fast compress_buf (batch <<< PAGE_SHIFT)
    if r.1 ≠ compress_size then (-1, take_pad (batch <<< PAGE_SHIFT) r.2)
    else (0, take_pad (batch <<< PAGE_SHIFT) r.2)

/-- The worker callback `decompress_cb` of a job: the calls it issues and the
new value of `dc->ret`. -/
def decompress_cb (env : LoadEnv) (dc_ret : Int) (batch : Nat) (pfn_type : List Nat)
    (compress_buf : List Nat) (compress_size : Int) (single_page populate_compressed : Bool) :
    List Event × Int :=
  let d : Int × List Nat :=
    if !populate_compressed then
      decompress_batch env.lz4 batch compress_buf compress_size single_page
    else (0, buf_read compress_buf 0 compress_size.toNat)
  if d.1 ≠ 0 then ([], d.1)
  else
    let ret := env.xc_domain_populate_physmap_from_buffer pfn_type d.2 populate_compressed
    ([Event.populate_physmap_from_buffer pfn_type d.2 populate_compressed],
      if ret ≠ 0 then ret else dc_ret)

/-- The call `async_op_process`: the completion callbacks
`decompress_complete` of the jobs found finished run, each putting its buffer
back on the free list. -/
def async_op_process (env : LoadEnv) (dc : decompress_ctx) : decompress_ctx :=
  let n := min dc.pending (env.finished dc.polls)
  { dc with list := dc.list + n, pending := dc.pending - n, polls := dc.polls + 1 }

/-- Modelled from the spec: `ioh_event_wait(&dc->process_event)` followed by
`async_op_process`. The wait returns when a job in flight has finished, so the
call finds at least one job finished when one is in flight; with no job in
flight the wait is taken to return at once. -/
def async_op_wait_process (env : LoadEnv) (dc : decompress_ctx) : decompress_ctx :=
  let n := min dc.pending (max 1 (env.finished dc.polls))
  { dc with list := dc.list + n, pending := dc.pending - n, polls := dc.polls + 1 }

/-- The lines `async_op_process(..); dbc = LIST_FIRST(..); if (!dbc) {
ioh_event_wait(..); async_op_process(..); dbc = LIST_FIRST(..); }`: the pool
after them; `dbc` is non-null when its free list is not empty. -/
def first_free_buffer (env : LoadEnv) (dc : decompress_ctx) : decompress_ctx :=
  if dc.list = 0 then async_op_wait_process env dc else dc

/-- The function `decompress_wait_all`: `DECOMPRESS_THREADS` rounds, each taking
one buffer off the free list and freeing it. Returns the return value, the
pool and the calls issued. -/
def decompress_wait_all (env : LoadEnv) (dc : decompress_ctx) : Nat → Int → List Event →
    Int × decompress_ctx × List Event
  | 0, ret, ev => (ret, { dc with async_op_ctx := false }, ev)
  | n + 1, ret, ev =>
    let dc1 := first_free_buffer env (async_op_process env dc)
    if dc1.list = 0 then decompress_wait_all env dc1 n (-1) ev
    else decompress_wait_all env { dc1 with list := dc1.list - 1 } n ret
      (ev ++ [Event.free_pp_buffer])

/-- The pool branch of `uxenvm_load_readbatch`: a free buffer is taken and the
job added. -/
def submit_job (env : LoadEnv) (io : io_state) (batch : Nat) (pfn_type : List Nat)
    (compress_buf : List Nat) (compress_size : Int) (single_page populate_compressed : Bool) :
    io_state :=
  let dc := async_op_process env io.dc
  if dc.ret ≠ 0 then { io with dc := dc, ret := -1 }
  else
    let dc := first_free_buffer env dc
    if dc.list = 0 then { io with dc := dc, ret := -1 }
    else
      let dc := { dc with list := dc.list - 1 }
      if env.async_op_add ≠ 0 then { io with dc := dc, ret := env.async_op_add }
      else
        let cb := decompress_cb env dc.ret batch pfn_type compress_buf compress_size
          single_page populate_compressed
        { io with dc := { dc with pending := dc.pending + 1, ret := cb.2 },
                  trace := io.trace ++ cb.1, ret := 0 }

/-- The branch `if (!decompress || do_lazy_load)` of `uxenvm_load_readbatch`:
the frames are demand-populated, then skipped in the file (lazy) or mapped and
filled from the file. -/
def populate_direct (env : LoadEnv) (io : io_state) (batch : Nat) (pfn_type : List Nat)
    (decompress do_lazy_load : Bool) (compress_size : Int) : io_state :=
  let ret := env.xc_domain_populate_physmap_exact pfn_type do_lazy_load
  let io := { io with ret := ret,
                      trace := io.trace ++ [Event.populate_physmap_exact pfn_type do_lazy_load] }
  if ret ≠ 0 then io
  else if do_lazy_load then
    let skip : Nat := if decompress then to_u32 compress_size else batch <<< PAGE_SHIFT
    let r := filebuf_seek io.f skip FILEBUF_SEEK_CUR
    { io with f := r.2, ret := if r.1 ≠ -1 then 0 else -EIO_errno }
  else
    let io := { io with trace := io.trace ++ [Event.map_foreign_bulk pfn_type] }
    match env.xc_map_foreign_bulk pfn_type with
    | none => { io with ret := -1 }
    | some pfn_err =>
      if (pfn_err.take batch).any (fun e => e ≠ 0) then { io with ret := -1 }
      else
        let r := filebuf_read io.f (batch <<< PAGE_SHIFT)
        let io := { io with f := r.2, trace := io.trace ++ [Event.write_mapped pfn_type r.1] }
        if r.1.length ≠ batch <<< PAGE_SHIFT then { io with ret := -EIO_errno }
        else { io with ret := 0 }

/-- The loop of `uxenvm_load_readbatch` over the frame list: the frame numbers
`pfn_type`, and `do_lazy_load` cleared when one lies in the PCI hole. -/
def batch_frames (K : Consts) (batch : Nat) (pfn_info_bytes : List Nat) (do_lazy_load : Bool) :
    List Nat × Bool :=
  let pfn_info := dec_u32_list batch pfn_info_bytes
  let pfn_type := pfn_info.map fun x => x &&& (4294967295 ^^^ K.XEN_DOMCTL_PFINFO_LTAB_MASK)
  (pfn_type, pfn_type.foldl (fun d p =>
    if !d then d
    else if p ≥ K.PCI_HOLE_START_PFN ∧ p < K.PCI_HOLE_END_PFN then false else d)
    do_lazy_load)

/-- The function `uxenvm_load_readbatch`; the return value is the field `ret`
of the result. A negative `compress_size` makes `malloc` fail. -/
def uxenvm_load_readbatch (env : LoadEnv) (io : io_state) (batch : Nat)
    (decompress single_page do_lazy_load populate_compressed : Bool) : io_state :=
  let populate_compressed := if !single_page then false else populate_compressed
  uxenvm_load_read io (batch * 4) id fun pfn_info_bytes io =>
  let fr := batch_frames env.K batch pfn_info_bytes do_lazy_load
  let pfn_type := fr.1
  let do_lazy_load := fr.2
  if decompress then
    uxenvm_load_read io 4 id fun cs io =>
    let compress_size := dec_i32 cs
    let decompress : Bool := if compress_size = -1 then false else true
    if !decompress || do_lazy_load then
      populate_direct env io batch pfn_type decompress do_lazy_load compress_size
    else if compress_size < 0 then io
    else
      uxenvm_load_read io compress_size.toNat id fun compress_buf io =>
      submit_job env io batch pfn_type compress_buf compress_size single_page
        populate_compressed
  else populate_direct env io batch pfn_type false do_lazy_load 0

/-- The part of `uxenvm_load_batch` between the range check and the call of
`uxenvm_load_readbatch`: the pool is set up on the first compressed batch
(`DECOMPRESS_THREADS` buffers allocated and put on the free list) and the
progress counter advanced. -/
def load_batch_setup (st : LoadState) (decompress : Bool) (count : Nat) : LoadState :=
  let io :=
    if decompress && !st.io.dc.async_op_ctx then
      { st.io with
        dc := { async_op_ctx := true, list := DECOMPRESS_THREADS, pending := 0, ret := 0,
                polls := st.io.dc.polls },
        trace := st.io.trace ++ List.replicate DECOMPRESS_THREADS Event.alloc_pp_buffer }
    else st.io
  { st with io := io, uxenvm_load_progress := st.uxenvm_load_progress + count }

/-- The function `uxenvm_load_batch`; the return value is the field `io.ret`
of the result. -/
def uxenvm_load_batch (env : LoadEnv) (st : LoadState) (marker : Int)
    (do_lazy_load populate_compressed : Bool) : LoadState :=
  match uxenvm_load_batch_decode marker with
  | .error e => { st with io := { st.io with ret := e } }
  | .ok (count, decompress, single_page) =>
    let st := load_batch_setup st decompress count.toNat
    let io := uxenvm_load_readbatch env st.io count.toNat decompress single_page do_lazy_load
      populate_compressed
    { st with io := io }

/-- The loop of `uxenvm_load_zero_bitmap` from bit `i`, with `n` bits left and
`pfn_type[0 .. j)` collected so far; `last` is the value of
`8 * zero_bitmap_size - 1`. Returns the return value and the calls. -/
def load_zero_bitmap_loop (env : LoadEnv) (zero_bitmap : List Nat) (last : Nat) :
    Nat → Nat → List Nat → List Event → Int × List Event
  | 0, _, _, ev => (0, ev)
  | n + 1, i, pfn_type, ev =>
    let pfn_type := if test_bit i zero_bitmap then pfn_type ++ [i] else pfn_type
    if pfn_type.length = MAX_BATCH_SIZE ∨ i = last then
      let ret := env.xc_domain_populate_physmap_exact pfn_type false
      let ev := ev ++ [Event.populate_physmap_exact pfn_type false]
      if ret ≠ 0 then (ret, ev)
      else load_zero_bitmap_loop env zero_bitmap last n (i + 1) [] ev
    else load_zero_bitmap_loop env zero_bitmap last n (i + 1) pfn_type ev

/-- The function `uxenvm_load_zero_bitmap`. The bound `8 * zero_bitmap_size` is
computed in `uint32_t`; the counter `i` is an `int`, so the model is that of
the C code for bounds below `2^31`. -/
def uxenvm_load_zero_bitmap (env : LoadEnv) (zero_bitmap : List Nat) (zero_bitmap_size : Nat) :
    Int × List Event :=
  let n := (8 * zero_bitmap_size) % 4294967296
  load_zero_bitmap_loop env zero_bitmap ((n + 4294967295) % 4294967296) n 0 [] []

/-- The macro `uxenvm_check_restore_clone`, followed by `k`. -/
def uxenvm_check_restore_clone (env : LoadEnv) (st : LoadState)
    (k : LoadState → LoadState × ctl) : LoadState × ctl :=
  if st.restore_mode = VM_RESTORE_CLONE then
    let st := { st with io := { st.io with ret := env.xc_domain_clone_physmap,
                                           trace := st.io.trace ++ [Event.clone_physmap] } }
    if env.xc_domain_clone_physmap < 0 then (st, ctl.out)
    else if !st.g.vm_has_template_uuid then
      ({ st with g := { st.g with vm_has_template_uuid := true },
                 io := { st.io with ret := 0 } }, ctl.skip_mem)
    else k { st with restore_mode := VM_RESTORE_NORMAL }
  else k st

/-! ## Load: `uxenvm_loadvm_execute` -/

/-- The initialiser `int do_lazy_load = 0; int load_lazy_load_info = do_lazy_load;`. -/
def load_lazy_load_info : Bool := false

/-- The jump `goto out` of `uxenvm_loadvm_execute` with the variables `io`. -/
def goto_out (st : LoadState) (io : io_state) : LoadState × ctl := ({ st with io := io }, ctl.out)

/-- A record that is a fixed structure of `size` bytes: it is read and buffered
by `store`. -/
def load_struct (st : LoadState) (size : Nat) (store : List Nat → saved_records → saved_records) :
    LoadState × ctl :=
  uxenvm_load_read_struct st.io size (goto_out st) fun p io =>
  ({ st with io := io, recs := store p st.recs }, ctl.next)

/-- The case `XC_SAVE_ID_ZERO_BITMAP` of the record loop. -/
def load_zero_bitmap_record (env : LoadEnv) (st : LoadState) : LoadState × ctl :=
  uxenvm_load_read_struct st.io sizeof_xc_save_zero_bitmap (goto_out st) fun p io =>
  let size := field p 0 4
  let zero_bitmap_size := field p 4 4
  if size < sizeof_xc_save_zero_bitmap then goto_out st { io with ret := -ENOMEM }
  else
    uxenvm_load_read io (size - sizeof_xc_save_zero_bitmap) (goto_out st)
      fun zero_bitmap_compressed io =>
    let r := env.lz4.LZ4_decompress_fast zero_bitmap_compressed zero_bitmap_size
    let zero_bitmap := take_pad zero_bitmap_size r.2
    let st := { st with io := { io with ret := r.1 },
                        recs := { st.recs with zero_bitmap := some zero_bitmap } }
    if r.1 ≠ ((size - sizeof_xc_save_zero_bitmap : Nat) : Int) then
      goto_out st { st.io with ret := -EINVAL }
    else
      uxenvm_check_restore_clone env st fun st =>
      let z := uxenvm_load_zero_bitmap env zero_bitmap zero_bitmap_size
      let st := { st with io := { st.io with ret := z.1, trace := st.io.trace ++ z.2 } }
      if z.1 ≠ 0 then (st, ctl.out) else (st, ctl.next)

/-- The case `default` of the record loop: a page batch. -/
def load_default (env : LoadEnv) (populate_compressed : Bool) (st : LoadState) (marker : Int) :
    LoadState × ctl :=
  uxenvm_check_restore_clone env st fun st =>
  let st := uxenvm_load_batch env st marker st.do_lazy_load populate_compressed
  if st.io.ret ≠ 0 then (st, ctl.out) else (st, ctl.next)

/-- The `switch (marker)` of the record loop of `uxenvm_loadvm_execute`. -/
def load_switch (env : LoadEnv) (populate_compressed : Bool) (st : LoadState) (marker : Int) :
    LoadState × ctl :=
  if marker = XC_SAVE_ID_TSC_INFO then
    load_struct st sizeof_xc_save_tsc_info fun p r => { r with s_tsc_info := some p }
  else if marker = XC_SAVE_ID_VCPU_INFO then
    load_struct st sizeof_xc_save_vcpu_info fun p r => { r with s_vcpu_info := some p }
  else if marker = XC_SAVE_ID_HVM_IDENT_PT then
    load_struct st sizeof_xc_save_hvm_generic_chunk fun p r => { r with s_hvm_ident_pt := some p }
  else if marker = XC_SAVE_ID_HVM_VM86_TSS then
    load_struct st sizeof_xc_save_hvm_generic_chunk fun p r => { r with s_hvm_vm86_tss := some p }
  else if marker = XC_SAVE_ID_HVM_CONSOLE_PFN then
    load_struct st sizeof_xc_save_hvm_generic_chunk fun p r =>
      { r with s_hvm_console_pfn := some p }
  else if marker = XC_SAVE_ID_HVM_ACPI_IOPORTS_LOCATION then
    load_struct st sizeof_xc_save_hvm_generic_chunk fun p r =>
      { r with s_hvm_acpi_ioports_location := some p }
  else if marker = XC_SAVE_ID_HVM_MAGIC_PFNS then
    load_struct st sizeof_xc_save_hvm_magic_pfns fun p r => { r with s_hvm_magic_pfns := some p }
  else if marker = XC_SAVE_ID_HVM_CONTEXT then
    uxenvm_load_read_struct st.io sizeof_xc_save_hvm_context (goto_out st) fun p io =>
    let st := { st with recs := { st.recs with s_hvm_context := some p } }
    uxenvm_load_read io (field p 0 4) (goto_out st) fun b io =>
    ({ st with io := io, recs := { st.recs with hvm_buf := b } }, ctl.next)
  else if marker = XC_SAVE_ID_HVM_DM then
    uxenvm_load_read_struct st.io sizeof_xc_save_hvm_dm (goto_out st) fun p io =>
    uxenvm_load_read io (field p 0 4) (goto_out st) fun b io =>
    ({ st with io := io,
               recs := { st.recs with dm_state_load_buf := some b,
                                      dm_state_load_size := field p 0 4 } }, ctl.next)
  else if marker = XC_SAVE_ID_VM_UUID then
    uxenvm_load_read_struct st.io sizeof_xc_save_vm_uuid (goto_out st) fun p io =>
    let g := if st.restore_mode = VM_RESTORE_TEMPLATE then { st.g with vm_uuid := p } else st.g
    let g := if !g.vm_has_template_uuid then { g with vm_template_uuid := p } else g
    ({ st with io := io, g := g }, ctl.next)
  else if marker = XC_SAVE_ID_VM_TEMPLATE_UUID then
    uxenvm_load_read_struct st.io sizeof_xc_save_vm_template_uuid (goto_out st) fun p io =>
    ({ st with io := io,
               g := { st.g with vm_template_uuid := p, vm_has_template_uuid := true } },
      ctl.next)
  else if marker = XC_SAVE_ID_HVM_INTROSPEC then
    uxenvm_load_read_struct st.io (sizeof_marker + env.K.sizeof_introspect_header)
      (goto_out st) fun p io =>
    let st := { st with recs := { st.recs with s_hvm_introspec := some p } }
    let size := env.K.n_immutable_ranges p * env.K.sizeof_immutable_range
    uxenvm_load_read io size (goto_out st) fun b io =>
    ({ st with io := io, recs := { st.recs with immutable_ranges := some b } }, ctl.next)
  else if marker = XC_SAVE_ID_MAPCACHE_PARAMS then
    load_struct st sizeof_xc_save_mapcache_params fun p r => { r with s_mapcache_params := some p }
  else if marker = XC_SAVE_ID_VM_TEMPLATE_FILE then
    uxenvm_load_read_struct st.io sizeof_xc_save_vm_template_file (goto_out st) fun p io =>
    uxenvm_load_read io (field p 0 2) (goto_out st) fun b io =>
    ({ st with io := io, g := { st.g with vm_template_file := some b },
               do_lazy_load := false }, ctl.next)
  else if marker = XC_SAVE_ID_PAGE_OFFSETS then
    uxenvm_load_read_struct st.io sizeof_xc_save_vm_page_offsets (goto_out st) fun p io =>
    let r := filebuf_seek io.f ((field p 4 4 * 8 : Nat) : Int) FILEBUF_SEEK_CUR
    if r.1 = -1 then goto_out st { io with f := r.2, ret := -EIO_errno }
    else ({ st with io := { io with f := r.2, ret := 0 } }, ctl.next)
  else if marker = XC_SAVE_ID_ZERO_BITMAP then load_zero_bitmap_record env st
  else load_default env populate_compressed st marker

/-- One record of the loop of `uxenvm_loadvm_execute`: the marker is read and
dispatched. -/
def load_record (env : LoadEnv) (populate_compressed : Bool) (st : LoadState) :
    LoadState × ctl :=
  uxenvm_load_read st.io 4 (goto_out st) fun mb io =>
  if dec_i32 mb = 0 then ({ st with io := io }, ctl.done)
  else load_switch env populate_compressed { st with io := io } (dec_i32 mb)

/-- The loop `while (!vm_quit_interrupt)` of `uxenvm_loadvm_execute`; the first
argument bounds the number of loop tests, `none` when it is exhausted. -/
def load_loop (env : LoadEnv) (populate_compressed : Bool) :
    Nat → LoadState → Option (LoadState × ctl)
  | 0, _ => none
  | n + 1, st =>
    if env.vm_quit_interrupt st.polls then some ({ st with polls := st.polls + 1 }, ctl.done)
    else
      let r := load_record env populate_compressed { st with polls := st.polls + 1 }
      match r.2 with
      | ctl.next => load_loop env populate_compressed n r.1
      | _ => some r

/-- The backward walk over the trailing `struct xc_save_index` entries (the
loop `while (1)` of the lazy-load block): the first argument bounds the number
of iterations, `none` when it is exhausted. Returns the error of a failed
read, or the value of `page_offsets_pos` when an entry with marker 0 is met. -/
def lazy_index_walk : Nat → filebuf → Nat → Option (Except Int Nat × filebuf)
  | 0, _, _ => none
  | n + 1, fb, page_offsets_pos =>
    let fb1 := (filebuf_seek fb (-(sizeof_xc_save_index : Int)) FILEBUF_SEEK_CUR).2
    let r := filebuf_read fb1 sizeof_xc_save_index
    if r.1.length ≠ sizeof_xc_save_index then some (.error (-EIO_errno), r.2)
    else
      let marker := dec_i32 (r.1.drop 8)
      if marker = 0 then some (.ok page_offsets_pos, r.2)
      else
        let pos := if marker = XC_SAVE_ID_PAGE_OFFSETS then le_value (r.1.take 8)
          else page_offsets_pos
        lazy_index_walk n (filebuf_seek r.2 (-(sizeof_xc_save_index : Int)) FILEBUF_SEEK_CUR).2
          pos

/-- The part `if (page_offsets_pos) { ... }` of the lazy-load block: the marker
at `page_offsets_pos` is re-read and checked, the header read and the index
mapped at `page_offsets_pos + sizeof(s_vm_page_offsets)`. -/
def lazy_map_index (K : Consts) (fb : filebuf) (page_offsets_pos : Nat) :
    Except Int (Option page_offset_info) :=
  if page_offsets_pos ≠ 0 then
    let fb := (filebuf_seek fb page_offsets_pos FILEBUF_SEEK_SET).2
    let m := filebuf_read fb 4
    if m.1.length ≠ 4 then .error (-EIO_errno)
    else if dec_i32 m.1 ≠ XC_SAVE_ID_PAGE_OFFSETS then .error (-EINVAL)
    else
      let h := filebuf_read m.2 (sizeof_xc_save_vm_page_offsets - sizeof_marker)
      if h.1.length ≠ sizeof_xc_save_vm_page_offsets - sizeof_marker then
        .error (h.1.length : Int)
      else
        let pfn_off_nr := field h.1 4 4
        let max_gpfn := if pfn_off_nr > K.PCI_HOLE_START_PFN then
            pfn_off_nr + (K.PCI_HOLE_END_PFN - K.PCI_HOLE_START_PFN)
          else pfn_off_nr
        let pos := page_offsets_pos + sizeof_xc_save_vm_page_offsets
        .ok (some { max_gpfn := max_gpfn,
                    pfn_off := dec_u64_list pfn_off_nr (buf_read fb.data pos (pfn_off_nr * 8)),
                    fb := h.2 })
  else .ok none

/-- The lazy-load block `if (load_lazy_load_info) { ... }` on the file `fb`,
with a bound `fuel` on the iterations of its walk. -/
def lazy_load_block (K : Consts) (fb : filebuf) (fuel : Nat) :
    Option (Except Int (Option page_offset_info)) :=
  let fb := (filebuf_seek fb 0 FILEBUF_SEEK_END).2
  match lazy_index_walk fuel fb 0 with
  | none => none
  | some (.error e, _) => some (.error e)
  | some (.ok page_offsets_pos, fb) => some (lazy_map_index K fb page_offsets_pos)

/-- The calls that apply the buffered scalar records, in program order: TSC
info, the HVM parameters, the console page. -/
def apply_scalars (r : saved_records) : List Event :=
  (match r.s_tsc_info with
   | some p => [Event.set_tsc_info (field p 0 4) (field p 4 8) (field p 12 4) (field p 16 4)]
   | none => []) ++
  (match r.s_hvm_ident_pt with
   | some p => [Event.set_hvm_param hvm_param.HVM_PARAM_IDENT_PT (field p 4 8)]
   | none => []) ++
  (match r.s_hvm_vm86_tss with
   | some p => [Event.set_hvm_param hvm_param.HVM_PARAM_VM86_TSS (field p 4 8)]
   | none => []) ++
  (match r.s_hvm_console_pfn with
   | some p => [Event.clear_domain_page (field p 4 8),
                Event.set_hvm_param hvm_param.HVM_PARAM_CONSOLE_PFN (field p 4 8)]
   | none => []) ++
  (match r.s_hvm_acpi_ioports_location with
   | some p => [Event.set_hvm_param hvm_param.HVM_PARAM_ACPI_IOPORTS_LOCATION (field p 4 8)]
   | none => [])

/-- The call `xc_domain_hvm_setcontext` when an HVM context record was read. -/
def apply_context (r : saved_records) : List Event :=
  match r.s_hvm_context with
  | some _ => [Event.hvm_setcontext r.hvm_buf]
  | none => []

/-- The block `if (s_hvm_magic_pfns.marker == XC_SAVE_ID_HVM_MAGIC_PFNS)` and
the HVM context restore that follows it. -/
def apply_magic_pfns (env : LoadEnv) (r : saved_records) (io : io_state) : io_state :=
  match r.s_hvm_magic_pfns with
  | none => { io with trace := io.trace ++ apply_context r, ret := 0 }
  | some p =>
    let m0 := field p 4 8
    let m1 := field p 12 8
    let m2 := if field p 20 8 = 0 then 18446744073709551615 else field p 20 8
    let m3 := field p 28 8
    let m4 := field p 36 8
    let io := { io with trace := io.trace ++
      [Event.set_hvm_param hvm_param.HVM_PARAM_IO_PFN_FIRST m0,
       Event.set_hvm_param hvm_param.HVM_PARAM_IO_PFN_LAST m1] ++
      (List.range (m1 + 1 - m0)).map (fun i => Event.clear_domain_page (m0 + i)) }
    let a := env.xc_domain_add_to_physmap m2
    let io := if m2 ≠ 18446744073709551615 then
        { io with ret := a, trace := io.trace ++ [Event.add_to_physmap_shared_info m2] }
      else io
    if m2 ≠ 18446744073709551615 ∧ a < 0 then io
    else
      let r4 := env.xc_set_hvm_param hvm_param.HVM_PARAM_DMREQ_VCPU_PFN m4
      let io := { io with ret := r4, trace := io.trace ++
        [Event.clear_domain_page m3,
         Event.set_hvm_param hvm_param.HVM_PARAM_DMREQ_VCPU_PFN m4] }
      if r4 < 0 then io
      else
        let r3 := env.xc_set_hvm_param hvm_param.HVM_PARAM_DMREQ_PFN m3
        let io := { io with ret := r3, trace := io.trace ++
          [Event.set_hvm_param hvm_param.HVM_PARAM_DMREQ_PFN m3] }
        if r3 < 0 then io
        else { io with trace := io.trace ++ [Event.dmreq_init] ++ apply_context r, ret := 0 }

/-- The template branch after `skip_mem`: the handle is set and the immutable
ranges applied. -/
def apply_template (env : LoadEnv) (r : saved_records) (io : io_state) : io_state :=
  let io := { io with ret := env.xc_domain_sethandle, trace := io.trace ++ [Event.sethandle] }
  if env.xc_domain_sethandle < 0 then io
  else
    match r.immutable_ranges with
    | some _ =>
      { io with trace := io.trace ++ [Event.apply_immutable_memory
          (match r.s_hvm_introspec with
           | some h => env.K.n_immutable_ranges h
           | none => 0)] }
    | none => io

/-- The code of `uxenvm_loadvm_execute` from the label `skip_mem` to the label
`out`: the deferred metadata is applied. `none` when the walk of the
lazy-load block does not end. -/
def apply_deferred (env : LoadEnv) (st : LoadState) : Option LoadState :=
  if env.vm_quit_interrupt st.polls then some { st with polls := st.polls + 1 }
  else
    let st := { st with polls := st.polls + 1 }
    if st.restore_mode = VM_RESTORE_TEMPLATE then
      some { st with io := apply_template env st.recs st.io }
    else
      let io := { st.io with trace := st.io.trace ++
        (match st.recs.s_mapcache_params with
         | some p => [Event.mapcache_init_restore (field p 0 4) (field p 4 4) (field p 8 4)]
         | none => [Event.mapcache_init]) }
      let lazy : Option (Except Int (Option page_offset_info)) :=
        if load_lazy_load_info then
          match st.g.vm_template_file with
          | some name =>
            match env.template_file name with
            | none => some (.error (-EIO_errno))
            | some d => lazy_load_block env.K { data := d, pos := 0 } (d.length + 1)
          | none => lazy_load_block env.K io.f (io.f.data.length + 1)
        else some (.ok st.lli)
      match lazy with
      | none => none
      | some (.error e) => some { st with io := { io with ret := e } }
      | some (.ok lli) =>
        let io := { io with trace := io.trace ++ apply_scalars st.recs }
        some { st with lli := lli, io := apply_magic_pfns env st.recs io }

/-- The code at the label `out` of `uxenvm_loadvm_execute`: a pool still
allocated is drained; the function returns `ret`. -/
def load_out (env : LoadEnv) (st : LoadState) : LoadState :=
  if st.io.dc.async_op_ctx then
    let w := decompress_wait_all env st.io.dc DECOMPRESS_THREADS 0 []
    { st with io := { st.io with dc := w.2.1, trace := st.io.trace ++ w.2.2 } }
  else st

/-- The state in which `uxenvm_loadvm_execute` starts on the file `file`. -/
def load_init (g : vm_globals) (file : List Nat) (mode : restore_mode) : LoadState :=
  { io := { f := { data := file, pos := 0 }, ret := 0,
            dc := { async_op_ctx := false, list := 0, pending := 0, ret := 0, polls := 0 },
            trace := [] },
    restore_mode := mode, do_lazy_load := false, polls := 0, version_compares := 0,
    uxenvm_load_progress := 0, g := g,
    recs := { s_tsc_info := none, s_vcpu_info := none, s_hvm_ident_pt := none,
              s_hvm_vm86_tss := none, s_hvm_console_pfn := none,
              s_hvm_acpi_ioports_location := none, s_hvm_magic_pfns := none,
              s_hvm_context := none, s_hvm_introspec := none, s_mapcache_params := none,
              hvm_buf := [], immutable_ranges := none, dm_state_load_buf := none,
              dm_state_load_size := 0, zero_bitmap := none },
    lli := none }

/-- The code between the record loop and the label `skip_mem`: a pool in use
is drained with `decompress_wait_all`, whose failure goes to `out`. -/
def drain_pool (env : LoadEnv) (st : LoadState) : LoadState × ctl :=
  if st.io.dc.async_op_ctx then
    let w := decompress_wait_all env st.io.dc DECOMPRESS_THREADS 0 []
    let st := { st with io := { st.io with ret := w.1, dc := w.2.1,
                                           trace := st.io.trace ++ w.2.2 } }
    if w.1 ≠ 0 then (st, ctl.out) else (st, ctl.skip_mem)
  else (st, ctl.skip_mem)

/-- The code of `uxenvm_loadvm_execute` after the version check: the record
loop, the drain of the pool, the deferred metadata and the label `out`. -/
def load_records (env : LoadEnv) (populate_compressed : Bool) (fuel : Nat) (st : LoadState) :
    Option LoadState :=
  match load_loop env populate_compressed fuel st with
  | none => none
  | some (st, ctl.out) => some (load_out env st)
  | some (st, ctl.skip_mem) => (apply_deferred env st).map (load_out env)
  | some (st, _) =>
    match drain_pool env st with
    | (st, ctl.out) => some (load_out env st)
    | (st, _) => (apply_deferred env st).map (load_out env)

/-- The version check at the head of `uxenvm_loadvm_execute`, on the value
`version` of `s_version_info.version`, and the rest of the function. -/
def check_version (env : LoadEnv) (populate_compressed : Bool) (fuel : Nat) (version : Nat)
    (st : LoadState) : Option LoadState :=
  let st := { st with version_compares := st.version_compares + 1 }
  if version ≠ SAVE_FORMAT_VERSION then
    some (load_out env { st with io := { st.io with ret := -EINVAL } })
  else load_records env populate_compressed fuel st

/-- The function `uxenvm_loadvm_execute` with a bound `fuel` on the number of
records; `none` when the bound is exhausted. The return value is the field
`io.ret` of the result. Allocations are taken to succeed. -/
def uxenvm_loadvm_execute_fuel (env : LoadEnv) (g : vm_globals) (fuel : Nat) (file : List Nat)
    (mode : restore_mode) : Option LoadState :=
  let populate_compressed : Bool := decide (mode = VM_RESTORE_TEMPLATE) && !env.uncomptmpl
  let st := load_init g file mode
  uxenvm_load_read st.io 4 (fun io => some (load_out env { st with io := io })) fun mb io =>
  if dec_i32 mb = XC_SAVE_ID_VERSION then
    uxenvm_load_read_struct io sizeof_xc_save_version_info
      (fun io => some (load_out env { st with io := io }))
      fun p io => check_version env populate_compressed fuel (field p 0 4) { st with io := io }
  else check_version env populate_compressed fuel 0 { st with io := io }

/-- The function `uxenvm_loadvm_execute`: every record takes at least the four
bytes of its marker, so `file.length + 1` loop tests suffice. -/
def uxenvm_loadvm_execute (env : LoadEnv) (g : vm_globals) (file : List Nat)
    (mode : restore_mode) : Option LoadState :=
  uxenvm_loadvm_execute_fuel env g (file.length + 1) file mode

/-- The function `vm_load` on the contents of the file `name` (`none` when it
cannot be opened): the return value, and the state of the load. -/
def vm_load (env : LoadEnv) (g : vm_globals) (file : Option (List Nat)) (mode : restore_mode) :
    Option (Int × Option LoadState) :=
  match file with
  | none => some (-1, none)
  | some data =>
    match uxenvm_loadvm_execute env g data mode with
    | none => none
    | some st => some (if st.io.ret ≠ 0 then -1 else 0, some st)

/-- A save is not aborted when neither flag is ever seen set. -/
def not_aborted (env : SaveEnv) : Prop :=
  ∀ k, env.save_abort k = false ∧ env.vm_quit_interrupt k = false

/-- The partition of the frames of one logged batch, with respect to the
bitmap `zero_bitmap`: a captured frame of type Normal whose 4096 bytes are zero
has its bit set and is neither in the frame list nor in a run of payload; a
frame of the frame list was captured as Normal, has a non-zero 64-bit word and
its bit is clear. -/
def batch_partitioned (b : batch_log) (zero_bitmap : List Nat) : Prop :=
  (∀ j, j < b.capture.batch_done → (b.captured j).type = XENMEM_MCGI_TYPE_NORMAL →
      buf_read b.capture.mem_buffer (b.captured j).offset PAGE_SIZE =
        List.replicate PAGE_SIZE 0 →
      test_bit (b.pfn + j) zero_bitmap = true ∧ b.pfn + j ∉ b.pfn_batch ∧
        ∀ p ∈ b.runs, ¬ (p.1 ≤ j ∧ j < p.1 + p.2)) ∧
  (∀ g ∈ b.pfn_batch, ∃ j, j < b.capture.batch_done ∧ g = b.pfn + j ∧
      (b.captured j).type = XENMEM_MCGI_TYPE_NORMAL ∧
      (∃ w ∈ page_words (PAGE_SIZE >>> 3)
          (b.capture.mem_buffer.drop (b.captured j).offset), w ≠ 0) ∧
      test_bit g zero_bitmap = false)

/-- Invariant of the page loop: the bitmap has its allocated size, no bit at
or above the current frame is set, and every logged batch lies below the
current frame and is partitioned. -/
def save_inv (p2m_size : Nat) (s : save_state) : Prop :=
  s.pfn ≤ p2m_size ∧ s.zero_bitmap.length = (p2m_size + 7) / 8 ∧
  (∀ g, s.pfn ≤ g → test_bit g s.zero_bitmap = false) ∧
  ∀ b ∈ s.log, b.pfn + b.capture.batch_done ≤ s.pfn ∧ batch_partitioned b s.zero_bitmap

/-- The bytes `d` stand in the file `f` at offset `o`. -/
def bytes_at (f : List Nat) (o : Nat) (d : List Nat) : Prop :=
  o + d.length ≤ f.length ∧ (f.drop o).take d.length = d

/-- What `vm_lazy_load_page` finds through the index entry `e`: with the
indicator `PAGE_OFFSET_INDEX_PFN_OFF_COMPRESSED` clear, the page at the offset
`e & PAGE_OFFSET_INDEX_PFN_OFF_MASK`; with the indicator set, the 2-byte length
and the compressed page there. -/
def entry_locates (lz4 : LZ4) (high_compress : Bool) (f : List Nat) (e : Nat)
    (page : List Nat) : Prop :=
  if e / PAGE_OFFSET_INDEX_PFN_OFF_COMPRESSED % 2 = 0 then
    bytes_at f (e % PAGE_OFFSET_INDEX_PFN_OFF_COMPRESSED) page
  else
    bytes_at f (e % PAGE_OFFSET_INDEX_PFN_OFF_COMPRESSED)
      (enc_u16 (uxenvm_compress_lz4 lz4 high_compress page).length ++
        uxenvm_compress_lz4 lz4 high_compress page)

instance bytes_at_decidable (f : List Nat) (o : Nat) (d : List Nat) :
    Decidable (bytes_at f o d) :=
  inferInstanceAs (Decidable (o + d.length ≤ f.length ∧ (f.drop o).take d.length = d))

instance entry_locates_decidable (lz4 : LZ4) (high_compress : Bool) (f : List Nat) (e : Nat)
    (page : List Nat) : Decidable (entry_locates lz4 high_compress f e page) :=
  inferInstanceAs (Decidable (if e / PAGE_OFFSET_INDEX_PFN_OFF_COMPRESSED % 2 = 0 then
    bytes_at f (e % PAGE_OFFSET_INDEX_PFN_OFF_COMPRESSED) page
  else
    bytes_at f (e % PAGE_OFFSET_INDEX_PFN_OFF_COMPRESSED)
      (enc_u16 (uxenvm_compress_lz4 lz4 high_compress page).length ++
        uxenvm_compress_lz4 lz4 high_compress page)))

/-- Whether the writer stores a page in compressed form: per-page mode, and
the compressed page is smaller than a page. -/
def stored_compressed (lz4 : LZ4) (info : vm_save_info) (page : List Nat) : Bool :=
  decide (info.compress_mode = VM_SAVE_COMPRESS_LZ4) && info.single_page &&
    decide ((uxenvm_compress_lz4 lz4 info.high_compress page).length < PAGE_SIZE)

/-- What the writer adds to the position of a page's bytes to form its index
entry: nothing without compression, the indicator for a compressed page, and
the size of the length field for a page kept raw in per-page mode. -/
def slot_tag (lz4 : LZ4) (info : vm_save_info) (page : List Nat) : Nat :=
  match info.compress_mode with
  | VM_SAVE_COMPRESS_NONE => 0
  | VM_SAVE_COMPRESS_LZ4 =>
    if (uxenvm_compress_lz4 lz4 info.high_compress page).length ≥ PAGE_SIZE then sizeof_cs16
    else PAGE_OFFSET_INDEX_PFN_OFF_COMPRESSED

/-- The bytes the writer emits for a page: the page without compression, and
in per-page mode the length field followed by the compressed page, or by the
page itself when compression did not make it smaller. -/
def slot_content (lz4 : LZ4) (info : vm_save_info) (page : List Nat) : List Nat :=
  match info.compress_mode with
  | VM_SAVE_COMPRESS_NONE => page
  | VM_SAVE_COMPRESS_LZ4 =>
    if (uxenvm_compress_lz4 lz4 info.high_compress page).length ≥ PAGE_SIZE then
      enc_u16 PAGE_SIZE ++ page
    else
      enc_u16 (uxenvm_compress_lz4 lz4 info.high_compress page).length ++
        uxenvm_compress_lz4 lz4 info.high_compress page

/-- The index entry `e` was formed for bytes of `page` that stand in `f`. -/
def slot_written (lz4 : LZ4) (info : vm_save_info) (f : List Nat) (e : Nat)
    (page : List Nat) : Prop :=
  ∃ o, e = (o + slot_tag lz4 info page) % 18446744073709551616 ∧
    bytes_at f o (slot_content lz4 info page)

/-- The bytes the writer takes as page `i` of the run that starts at entry
`run`: without compression the run is copied as one block from the offset of
its first page; in per-page mode every page is read at its own offset. -/
def run_page (info : vm_save_info) (mem_buffer : List Nat) (gl : Nat → gpfn_info)
    (run i : Nat) : List Nat :=
  match info.compress_mode with
  | VM_SAVE_COMPRESS_NONE =>
    buf_read mem_buffer ((gl run).offset + (i <<< PAGE_SHIFT)) PAGE_SIZE
  | VM_SAVE_COMPRESS_LZ4 => buf_read mem_buffer (gl (run + i)).offset PAGE_SIZE

/-- The pages of the run `(run, b_run)` of the batch at `pfn` that have an
index slot have their entry in `pfn_off` formed for bytes that stand in `f`. -/
def run_indexed (lz4 : LZ4) (K : Consts) (info : vm_save_info) (max_gpfn : Nat)
    (mem_buffer : List Nat) (gl : Nat → gpfn_info) (pfn : Nat) (f : List Nat)
    (pfn_off : Nat → Nat) (run b_run : Nat) : Prop :=
  ∀ i, i < b_run → poi_valid_pfn K max_gpfn (pfn + run + i) = true →
    slot_written lz4 info f (pfn_off (poi_pfn_index K (pfn + run + i)))
      (run_page info mem_buffer gl run i)

/-- The index `pfn_off2` agrees with `pfn_off` at every entry that is not the
slot of a frame `pfn + t` with `a ≤ t < b`. -/
def index_unchanged_outside (K : Consts) (max_gpfn pfn a b : Nat)
    (pfn_off pfn_off2 : Nat → Nat) : Prop :=
  ∀ k, (∀ t, a ≤ t → t < b → poi_valid_pfn K max_gpfn (pfn + t) = true →
      poi_pfn_index K (pfn + t) ≠ k) → pfn_off2 k = pfn_off k

/-- Invariant of the page loop for the page-offset index: every logged batch
lies below the current frame, its runs lie inside the batch, and every run is
indexed in the file written so far. -/
def save_indexed (env : SaveEnv) (info : vm_save_info) (max_gpfn : Nat) (s : save_state) :
    Prop :=
  ∀ b ∈ s.log, b.pfn + b.batch ≤ s.pfn ∧ ∀ p ∈ b.runs, p.1 + p.2 ≤ b.batch ∧
    run_indexed env.lz4 env.K info max_gpfn b.capture.mem_buffer b.classified b.pfn
      s.f s.pfn_off p.1 p.2

/-- The value of `poi.max_gpfn` after the adjustment for the PCI hole. -/
def write_pages_max_gpfn (env : SaveEnv) : Nat :=
  if env.vm_mem_mb <<< (20 - UXEN_PAGE_SHIFT) > env.K.PCI_HOLE_START_PFN then
    env.vm_mem_mb <<< (20 - UXEN_PAGE_SHIFT) +
      (env.K.PCI_HOLE_END_PFN - env.K.PCI_HOLE_START_PFN)
  else env.vm_mem_mb <<< (20 - UXEN_PAGE_SHIFT)

/-- The state of `uxenvm_savevm_write_pages` when the page loop is left. -/
def write_pages_loop_end (env : SaveEnv) (info : vm_save_info) (f0 : List Nat) : save_state :=
  write_pages_loop env info (env.xc_domain_maximum_gpfn + 1).toNat (write_pages_max_gpfn env)
    ((env.xc_domain_maximum_gpfn + 1).toNat + 1)
    { f := f0,
      zero_bitmap := List.replicate (((env.xc_domain_maximum_gpfn + 1).toNat + 7) / 8) 0,
      pfn_off := fun _ => 0, gpfn_info_list := env.gpfn_info_list0, compress_size := 0,
      mem_pos := 0, total_pages := 0, pfn := 0, polls := 0, trace := [], log := [] }

/-- Every frame of the frame list of a logged batch is a page of one of the
runs written as payload. -/
def batch_covered (b : batch_log) : Prop :=
  ∀ g ∈ b.pfn_batch, ∃ p ∈ b.runs, ∃ i, i < p.2 ∧ g = b.pfn + p.1 + i

/-- The only entries of the index `pfn_off` that were written are those of
pages of the runs of the logged batches whose frame is below `max_gpfn` and
outside the PCI hole: every entry that is not the slot of such a page still
holds the 0 it was allocated with. -/
def index_only_runs (K : Consts) (max_gpfn : Nat) (log : List batch_log)
    (pfn_off : Nat → Nat) : Prop :=
  ∀ k, (∀ b ∈ log, ∀ p ∈ b.runs, ∀ i, i < p.2 →
      poi_valid_pfn K max_gpfn (b.pfn + p.1 + i) = true →
      poi_pfn_index K (b.pfn + p.1 + i) ≠ k) → pfn_off k = 0

/-- What the page-offset index of a finished save provides. Distinct frames
with a slot have distinct entries. Every frame of a frame list is a page of a
run. No entry is written on behalf of a frame in the PCI hole or at or above
`max_gpfn`: the entries written are those of the pages of runs that have a
slot, all others stay 0. In bulk LZ4 mode no entry is written. Without
compression and in per-page mode, the entry of every page of a run whose frame
has a slot (below `max_gpfn` and outside the PCI hole) leads
`vm_lazy_load_page` to the bytes captured for the page, and its indicator bit
is set exactly when the page is stored compressed; without compression this is
for pages that lie in the capture buffer at their place in the block of the
run. -/
def index_locates_pages (env : SaveEnv) (info : vm_save_info) (r : save_result) : Prop :=
  (∀ g1 g2, poi_valid_pfn env.K r.max_gpfn g1 = true → poi_valid_pfn env.K r.max_gpfn g2 = true →
    poi_pfn_index env.K g1 = poi_pfn_index env.K g2 → g1 = g2) ∧
  (∀ b ∈ r.log, ∀ g ∈ b.pfn_batch, ∃ p ∈ b.runs, ∃ i, i < p.2 ∧ g = b.pfn + p.1 + i) ∧
  index_only_runs env.K r.max_gpfn r.log r.pfn_off ∧
  (info.compress_mode = VM_SAVE_COMPRESS_LZ4 → info.single_page = false →
    ∀ k, r.pfn_off k = 0) ∧
  (info.compress_mode = VM_SAVE_COMPRESS_NONE ∨ info.single_page = true →
    ∀ b ∈ r.log, ∀ p ∈ b.runs, ∀ i, i < p.2 →
      poi_valid_pfn env.K r.max_gpfn (b.pfn + p.1 + i) = true →
      (info.compress_mode = VM_SAVE_COMPRESS_NONE →
        (b.classified (p.1 + i)).offset = (b.classified p.1).offset + (i <<< PAGE_SHIFT)) →
      entry_locates env.lz4 info.high_compress r.f
        (r.pfn_off (poi_pfn_index env.K (b.pfn + p.1 + i)))
        (buf_read b.capture.mem_buffer (b.classified (p.1 + i)).offset PAGE_SIZE) ∧
      (r.pfn_off (poi_pfn_index env.K (b.pfn + p.1 + i)) /
          PAGE_OFFSET_INDEX_PFN_OFF_COMPRESSED % 2 = 1 ↔
        stored_compressed env.lz4 info
          (buf_read b.capture.mem_buffer (b.classified (p.1 + i)).offset PAGE_SIZE) = true))

/-- The pool is balanced: once it is set up, the buffers on the free list and
the jobs in flight number at most `DECOMPRESS_THREADS` together, and exactly
that many when `async_op_add` does not fail. -/
def pool_balanced (env : LoadEnv) (dc : decompress_ctx) : Prop :=
  dc.async_op_ctx = true →
    dc.list + dc.pending ≤ DECOMPRESS_THREADS ∧
    (env.async_op_add = 0 → dc.list + dc.pending = DECOMPRESS_THREADS)

/-- The pools `dc` and `dc2` are in the same phase (both set up or both not),
`dc2` holds no more buffers, free or in flight, than `dc`, and as many when
`async_op_add` does not fail. -/
def same_buffers (env : LoadEnv) (dc dc2 : decompress_ctx) : Prop :=
  dc2.async_op_ctx = dc.async_op_ctx ∧ dc2.list + dc2.pending ≤ dc.list + dc.pending ∧
    (env.async_op_add = 0 → dc2.list + dc2.pending = dc.list + dc.pending)

/-- A step of the record loop that handles a metadata record: pool, trace,
restore mode and poll count are as before. -/
def metadata_step (st st1 : LoadState) : Prop :=
  st1.io.dc = st.io.dc ∧ st1.io.trace = st.io.trace ∧ st1.restore_mode = st.restore_mode ∧
    st1.polls = st.polls

/-- The indices below `n` of the bits set in a bitmap, in increasing order. -/
def set_bits (zero_bitmap : List Nat) (n : Nat) : List Nat :=
  (List.range n).filter fun i => test_bit i zero_bitmap

/-- The trace of a sequence of demand-populate calls with the frame lists
`calls`. -/
def populate_calls (calls : List (List Nat)) : List Event :=
  calls.map fun l => Event.populate_physmap_exact l false

/-- What `uxenvm_load_zero_bitmap` does on a bitmap of `n` bits, in terms of
the frame lists `calls` of its demand-populate calls and its return value
`ret`: no call carries more than `MAX_BATCH_SIZE` frames; every call but the
last carries exactly that many and succeeds; when the function returns 0 all
calls succeeded and their lists, concatenated, are the set bits in increasing
order; otherwise the last call is the one that failed, its error is returned,
and the lists are an initial part of the set bits. -/
def zero_bitmap_replayed (env : LoadEnv) (zero_bitmap : List Nat) (n : Nat)
    (calls : List (List Nat)) (ret : Int) : Prop :=
  (∀ l ∈ calls, l.length ≤ MAX_BATCH_SIZE) ∧
  (∀ l ∈ calls.dropLast,
    l.length = MAX_BATCH_SIZE ∧ env.xc_domain_populate_physmap_exact l false = 0) ∧
  (ret = 0 → calls.flatten = set_bits zero_bitmap n ∧
    ∀ l ∈ calls, env.xc_domain_populate_physmap_exact l false = 0) ∧
  (ret ≠ 0 → ∃ l, calls.getLast? = some l ∧
    ret = env.xc_domain_populate_physmap_exact l false ∧
    ∃ rest, calls.flatten ++ rest = set_bits zero_bitmap n)

/-- The frames of a logged batch that the capture reported as Normal and whose
page passes the zero test, in increasing order, when the session keeps guest
memory resident (`free_mem` clear); no frame when `free_mem` is set. -/
def rezero_frames (free_mem : Bool) (b : batch_log) : List Nat :=
  ((List.range' 0 b.capture.batch_done).filter fun j =>
    decide ((b.captured j).type = XENMEM_MCGI_TYPE_NORMAL) &&
      page_is_zero b.capture.mem_buffer (b.captured j).offset && !free_mem).map
    fun j => b.pfn + j

/-- The hypercalls of one logged batch: the capture, then one
`xc_domain_populate_physmap` call for the frames of `rezero_frames` when there
is one. -/
def batch_trace (info : vm_save_info) (b : batch_log) : List Event :=
  [Event.memory_capture b.pfn b.batch info.free_mem] ++
    (if (rezero_frames info.free_mem b).length ≠ 0 then
      [Event.populate_physmap (rezero_frames info.free_mem b)]
     else [])

/-- The hypercalls of a list of logged batches, in order. -/
def save_trace (info : vm_save_info) : List batch_log → List Event
  | [] => []
  | b :: bs => batch_trace info b ++ save_trace info bs

/-- Whether a call is `xc_domain_clone_physmap`. -/
def is_clone : Event → Bool
  | Event.clone_physmap => true
  | _ => false

/-- The number of `xc_domain_clone_physmap` calls of a trace. -/
def clone_calls (tr : List Event) : Nat := (tr.filter is_clone).length

/-- Whether a call populates, maps or fills guest frames: a demand-populate
call, a mapping of frames, a copy of file bytes into mapped frames, or a
populate from the buffer of a decompression job. -/
def memory_call : Event → Bool
  | Event.populate_physmap_exact _ _ => true
  | Event.map_foreign_bulk _ => true
  | Event.write_mapped _ _ => true
  | Event.populate_physmap_from_buffer _ _ _ => true
  | _ => false

/-- The calls issued by the drain of the pool and by the code from the label
`skip_mem` on. -/
def deferred_call : Event → Bool
  | Event.free_pp_buffer => true
  | Event.sethandle => true
  | Event.apply_immutable_memory _ => true
  | Event.mapcache_init_restore _ _ _ => true
  | Event.mapcache_init => true
  | Event.set_tsc_info _ _ _ _ => true
  | Event.set_hvm_param _ _ => true
  | Event.clear_domain_page _ => true
  | Event.add_to_physmap_shared_info _ => true
  | Event.dmreq_init => true
  | Event.hvm_setcontext _ => true
  | _ => false

/-- The number of clone calls a load in state `st` has issued or may still
issue: the calls so far, and one more while the restore mode is Clone. -/
def clone_budget (st : LoadState) : Nat :=
  clone_calls st.io.trace + (if st.restore_mode = VM_RESTORE_CLONE then 1 else 0)

/-- The state in which a first-generation clone arrives at the label
`skip_mem`: the clone call issued, `vm_has_template_uuid` set and `ret = 0`. -/
def first_clone_state (st : LoadState) : LoadState :=
  { st with g := { st.g with vm_has_template_uuid := true },
            io := { st.io with ret := 0, trace := st.io.trace ++ [Event.clone_physmap] } }

/-- The calls the record loop can issue when its batches are loaded with
`do_lazy_load = l` and `populate_compressed = pc`: a demand-populate call
carries the lazy flag only if `l`, a populate from a buffer the compressed flag
only if `pc`. -/
def loop_call (l pc : Bool) : Event → Bool
  | Event.clone_physmap => true
  | Event.populate_physmap_exact _ dmreq => !dmreq || l
  | Event.map_foreign_bulk _ => true
  | Event.write_mapped _ _ => true
  | Event.populate_physmap_from_buffer _ _ c => !c || pc
  | Event.alloc_pp_buffer => true
  | _ => false

/-- Whether a call is a populate from a buffer with
`XENMEMF_populate_from_buffer_compressed`. -/
def compressed_populate : Event → Bool
  | Event.populate_physmap_from_buffer _ _ true => true
  | _ => false

/-- Whether a call applies buffered metadata: TSC info, an HVM parameter, the
shared-info mapping, a page clearing or the HVM context. -/
def metadata_call : Event → Bool
  | Event.set_tsc_info _ _ _ _ => true
  | Event.set_hvm_param _ _ => true
  | Event.add_to_physmap_shared_info _ => true
  | Event.clear_domain_page _ => true
  | Event.hvm_setcontext _ => true
  | _ => false

/-- The outcome `r` of a step of the record loop stays within `b` clone calls:
it has issued at most `b`, and when the loop goes on its budget is at most `b`. -/
def within_budget (b : Nat) (r : LoadState × ctl) : Prop :=
  clone_calls r.1.io.trace ≤ b ∧ (r.2 = ctl.next → clone_budget r.1 ≤ b)

/-- The state of the record loop after the test of `vm_quit_interrupt` and the
read of a 4-byte marker. -/
def after_marker (st : LoadState) : LoadState :=
  { st with polls := st.polls + 1,
            io := { st.io with f := { st.io.f with pos := st.io.f.pos + 4 }, ret := 4 } }

/-- The entry `e` of a page written in per-page mode, in the file `f`: the
page stands in the file as a 2-byte length field followed by its data. A page
that compression made smaller has the indicator bit set and the offset of its
length field in the low 63 bits; a page kept raw has the indicator clear and
the offset of the page itself, two bytes after its length field of a full
page. -/
def per_page_entry (lz4 : LZ4) (high_compress : Bool) (f : List Nat) (e : Nat)
    (page : List Nat) : Prop :=
  ∃ o,
    if (uxenvm_compress_lz4 lz4 high_compress page).length < PAGE_SIZE then
      bytes_at f o (enc_u16 (uxenvm_compress_lz4 lz4 high_compress page).length ++
        uxenvm_compress_lz4 lz4 high_compress page) ∧
      e / PAGE_OFFSET_INDEX_PFN_OFF_COMPRESSED % 2 = 1 ∧
      e % PAGE_OFFSET_INDEX_PFN_OFF_COMPRESSED = o
    else
      bytes_at f o (enc_u16 PAGE_SIZE ++ page) ∧
      e / PAGE_OFFSET_INDEX_PFN_OFF_COMPRESSED % 2 = 0 ∧
      e % PAGE_OFFSET_INDEX_PFN_OFF_COMPRESSED = o + sizeof_cs16

/-- The calls of the block `if (s_hvm_magic_pfns.marker == ...)` of
`uxenvm_loadvm_execute` for the record payload `p`, in program order, when none
of them fails, followed by the calls `ctx` of the HVM-context restore: the two
IO-page parameters, the clearing of the IO pages, the shared-info mapping
(unless the frame is -1, or 0 which is read as -1), the clearing of the dmreq
page, the two dmreq parameters and `dmreq_init`. -/
def magic_calls (p : List Nat) (ctx : List Event) : List Event :=
  [Event.set_hvm_param hvm_param.HVM_PARAM_IO_PFN_FIRST (field p 4 8),
   Event.set_hvm_param hvm_param.HVM_PARAM_IO_PFN_LAST (field p 12 8)] ++
  (List.range (field p 12 8 + 1 - field p 4 8)).map
    (fun i => Event.clear_domain_page (field p 4 8 + i)) ++
  (if (if field p 20 8 = 0 then 18446744073709551615 else field p 20 8) ≠
      18446744073709551615 then
    [Event.add_to_physmap_shared_info
      (if field p 20 8 = 0 then 18446744073709551615 else field p 20 8)]
   else []) ++
  [Event.clear_domain_page (field p 28 8),
   Event.set_hvm_param hvm_param.HVM_PARAM_DMREQ_VCPU_PFN (field p 36 8),
   Event.set_hvm_param hvm_param.HVM_PARAM_DMREQ_PFN (field p 28 8),
   Event.dmreq_init] ++ ctx

/-- The `mapcache` call at the head of the deferred metadata. -/
def mapcache_call (r : saved_records) : List Event :=
  match r.s_mapcache_params with
  | some p => [Event.mapcache_init_restore (field p 0 4) (field p 4 4) (field p 8 4)]
  | none => [Event.mapcache_init]

/-! ## Resume: `vm_restore_memory` and `vm_resume` -/

/-- The cases `XC_SAVE_ID_PAGE_OFFSETS` and `XC_SAVE_ID_ZERO_BITMAP` of the loop
of `vm_restore_memory`: the field `size` of `struct xc_save_generic` is read
and the record skipped by a seek of `size - sizeof(s_generic)`. -/
def restore_skip_record (st : LoadState) : LoadState × ctl :=
  uxenvm_load_read_struct st.io sizeof_xc_save_generic (goto_out st) fun p io =>
  let r := filebuf_seek io.f (((field p 0 4 : Nat) : Int) - ((sizeof_xc_save_generic : Nat) : Int))
    FILEBUF_SEEK_CUR
  if r.1 = -1 then goto_out st { io with f := r.2, ret := -EIO_errno }
  else ({ st with io := { io with f := r.2, ret := 0 } }, ctl.next)

/-- One pass of the loop `while (1)` of `vm_restore_memory`: the marker is read
and dispatched; batches are loaded with `do_lazy_load = 0` and
`populate_compressed = 0`. -/
def restore_record (env : LoadEnv) (st : LoadState) : LoadState × ctl :=
  uxenvm_load_read st.io 4 (goto_out st) fun mb io =>
  if dec_i32 mb = 0 then ({ st with io := io }, ctl.done)
  else if dec_i32 mb = XC_SAVE_ID_PAGE_OFFSETS ∨ dec_i32 mb = XC_SAVE_ID_ZERO_BITMAP then
    restore_skip_record { st with io := io }
  else
    let st := uxenvm_load_batch env { st with io := io } (dec_i32 mb) false false
    if st.io.ret ≠ 0 then (st, ctl.out) else (st, ctl.next)

/-- The loop `while (1)` of `vm_restore_memory`; the first argument bounds the
number of passes, `none` when it is exhausted. (A skipped record whose size
field is below 8 moves the cursor backwards, so the file length is no bound.) -/
def restore_loop (env : LoadEnv) : Nat → LoadState → Option (LoadState × ctl)
  | 0, _ => none
  | n + 1, st =>
    let r := restore_record env st
    match r.2 with
    | ctl.next => restore_loop env n r.1
    | _ => some r

/-- How a function ends: through `errx`, which ends the process, or by
returning. -/
inductive outcome (α : Type) where
  | exit
  | returned (a : α)
  deriving DecidableEq, Repr

/-- The function `vm_restore_memory` on the file `vm_save_info.f` (`none` when
it is not open) and the offset `vm_save_info.page_batch_offset`, with a bound
`fuel` on the passes of its loop. The return value is the field `io.ret` of
the state returned. Allocations are taken to succeed. -/
def vm_restore_memory (env : LoadEnv) (file : Option (List Nat)) (page_batch_offset : Nat)
    (fuel : Nat) : Option (outcome LoadState) :=
  match file with
  | none => some outcome.exit
  | some data =>
    if page_batch_offset = 0 then some outcome.exit
    else
      let st := load_init
        { vm_has_template_uuid := false, vm_uuid := [], vm_template_uuid := [],
          vm_template_file := none } data VM_RESTORE_NORMAL
      let r := filebuf_seek st.io.f (page_batch_offset : Int) FILEBUF_SEEK_SET
      if r.1 = -1 then
        some (outcome.returned (load_out env { st with io := { st.io with ret := -1 } }))
      else
        match restore_loop env fuel { st with io := { st.io with f := r.2, ret := 0 } } with
        | none => none
        | some (st, _) => some (outcome.returned (load_out env st))

/-- What `vm_resume` reads from `vm_save_info` and obtains from outside. -/
structure ResumeEnv where
  /-- Contents of the file `vm_save_info.f`, `none` when no file is open. -/
  file : Option (List Nat)
  free_mem : Bool
  page_batch_offset : Nat
  resume_delete : Bool
  resume_cd : Bool
  xc_domain_resume : Int

/-- What `vm_resume` did: its return value, the return value of
`vm_restore_memory` when that was called, whether `qemu_savevm_resume` and
`xc_domain_resume` were called, whether delete-on-close was cleared before the
file was closed, and the status passed to `control_command_resume_finish`. -/
structure resume_result where
  ret : Int
  restore_memory : Option Int
  qemu_savevm_resume : Bool
  file_kept : Option Bool
  xc_domain_resume : Bool
  finish_status : Option Int
  deriving DecidableEq, Repr

/-- The code of `vm_resume` after the block `if (vm_save_info.f)`. -/
def vm_resume_tail (x : ResumeEnv) (restore_memory : Option Int) (had_file : Bool) :
    resume_result :=
  let ret : Int := if x.xc_domain_resume ≠ 0 then -x.xc_domain_resume else x.xc_domain_resume
  { ret := ret, restore_memory := restore_memory, qemu_savevm_resume := had_file,
    file_kept := if had_file then some (!x.resume_delete) else none,
    xc_domain_resume := true,
    finish_status := if x.resume_cd then some ret else none }

/-- The function `vm_resume`, with the bound `fuel` for `vm_restore_memory`. -/
def vm_resume (env : LoadEnv) (x : ResumeEnv) (fuel : Nat) : Option (outcome resume_result) :=
  match x.file with
  | some _ =>
    if x.free_mem then
      match vm_restore_memory env x.file x.page_batch_offset fuel with
      | none => none
      | some outcome.exit => some outcome.exit
      | some (outcome.returned st) =>
        some (outcome.returned (vm_resume_tail x (some st.io.ret) true))
    else some (outcome.returned (vm_resume_tail x none true))
  | none => some (outcome.returned (vm_resume_tail x none false))

/-! ## Lazy load: `vm_lazy_load_page` -/

/-- The initialiser `static int lazy_compressed = 0;` of `vm_lazy_load_page`;
the variable is never assigned. -/
def lazy_compressed : Bool := false

/-- A read of `bytes` into the buffer `dst`: the bytes replace its start. -/
def read_into (dst bytes : List Nat) : List Nat := bytes ++ dst.drop bytes.length

/-- The function `vm_lazy_load_page` on the index `lli` (`dm_lazy_load_info`).
Returns the return value and the contents of the destination `va`, or `none`
when the function leaves through `errx`. The argument `page` is the content of
the local array `page` on entry, `errno` the value left by a short read. The
entry is a `uint64_t`: `offset & PAGE_OFFSET_INDEX_PFN_OFF_MASK` is its
remainder modulo `2^63` and `offset & PAGE_OFFSET_INDEX_PFN_OFF_COMPRESSED` its
bit 63. An index past the mapped entries reads 0 in the model. -/
def vm_lazy_load_page (lz4 : LZ4) (K : Consts) (lli : page_offset_info) (errno : Int)
    (page va : List Nat) (gpfn : Nat) (compressed : Bool) : Option (Int × List Nat) :=
  if gpfn ≥ K.PCI_HOLE_START_PFN ∧ gpfn < K.PCI_HOLE_END_PFN then none
  else if gpfn ≥ lli.max_gpfn then none
  else
    let offset := lli.pfn_off.getD (skip_pci_hole K gpfn) 0
    let fb := (filebuf_seek lli.fb ((offset % PAGE_OFFSET_INDEX_PFN_OFF_COMPRESSED : Nat) : Int)
      FILEBUF_SEEK_SET).2
    if offset / PAGE_OFFSET_INDEX_PFN_OFF_COMPRESSED % 2 ≠ 0 then
      let c := filebuf_read fb sizeof_cs16
      if c.1.length ≠ sizeof_cs16 then some (-errno, va)
      else
        let cs1 := le_value c.1
        if cs1 > PAGE_SIZE then some (-EINVAL, va)
        else if cs1 = PAGE_SIZE then
          let d := filebuf_read c.2 PAGE_SIZE
          some (if d.1.length ≠ PAGE_SIZE then -errno else ((d.1.length : Nat) : Int),
            read_into va d.1)
        else if lazy_compressed && compressed && decide (cs1 ≤ PAGE_SIZE - 256) then
          let d := filebuf_read c.2 cs1
          some (if d.1.length ≠ cs1 then -errno else ((d.1.length : Nat) : Int),
            read_into va d.1)
        else
          let d := filebuf_read c.2 cs1
          if d.1.length ≠ cs1 then some (-errno, va)
          else
            let z := lz4.LZ4_decompress_fast (read_into page d.1) PAGE_SIZE
            if z.1 ≠ ((cs1 : Nat) : Int) then some (-EINVAL, read_into va z.2)
            else some (((PAGE_SIZE : Nat) : Int), read_into va z.2)
    else
      let d := filebuf_read fb PAGE_SIZE
      some (if d.1.length ≠ PAGE_SIZE then -errno else ((d.1.length : Nat) : Int),
        read_into va d.1)

/-! ## Save: `vm_save_execute` -/

/-- What `vm_save_execute` obtains from outside, besides the page writer: the
`errno` of a failed `filebuf_open` (`none` when the file is opened), the return
value of `uxenvm_savevm_get_dm_state`, the return value of
`uxenvm_savevm_write_info` with the bytes it wrote, and whether a command
channel `vm_save_info.command_cd` waits for the result. -/
structure SaveExecEnv where
  filebuf_open_errno : Option Int
  uxenvm_savevm_get_dm_state : Int
  uxenvm_savevm_write_info : Int × List Nat
  command_cd : Bool

/-- What `vm_save_execute` did: the final value of `ret`, whether the file was
flushed and kept open in `vm_save_info.f`, whether it was closed (with
delete-on-close set, so deleted), the status passed to
`control_command_save_finish` when that was called, and the result of the page
writer when it ran. -/
structure save_exec_result where
  ret : Int
  flushed : Bool
  closed_for_deletion : Bool
  finish_status : Option Int
  pages : Option save_result

/-- The code of `vm_save_execute` from the label `out`, with the value of
`ret` on arrival. -/
def vm_save_execute_out (x : SaveExecEnv) (ret : Int) (pages : Option save_result) :
    save_exec_result :=
  { ret := ret, flushed := decide (ret = 0), closed_for_deletion := decide (ret ≠ 0),
    finish_status := if x.command_cd then some ret else none, pages := pages }

/-- The function `vm_save_execute`. -/
def vm_save_execute (x : SaveExecEnv) (env : SaveEnv) (info : vm_save_info) :
    save_exec_result :=
  match x.filebuf_open_errno with
  | some e => vm_save_execute_out x e none
  | none =>
    if x.uxenvm_savevm_get_dm_state ≠ 0 then
      vm_save_execute_out x (-x.uxenvm_savevm_get_dm_state) none
    else if x.uxenvm_savevm_write_info.1 ≠ 0 then
      vm_save_execute_out x (-x.uxenvm_savevm_write_info.1) none
    else
      let r := uxenvm_savevm_write_pages env info x.uxenvm_savevm_write_info.2
      if r.ret ≠ 0 then vm_save_execute_out x (-r.ret) (some r)
      else vm_save_execute_out x r.ret (some r)

/-! ## Save: the requests of the page loop and the runs of a batch -/

/-- The requests of the `xc_domain_memory_capture` calls of a trace, in order:
the first frame and the number of frames of each. -/
def capture_calls : List Event → List (Nat × Nat)
  | [] => []
  | Event.memory_capture pfn batch _ :: tr => (pfn, batch) :: capture_calls tr
  | _ :: tr => capture_calls tr

/-- The frames that a list of capture requests asks for, in the order of the
requests and, within a request, of the frames. -/
def requested_frames : List (Nat × Nat) → List Nat
  | [] => []
  | (pfn, batch) :: cs => List.range' pfn batch ++ requested_frames cs

/-- The entries `k` of `[j, j + n)` whose type in `gl` is Normal, in
increasing order. -/
def normal_entries (gl : Nat → gpfn_info) (j n : Nat) : List Nat :=
  (List.range' j n).filter fun k => decide ((gl k).type = XENMEM_MCGI_TYPE_NORMAL)

/-- The entries of a list of runs `(run, b_run)`, in the order of the runs and,
within a run, of the entries. -/
def run_entries : List (Nat × Nat) → List Nat
  | [] => []
  | (run, b_run) :: rs => List.range' run b_run ++ run_entries rs

/-- The total length of a list of runs. -/
def runs_length : List (Nat × Nat) → Nat
  | [] => 0
  | (_, b_run) :: rs => b_run + runs_length rs

/-- The frames of a logged batch that the capture reported as Normal and whose
page fails the zero test (some 64-bit word is not zero), in increasing order. -/
def nonzero_normal_frames (b : batch_log) : List Nat :=
  ((List.range' 0 b.batch).filter fun j =>
    decide ((b.captured j).type = XENMEM_MCGI_TYPE_NORMAL) &&
      !page_is_zero b.capture.mem_buffer (b.captured j).offset).map
    fun j => b.pfn + j

/-- The runs of a logged batch are maximal blocks of Normal entries: a run is
not empty, ends within the batch, consists of entries classified Normal, and
the entry before it and the entry behind it, when there is one, are not
Normal. -/
def runs_maximal (b : batch_log) : Prop :=
  ∀ p ∈ b.runs, 1 ≤ p.2 ∧ p.1 + p.2 ≤ b.batch ∧
    (∀ k, p.1 ≤ k → k < p.1 + p.2 → (b.classified k).type = XENMEM_MCGI_TYPE_NORMAL) ∧
    (p.1 = 0 ∨ (b.classified (p.1 - 1)).type ≠ XENMEM_MCGI_TYPE_NORMAL) ∧
    (p.1 + p.2 = b.batch ∨ (b.classified (p.1 + p.2)).type ≠ XENMEM_MCGI_TYPE_NORMAL)

/-! ## Save: `uxenvm_savevm_write_info` -/

/-- The collaborators of `uxenvm_savevm_write_info`: the domain id `vm_id`; the
return value and the values stored by `xc_domain_get_tsc_info` (`tsc_mode`,
`nsec`, `khz`, `incarn`); the return value of `xc_domain_getinfo` with the
fields `domid` and `max_vcpu_id` of `dom_info[0]`, the latter as the `int` it
is assigned to; for each vCPU the return value of `xc_vcpu_getinfo` and the
field `online`; the value `xc_get_hvm_param` stores, `none` when it stores
nothing; the return values of the two calls of `xc_domain_hvm_getcontext`, the
second with the contents of the buffer; the header and the ranges of
`get_guest_introspect_info()` when `lava_options` asks for them and they exist;
the values of `mapcache_get_params`; and the bytes found in the padding of the
structures on the stack. -/
structure WriteInfoEnv where
  vm_id : Nat
  xc_domain_get_tsc_info : Int × Nat × Nat × Nat × Nat
  xc_domain_getinfo : Int × Nat × Int
  xc_vcpu_getinfo : Nat → Int × Bool
  xc_get_hvm_param : hvm_param → Option Nat
  xc_domain_hvm_getcontext_size : Int
  xc_domain_hvm_getcontext : Int × List Nat
  guest_introspect_info : Option (List Nat × List Nat)
  mapcache_get_params : Nat × Nat × Nat
  padding : List Nat

/-- What `uxenvm_savevm_write_info` returns and leaves: the return value, the
file, and `vm_save_info.dm_offset` when it was set. -/
structure write_info_result where
  ret : Int
  f : List Nat
  dm_offset : Option Nat
  deriving DecidableEq, Repr

/-- The loop `for (j = 0; j <= s_vcpu_info.max_vcpu_id; j++)` with `n`
iterations left: `ret` is assigned the result of every `xc_vcpu_getinfo`, and
the bit of a vCPU is set when its query returned 0 and reports it online.
Returns the last value of `ret` and `vcpumap`. The shift `1ULL << j` is that of
C for `j < 64`. -/
def vcpu_loop (env : WriteInfoEnv) : Nat → Nat → Int → Nat → Int × Nat
  | 0, _, ret, vcpumap => (ret, vcpumap)
  | n + 1, j, _, vcpumap =>
    let q := env.xc_vcpu_getinfo j
    vcpu_loop env n (j + 1) q.1
      (if q.1 = 0 ∧ q.2 = true then vcpumap ||| (2 ^ j % 18446744073709551616) else vcpumap)

/-- A `struct xc_save_hvm_generic_chunk` as written: marker, the field `pad`
(never assigned), data. -/
def hvm_generic_chunk (padding : List Nat) (marker : Int) (data : Nat) : List Nat :=
  enc_i32 marker ++ take_pad 4 padding ++ enc_u64 data

/-- The lines `s.data = 0; xc_get_hvm_param(.., &s.data); if (s.data)
filebuf_write(f, &s, sizeof(s));` for one parameter. -/
def write_hvm_param (env : WriteInfoEnv) (f : List Nat) (marker : Int) (p : hvm_param) :
    List Nat :=
  let data := (env.xc_get_hvm_param p).getD 0
  if data ≠ 0 then f ++ hvm_generic_chunk env.padding marker data else f

/-- The function `uxenvm_savevm_write_info`, appending to the file `f0`. A
`malloc` of a negative size fails, any other succeeds. There is no assignment
to `ret` between the loop over the vCPUs and the label `out`. -/
def uxenvm_savevm_write_info (env : WriteInfoEnv) (K : Consts) (g : vm_globals)
    (f0 dm_state_buf : List Nat) (dm_state_size : Int) : write_info_result :=
  let f := f0 ++ (enc_i32 XC_SAVE_ID_VERSION ++ enc_u32 SAVE_FORMAT_VERSION)
  let tsc := env.xc_domain_get_tsc_info
  if tsc.1 < 0 then { ret := -EPERM, f := f, dm_offset := none }
  else
    let f := f ++ (enc_i32 XC_SAVE_ID_TSC_INFO ++ enc_u32 tsc.2.1 ++ enc_u64 tsc.2.2.1 ++
      enc_u32 tsc.2.2.2.1 ++ enc_u32 tsc.2.2.2.2)
    let di := env.xc_domain_getinfo
    if di.1 ≠ 1 ∨ di.2.1 ≠ env.vm_id then { ret := -EPERM, f := f, dm_offset := none }
    else
      let max_vcpu_id := di.2.2
      let v := vcpu_loop env (max_vcpu_id + 1).toNat 0 di.1 0
      let ret := v.1
      let f := f ++ (enc_i32 XC_SAVE_ID_VCPU_INFO ++ enc_i32 max_vcpu_id ++ enc_u64 v.2)
      let f := write_hvm_param env f XC_SAVE_ID_HVM_IDENT_PT hvm_param.HVM_PARAM_IDENT_PT
      let f := write_hvm_param env f XC_SAVE_ID_HVM_VM86_TSS hvm_param.HVM_PARAM_VM86_TSS
      let f := write_hvm_param env f XC_SAVE_ID_HVM_CONSOLE_PFN hvm_param.HVM_PARAM_CONSOLE_PFN
      let f := write_hvm_param env f XC_SAVE_ID_HVM_ACPI_IOPORTS_LOCATION
        hvm_param.HVM_PARAM_ACPI_IOPORTS_LOCATION
      let f := f ++ (enc_i32 XC_SAVE_ID_HVM_MAGIC_PFNS ++ take_pad 4 env.padding ++
        enc_u64 ((env.xc_get_hvm_param hvm_param.HVM_PARAM_IO_PFN_FIRST).getD 0) ++
        enc_u64 ((env.xc_get_hvm_param hvm_param.HVM_PARAM_IO_PFN_LAST).getD 0) ++
        enc_u64 ((env.xc_get_hvm_param hvm_param.HVM_PARAM_SHARED_INFO_PFN).getD 0) ++
        enc_u64 ((env.xc_get_hvm_param hvm_param.HVM_PARAM_DMREQ_PFN).getD 0) ++
        enc_u64 ((env.xc_get_hvm_param hvm_param.HVM_PARAM_DMREQ_VCPU_PFN).getD 0))
      let hvm_buf_size := env.xc_domain_hvm_getcontext_size
      if hvm_buf_size = -1 then { ret := -EPERM, f := f, dm_offset := none }
      else if hvm_buf_size < 0 then { ret := -ENOMEM, f := f, dm_offset := none }
      else
        let ctx := env.xc_domain_hvm_getcontext
        let size := to_u32 ctx.1
        if size = 4294967295 then { ret := -EPERM, f := f, dm_offset := none }
        else
          let f := f ++ (enc_i32 XC_SAVE_ID_HVM_CONTEXT ++ enc_u32 size) ++ buf_read ctx.2 0 size
          let f :=
            match env.guest_introspect_info with
            | none => f
            | some (hdr, ranges) =>
              f ++ (enc_i32 XC_SAVE_ID_HVM_INTROSPEC ++ take_pad K.sizeof_introspect_header hdr) ++
                buf_read ranges 0
                  (to_u32 ((K.n_immutable_ranges hdr * K.sizeof_immutable_range : Nat) : Int))
          let f := f ++ (enc_i32 XC_SAVE_ID_HVM_DM ++ enc_u32 (to_u32 dm_state_size))
          let dm_offset := f.length
          let f := f ++ buf_read dm_state_buf 0 (to_u32 dm_state_size)
          let f := f ++ (enc_i32 XC_SAVE_ID_VM_UUID ++ take_pad 16 g.vm_uuid)
          let f :=
            if g.vm_has_template_uuid then
              f ++ (enc_i32 XC_SAVE_ID_VM_TEMPLATE_UUID ++ take_pad 16 g.vm_template_uuid)
            else f
          let mp := env.mapcache_get_params
          let f := f ++ (enc_i32 XC_SAVE_ID_MAPCACHE_PARAMS ++ enc_u32 mp.1 ++ enc_u32 mp.2.1 ++
            enc_u32 mp.2.2)
          let f :=
            match g.vm_template_file with
            | none => f
            | some name =>
              f ++ (enc_i32 XC_SAVE_ID_VM_TEMPLATE_FILE ++ enc_u16 name.length ++
                take_pad 2 env.padding) ++ buf_read name 0 (name.length % 65536)
          { ret := ret, f := f, dm_offset := some dm_offset }

/-- The case labels of the `switch (marker)` of the record loop: the record
ids the loader knows. -/
def known_record_ids : List Int :=
  [XC_SAVE_ID_TSC_INFO, XC_SAVE_ID_VCPU_INFO, XC_SAVE_ID_HVM_IDENT_PT, XC_SAVE_ID_HVM_VM86_TSS,
   XC_SAVE_ID_HVM_CONSOLE_PFN, XC_SAVE_ID_HVM_ACPI_IOPORTS_LOCATION, XC_SAVE_ID_HVM_MAGIC_PFNS,
   XC_SAVE_ID_HVM_CONTEXT, XC_SAVE_ID_HVM_DM, XC_SAVE_ID_VM_UUID, XC_SAVE_ID_VM_TEMPLATE_UUID,
   XC_SAVE_ID_HVM_INTROSPEC, XC_SAVE_ID_MAPCACHE_PARAMS, XC_SAVE_ID_VM_TEMPLATE_FILE,
   XC_SAVE_ID_PAGE_OFFSETS, XC_SAVE_ID_ZERO_BITMAP]

/-! ## Concrete inputs -/

/-- The extension bytes of an LZ4 literal length `15 + m`. -/
def lz4_length_bytes (m : Nat) : List Nat := List.replicate (m / 255) 255 ++ [m % 255]

/-- An LZ4 block holding `src` as a single run of literals, the form the
format prescribes for input without matches. -/
def stored_compress (src : List Nat) : List Nat :=
  if src.length < 15 then (src.length * 16) :: src
  else 240 :: (lz4_length_bytes (src.length - 15) ++ src)

/-- Reads the extension bytes of a length: the value and the remaining input. -/
def read_length_bytes : List Nat → Nat → Option (Nat × List Nat)
  | [], _ => none
  | b :: bs, acc => if b = 255 then read_length_bytes bs (acc + 255) else some (acc + b, bs)

/-- Decoder for blocks that consist of one run of literals; any other block
is an error. Returns the number of bytes consumed and the output. -/
def stored_decompress_fast (src : List Nat) (osize : Nat) : Int × List Nat :=
  match src with
  | [] => (-1, [])
  | token :: rest =>
    if token % 16 ≠ 0 then (-1, [])
    else if token / 16 < 15 then
      if token / 16 = osize ∧ osize ≤ rest.length then ((1 + osize : Nat), rest.take osize)
      else (-1, [])
    else
      match read_length_bytes rest 15 with
      | none => (-1, [])
      | some (len, lits) =>
        if len = osize ∧ osize ≤ lits.length then
          (((src.length - lits.length + osize : Nat) : Int), lits.take osize)
        else (-1, [])

/-- An LZ4 implementation that emits and accepts literal-only blocks. -/
def stored_lz4 : LZ4 :=
  { LZ4_compress := stored_compress, LZ4_compressHC := stored_compress,
    LZ4_decompress_fast := stored_decompress_fast }

/-- Header constants for the examples: the MMIO hole of a 32-bit PCI window
`[0xe0000, 0x100000)`, the type mask `0xf << 28`. -/
def example_consts : Consts :=
  { PCI_HOLE_START_PFN := 917504, PCI_HOLE_END_PFN := 1048576,
    XEN_DOMCTL_PFINFO_LTAB_MASK := 4026531840,
    sizeof_introspect_header := 24, sizeof_immutable_range := 16,
    n_immutable_ranges := fun p => field p 16 4 }

/-- A loader environment in which every collaborator succeeds. -/
def example_load_env : LoadEnv :=
  { lz4 := stored_lz4, K := example_consts, vm_mem_mb := 1, uncomptmpl := false,
    vm_quit_interrupt := fun _ => false,
    xc_domain_clone_physmap := 0,
    xc_domain_populate_physmap_exact := fun _ _ => 0,
    xc_map_foreign_bulk := fun pfns => some (pfns.map fun _ => 0),
    xc_domain_populate_physmap_from_buffer := fun _ _ _ => 0,
    xc_domain_sethandle := 0,
    xc_domain_add_to_physmap := fun _ => 0,
    xc_set_hvm_param := fun _ _ => 0,
    async_op_add := 0,
    finished := fun _ => DECOMPRESS_THREADS,
    template_file := fun _ => none }

/-- Globals of a fresh device model: no template. -/
def example_globals : vm_globals :=
  { vm_has_template_uuid := false, vm_uuid := [], vm_template_uuid := [],
    vm_template_file := none }

/-- A guest of eight frames, all reported as zero pages by the capture, saved
with 1 MiB of configured memory and never aborted. -/
def example_save_env : SaveEnv :=
  { lz4 := stored_lz4, K := example_consts, vm_mem_mb := 1, xc_domain_maximum_gpfn := 7,
    xc_domain_memory_capture := fun _ batch _ =>
      { ret := 0, batch_done := batch,
        info := List.replicate batch { type := XENMEM_MCGI_TYPE_ZERO, offset := 0 },
        mem_buffer := [] },
    gpfn_info_list0 := fun _ => { type := OTHER, offset := 0 },
    save_abort := fun _ => false, vm_quit_interrupt := fun _ => false, padding := [] }

/-- A save session without compression that releases guest memory. -/
def example_save_info : vm_save_info :=
  { compress_mode := VM_SAVE_COMPRESS_NONE, single_page := false, free_mem := true,
    high_compress := false }

/-- A guest of three frames: frame 0 holds a page of bytes `7`, frame 1 a
page of zero bytes that the capture reports as Normal, frame 2 is
populate-on-demand. The capture fills at most `batch` entries. -/
def example_pages_env : SaveEnv :=
  { lz4 := stored_lz4, K := example_consts, vm_mem_mb := 1, xc_domain_maximum_gpfn := 2,
    xc_domain_memory_capture := fun _ batch _ =>
      { ret := 0, batch_done := min batch 3,
        info := [{ type := XENMEM_MCGI_TYPE_NORMAL, offset := 0 },
                 { type := XENMEM_MCGI_TYPE_NORMAL, offset := 4096 },
                 { type := XENMEM_MCGI_TYPE_POD, offset := 0 }],
        mem_buffer := List.replicate 4096 7 ++ List.replicate 4096 0 },
    gpfn_info_list0 := fun _ => { type := OTHER, offset := 0 },
    save_abort := fun _ => false, vm_quit_interrupt := fun _ => false, padding := [] }

/-- The frame lists of the `xc_domain_populate_physmap_exact` calls of a
trace, in call order. -/
def populated_frames : List Event → List (List Nat)
  | [] => []
  | Event.populate_physmap_exact pfns _ :: es => pfns :: populated_frames es
  | _ :: es => populated_frames es

/-- A save session in bulk LZ4 mode. -/
def example_bulk_info : vm_save_info :=
  { compress_mode := VM_SAVE_COMPRESS_LZ4, single_page := false, free_mem := true,
    high_compress := false }

/-- A save session in per-page LZ4 mode. -/
def example_per_page_info : vm_save_info :=
  { compress_mode := VM_SAVE_COMPRESS_LZ4, single_page := true, free_mem := true,
    high_compress := false }

/-- A per-page batch of one frame (frame 0) whose only length prefix is 8193,
more than a page: marker `1 + 2 * MAX_BATCH_SIZE`, the frame list, the payload
size 2 and the two payload bytes. -/
def corrupt_page_batch : List Nat :=
  enc_u32 (batch_marker VM_SAVE_COMPRESS_LZ4 true 1) ++ enc_u32_list [0] ++ enc_i32 2 ++
    enc_u16 8193

/-- A save session without compression that keeps guest memory resident. -/
def example_resident_info : vm_save_info :=
  { compress_mode := VM_SAVE_COMPRESS_NONE, single_page := false, free_mem := false,
    high_compress := false }

/-- The three-frame guest with `save_abort` set from the start of the save. -/
def example_aborted_env : SaveEnv :=
  { example_pages_env with save_abort := fun _ => true }

/-- A save in which the file is opened, the device-model state and the info
records are written, and a command channel waits for the result. -/
def example_exec_env : SaveExecEnv :=
  { filebuf_open_errno := none, uxenvm_savevm_get_dm_state := 0,
    uxenvm_savevm_write_info := (0, enc_i32 XC_SAVE_ID_VERSION ++ enc_u32 SAVE_FORMAT_VERSION),
    command_cd := true }

/-- Compressor of a codec for the examples: a page of one repeated byte is
packed into two bytes, any other input is stored as literals. -/
def packed_compress (src : List Nat) : List Nat :=
  if src = List.replicate PAGE_SIZE (src.headD 0) then [1, src.headD 0] else stored_compress src

/-- Decoder of the codec for the examples; bytes after the block are ignored. -/
def packed_decompress_fast (src : List Nat) (osize : Nat) : Int × List Nat :=
  if src.headD 0 = 1 then (2, List.replicate osize (src.getD 1 0))
  else stored_decompress_fast src osize

/-- The codec that packs pages of one repeated byte. -/
def packed_lz4 : LZ4 :=
  { LZ4_compress := packed_compress, LZ4_compressHC := packed_compress,
    LZ4_decompress_fast := packed_decompress_fast }

/-- A guest of three populated frames saved with the packing codec: frame 0 a
page of one repeated byte, frame 1 a page the codec cannot make smaller,
frame 2 a page of zeroes. -/
def example_mixed_env : SaveEnv :=
  { lz4 := packed_lz4, K := example_consts, vm_mem_mb := 1, xc_domain_maximum_gpfn := 2,
    xc_domain_memory_capture := fun _ batch _ =>
      { ret := 0, batch_done := min batch 3,
        info := [{ type := XENMEM_MCGI_TYPE_NORMAL, offset := 0 },
                 { type := XENMEM_MCGI_TYPE_NORMAL, offset := 4096 },
                 { type := XENMEM_MCGI_TYPE_NORMAL, offset := 8192 }],
        mem_buffer := List.replicate 4096 7 ++ (1 :: List.replicate 4095 7) ++
          List.replicate 4096 0 },
    gpfn_info_list0 := fun _ => { type := OTHER, offset := 0 },
    save_abort := fun _ => false, vm_quit_interrupt := fun _ => false, padding := [] }

/-- The index of a finished save as `vm_lazy_load_page` uses it: the entries
as 64-bit values, `max_gpfn`, and the file. -/
def saved_index (r : save_result) : page_offset_info :=
  { max_gpfn := r.max_gpfn,
    pfn_off := (List.range r.pfn_off_nr).map fun k => r.pfn_off k % 18446744073709551616,
    fb := { data := r.f, pos := 0 } }

/-- A zero-bitmap record for the one-byte bitmap `[2]`, its payload a literal
block that decodes to the byte. -/
def decodable_zero_bitmap_record : List Nat :=
  enc_i32 XC_SAVE_ID_ZERO_BITMAP ++ enc_u32 14 ++ enc_u32 1 ++ stored_compress [2]

/-- The same record with a payload whose token announces two literals for a
bitmap of one byte, which the decoder rejects. -/
def undecodable_zero_bitmap_record : List Nat :=
  enc_i32 XC_SAVE_ID_ZERO_BITMAP ++ enc_u32 14 ++ enc_u32 1 ++ [32, 2]

/-- A file with the metadata records in the order "HVM context, magic pfns,
console pfn": a context of two bytes, IO pages 10 and 11, shared-info frame 5,
dmreq frames 6 and 7, console page 20. -/
def example_metadata_file : List Nat :=
  enc_i32 XC_SAVE_ID_VERSION ++ enc_u32 SAVE_FORMAT_VERSION ++
  (enc_i32 XC_SAVE_ID_HVM_CONTEXT ++ enc_u32 2 ++ [1, 2]) ++
  (enc_i32 XC_SAVE_ID_HVM_MAGIC_PFNS ++ [0, 0, 0, 0] ++ enc_u64 10 ++ enc_u64 11 ++
    enc_u64 5 ++ enc_u64 6 ++ enc_u64 7) ++
  (enc_i32 XC_SAVE_ID_HVM_CONSOLE_PFN ++ [0, 0, 0, 0] ++ enc_u64 20) ++ enc_i32 0

/-- A domain with one vCPU whose `xc_vcpu_getinfo` fails while every other
query succeeds: TSC info, domain info (one vCPU, id 0) and a context of two
bytes. -/
def example_info_env : WriteInfoEnv :=
  { vm_id := 1,
    xc_domain_get_tsc_info := (0, 0, 0, 0, 0),
    xc_domain_getinfo := (1, 1, 0),
    xc_vcpu_getinfo := fun _ => (-1, false),
    xc_get_hvm_param := fun _ => none,
    xc_domain_hvm_getcontext_size := 2,
    xc_domain_hvm_getcontext := (2, [1, 2]),
    guest_introspect_info := none,
    mapcache_get_params := (0, 0, 0),
    padding := [] }

/-- The save of the example domain: `vm_save_execute` with the result of
`uxenvm_savevm_write_info` on the empty file. -/
def example_info_exec_env : SaveExecEnv :=
  { filebuf_open_errno := none, uxenvm_savevm_get_dm_state := 0,
    uxenvm_savevm_write_info :=
      ((uxenvm_savevm_write_info example_info_env example_consts example_globals [] [] 0).ret,
       (uxenvm_savevm_write_info example_info_env example_consts example_globals [] [] 0).f),
    command_cd := true }

/-- The state of the page writer of the example save of three frames when its
page loop starts, on an empty file. -/
def example_first_state : save_state :=
  { f := [], zero_bitmap := [0], pfn_off := fun _ => 0,
    gpfn_info_list := example_mixed_env.gpfn_info_list0, compress_size := 0, mem_pos := 0,
    total_pages := 0, pfn := 0, polls := 0, trace := [], log := [] }

/-- A guest with 1 MB of memory (256 index entries, `max_gpfn = 256`) whose
frame 256, above its memory, holds a page of bytes `7`; the frames below are
populate-on-demand. -/
def example_high_frame_env : SaveEnv :=
  { lz4 := stored_lz4, K := example_consts, vm_mem_mb := 1, xc_domain_maximum_gpfn := 256,
    xc_domain_memory_capture := fun _ batch _ =>
      { ret := 0, batch_done := min batch 257,
        info := List.replicate 256 { type := XENMEM_MCGI_TYPE_POD, offset := 0 } ++
          [{ type := XENMEM_MCGI_TYPE_NORMAL, offset := 0 }],
        mem_buffer := List.replicate 4096 7 },
    gpfn_info_list0 := fun _ => { type := OTHER, offset := 0 },
    save_abort := fun _ => false, vm_quit_interrupt := fun _ => false, padding := [] }

/-- A guest of two frames with 1 MB of memory: frame 0 holds a page of bytes
`7`, frame 1 is reported by the capture with a type that is neither Normal nor
Zero nor populate-on-demand. -/
def example_other_type_env : SaveEnv :=
  { lz4 := stored_lz4, K := example_consts, vm_mem_mb := 1, xc_domain_maximum_gpfn := 1,
    xc_domain_memory_capture := fun _ batch _ =>
      { ret := 0, batch_done := min batch 2,
        info := [{ type := XENMEM_MCGI_TYPE_NORMAL, offset := 0 },
                 { type := OTHER, offset := 0 }],
        mem_buffer := List.replicate 4096 7 },
    gpfn_info_list0 := fun _ => { type := OTHER, offset := 0 },
    save_abort := fun _ => false, vm_quit_interrupt := fun _ => false, padding := [] }

/-- The state in which the load of `example_metadata_file` arrives at
`skip_mem`: the state after the version check, taken through the record loop
up to the end marker. The three records are buffered in `recs`. -/
def example_metadata_state : LoadState :=
  ((load_loop example_load_env false 5
      { load_init example_globals example_metadata_file VM_RESTORE_NORMAL with
        io := { (load_init example_globals example_metadata_file VM_RESTORE_NORMAL).io with
                f := { data := example_metadata_file, pos := 8 }, ret := 4 },
        version_compares := 1 }).map fun r => r.1).getD
    (load_init example_globals example_metadata_file VM_RESTORE_NORMAL)

/-- The version record written first by `uxenvm_savevm_write_info`. -/
def version_record : List Nat := enc_i32 XC_SAVE_ID_VERSION ++ enc_u32 SAVE_FORMAT_VERSION

/-- A resume after the aborted save of the three-frame guest (`save_abort`
set from the start, guest memory released). The page loop of the save started
on a file that held the version record; the file of the resume is the one that
save left, which ends behind the version record, and `page_batch_offset` is
the offset the save stored; `xc_domain_resume` succeeds. -/
def example_abort_resume_env : ResumeEnv :=
  { file := some
      (uxenvm_savevm_write_pages example_aborted_env example_save_info version_record).f,
    free_mem := example_save_info.free_mem,
    page_batch_offset :=
      (uxenvm_savevm_write_pages example_aborted_env example_save_info
        version_record).page_batch_offset,
    resume_delete := false, resume_cd := true, xc_domain_resume := 0 }

/-- A resume after the completed save of the three-frame guest, whose page
loop started on a file that held the version record, on the file and the
offset that save left; `xc_domain_resume` succeeds. -/
def example_complete_resume_env : ResumeEnv :=
  { file := some
      (uxenvm_savevm_write_pages example_pages_env example_save_info version_record).f,
    free_mem := example_save_info.free_mem,
    page_batch_offset :=
      (uxenvm_savevm_write_pages example_pages_env example_save_info
        version_record).page_batch_offset,
    resume_delete := false, resume_cd := true, xc_domain_resume := 0 }

/-! # Properties -/

/-! ## Fixed-width integers and buffers -/

theorem le_bytes_length (w n : Nat) : (le_bytes w n).length = w := by
  induction w generalizing n with
  | zero => rfl
  | succ w ih => simp [le_bytes, ih]

theorem le_value_le_bytes (w n : Nat) : le_value (le_bytes w n) = n % 256 ^ w := by
  induction w generalizing n with
  | zero => simp [le_bytes, le_value, Nat.mod_one]
  | succ w ih =>
    simp only [le_bytes, le_value, ih]
    rw [Nat.pow_succ, Nat.mul_comm (256 ^ w) 256, Nat.mod_mul]

theorem enc_u32_length (n : Nat) : (enc_u32 n).length = 4 := le_bytes_length 4 n

theorem enc_u64_length (n : Nat) : (enc_u64 n).length = 8 := le_bytes_length 8 n

theorem enc_i32_length (x : Int) : (enc_i32 x).length = 4 := le_bytes_length 4 _

theorem le_value_enc_u32 (n : Nat) (h : n < 4294967296) : le_value (enc_u32 n) = n := by
  unfold enc_u32
  rw [le_value_le_bytes]
  exact Nat.mod_eq_of_lt (by norm_num; exact h)

theorem le_value_enc_u64 (n : Nat) (h : n < 18446744073709551616) :
    le_value (enc_u64 n) = n := by
  unfold enc_u64
  rw [le_value_le_bytes]
  exact Nat.mod_eq_of_lt (by norm_num; exact h)

theorem dec_i32_enc_u32 (n : Nat) (h : n < 2147483648) : dec_i32 (enc_u32 n) = (n : Int) := by
  unfold dec_i32 to_i32
  rw [le_value_enc_u32 n (by omega)]
  have h1 : n % 4294967296 = n := Nat.mod_eq_of_lt (by omega)
  rw [h1, if_pos h]

theorem dec_i32_enc_i32 (x : Int) (h1 : -2147483648 ≤ x) (h2 : x < 2147483648) :
    dec_i32 (enc_i32 x) = x := by
  unfold dec_i32 enc_i32 to_i32
  rw [le_value_le_bytes]
  have e : (256 : Nat) ^ 4 = 4294967296 := by norm_num
  rw [e]
  unfold to_u32
  have hm : (x % 4294967296).toNat % 4294967296 % 4294967296 = (x % 4294967296).toNat := by
    omega
  rw [hm]
  split <;> omega

/-! ## Page-batch markers -/

theorem batch_marker_decode (mode : compress_mode) (single_page : Bool) (count : Nat)
    (h1 : 1 ≤ count) (h2 : count ≤ MAX_BATCH_SIZE) :
    uxenvm_load_batch_decode (dec_i32 (enc_u32 (batch_marker mode single_page count))) =
      .ok ((count : Int), decide (mode = VM_SAVE_COMPRESS_LZ4),
        decide (mode = VM_SAVE_COMPRESS_LZ4) && single_page) := by
  have hb : batch_marker mode single_page count < 2147483648 := by
    unfold batch_marker MAX_BATCH_SIZE at *
    cases mode <;> cases single_page <;> simp <;> omega
  rw [dec_i32_enc_u32 _ hb]
  clear hb
  unfold uxenvm_load_batch_decode batch_marker to_u32 MAX_BATCH_SIZE at *
  cases mode <;> cases single_page <;> simp
  all_goals (split_ifs <;> first | omega | simp)

theorem load_batch_ok (env : LoadEnv) (st : LoadState) (marker count : Int)
    (decompress single_page l p : Bool)
    (h : uxenvm_load_batch_decode marker = .ok (count, decompress, single_page)) :
    uxenvm_load_batch env st marker l p =
      { load_batch_setup st decompress count.toNat with
        io := uxenvm_load_readbatch env (load_batch_setup st decompress count.toNat).io
          count.toNat decompress single_page l p } := by
  unfold uxenvm_load_batch
  rw [h]

/-- C2: for every count in [1,1023] and every mode (raw, bulk LZ4, per-page
LZ4), the marker the save pipeline writes for the batch (`count`,
`count + 1023`, `count + 2 * 1023`), read back from its four bytes, is decoded
by `uxenvm_load_batch` to the same count with the flags
`(decompress, single_page)` equal to (0,0) for raw, (1,0) for bulk and (1,1)
for per-page, and these are the arguments of its call of
`uxenvm_load_readbatch`. -/
theorem C2_marker_roundtrip (env : LoadEnv) (st : LoadState) (mode : compress_mode)
    (single_page : Bool) (count : Nat) (l p : Bool)
    (h1 : 1 ≤ count) (h2 : count ≤ MAX_BATCH_SIZE) :
    uxenvm_load_batch_decode (dec_i32 (enc_u32 (batch_marker mode single_page count))) =
      .ok ((count : Int), decide (mode = VM_SAVE_COMPRESS_LZ4),
        decide (mode = VM_SAVE_COMPRESS_LZ4) && single_page) ∧
    uxenvm_load_batch env st (dec_i32 (enc_u32 (batch_marker mode single_page count))) l p =
      { load_batch_setup st (decide (mode = VM_SAVE_COMPRESS_LZ4)) count with
        io := uxenvm_load_readbatch env
          (load_batch_setup st (decide (mode = VM_SAVE_COMPRESS_LZ4)) count).io count
          (decide (mode = VM_SAVE_COMPRESS_LZ4))
          (decide (mode = VM_SAVE_COMPRESS_LZ4) && single_page) l p } := by
  have hd := batch_marker_decode mode single_page count h1 h2
  refine ⟨hd, ?_⟩
  rw [load_batch_ok env st _ _ _ _ l p hd]
  simp only [Int.toNat_ofNat]

/-- Witness of C2 at count 5 in per-page mode: the marker is 2051. -/
theorem C2_marker_roundtrip_witness :
    1 ≤ 5 ∧ 5 ≤ MAX_BATCH_SIZE ∧
    uxenvm_load_batch_decode (dec_i32 (enc_u32 (batch_marker VM_SAVE_COMPRESS_LZ4 true 5))) =
      .ok ((5 : Int), true, true) :=
  ⟨by decide, by decide,
    (C2_marker_roundtrip example_load_env (load_init example_globals [] VM_RESTORE_NORMAL)
      VM_SAVE_COMPRESS_LZ4 true 5 false false (by decide) (by decide)).1⟩

/-- C3: `uxenvm_load_batch` takes the `-EINVAL` exit of its range check exactly
when the marker, read as an unsigned 32-bit value, exceeds 3069; it then
returns `-EINVAL` with the file cursor, the pool and the trace of calls
untouched (no byte of the batch read, no pool buffer allocated). Every marker
in [1,3069] passes the check and decodes to a count in [1,1023]. -/
theorem C3_load_batch_range_check (env : LoadEnv) (st : LoadState) (marker : Int)
    (l p : Bool) :
    (uxenvm_load_batch_decode marker = .error (-EINVAL) ↔
      3 * MAX_BATCH_SIZE < to_u32 marker) ∧
    (3 * MAX_BATCH_SIZE < to_u32 marker →
      uxenvm_load_batch env st marker l p = { st with io := { st.io with ret := -EINVAL } }) ∧
    (1 ≤ marker ∧ marker ≤ 3 * (MAX_BATCH_SIZE : Int) →
      ∃ count decompress single_page,
        uxenvm_load_batch_decode marker = .ok (count, decompress, single_page) ∧
        1 ≤ count ∧ count ≤ (MAX_BATCH_SIZE : Int)) := by
  refine ⟨?_, ?_, ?_⟩
  · unfold uxenvm_load_batch_decode
    constructor
    · intro h
      by_contra hc
      rw [if_neg hc] at h
      split_ifs at h
    · intro h
      rw [if_pos h]
  · intro h
    unfold uxenvm_load_batch uxenvm_load_batch_decode
    rw [if_pos h]
  · rintro ⟨h1, h2⟩
    unfold uxenvm_load_batch_decode to_u32 MAX_BATCH_SIZE at *
    have hn : ¬ (3 * 1023 < (marker % 4294967296).toNat) := by omega
    rw [if_neg hn]
    split_ifs
    · exact ⟨_, _, _, rfl, by omega, by omega⟩
    · exact ⟨_, _, _, rfl, by omega, by omega⟩
    · exact ⟨_, _, _, rfl, by omega, by omega⟩

/-! ## The loader: version check, truncated records, unknown markers -/

theorem take_pad_eq_take (n : Nat) (l : List Nat) (h : n ≤ l.length) :
    take_pad n l = l.take n := by
  induction n generalizing l with
  | zero => simp [take_pad]
  | succ n ih =>
    cases l with
    | nil => simp at h
    | cons b bs =>
      simp only [take_pad, List.take_succ_cons]
      rw [ih bs (by simpa using h)]

theorem take_pad_length (n : Nat) (l : List Nat) : (take_pad n l).length = n := by
  induction n generalizing l with
  | zero => simp [take_pad]
  | succ n ih => cases l <;> simp [take_pad, ih]

theorem take_pad_eq_self (l : List Nat) : take_pad l.length l = l := by
  rw [take_pad_eq_take _ _ (Nat.le_refl _), List.take_length]

theorem field_zero (p : List Nat) (w : Nat) (h : p.length = w) : field p 0 w = le_value p := by
  unfold field buf_read
  subst h
  rw [List.drop_zero, take_pad_eq_self]

theorem filebuf_read_length (f : filebuf) (size : Nat) (h : f.pos + size ≤ f.data.length) :
    (filebuf_read f size).1.length = size := by
  unfold filebuf_read
  simp only [List.length_take, List.length_drop]
  omega

theorem load_out_ret (env : LoadEnv) (st : LoadState) : (load_out env st).io.ret = st.io.ret := by
  unfold load_out
  split <;> rfl

theorem ite_cases {α : Type} (P : α → Prop) (c : Prop) [Decidable c] (a b : α)
    (ha : P a) (hb : P b) : P (if c then a else b) := by
  split
  · exact ha
  · exact hb

/-- C7 (defect): a file that ends immediately after the marker of a fixed-size
record. The stream is the version record followed by the TSC-info marker;
`uxenvm_load_read_struct` reads zero bytes, `ret` is 0 at the label `out`, and
both `uxenvm_loadvm_execute` and `vm_load` report success. -/
theorem C7_truncated_record_reports_success :
    (uxenvm_loadvm_execute example_load_env example_globals
        (version_record ++ enc_i32 XC_SAVE_ID_TSC_INFO) VM_RESTORE_NORMAL).map
      (fun st => (st.io.ret, st.io.f.pos, st.io.trace)) = some (0, 12, []) ∧
    (vm_load example_load_env example_globals
        (some (version_record ++ enc_i32 XC_SAVE_ID_TSC_INFO)) VM_RESTORE_NORMAL).map
      (fun r => r.1) = some 0 := by
  constructor <;> decide

/-- C8 (counterexample): in Clone mode without a template uuid, the stream
"version record, marker -1" loads successfully: the clone hypercall is issued,
control goes to `skip_mem` and the unknown marker is never examined. -/
theorem C8_counterexample_clone :
    (-1 : Int) < 0 ∧ (-1 : Int) ∉ known_record_ids ∧
    (uxenvm_loadvm_execute example_load_env example_globals
        (version_record ++ enc_i32 (-1)) VM_RESTORE_CLONE).map
      (fun st => (st.io.ret, st.io.trace)) =
      some (0, [Event.clone_physmap, Event.mapcache_init]) := by
  refine ⟨by decide, by decide, by decide⟩

theorem to_i32_range (n : Nat) : -2147483648 ≤ to_i32 n ∧ to_i32 n < 2147483648 := by
  unfold to_i32
  split <;> omega

theorem load_batch_negative_marker (env : LoadEnv) (st : LoadState) (m : Int) (l p : Bool)
    (hneg : m < 0) (hlo : -2147483648 ≤ m) :
    uxenvm_load_batch env st m l p = { st with io := { st.io with ret := -EINVAL } } := by
  have h : 3 * MAX_BATCH_SIZE < to_u32 m := by
    unfold to_u32 MAX_BATCH_SIZE
    omega
  unfold uxenvm_load_batch uxenvm_load_batch_decode
  rw [if_pos h]

theorem load_switch_unknown (env : LoadEnv) (pc : Bool) (st : LoadState) (m : Int)
    (h : m ∉ known_record_ids) : load_switch env pc st m = load_default env pc st m := by
  simp only [known_record_ids, List.mem_cons, List.mem_singleton, not_or, List.mem_nil_iff,
    or_false] at h
  obtain ⟨h1, h2, h3, h4, h5, h6, h7, h8, h9, h10, h11, h12, h13, h14, h15, h16⟩ := h
  unfold load_switch
  rw [if_neg h1, if_neg h2, if_neg h3, if_neg h4, if_neg h5, if_neg h6, if_neg h7, if_neg h8,
    if_neg h9, if_neg h10, if_neg h11, if_neg h12, if_neg h13, if_neg h14, if_neg h15,
    if_neg h16]

theorem load_default_negative_marker (env : LoadEnv) (pc : Bool) (st : LoadState) (m : Int)
    (hneg : m < 0) (hlo : -2147483648 ≤ m)
    (hmode : st.restore_mode ≠ VM_RESTORE_CLONE ∨
      (st.g.vm_has_template_uuid = true ∧ 0 ≤ env.xc_domain_clone_physmap)) :
    ∃ st1, load_default env pc st m = (st1, ctl.out) ∧ st1.io.ret = -EINVAL := by
  unfold load_default uxenvm_check_restore_clone
  by_cases hc : st.restore_mode = VM_RESTORE_CLONE
  · rcases hmode with hm | ⟨hu, hp⟩
    · exact absurd hc hm
    · rw [if_pos hc]
      dsimp only
      rw [if_neg (by omega), hu]
      simp only [Bool.not_true, Bool.false_eq_true, if_false]
      rw [load_batch_negative_marker env _ m _ pc hneg hlo]
      exact ⟨_, by rw [if_pos (by simp [EINVAL])], rfl⟩
  · rw [if_neg hc]
    dsimp only
    rw [load_batch_negative_marker env _ m _ pc hneg hlo]
    exact ⟨_, by rw [if_pos (by simp [EINVAL])], rfl⟩

theorem load_default_clone_fails (env : LoadEnv) (pc : Bool) (st : LoadState) (m : Int)
    (hc : st.restore_mode = VM_RESTORE_CLONE) (hp : env.xc_domain_clone_physmap < 0) :
    ∃ st1, load_default env pc st m = (st1, ctl.out) ∧
      st1.io.ret = env.xc_domain_clone_physmap := by
  unfold load_default uxenvm_check_restore_clone
  rw [if_pos hc]
  dsimp only
  rw [if_pos hp]
  exact ⟨_, rfl, rfl⟩

theorem load_records_of_out (env : LoadEnv) (pc : Bool) (n : Nat) (st st1 : LoadState)
    (hq : env.vm_quit_interrupt st.polls = false)
    (h : load_record env pc { st with polls := st.polls + 1 } = (st1, ctl.out)) :
    load_records env pc (n + 1) st = some (load_out env st1) := by
  unfold load_records load_loop
  rw [hq]
  simp only [Bool.false_eq_true, if_false]
  rw [h]

theorem load_record_marker (env : LoadEnv) (pc : Bool) (st : LoadState)
    (hlen : st.io.f.pos + 4 ≤ st.io.f.data.length)
    (hnz : dec_i32 ((st.io.f.data.drop st.io.f.pos).take 4) ≠ 0) :
    load_record env pc st =
      load_switch env pc
        { st with io := { st.io with f := { st.io.f with pos := st.io.f.pos + 4 }, ret := 4 } }
        (dec_i32 ((st.io.f.data.drop st.io.f.pos).take 4)) := by
  have hl : ((st.io.f.data.drop st.io.f.pos).take 4).length = 4 := by
    simp only [List.length_take, List.length_drop]
    omega
  unfold load_record uxenvm_load_read filebuf_read
  dsimp only
  rw [if_neg (by rw [hl]; simp), if_neg hnz, hl]
  rfl

/-- C8 (amended): in every state of the record loop in which the next marker
is negative and not a known record id, `uxenvm_loadvm_execute` leaves the loop
through `out`: with `-EINVAL` when the restore mode is Normal or Template, or
Clone with a template uuid already set and a successful clone hypercall; with
the error of the clone hypercall when that fails in Clone mode. (A
first-generation clone, Clone mode without template uuid, instead jumps to
`skip_mem` without examining the marker.) -/
theorem C8_unknown_marker_rejected (env : LoadEnv) (pc : Bool) (n : Nat) (st : LoadState)
    (hq : env.vm_quit_interrupt st.polls = false)
    (hlen : st.io.f.pos + 4 ≤ st.io.f.data.length)
    (hneg : dec_i32 ((st.io.f.data.drop st.io.f.pos).take 4) < 0)
    (hunk : dec_i32 ((st.io.f.data.drop st.io.f.pos).take 4) ∉ known_record_ids) :
    (st.restore_mode ≠ VM_RESTORE_CLONE ∨
        (st.g.vm_has_template_uuid = true ∧ 0 ≤ env.xc_domain_clone_physmap) →
      ∃ st1, load_records env pc (n + 1) st = some st1 ∧ st1.io.ret = -EINVAL) ∧
    (st.restore_mode = VM_RESTORE_CLONE ∧ env.xc_domain_clone_physmap < 0 →
      ∃ st1, load_records env pc (n + 1) st = some st1 ∧
        st1.io.ret = env.xc_domain_clone_physmap ∧ st1.io.ret ≠ 0) := by
  have hlo := (to_i32_range (le_value ((st.io.f.data.drop st.io.f.pos).take 4))).1
  have hrec := load_record_marker env pc { st with polls := st.polls + 1 } hlen
    (by dsimp only; omega)
  rw [load_switch_unknown env pc _ _ hunk] at hrec
  constructor
  · intro hmode
    obtain ⟨st1, h1, h2⟩ := load_default_negative_marker env pc
      { st with polls := st.polls + 1,
                io := { st.io with f := { st.io.f with pos := st.io.f.pos + 4 }, ret := 4 } }
      _ hneg hlo hmode
    refine ⟨load_out env st1, load_records_of_out env pc n st st1 hq (hrec.trans h1), ?_⟩
    rw [load_out_ret, h2]
  · rintro ⟨hc, hp⟩
    obtain ⟨st1, h1, h2⟩ := load_default_clone_fails env pc
      { st with polls := st.polls + 1,
                io := { st.io with f := { st.io.f with pos := st.io.f.pos + 4 }, ret := 4 } }
      (dec_i32 ((st.io.f.data.drop st.io.f.pos).take 4)) hc hp
    refine ⟨load_out env st1, load_records_of_out env pc n st st1 hq (hrec.trans h1), ?_, ?_⟩
    · rw [load_out_ret, h2]
    · rw [load_out_ret, h2]
      omega

/-- Witness of C8 (amended): Normal mode, the first record marker is -1. -/
theorem C8_unknown_marker_rejected_witness :
    ∃ st1, load_records example_load_env false (0 + 1)
        (load_init example_globals (enc_i32 (-1)) VM_RESTORE_NORMAL) = some st1 ∧
      st1.io.ret = -EINVAL :=
  (C8_unknown_marker_rejected example_load_env false 0
    (load_init example_globals (enc_i32 (-1)) VM_RESTORE_NORMAL)
    rfl (by decide) (by decide) (by decide)).1 (Or.inl (by decide))

/-! ## Save: the trailer of the file -/

theorem zero_bitmap_record_length (lz4 : LZ4) (hc : Bool) (zb : List Nat) (n : Nat) :
    12 ≤ (zero_bitmap_record lz4 hc zb n).length := by
  unfold zero_bitmap_record
  simp only [List.length_append, enc_i32_length, enc_u32_length]
  omega

theorem write_pages_layout (env : SaveEnv) (info : vm_save_info) (f0 : List Nat)
    (hgp : 0 ≤ env.xc_domain_maximum_gpfn) (hna : not_aborted env) :
    ∃ pre,
      (uxenvm_savevm_write_pages env info f0).f =
        pre ++ page_offsets_record env.padding (uxenvm_savevm_write_pages env info f0).pfn_off
            (uxenvm_savevm_write_pages env info f0).pfn_off_nr ++
          enc_i32 0 ++ index_entry pre.length XC_SAVE_ID_PAGE_OFFSETS ∧
      (uxenvm_savevm_write_pages env info f0).page_offsets_offset = pre.length ∧
      12 ≤ pre.length := by
  unfold uxenvm_savevm_write_pages
  rw [if_neg (not_lt.mpr hgp)]
  simp only [(hna _).1, (hna _).2, Bool.not_false, Bool.and_self, if_true]
  refine ⟨_, rfl, rfl, ?_⟩
  rw [List.length_append]
  have := zero_bitmap_record_length env.lz4 info.high_compress
    (write_pages_loop env info (env.xc_domain_maximum_gpfn + 1).toNat
      (if env.vm_mem_mb <<< (20 - UXEN_PAGE_SHIFT) > env.K.PCI_HOLE_START_PFN then
        env.vm_mem_mb <<< (20 - UXEN_PAGE_SHIFT) +
          (env.K.PCI_HOLE_END_PFN - env.K.PCI_HOLE_START_PFN)
       else env.vm_mem_mb <<< (20 - UXEN_PAGE_SHIFT))
      ((env.xc_domain_maximum_gpfn + 1).toNat + 1)
      { f := f0, zero_bitmap := List.replicate (((env.xc_domain_maximum_gpfn + 1).toNat + 7) / 8) 0,
        pfn_off := fun _ => 0, gpfn_info_list := env.gpfn_info_list0, compress_size := 0,
        mem_pos := 0, total_pages := 0, pfn := 0, polls := 0, trace := [], log := [] }).zero_bitmap
    (((env.xc_domain_maximum_gpfn + 1).toNat + 7) / 8)
  omega

theorem index_entry_length (o : Nat) (m : Int) : (index_entry o m).length = 12 := by
  unfold index_entry
  rw [List.length_append, enc_u64_length, enc_i32_length]

theorem not_aborted_example : not_aborted example_save_env := fun _ => ⟨rfl, rfl⟩

/-- C9 (counterexample): in the file of a completed save the last four bytes
are the page-offsets marker of the index pointer, not the end marker; the end
marker is the four bytes before the 12-byte pointer. -/
theorem C9_counterexample_pointer_last :
    (uxenvm_savevm_write_pages example_save_env example_save_info version_record).f.drop
        ((uxenvm_savevm_write_pages example_save_env example_save_info version_record).f.length
          - 4) ≠ enc_i32 0 ∧
    ((uxenvm_savevm_write_pages example_save_env example_save_info version_record).f.drop
        ((uxenvm_savevm_write_pages example_save_env example_save_info version_record).f.length
          - 16)).take 4 = enc_i32 0 ∧
    (uxenvm_savevm_write_pages example_save_env example_save_info version_record).f.drop
        ((uxenvm_savevm_write_pages example_save_env example_save_info version_record).f.length
          - 12) =
      index_entry
        (uxenvm_savevm_write_pages example_save_env example_save_info
          version_record).page_offsets_offset XC_SAVE_ID_PAGE_OFFSETS := by
  decide!

/-- C9 (amended): in the file written by a non-aborted save, the 12-byte
`(offset, marker = page-offsets)` index pointer is the end of the file and is
placed immediately after the 4-byte end marker (value 0), which itself follows
the PageOffsetIndex record; the offset field of the pointer equals the file
position at which that record begins. -/
theorem C9_index_pointer_after_end_marker (env : SaveEnv) (info : vm_save_info)
    (f0 : List Nat) (hgp : 0 ≤ env.xc_domain_maximum_gpfn) (hna : not_aborted env)
    (hlen : (uxenvm_savevm_write_pages env info f0).f.length < 18446744073709551616) :
    ∃ pre,
      (uxenvm_savevm_write_pages env info f0).f =
        pre ++ page_offsets_record env.padding (uxenvm_savevm_write_pages env info f0).pfn_off
            (uxenvm_savevm_write_pages env info f0).pfn_off_nr ++
          enc_i32 0 ++ (enc_u64 pre.length ++ enc_i32 XC_SAVE_ID_PAGE_OFFSETS) ∧
      le_value (enc_u64 pre.length) = pre.length ∧
      (uxenvm_savevm_write_pages env info f0).page_offsets_offset = pre.length := by
  obtain ⟨pre, h1, h2, _⟩ := write_pages_layout env info f0 hgp hna
  refine ⟨pre, h1, ?_, h2⟩
  apply le_value_enc_u64
  rw [h1] at hlen
  simp only [List.length_append] at hlen
  omega

/-- Witness of C9 (amended): the eight-frame example save. -/
theorem C9_index_pointer_after_end_marker_witness :
    ∃ pre,
      (uxenvm_savevm_write_pages example_save_env example_save_info version_record).f =
        pre ++ page_offsets_record example_save_env.padding
            (uxenvm_savevm_write_pages example_save_env example_save_info version_record).pfn_off
            (uxenvm_savevm_write_pages example_save_env example_save_info
              version_record).pfn_off_nr ++
          enc_i32 0 ++ (enc_u64 pre.length ++ enc_i32 XC_SAVE_ID_PAGE_OFFSETS) ∧
      le_value (enc_u64 pre.length) = pre.length ∧
      (uxenvm_savevm_write_pages example_save_env example_save_info
        version_record).page_offsets_offset = pre.length :=
  C9_index_pointer_after_end_marker example_save_env example_save_info version_record
    (by decide) not_aborted_example (by decide!)

/-! ## The backward walk of the lazy loader -/

theorem filebuf_read_at (a d b : List Nat) (f : filebuf) (hf : f.data = a ++ d ++ b)
    (hp : f.pos = a.length) :
    filebuf_read f d.length = (d, { f with pos := a.length + d.length }) := by
  unfold filebuf_read
  rw [hf, hp, List.append_assoc, List.drop_left, List.take_left]

theorem buf_read_at (a d b : List Nat) : buf_read (a ++ d ++ b) a.length d.length = d := by
  unfold buf_read
  rw [List.append_assoc, List.drop_left, take_pad_eq_take _ _ (by simp), List.take_left]

theorem filebuf_seek_back (f : filebuf) (k : Nat) (h : k ≤ f.pos) :
    (filebuf_seek f (-(k : Int)) FILEBUF_SEEK_CUR).2 = { f with pos := f.pos - k } := by
  unfold filebuf_seek
  dsimp only
  rw [if_neg (by omega)]
  dsimp only
  congr 1
  omega

theorem filebuf_seek_end (f : filebuf) :
    (filebuf_seek f 0 FILEBUF_SEEK_END).2 = { f with pos := f.data.length } := by
  unfold filebuf_seek
  dsimp only
  rw [if_neg (by omega)]
  simp

theorem filebuf_seek_set (f : filebuf) (n : Nat) :
    (filebuf_seek f (n : Int) FILEBUF_SEEK_SET).2 = { f with pos := n } := by
  unfold filebuf_seek
  dsimp only
  rw [if_neg (by omega)]
  dsimp only
  congr 1
  omega

theorem enc_u64_list_length (l : List Nat) : (enc_u64_list l).length = l.length * 8 := by
  induction l with
  | nil => rfl
  | cons x xs ih =>
    simp only [enc_u64_list, List.length_append, enc_u64_length, ih, List.length_cons]
    omega

theorem dec_u64_list_enc (l : List Nat) (rest : List Nat) :
    dec_u64_list l.length (enc_u64_list l ++ rest) =
      l.map (fun x => x % 18446744073709551616) := by
  induction l with
  | nil => rfl
  | cons x xs ih =>
    simp only [enc_u64_list, List.length_cons, dec_u64_list, List.map_cons, List.append_assoc]
    rw [List.take_left' (enc_u64_length x), List.drop_left' (enc_u64_length x), ih]
    unfold enc_u64
    rw [le_value_le_bytes]
    norm_num

theorem page_offsets_record_length (pad : List Nat) (po : Nat → Nat) (nr : Nat) :
    (page_offsets_record pad po nr).length = 16 + nr * 8 := by
  unfold page_offsets_record
  simp only [List.length_append, enc_i32_length, enc_u32_length, take_pad_length,
    enc_u64_list_length, List.length_map, List.length_range]

/-- One iteration of the walk with the cursor just behind the 12 bytes `d`. -/
theorem lazy_index_walk_step (fb : filebuf) (n pos0 : Nat) (a d b : List Nat)
    (hf : fb.data = a ++ d ++ b) (hd : d.length = 12) (hp : fb.pos = a.length + 12) :
    lazy_index_walk (n + 1) fb pos0 =
      if dec_i32 (d.drop 8) = 0 then some (.ok pos0, { fb with pos := a.length + 12 })
      else lazy_index_walk n { fb with pos := a.length }
        (if dec_i32 (d.drop 8) = XC_SAVE_ID_PAGE_OFFSETS then le_value (d.take 8) else pos0) := by
  have hr := filebuf_read_at a d b { fb with pos := a.length } hf rfl
  rw [hd] at hr
  conv_lhs => unfold lazy_index_walk
  simp only [sizeof_xc_save_index]
  rw [filebuf_seek_back fb 12 (by omega), hp, Nat.add_sub_cancel, hr]
  simp only [hd, ne_eq, not_true_eq_false, if_false]
  split
  · rfl
  · rw [filebuf_seek_back _ 12 (by dsimp only; omega)]
    simp only [Nat.add_sub_cancel]

/-- The walk on a file that ends with `x ++ end marker ++ index pointer`, where
`x` has at least eight bytes: two iterations, the result is the offset of the
pointer. -/
theorem lazy_index_walk_trailer (x : List Nat) (off : Nat) (n : Nat) (hx : 8 ≤ x.length)
    (hoff : off < 18446744073709551616) :
    lazy_index_walk (n + 2)
        { data := x ++ enc_i32 0 ++ index_entry off XC_SAVE_ID_PAGE_OFFSETS,
          pos := x.length + 4 + 12 } 0 =
      some (.ok off,
        { data := x ++ enc_i32 0 ++ index_entry off XC_SAVE_ID_PAGE_OFFSETS,
          pos := x.length + 4 }) := by
  have hi : (index_entry off XC_SAVE_ID_PAGE_OFFSETS).length = 12 := index_entry_length _ _
  have hl1 : (x.take (x.length - 8)).length = x.length - 8 := by
    simp only [List.length_take]
    omega
  have hl2 : (x.drop (x.length - 8)).length = 8 := by
    simp only [List.length_drop]
    omega
  have hm1 : dec_i32 ((index_entry off XC_SAVE_ID_PAGE_OFFSETS).drop 8) =
      XC_SAVE_ID_PAGE_OFFSETS := by
    unfold index_entry
    rw [List.drop_left' (enc_u64_length off)]
    exact dec_i32_enc_i32 _ (by unfold XC_SAVE_ID_PAGE_OFFSETS; omega)
      (by unfold XC_SAVE_ID_PAGE_OFFSETS; omega)
  have hv1 : le_value ((index_entry off XC_SAVE_ID_PAGE_OFFSETS).take 8) = off := by
    unfold index_entry
    rw [List.take_left' (enc_u64_length off)]
    exact le_value_enc_u64 off hoff
  have hm2 : dec_i32 ((x.drop (x.length - 8) ++ enc_i32 0).drop 8) = 0 := by
    rw [List.drop_left' hl2]
    exact dec_i32_enc_i32 0 (by omega) (by omega)
  rw [lazy_index_walk_step _ (n + 1) 0 (x ++ enc_i32 0)
    (index_entry off XC_SAVE_ID_PAGE_OFFSETS) [] (by simp) hi
    (by simp [enc_i32_length])]
  rw [hm1, hv1, if_neg (by unfold XC_SAVE_ID_PAGE_OFFSETS; omega), if_pos rfl]
  rw [lazy_index_walk_step _ n off (x.take (x.length - 8))
    (x.drop (x.length - 8) ++ enc_i32 0) (index_entry off XC_SAVE_ID_PAGE_OFFSETS)
    (by
      dsimp only
      rw [← List.append_assoc (x.take (x.length - 8)), List.take_append_drop])
    (by rw [List.length_append, hl2, enc_i32_length])
    (by
      dsimp only
      rw [List.length_append, enc_i32_length, hl1]
      omega)]
  rw [hm2, if_pos rfl, hl1]
  have e : x.length - 8 + 12 = x.length + 4 := by omega
  rw [e]

theorem lazy_map_index_record (K : Consts) (pre pad rest : List Nat) (po : Nat → Nat)
    (nr pos0 : Nat) (hpre : pre.length ≠ 0) (hnr : nr < 4294967296) :
    lazy_map_index K
        { data := pre ++ page_offsets_record pad po nr ++ rest, pos := pos0 } pre.length =
      .ok (some
        { max_gpfn := if nr > K.PCI_HOLE_START_PFN then
              nr + (K.PCI_HOLE_END_PFN - K.PCI_HOLE_START_PFN)
            else nr,
          pfn_off := (List.range nr).map (fun k => po k % 18446744073709551616),
          fb := { data := pre ++ page_offsets_record pad po nr ++ rest,
                  pos := pre.length + 16 } }) := by
  have hentries : (enc_u64_list ((List.range nr).map po)).length = nr * 8 := by
    rw [enc_u64_list_length, List.length_map, List.length_range]
  have hdata : pre ++ page_offsets_record pad po nr ++ rest =
      pre ++ enc_i32 XC_SAVE_ID_PAGE_OFFSETS ++
        (enc_u32 (sizeof_xc_save_vm_page_offsets + nr * 8) ++ enc_u32 nr ++ take_pad 4 pad) ++
        (enc_u64_list ((List.range nr).map po) ++ rest) := by
    unfold page_offsets_record
    simp only [List.append_assoc]
  have hm := filebuf_read_at pre (enc_i32 XC_SAVE_ID_PAGE_OFFSETS)
    ((enc_u32 (sizeof_xc_save_vm_page_offsets + nr * 8) ++ enc_u32 nr ++ take_pad 4 pad) ++
      (enc_u64_list ((List.range nr).map po) ++ rest))
    { data := pre ++ page_offsets_record pad po nr ++ rest, pos := pre.length }
    (by rw [hdata]; simp only [List.append_assoc]) rfl
  rw [enc_i32_length] at hm
  have hhl : (enc_u32 (sizeof_xc_save_vm_page_offsets + nr * 8) ++ enc_u32 nr ++
      take_pad 4 pad).length = 12 := by
    simp only [List.length_append, enc_u32_length, take_pad_length]
  have hh := filebuf_read_at (pre ++ enc_i32 XC_SAVE_ID_PAGE_OFFSETS)
    (enc_u32 (sizeof_xc_save_vm_page_offsets + nr * 8) ++ enc_u32 nr ++ take_pad 4 pad)
    (enc_u64_list ((List.range nr).map po) ++ rest)
    { data := pre ++ page_offsets_record pad po nr ++ rest, pos := pre.length + 4 }
    hdata (by simp only [List.length_append, enc_i32_length])
  rw [hhl] at hh
  have hfield : field (enc_u32 (sizeof_xc_save_vm_page_offsets + nr * 8) ++ enc_u32 nr ++
      take_pad 4 pad) 4 4 = nr := by
    unfold field
    have := buf_read_at (enc_u32 (sizeof_xc_save_vm_page_offsets + nr * 8)) (enc_u32 nr)
      (take_pad 4 pad)
    rw [enc_u32_length, enc_u32_length] at this
    rw [this]
    exact le_value_enc_u32 nr hnr
  have hbuf : buf_read (pre ++ page_offsets_record pad po nr ++ rest)
      (pre.length + sizeof_xc_save_vm_page_offsets) (nr * 8) =
      enc_u64_list ((List.range nr).map po) := by
    have := buf_read_at (pre ++ enc_i32 XC_SAVE_ID_PAGE_OFFSETS ++
        (enc_u32 (sizeof_xc_save_vm_page_offsets + nr * 8) ++ enc_u32 nr ++ take_pad 4 pad))
      (enc_u64_list ((List.range nr).map po)) rest
    have hA : (pre ++ enc_i32 XC_SAVE_ID_PAGE_OFFSETS ++
        (enc_u32 (sizeof_xc_save_vm_page_offsets + nr * 8) ++ enc_u32 nr ++
          take_pad 4 pad)).length = pre.length + sizeof_xc_save_vm_page_offsets := by
      rw [List.length_append, List.length_append, enc_i32_length, hhl]
      rfl
    rw [hentries, hA] at this
    rw [hdata, ← List.append_assoc]
    exact this
  unfold lazy_map_index
  rw [if_pos hpre, filebuf_seek_set]
  dsimp only
  rw [hm]
  dsimp only
  rw [if_neg (by rw [enc_i32_length]; simp)]
  rw [if_neg (by
    rw [dec_i32_enc_i32 _ (by unfold XC_SAVE_ID_PAGE_OFFSETS; omega)
      (by unfold XC_SAVE_ID_PAGE_OFFSETS; omega)]
    simp)]
  have e12 : sizeof_xc_save_vm_page_offsets - sizeof_marker = 12 := rfl
  rw [e12, hh]
  dsimp only
  rw [if_neg (by rw [hhl]; simp), hfield, hbuf]
  have hd := dec_u64_list_enc ((List.range nr).map po) []
  rw [List.append_nil, List.length_map, List.length_range, List.map_map] at hd
  rw [hd]
  simp [Function.comp_def, Nat.add_assoc, enc_i32_length]

/-- C10: on every file produced by a non-aborted save the backward walk of the
lazy loader (seek to end of file; read the 12-byte `(offset, marker)` pair
ending at the cursor and step back 12 bytes; stop at a pair whose marker is 0)
ends after two iterations, for every bound of at least two, with
`page_offsets_pos` equal to the offset at which save wrote the page-offsets
record; the marker re-read there is the page-offsets marker, and the index
mapped at `page_offsets_pos + 16` consists of the `pfn_off_nr` entries that
save wrote. -/
theorem C10_backward_walk (env : SaveEnv) (info : vm_save_info) (f0 : List Nat)
    (pos0 fuel : Nat) (hgp : 0 ≤ env.xc_domain_maximum_gpfn) (hna : not_aborted env)
    (hlen : (uxenvm_savevm_write_pages env info f0).f.length < 18446744073709551616)
    (hnr : (uxenvm_savevm_write_pages env info f0).pfn_off_nr < 4294967296)
    (hfuel : 2 ≤ fuel) :
    lazy_index_walk fuel
        (filebuf_seek { data := (uxenvm_savevm_write_pages env info f0).f, pos := pos0 } 0
          FILEBUF_SEEK_END).2 0 =
      some (.ok (uxenvm_savevm_write_pages env info f0).page_offsets_offset,
        { data := (uxenvm_savevm_write_pages env info f0).f,
          pos := (uxenvm_savevm_write_pages env info f0).f.length - 12 }) ∧
    dec_i32 (((uxenvm_savevm_write_pages env info f0).f.drop
        (uxenvm_savevm_write_pages env info f0).page_offsets_offset).take 4) =
      XC_SAVE_ID_PAGE_OFFSETS ∧
    buf_read (uxenvm_savevm_write_pages env info f0).f
        ((uxenvm_savevm_write_pages env info f0).page_offsets_offset +
          sizeof_xc_save_vm_page_offsets)
        ((uxenvm_savevm_write_pages env info f0).pfn_off_nr * 8) =
      enc_u64_list ((List.range (uxenvm_savevm_write_pages env info f0).pfn_off_nr).map
        (uxenvm_savevm_write_pages env info f0).pfn_off) ∧
    ∃ lli, lazy_load_block env.K
        { data := (uxenvm_savevm_write_pages env info f0).f, pos := pos0 } fuel =
        some (.ok (some lli)) ∧
      lli.pfn_off = (List.range (uxenvm_savevm_write_pages env info f0).pfn_off_nr).map
        (fun k => (uxenvm_savevm_write_pages env info f0).pfn_off k % 18446744073709551616) ∧
      lli.fb.pos = (uxenvm_savevm_write_pages env info f0).page_offsets_offset +
        sizeof_xc_save_vm_page_offsets := by
  obtain ⟨pre, h1, h2, h3⟩ := write_pages_layout env info f0 hgp hna
  obtain ⟨n, rfl⟩ : ∃ n, fuel = n + 2 := ⟨fuel - 2, by omega⟩
  generalize uxenvm_savevm_write_pages env info f0 = r at *
  have hpl := page_offsets_record_length env.padding r.pfn_off r.pfn_off_nr
  have hflen : r.f.length = (pre ++ page_offsets_record env.padding r.pfn_off r.pfn_off_nr).length
      + 4 + 12 := by
    rw [h1]
    simp only [List.length_append, enc_i32_length, index_entry_length]
  have hoff : pre.length < 18446744073709551616 := by
    rw [hflen, List.length_append] at hlen
    omega
  have hwalk := lazy_index_walk_trailer
    (pre ++ page_offsets_record env.padding r.pfn_off r.pfn_off_nr) pre.length n
    (by rw [List.length_append, hpl]; omega) hoff
  have hmap := fun p => lazy_map_index_record env.K pre env.padding
    (enc_i32 0 ++ index_entry pre.length XC_SAVE_ID_PAGE_OFFSETS) r.pfn_off r.pfn_off_nr
    p (by omega) hnr
  have hwalk2 : lazy_index_walk (n + 2)
      (filebuf_seek { data := r.f, pos := pos0 } 0 FILEBUF_SEEK_END).2 0 =
      some (.ok pre.length, { data := r.f, pos := r.f.length - 12 }) := by
    rw [filebuf_seek_end]
    dsimp only
    rw [hflen, Nat.add_sub_cancel, h1]
    exact hwalk
  refine ⟨?_, ?_, ?_, ?_⟩
  · rw [h2]
    exact hwalk2
  · rw [h2, h1]
    unfold page_offsets_record
    simp only [List.append_assoc]
    rw [List.drop_left, List.take_left' (enc_i32_length _)]
    exact dec_i32_enc_i32 _ (by unfold XC_SAVE_ID_PAGE_OFFSETS; omega)
      (by unfold XC_SAVE_ID_PAGE_OFFSETS; omega)
  · rw [h2, h1]
    have hb := buf_read_at (pre ++ (enc_i32 XC_SAVE_ID_PAGE_OFFSETS ++
        enc_u32 (sizeof_xc_save_vm_page_offsets + r.pfn_off_nr * 8) ++
        enc_u32 r.pfn_off_nr ++ take_pad 4 env.padding))
      (enc_u64_list ((List.range r.pfn_off_nr).map r.pfn_off))
      (enc_i32 0 ++ index_entry pre.length XC_SAVE_ID_PAGE_OFFSETS)
    rw [enc_u64_list_length, List.length_map, List.length_range] at hb
    have hA : (pre ++ (enc_i32 XC_SAVE_ID_PAGE_OFFSETS ++
        enc_u32 (sizeof_xc_save_vm_page_offsets + r.pfn_off_nr * 8) ++
        enc_u32 r.pfn_off_nr ++ take_pad 4 env.padding)).length =
        pre.length + sizeof_xc_save_vm_page_offsets := by
      simp only [List.length_append, enc_i32_length, enc_u32_length, take_pad_length,
        sizeof_xc_save_vm_page_offsets]
    rw [hA] at hb
    unfold page_offsets_record
    simp only [List.append_assoc] at hb ⊢
    exact hb
  · unfold lazy_load_block
    dsimp only
    rw [hwalk2]
    dsimp only
    rw [h1, List.append_assoc, hmap]
    exact ⟨_, rfl, rfl, by rw [h2]; rfl⟩

/-- Witness of C10: the eight-frame example save. -/
theorem C10_backward_walk_witness :
    lazy_index_walk 2
        (filebuf_seek
          { data := (uxenvm_savevm_write_pages example_save_env example_save_info
              version_record).f, pos := 0 } 0 FILEBUF_SEEK_END).2 0 =
      some (.ok (uxenvm_savevm_write_pages example_save_env example_save_info
          version_record).page_offsets_offset,
        { data := (uxenvm_savevm_write_pages example_save_env example_save_info
            version_record).f,
          pos := (uxenvm_savevm_write_pages example_save_env example_save_info
            version_record).f.length - 12 }) :=
  (C10_backward_walk example_save_env example_save_info version_record 0 2 (by decide)
    not_aborted_example (by decide!) (by decide!) (Nat.le_refl 2)).1

/-! ## Save: classification of a captured batch -/

theorem set_bit_length (nr : Nat) (addr : List Nat) : (__set_bit nr addr).length = addr.length := by
  unfold __set_bit
  rw [List.length_set]

theorem test_bit_set_bit (k nr : Nat) (addr : List Nat) (h : nr / 8 < addr.length) :
    test_bit k (__set_bit nr addr) = (decide (k = nr) || test_bit k addr) := by
  unfold test_bit __set_bit
  by_cases hk : k / 8 = nr / 8
  · rw [hk]
    simp only [List.getD_eq_getElem?_getD, List.getElem?_set_self h, Option.getD_some,
      Nat.one_shiftLeft, Nat.testBit_or, Nat.testBit_two_pow]
    by_cases hm : nr % 8 = k % 8
    · have hkn : k = nr := by omega
      subst hkn
      simp
    · have hkn : k ≠ nr := by
        intro e
        exact hm (by rw [e])
      simp [hkn, hm]
  · have hkn : k ≠ nr := by
      intro e
      exact hk (by rw [e])
    simp only [List.getD_eq_getElem?_getD, hkn, decide_False, Bool.false_or]
    rw [List.getElem?_set_ne (Ne.symm hk)]

theorem test_bit_replicate_zero (k n : Nat) : test_bit k (List.replicate n 0) = false := by
  unfold test_bit
  simp only [List.getD_eq_getElem?_getD]
  by_cases h : k / 8 < n
  · rw [List.getElem?_replicate_of_lt h]
    simp
  · rw [List.getElem?_eq_none (by simp; omega)]
    simp

theorem classify_step_gl (fm : Bool) (mem : List Nat) (pfn j k : Nat) (s : classify_state) :
    (classify_step fm mem pfn j s).gpfn_info_list k =
      if k = j then { s.gpfn_info_list j with type := rescan_type mem (s.gpfn_info_list j) }
      else s.gpfn_info_list k := rfl

theorem classify_step_pfn_batch (fm : Bool) (mem : List Nat) (pfn j : Nat) (s : classify_state) :
    (classify_step fm mem pfn j s).pfn_batch =
      if rescan_type mem (s.gpfn_info_list j) = XENMEM_MCGI_TYPE_NORMAL then
        s.pfn_batch ++ [pfn + j]
      else s.pfn_batch := rfl

theorem classify_step_zero_bitmap (fm : Bool) (mem : List Nat) (pfn j : Nat)
    (s : classify_state) :
    (classify_step fm mem pfn j s).zero_bitmap =
      if rescan_type mem (s.gpfn_info_list j) = XENMEM_MCGI_TYPE_ZERO then
        __set_bit (pfn + j) s.zero_bitmap
      else s.zero_bitmap := rfl

theorem classify_gl (fm : Bool) (mem : List Nat) (pfn n j : Nat) (s : classify_state) (k : Nat) :
    (classify fm mem pfn n j s).gpfn_info_list k =
      if j ≤ k ∧ k < j + n then
        { s.gpfn_info_list k with type := rescan_type mem (s.gpfn_info_list k) }
      else s.gpfn_info_list k := by
  induction n generalizing j s with
  | zero =>
    unfold classify
    rw [if_neg (by omega)]
  | succ n ih =>
    unfold classify
    rw [ih, classify_step_gl]
    by_cases hk : k = j
    · subst hk
      rw [if_neg (by omega), if_pos rfl, if_pos (by omega)]
    · rw [if_neg hk]
      by_cases hc : j + 1 ≤ k ∧ k < j + 1 + n
      · rw [if_pos hc, if_pos (by omega)]
      · rw [if_neg hc, if_neg (by omega)]

theorem classify_zero_bitmap_length (fm : Bool) (mem : List Nat) (pfn n j : Nat)
    (s : classify_state) :
    (classify fm mem pfn n j s).zero_bitmap.length = s.zero_bitmap.length := by
  induction n generalizing j s with
  | zero => rfl
  | succ n ih =>
    unfold classify
    rw [ih, classify_step_zero_bitmap]
    split
    · exact set_bit_length _ _
    · rfl

theorem classify_mem_pfn_batch (fm : Bool) (mem : List Nat) (pfn n j : Nat)
    (s : classify_state) (g : Nat) :
    g ∈ (classify fm mem pfn n j s).pfn_batch ↔
      g ∈ s.pfn_batch ∨ ∃ k, j ≤ k ∧ k < j + n ∧ g = pfn + k ∧
        rescan_type mem (s.gpfn_info_list k) = XENMEM_MCGI_TYPE_NORMAL := by
  induction n generalizing j s with
  | zero =>
    unfold classify
    constructor
    · exact Or.inl
    · rintro (h | ⟨k, h1, h2, _⟩)
      · exact h
      · omega
  | succ n ih =>
    unfold classify
    rw [ih, classify_step_pfn_batch]
    constructor
    · rintro (h | ⟨k, h1, h2, h3, h4⟩)
      · split at h
        · rename_i hn
          rcases List.mem_append.mp h with h | h
          · exact Or.inl h
          · rw [List.mem_singleton] at h
            exact Or.inr ⟨j, Nat.le_refl _, by omega, h, hn⟩
        · exact Or.inl h
      · rw [classify_step_gl, if_neg (by omega)] at h4
        exact Or.inr ⟨k, by omega, by omega, h3, h4⟩
    · rintro (h | ⟨k, h1, h2, h3, h4⟩)
      · left
        split
        · exact List.mem_append.mpr (Or.inl h)
        · exact h
      · by_cases hk : k = j
        · subst hk
          left
          rw [if_pos h4]
          exact List.mem_append.mpr (Or.inr (by rw [List.mem_singleton]; exact h3))
        · right
          refine ⟨k, by omega, by omega, h3, ?_⟩
          rw [classify_step_gl, if_neg hk]
          exact h4

theorem classify_test_bit (fm : Bool) (mem : List Nat) (pfn n j : Nat) (s : classify_state)
    (hin : ∀ k, j ≤ k → k < j + n → (pfn + k) / 8 < s.zero_bitmap.length) (g : Nat) :
    test_bit g (classify fm mem pfn n j s).zero_bitmap = true ↔
      test_bit g s.zero_bitmap = true ∨ ∃ k, j ≤ k ∧ k < j + n ∧ g = pfn + k ∧
        rescan_type mem (s.gpfn_info_list k) = XENMEM_MCGI_TYPE_ZERO := by
  induction n generalizing j s with
  | zero =>
    unfold classify
    constructor
    · exact Or.inl
    · rintro (h | ⟨k, h1, h2, _⟩)
      · exact h
      · omega
  | succ n ih =>
    unfold classify
    have hlen : (classify_step fm mem pfn j s).zero_bitmap.length = s.zero_bitmap.length := by
      rw [classify_step_zero_bitmap]
      split
      · exact set_bit_length _ _
      · rfl
    rw [ih (j + 1) (classify_step fm mem pfn j s)
      (fun k h1 h2 => by rw [hlen]; exact hin k (by omega) (by omega))]
    have hstep : test_bit g (classify_step fm mem pfn j s).zero_bitmap = true ↔
        test_bit g s.zero_bitmap = true ∨
          (g = pfn + j ∧ rescan_type mem (s.gpfn_info_list j) = XENMEM_MCGI_TYPE_ZERO) := by
      rw [classify_step_zero_bitmap]
      split
      · rename_i hz
        rw [test_bit_set_bit _ _ _ (hin j (Nat.le_refl _) (by omega))]
        simp only [Bool.or_eq_true, decide_eq_true_eq]
        constructor
        · rintro (h | h)
          · exact Or.inr ⟨h, hz⟩
          · exact Or.inl h
        · rintro (h | ⟨h, _⟩)
          · exact Or.inr h
          · exact Or.inl h
      · rename_i hz
        constructor
        · exact Or.inl
        · rintro (h | ⟨_, h⟩)
          · exact h
          · exact absurd h hz
    rw [hstep]
    constructor
    · rintro ((h | ⟨h, hz⟩) | ⟨k, h1, h2, h3, h4⟩)
      · exact Or.inl h
      · exact Or.inr ⟨j, Nat.le_refl _, by omega, h, hz⟩
      · rw [classify_step_gl, if_neg (by omega)] at h4
        exact Or.inr ⟨k, by omega, by omega, h3, h4⟩
    · rintro (h | ⟨k, h1, h2, h3, h4⟩)
      · exact Or.inl (Or.inl h)
      · by_cases hk : k = j
        · subst hk
          exact Or.inl (Or.inr ⟨h3, h4⟩)
        · right
          refine ⟨k, by omega, by omega, h3, ?_⟩
          rw [classify_step_gl, if_neg hk]
          exact h4

theorem take_pad_add (m n : Nat) (l : List Nat) :
    take_pad (m + n) l = take_pad m l ++ take_pad n (l.drop m) := by
  induction m generalizing l with
  | zero => simp [take_pad]
  | succ m ih =>
    rw [Nat.succ_add]
    cases l with
    | nil =>
      have h := ih []
      simp only [List.drop_nil] at h
      simp only [take_pad, List.drop_nil, List.cons_append, h]
    | cons b bs => simp only [take_pad, List.drop_succ_cons, List.cons_append, ih bs]

theorem page_words_length (n : Nat) (bs : List Nat) : (page_words n bs).length = n := by
  induction n generalizing bs with
  | zero => rfl
  | succ n ih => simp [page_words, ih]

theorem page_words_zero (n : Nat) (bs : List Nat)
    (h : take_pad (8 * n) bs = List.replicate (8 * n) 0) :
    page_words n bs = List.replicate n 0 := by
  induction n generalizing bs with
  | zero => rfl
  | succ n ih =>
    have e : 8 * (n + 1) = 8 + 8 * n := by ring
    rw [e, take_pad_add, List.replicate_add] at h
    obtain ⟨h1, h2⟩ := List.append_inj h (by simp [take_pad_length])
    unfold page_words
    rw [h1, ih _ h2, List.replicate_succ]
    rfl

theorem zero_scan_replicate (n i : Nat) : zero_scan (List.replicate n 0) i = i + n := by
  induction n generalizing i with
  | zero => rfl
  | succ n ih =>
    rw [List.replicate_succ]
    unfold zero_scan
    rw [if_pos rfl, ih]
    omega

theorem zero_scan_short (ws : List Nat) (i : Nat) (h : zero_scan ws i ≠ i + ws.length) :
    ∃ w ∈ ws, w ≠ 0 := by
  induction ws generalizing i with
  | nil => exact absurd rfl h
  | cons w ws ih =>
    by_cases hw : w = 0
    · unfold zero_scan at h
      rw [if_pos hw] at h
      obtain ⟨x, hx, hx0⟩ := ih (i + 1) (by rw [List.length_cons] at h; omega)
      exact ⟨x, List.mem_cons_of_mem _ hx, hx0⟩
    · exact ⟨w, List.mem_cons_self _ _, hw⟩

/-- A page whose 4096 bytes are zero passes the zero test of the rescan. -/
theorem page_is_zero_of_zero_bytes (mem : List Nat) (off : Nat)
    (h : buf_read mem off PAGE_SIZE = List.replicate PAGE_SIZE 0) :
    page_is_zero mem off = true := by
  unfold page_is_zero
  have e : PAGE_SIZE >>> 3 = 512 := by decide
  rw [e, page_words_zero 512 _ h, zero_scan_replicate]
  rfl

/-- A page that fails the zero test has a non-zero 64-bit word. -/
theorem nonzero_word_of_not_zero (mem : List Nat) (off : Nat)
    (h : page_is_zero mem off = false) :
    ∃ w ∈ page_words (PAGE_SIZE >>> 3) (mem.drop off), w ≠ 0 := by
  unfold page_is_zero at h
  refine zero_scan_short _ 0 ?_
  rw [page_words_length, Nat.zero_add]
  exact of_decide_eq_false h

theorem rescan_type_normal (mem : List Nat) (e : gpfn_info) :
    rescan_type mem e = XENMEM_MCGI_TYPE_NORMAL ↔
      e.type = XENMEM_MCGI_TYPE_NORMAL ∧ page_is_zero mem e.offset = false := by
  unfold rescan_type
  by_cases ht : e.type = XENMEM_MCGI_TYPE_NORMAL <;> cases hz : page_is_zero mem e.offset <;>
    simp [ht]

theorem rescan_type_zero_page (mem : List Nat) (e : gpfn_info)
    (ht : e.type = XENMEM_MCGI_TYPE_NORMAL) (hz : page_is_zero mem e.offset = true) :
    rescan_type mem e = XENMEM_MCGI_TYPE_ZERO := by
  unfold rescan_type
  simp [ht, hz]

/-! ## Save: the runs of a batch -/

theorem scan_normal_ge (gl : Nat → gpfn_info) (rem j : Nat) : j ≤ scan_normal gl rem j := by
  induction rem generalizing j with
  | zero => exact Nat.le_refl _
  | succ rem ih =>
    unfold scan_normal
    split
    · exact Nat.le_trans (Nat.le_succ j) (ih (j + 1))
    · exact Nat.le_refl _

theorem scan_normal_spec (gl : Nat → gpfn_info) (rem j k : Nat) (h1 : j ≤ k)
    (h2 : k < scan_normal gl rem j) : (gl k).type = XENMEM_MCGI_TYPE_NORMAL := by
  induction rem generalizing j with
  | zero =>
    unfold scan_normal at h2
    omega
  | succ rem ih =>
    unfold scan_normal at h2
    split at h2
    · rename_i hn
      by_cases hk : k = j
      · rw [hk]
        exact hn
      · exact ih (j + 1) (by omega) h2
    · omega

theorem compress_run_single_page_runs (lz4 : LZ4) (K : Consts) (info : vm_save_info)
    (max_gpfn : Nat) (mem : List Nat) (gl : Nat → gpfn_info) (pfn run n i : Nat)
    (s : batch_state) :
    (compress_run_single_page lz4 K info max_gpfn mem gl pfn run n i s).runs = s.runs := by
  induction n generalizing i s with
  | zero => rfl
  | succ n ih =>
    unfold compress_run_single_page
    rw [ih]
    rfl

theorem write_run_runs (lz4 : LZ4) (K : Consts) (info : vm_save_info) (max_gpfn : Nat)
    (mem : List Nat) (gl : Nat → gpfn_info) (pfn run b_run : Nat) (s : batch_state) :
    (write_run lz4 K info max_gpfn mem gl pfn run b_run s).runs = s.runs ++ [(run, b_run)] := by
  unfold write_run
  cases hm : info.compress_mode
  · rfl
  · cases hs : info.single_page
    · rfl
    · simp only [if_true]
      rw [compress_run_single_page_runs]

theorem finish_batch_runs (lz4 : LZ4) (info : vm_save_info) (s : batch_state) :
    (finish_batch lz4 info s).runs = s.runs := by
  unfold finish_batch
  cases hm : info.compress_mode
  · rfl
  · cases hs : info.single_page <;> rfl

/-- Every run handed to the writer by the run loop consists of entries whose
type is Normal. -/
theorem run_loop_runs (lz4 : LZ4) (K : Consts) (info : vm_save_info) (max_gpfn : Nat)
    (mem : List Nat) (gl : Nat → gpfn_info) (pfn batch n j : Nat) (s : batch_state)
    (p : Nat × Nat) (hp : p ∈ (run_loop lz4 K info max_gpfn mem gl pfn batch n j s).runs) :
    p ∈ s.runs ∨ ∀ k, p.1 ≤ k → k < p.1 + p.2 → (gl k).type = XENMEM_MCGI_TYPE_NORMAL := by
  induction n generalizing j s with
  | zero => exact Or.inl hp
  | succ n ih =>
    unfold run_loop at hp
    split at hp
    · rcases ih _ _ hp with h | h
      · split at h
        · rw [write_run_runs] at h
          rcases List.mem_append.mp h with h | h
          · exact Or.inl h
          · rw [List.mem_singleton] at h
            right
            intro k hk1 hk2
            rw [h] at hk1 hk2
            have hge := scan_normal_ge gl
              (batch - scan_not_normal gl (batch - j) j) (scan_not_normal gl (batch - j) j)
            have hk1' : scan_not_normal gl (batch - j) j ≤ k := hk1
            have hk2' : k < scan_not_normal gl (batch - j) j +
                (scan_normal gl (batch - scan_not_normal gl (batch - j) j)
                  (scan_not_normal gl (batch - j) j) - scan_not_normal gl (batch - j) j) := hk2
            exact scan_normal_spec gl (batch - scan_not_normal gl (batch - j) j) _ k hk1'
              (by omega)
        · exact Or.inl h
      · exact Or.inr h
    · exact Or.inl hp

theorem fill_batch_bound (p2m_size pfn n batch : Nat) (h : pfn + batch ≤ p2m_size) :
    pfn + fill_batch p2m_size pfn n batch ≤ p2m_size := by
  induction n generalizing batch with
  | zero => exact h
  | succ n ih =>
    unfold fill_batch
    split
    · exact ih _ (by omega)
    · exact h

/-- The fields of the state after one iteration of the page loop that matter
for the partition of the frames: the position, the bitmap, and the entry
appended to the log. -/
theorem save_batch_fields (env : SaveEnv) (info : vm_save_info) (p2m_size max_gpfn : Nat)
    (s : save_state) :
    let batch := fill_batch p2m_size s.pfn MAX_BATCH_SIZE 0
    let cap := env.xc_domain_memory_capture s.pfn batch info.free_mem
    let gl0 : Nat → gpfn_info := fun j =>
      if j < cap.batch_done then cap.info.getD j (s.gpfn_info_list j) else s.gpfn_info_list j
    let c := classify info.free_mem cap.mem_buffer s.pfn cap.batch_done 0
      { gpfn_info_list := gl0, pfn_batch := [], zero_bitmap := s.zero_bitmap,
        rezero_pfns := [], rezero := 0, _zero := 0, clone := 0 }
    (save_batch env info p2m_size max_gpfn s).pfn = s.pfn + batch ∧
    (save_batch env info p2m_size max_gpfn s).zero_bitmap = c.zero_bitmap ∧
    ∃ e : batch_log, (save_batch env info p2m_size max_gpfn s).log = s.log ++ [e] ∧
      e.pfn = s.pfn ∧ e.batch = batch ∧ e.capture = cap ∧ e.captured = gl0 ∧
      e.classified = c.gpfn_info_list ∧ e.pfn_batch = c.pfn_batch ∧
      ∀ p ∈ e.runs, ∀ k, p.1 ≤ k → k < p.1 + p.2 →
        (c.gpfn_info_list k).type = XENMEM_MCGI_TYPE_NORMAL := by
  intro batch cap gl0 c
  unfold save_batch
  simp only
  split
  · refine ⟨rfl, rfl, _, rfl, rfl, rfl, rfl, rfl, rfl, rfl, ?_⟩
    intro p hp
    simp only [finish_batch_runs] at hp
    rcases run_loop_runs _ _ _ _ _ _ _ _ _ _ _ p hp with h | h
    · exact absurd h (List.not_mem_nil p)
    · exact h
  · rename_i h0
    refine ⟨rfl, rfl, _, rfl, rfl, rfl, rfl, rfl, rfl, ?_, ?_⟩
    · exact (List.length_eq_zero.mp (not_not.mp h0)).symm
    · intro p hp
      exact absurd hp (List.not_mem_nil p)

theorem save_batch_inv (env : SaveEnv) (info : vm_save_info) (p2m_size max_gpfn : Nat)
    (s : save_state)
    (hdone : ∀ pfn batch r, (env.xc_domain_memory_capture pfn batch r).batch_done ≤ batch)
    (h : save_inv p2m_size s) : save_inv p2m_size (save_batch env info p2m_size max_gpfn s) := by
  obtain ⟨hpfn, hlen, hclear, hlog⟩ := h
  obtain ⟨h1, h2, e, h3, he1, he2, he3, he4, he5, he6, he7⟩ :=
    save_batch_fields env info p2m_size max_gpfn s
  have hb := fill_batch_bound p2m_size s.pfn MAX_BATCH_SIZE 0 hpfn
  have hd := hdone s.pfn (fill_batch p2m_size s.pfn MAX_BATCH_SIZE 0) info.free_mem
  generalize fill_batch p2m_size s.pfn MAX_BATCH_SIZE 0 = batch at h1 he2 he3 he4 he5 he6 he7 hb hd h2
  generalize env.xc_domain_memory_capture s.pfn batch info.free_mem = cap
    at he3 he4 he5 he6 he7 hd h2
  generalize hgl0 : (fun j => if j < cap.batch_done then cap.info.getD j (s.gpfn_info_list j)
    else s.gpfn_info_list j) = gl0 at he4 he5 he6 he7 h2
  have hin : ∀ k, 0 ≤ k → k < 0 + cap.batch_done → (s.pfn + k) / 8 < s.zero_bitmap.length := by
    intro k _ hk
    rw [hlen]
    omega
  have hbit := classify_test_bit info.free_mem cap.mem_buffer s.pfn cap.batch_done 0
    { gpfn_info_list := gl0, pfn_batch := [], zero_bitmap := s.zero_bitmap,
      rezero_pfns := [], rezero := 0, _zero := 0, clone := 0 } hin
  have hmem := classify_mem_pfn_batch info.free_mem cap.mem_buffer s.pfn cap.batch_done 0
    { gpfn_info_list := gl0, pfn_batch := [], zero_bitmap := s.zero_bitmap,
      rezero_pfns := [], rezero := 0, _zero := 0, clone := 0 }
  have hgl := classify_gl info.free_mem cap.mem_buffer s.pfn cap.batch_done 0
    { gpfn_info_list := gl0, pfn_batch := [], zero_bitmap := s.zero_bitmap,
      rezero_pfns := [], rezero := 0, _zero := 0, clone := 0 }
  have hzl := classify_zero_bitmap_length info.free_mem cap.mem_buffer s.pfn cap.batch_done 0
    { gpfn_info_list := gl0, pfn_batch := [], zero_bitmap := s.zero_bitmap,
      rezero_pfns := [], rezero := 0, _zero := 0, clone := 0 }
  generalize classify info.free_mem cap.mem_buffer s.pfn cap.batch_done 0
    { gpfn_info_list := gl0, pfn_batch := [], zero_bitmap := s.zero_bitmap,
      rezero_pfns := [], rezero := 0, _zero := 0, clone := 0 } = c
    at hbit hmem hgl hzl he5 he6 he7 h2
  simp only at hbit hmem hgl hzl
  have hfalse : ∀ g, test_bit g c.zero_bitmap = false ↔
      test_bit g s.zero_bitmap = false ∧ ∀ k, k < cap.batch_done → g = s.pfn + k →
        rescan_type cap.mem_buffer (gl0 k) ≠ XENMEM_MCGI_TYPE_ZERO := by
    intro g
    rw [← Bool.not_eq_true, hbit g, not_or, Bool.not_eq_true]
    constructor
    · rintro ⟨ha, hb⟩
      exact ⟨ha, fun k hk hg hz => hb ⟨k, Nat.zero_le _, by omega, hg, hz⟩⟩
    · rintro ⟨ha, hb⟩
      exact ⟨ha, fun ⟨k, _, hk, hg, hz⟩ => hb k (by omega) hg hz⟩
  refine ⟨by rw [h1]; exact hb, by rw [h2, hzl, hlen], ?_, ?_⟩
  · intro g hg
    rw [h1] at hg
    rw [h2, hfalse]
    exact ⟨hclear g (by omega), fun k hk hgk => by omega⟩
  · intro b hbm
    rw [h3] at hbm
    rw [h1, h2]
    rcases List.mem_append.mp hbm with hbm | hbm
    · obtain ⟨hlt, hp1, hp2⟩ := hlog b hbm
      refine ⟨by omega, ?_, ?_⟩
      · intro j hj ht hz
        obtain ⟨ha, hb2, hc⟩ := hp1 j hj ht hz
        exact ⟨(hbit _).mpr (Or.inl ha), hb2, hc⟩
      · intro g hg
        obtain ⟨j, hj, hgj, ht, hw, hcl⟩ := hp2 g hg
        refine ⟨j, hj, hgj, ht, hw, ?_⟩
        rw [hfalse]
        exact ⟨hcl, fun k hk hgk => by omega⟩
    · rw [List.mem_singleton] at hbm
      subst hbm
      unfold batch_partitioned
      rw [he1, he3, he4, he6]
      refine ⟨by omega, ?_, ?_⟩
      · intro j hj ht hz
        have hr := rescan_type_zero_page cap.mem_buffer (gl0 j) ht
          (page_is_zero_of_zero_bytes _ _ hz)
        refine ⟨(hbit _).mpr (Or.inr ⟨j, Nat.zero_le _, by omega, rfl, hr⟩), ?_, ?_⟩
        · rw [hmem]
          rintro (hn | ⟨k, _, hk, hgk, hn⟩)
          · exact absurd hn (List.not_mem_nil _)
          · have : k = j := by omega
            subst this
            rw [hr] at hn
            exact absurd hn (by decide)
        · intro p hp hcov
          have hn := he7 p hp j hcov.1 hcov.2
          rw [hgl j, if_pos ⟨Nat.zero_le _, by omega⟩] at hn
          simp only at hn
          rw [hr] at hn
          exact absurd hn (by decide)
      · intro g hg
        rw [hmem] at hg
        rcases hg with hn | ⟨k, _, hk, hgk, hn⟩
        · exact absurd hn (List.not_mem_nil _)
        · obtain ⟨ht, hz⟩ := (rescan_type_normal _ _).mp hn
          refine ⟨k, by omega, hgk, ht, nonzero_word_of_not_zero _ _ hz, ?_⟩
          rw [hfalse]
          refine ⟨hclear g (by omega), fun k2 hk2 hgk2 => ?_⟩
          have : k2 = k := by omega
          subst this
          rw [hn]
          decide

theorem write_pages_loop_inv (env : SaveEnv) (info : vm_save_info) (p2m_size max_gpfn n : Nat)
    (s : save_state)
    (hdone : ∀ pfn batch r, (env.xc_domain_memory_capture pfn batch r).batch_done ≤ batch)
    (h : save_inv p2m_size s) :
    save_inv p2m_size (write_pages_loop env info p2m_size max_gpfn n s) := by
  induction n generalizing s with
  | zero => exact h
  | succ n ih =>
    unfold write_pages_loop
    split
    · exact ih _ (save_batch_inv env info p2m_size max_gpfn _ hdone h)
    · exact h

theorem write_pages_partitioned (env : SaveEnv) (info : vm_save_info) (f0 : List Nat)
    (hdone : ∀ pfn batch r, (env.xc_domain_memory_capture pfn batch r).batch_done ≤ batch)
    (b : batch_log) (hb : b ∈ (uxenvm_savevm_write_pages env info f0).log) :
    batch_partitioned b (uxenvm_savevm_write_pages env info f0).zero_bitmap := by
  unfold uxenvm_savevm_write_pages at hb ⊢
  split at hb
  · exact absurd hb (List.not_mem_nil _)
  · rename_i hneg
    rw [if_neg hneg]
    refine ((write_pages_loop_inv env info _ _ _ _ hdone ?_).2.2.2 b hb).2
    refine ⟨Nat.zero_le _, List.length_replicate _ _, fun g _ => test_bit_replicate_zero g _, ?_⟩
    intro b hb
    exact absurd hb (List.not_mem_nil _)

/-- C4: when the capture never reports more entries than requested, in every
batch of a save each captured frame of type Normal whose 4096 bytes are all
zero has its bit set in the zero bitmap at the end of the save, is not in the
frame list of the batch and lies in none of the runs written as payload;
conversely each frame of a frame list is a captured Normal frame with a
non-zero 64-bit word, and its bit in the zero bitmap is clear. -/
theorem C4_zero_pages_only_in_bitmap (env : SaveEnv) (info : vm_save_info) (f0 : List Nat)
    (hdone : ∀ pfn batch r, (env.xc_domain_memory_capture pfn batch r).batch_done ≤ batch) :
    ∀ b ∈ (uxenvm_savevm_write_pages env info f0).log,
      (∀ j, j < b.capture.batch_done → (b.captured j).type = XENMEM_MCGI_TYPE_NORMAL →
        buf_read b.capture.mem_buffer (b.captured j).offset PAGE_SIZE =
          List.replicate PAGE_SIZE 0 →
        test_bit (b.pfn + j) (uxenvm_savevm_write_pages env info f0).zero_bitmap = true ∧
          b.pfn + j ∉ b.pfn_batch ∧ ∀ p ∈ b.runs, ¬ (p.1 ≤ j ∧ j < p.1 + p.2)) ∧
      (∀ g ∈ b.pfn_batch, ∃ j, j < b.capture.batch_done ∧ g = b.pfn + j ∧
        (b.captured j).type = XENMEM_MCGI_TYPE_NORMAL ∧
        (∃ w ∈ page_words (PAGE_SIZE >>> 3)
          (b.capture.mem_buffer.drop (b.captured j).offset), w ≠ 0) ∧
        test_bit g (uxenvm_savevm_write_pages env info f0).zero_bitmap = false) :=
  fun b hb => write_pages_partitioned env info f0 hdone b hb

/-- C4 at the three-frame guest, saved without compression: the capture fills
at most `batch` entries and the partition holds for its batch. -/
theorem C4_zero_pages_only_in_bitmap_witness :
    (∀ pfn batch r,
      (example_pages_env.xc_domain_memory_capture pfn batch r).batch_done ≤ batch) ∧
    ∀ b ∈ (uxenvm_savevm_write_pages example_pages_env example_save_info []).log,
      (∀ j, j < b.capture.batch_done → (b.captured j).type = XENMEM_MCGI_TYPE_NORMAL →
        buf_read b.capture.mem_buffer (b.captured j).offset PAGE_SIZE =
          List.replicate PAGE_SIZE 0 →
        test_bit (b.pfn + j)
            (uxenvm_savevm_write_pages example_pages_env example_save_info []).zero_bitmap =
              true ∧
          b.pfn + j ∉ b.pfn_batch ∧ ∀ p ∈ b.runs, ¬ (p.1 ≤ j ∧ j < p.1 + p.2)) ∧
      (∀ g ∈ b.pfn_batch, ∃ j, j < b.capture.batch_done ∧ g = b.pfn + j ∧
        (b.captured j).type = XENMEM_MCGI_TYPE_NORMAL ∧
        (∃ w ∈ page_words (PAGE_SIZE >>> 3)
          (b.capture.mem_buffer.drop (b.captured j).offset), w ≠ 0) ∧
        test_bit g
          (uxenvm_savevm_write_pages example_pages_env example_save_info []).zero_bitmap =
            false) :=
  ⟨fun _ batch _ => Nat.min_le_left batch 3,
    C4_zero_pages_only_in_bitmap example_pages_env example_save_info []
      (fun _ batch _ => Nat.min_le_left batch 3)⟩

/-! ## Round trip of a saved image -/

theorem read_length_bytes_encoded (q r acc : Nat) (rest : List Nat) (hr : r < 255) :
    read_length_bytes (List.replicate q 255 ++ r :: rest) acc =
      some (acc + q * 255 + r, rest) := by
  induction q generalizing acc with
  | zero =>
    simp only [List.replicate_zero, List.nil_append, read_length_bytes]
    rw [if_neg (by omega)]
    simp
  | succ q ih =>
    simp only [List.replicate_succ, List.cons_append, read_length_bytes, if_true]
    refine (ih (acc + 255)).trans ?_
    congr 2
    ring

/-- The literal-only codec satisfies the assumption made on LZ4: decompression
of a compressed block returns the block length and the original bytes. -/
theorem stored_lz4_inverse (src : List Nat) :
    stored_lz4.LZ4_decompress_fast (stored_lz4.LZ4_compress src) src.length =
      ((((stored_lz4.LZ4_compress src).length : Nat) : Int), src) := by
  show stored_decompress_fast (stored_compress src) src.length =
    ((((stored_compress src).length : Nat) : Int), src)
  unfold stored_compress
  by_cases h : src.length < 15
  · rw [if_pos h]
    unfold stored_decompress_fast
    simp only
    rw [if_neg (by omega), if_pos (by omega), if_pos ⟨by omega, Nat.le_refl _⟩]
    simp only [List.take_length, List.length_cons]
    congr 2
    omega
  · rw [if_neg h]
    unfold stored_decompress_fast lz4_length_bytes
    simp only [List.append_assoc, List.singleton_append]
    rw [if_neg (by decide), if_neg (by decide),
      read_length_bytes_encoded _ _ _ _ (Nat.mod_lt _ (by decide))]
    simp only
    have e : 15 + (src.length - 15) / 255 * 255 + (src.length - 15) % 255 = src.length := by
      have := Nat.div_add_mod (src.length - 15) 255
      omega
    rw [if_pos ⟨e, Nat.le_refl _⟩]
    simp only [List.take_length, List.length_cons, List.length_append, List.length_replicate]
    congr 2
    omega

/-- C1 (failing input): the three-frame guest saved without compression. Its
zero bitmap is the single byte `2`, which the literal-only codec cannot make
smaller, so the save stores the byte uncompressed; the loader hands that byte
to `LZ4_decompress_fast`, the load stops with `-EINVAL` after the page batch
was populated, `vm_load` returns -1, and the zero frame 1 is in no
demand-populate call. -/
theorem C1_raw_zero_bitmap_fails_load :
    (uxenvm_savevm_write_pages example_pages_env example_save_info version_record).zero_bitmap =
      [2] ∧
    (vm_load example_load_env example_globals
        (some (uxenvm_savevm_write_pages example_pages_env example_save_info version_record).f)
        VM_RESTORE_NORMAL).map
      (fun r => (r.1, r.2.map fun st => (st.io.ret, populated_frames st.io.trace))) =
      some (-1, some (-EINVAL, [[0]])) := by
  constructor <;> decide!

/-! ## Save: the page-offset index -/

theorem bytes_at_append (f x : List Nat) (o : Nat) (d : List Nat) (h : bytes_at f o d) :
    bytes_at (f ++ x) o d := by
  obtain ⟨h1, h2⟩ := h
  refine ⟨by rw [List.length_append]; omega, ?_⟩
  rw [List.drop_append_of_le_length (by omega),
    List.take_append_of_le_length (by rw [List.length_drop]; omega)]
  exact h2

theorem bytes_at_right (f x : List Nat) (o : Nat) (d : List Nat) (h : bytes_at x o d) :
    bytes_at (f ++ x) (f.length + o) d := by
  obtain ⟨h1, h2⟩ := h
  refine ⟨by rw [List.length_append]; omega, ?_⟩
  rw [List.drop_append]
  exact h2

theorem bytes_at_mid (a d c : List Nat) (o : Nat) (ho : a.length = o) :
    bytes_at (a ++ d ++ c) o d := by
  subst ho
  refine ⟨by simp only [List.length_append]; omega, ?_⟩
  rw [List.append_assoc, List.drop_left, List.take_left]

theorem bytes_at_split (f : List Nat) (o : Nat) (d : List Nat) (h : bytes_at f o d) :
    f = f.take o ++ d ++ f.drop (o + d.length) := by
  obtain ⟨_, h2⟩ := h
  have h3 := List.take_append_drop d.length (f.drop o)
  rw [h2, List.drop_drop] at h3
  rw [List.append_assoc, h3, List.take_append_drop]

theorem bytes_at_sub (f : List Nat) (o : Nat) (a d : List Nat) (h : bytes_at f o (a ++ d)) :
    bytes_at f (o + a.length) d := by
  have h1 := h.1
  rw [List.length_append] at h1
  have h3 := bytes_at_split f o (a ++ d) h
  rw [← List.append_assoc] at h3
  rw [h3]
  exact bytes_at_mid _ _ _ _ (by rw [List.length_append, List.length_take]; omega)

/-- Page `i` of a block of `n` pages read from a buffer. -/
theorem bytes_at_chunk (mem : List Nat) (off n i : Nat) (hi : i < n) :
    bytes_at (buf_read mem off (n <<< PAGE_SHIFT)) (i <<< PAGE_SHIFT)
      (buf_read mem (off + (i <<< PAGE_SHIFT)) PAGE_SIZE) := by
  unfold buf_read
  obtain ⟨r, hr⟩ : ∃ r, n = i + 1 + r := ⟨n - i - 1, by omega⟩
  subst hr
  have e : (i + 1 + r) <<< PAGE_SHIFT = i <<< PAGE_SHIFT + (PAGE_SIZE + r <<< PAGE_SHIFT) := by
    simp only [Nat.shiftLeft_eq, PAGE_SHIFT, PAGE_SIZE]
    ring
  rw [e, take_pad_add, take_pad_add, ← List.append_assoc, List.drop_drop]
  exact bytes_at_mid _ _ _ _ (take_pad_length _ _)

theorem poi_pfn_index_inj (K : Consts) (hK : K.PCI_HOLE_START_PFN ≤ K.PCI_HOLE_END_PFN)
    (m g1 g2 : Nat) (h1 : poi_valid_pfn K m g1 = true) (h2 : poi_valid_pfn K m g2 = true)
    (h : poi_pfn_index K g1 = poi_pfn_index K g2) : g1 = g2 := by
  unfold poi_valid_pfn at h1 h2
  unfold poi_pfn_index skip_pci_hole at h
  simp only [Bool.and_eq_true, Bool.or_eq_true, decide_eq_true_eq] at h1 h2
  split_ifs at h <;> omega

theorem slot_written_append (lz4 : LZ4) (info : vm_save_info) (f x : List Nat) (e : Nat)
    (page : List Nat) (h : slot_written lz4 info f e page) :
    slot_written lz4 info (f ++ x) e page := by
  obtain ⟨o, h1, h2⟩ := h
  exact ⟨o, h1, bytes_at_append f x o _ h2⟩

theorem index_run_raw_frame (K : Consts) (m pos pfn run n i : Nat) (po : Nat → Nat) (k : Nat)
    (h : ∀ t, i ≤ t → t < i + n → poi_valid_pfn K m (pfn + run + t) = true →
      poi_pfn_index K (pfn + run + t) ≠ k) :
    index_run_raw K m pos pfn run n i po k = po k := by
  induction n generalizing i po with
  | zero => rfl
  | succ n ih =>
    unfold index_run_raw
    rw [ih (i + 1) _ (fun t h1 h2 hv => h t (by omega) (by omega) hv)]
    split
    · rename_i hv
      unfold pfn_off_set
      rw [if_neg (fun hk => h i (Nat.le_refl _) (by omega) hv hk.symm)]
    · rfl

theorem index_run_raw_spec (K : Consts) (hK : K.PCI_HOLE_START_PFN ≤ K.PCI_HOLE_END_PFN)
    (m pos pfn run n i : Nat) (po : Nat → Nat) (t : Nat) (h1 : i ≤ t) (h2 : t < i + n)
    (hv : poi_valid_pfn K m (pfn + run + t) = true) :
    index_run_raw K m pos pfn run n i po (poi_pfn_index K (pfn + run + t)) =
      (pos + (t <<< PAGE_SHIFT)) % 18446744073709551616 := by
  induction n generalizing i po with
  | zero => omega
  | succ n ih =>
    unfold index_run_raw
    by_cases ht : t = i
    · subst ht
      rw [index_run_raw_frame K m pos pfn run n (t + 1) _ _ (fun t2 h3 _ hv2 heq => by
        have := poi_pfn_index_inj K hK m _ _ hv2 hv heq
        omega), if_pos hv]
      unfold pfn_off_set
      rw [if_pos rfl]
    · exact ih (i + 1) _ (by omega) (by omega)

theorem scan_not_normal_ge (gl : Nat → gpfn_info) (rem j : Nat) :
    j ≤ scan_not_normal gl rem j := by
  induction rem generalizing j with
  | zero => exact Nat.le_refl _
  | succ rem ih =>
    unfold scan_not_normal
    split
    · exact Nat.le_trans (Nat.le_succ j) (ih (j + 1))
    · exact Nat.le_refl _

theorem scan_not_normal_le (gl : Nat → gpfn_info) (rem j : Nat) :
    scan_not_normal gl rem j ≤ j + rem := by
  induction rem generalizing j with
  | zero => exact Nat.le_refl _
  | succ rem ih =>
    unfold scan_not_normal
    split
    · have := ih (j + 1)
      omega
    · omega

theorem scan_normal_le (gl : Nat → gpfn_info) (rem j : Nat) :
    scan_normal gl rem j ≤ j + rem := by
  induction rem generalizing j with
  | zero => exact Nat.le_refl _
  | succ rem ih =>
    unfold scan_normal
    split
    · have := ih (j + 1)
      omega
    · omega

theorem run_indexed_mono (lz4 : LZ4) (K : Consts)
    (hK : K.PCI_HOLE_START_PFN ≤ K.PCI_HOLE_END_PFN) (info : vm_save_info) (m : Nat)
    (mem : List Nat) (gl : Nat → gpfn_info) (pfn : Nat) (f x : List Nat) (po po2 : Nat → Nat)
    (run b_run pfn2 a b : Nat) (h : run_indexed lz4 K info m mem gl pfn f po run b_run)
    (hout : index_unchanged_outside K m pfn2 a b po po2) (hle : pfn + run + b_run ≤ pfn2 + a) :
    run_indexed lz4 K info m mem gl pfn (f ++ x) po2 run b_run := by
  intro i hi hv
  rw [hout _ (fun t h1 _ hvt heq => by
    have := poi_pfn_index_inj K hK m _ _ hvt hv heq
    omega)]
  exact slot_written_append _ _ _ _ _ _ (h i hi hv)

theorem index_unchanged_outside_refl (K : Consts) (m pfn a b : Nat) (po : Nat → Nat) :
    index_unchanged_outside K m pfn a b po po := fun _ _ => rfl

theorem index_unchanged_outside_trans (K : Consts) (m pfn a b c d a2 b2 : Nat)
    (po po2 po3 : Nat → Nat) (h1 : index_unchanged_outside K m pfn a b po po2)
    (h2 : index_unchanged_outside K m pfn c d po2 po3) (ha : a2 ≤ a) (hc : a2 ≤ c)
    (hb : b ≤ b2) (hd : d ≤ b2) : index_unchanged_outside K m pfn a2 b2 po po3 := by
  intro k hk
  rw [h2 k (fun t h3 h4 => hk t (by omega) (by omega)),
    h1 k (fun t h3 h4 => hk t (by omega) (by omega))]

/-- The run loop of a batch, for a writer step that keeps an invariant `Aux`,
extends the file image `V` and indexes the pages of its run: every run in the
list of runs is indexed in the final image. -/
theorem run_loop_indexed (lz4 : LZ4) (K : Consts)
    (hK : K.PCI_HOLE_START_PFN ≤ K.PCI_HOLE_END_PFN) (info : vm_save_info) (m : Nat)
    (mem : List Nat) (gl : Nat → gpfn_info) (pfn batch : Nat)
    (V : batch_state → List Nat) (Aux : batch_state → Prop)
    (hstep : ∀ s run b_run, Aux s →
      Aux (write_run lz4 K info m mem gl pfn run b_run s) ∧
      (∃ x, V (write_run lz4 K info m mem gl pfn run b_run s) = V s ++ x) ∧
      index_unchanged_outside K m pfn run (run + b_run) s.pfn_off
        (write_run lz4 K info m mem gl pfn run b_run s).pfn_off ∧
      run_indexed lz4 K info m mem gl pfn (V (write_run lz4 K info m mem gl pfn run b_run s))
        (write_run lz4 K info m mem gl pfn run b_run s).pfn_off run b_run)
    (n j : Nat) (s : batch_state) (hj : j ≤ batch) (haux : Aux s)
    (hpos : ∀ p ∈ s.runs, p.1 + p.2 ≤ j)
    (hinv : ∀ p ∈ s.runs, run_indexed lz4 K info m mem gl pfn (V s) s.pfn_off p.1 p.2) :
    Aux (run_loop lz4 K info m mem gl pfn batch n j s) ∧
    (∃ x, V (run_loop lz4 K info m mem gl pfn batch n j s) = V s ++ x) ∧
    index_unchanged_outside K m pfn j batch s.pfn_off
      (run_loop lz4 K info m mem gl pfn batch n j s).pfn_off ∧
    (∀ p ∈ (run_loop lz4 K info m mem gl pfn batch n j s).runs, p.1 + p.2 ≤ batch) ∧
    (∀ p ∈ (run_loop lz4 K info m mem gl pfn batch n j s).runs,
      run_indexed lz4 K info m mem gl pfn (V (run_loop lz4 K info m mem gl pfn batch n j s))
        (run_loop lz4 K info m mem gl pfn batch n j s).pfn_off p.1 p.2) := by
  induction n generalizing j s with
  | zero =>
    refine ⟨haux, ⟨[], (List.append_nil _).symm⟩, index_unchanged_outside_refl _ _ _ _ _ _,
      fun p hp => Nat.le_trans (hpos p hp) hj, hinv⟩
  | succ n ih =>
    unfold run_loop
    split
    · simp only
      have hr1 := scan_not_normal_ge gl (batch - j) j
      have hr2 := scan_not_normal_le gl (batch - j) j
      generalize scan_not_normal gl (batch - j) j = run at hr1 hr2 ⊢
      have hj1 := scan_normal_ge gl (batch - run) run
      have hj2 := scan_normal_le gl (batch - run) run
      generalize scan_normal gl (batch - run) run = j2 at hj1 hj2 ⊢
      have key : Aux (if run ≠ j2 then write_run lz4 K info m mem gl pfn run (j2 - run) s
            else s) ∧
          (∃ x, V (if run ≠ j2 then write_run lz4 K info m mem gl pfn run (j2 - run) s
            else s) = V s ++ x) ∧
          index_unchanged_outside K m pfn run j2 s.pfn_off
            (if run ≠ j2 then write_run lz4 K info m mem gl pfn run (j2 - run) s
              else s).pfn_off ∧
          (∀ p ∈ (if run ≠ j2 then write_run lz4 K info m mem gl pfn run (j2 - run) s
              else s).runs, p.1 + p.2 ≤ j2) ∧
          (∀ p ∈ (if run ≠ j2 then write_run lz4 K info m mem gl pfn run (j2 - run) s
              else s).runs,
            run_indexed lz4 K info m mem gl pfn
              (V (if run ≠ j2 then write_run lz4 K info m mem gl pfn run (j2 - run) s
                else s))
              (if run ≠ j2 then write_run lz4 K info m mem gl pfn run (j2 - run) s
                else s).pfn_off p.1 p.2) := by
        split
        · obtain ⟨a1, ⟨x, a2⟩, a3, a4⟩ := hstep s run (j2 - run) haux
          have e : run + (j2 - run) = j2 := by omega
          rw [e] at a3
          refine ⟨a1, ⟨x, a2⟩, a3, ?_, ?_⟩
          · intro p hp
            rw [write_run_runs] at hp
            rcases List.mem_append.mp hp with hp | hp
            · have := hpos p hp
              omega
            · rw [List.mem_singleton] at hp
              subst hp
              exact Nat.le_of_eq e
          · intro p hp
            rw [write_run_runs] at hp
            rcases List.mem_append.mp hp with hp | hp
            · rw [a2]
              exact run_indexed_mono lz4 K hK info m mem gl pfn _ x _ _ _ _ pfn run j2
                (hinv p hp) a3 (by have := hpos p hp; omega)
            · rw [List.mem_singleton] at hp
              subst hp
              exact a4
        · refine ⟨haux, ⟨[], (List.append_nil _).symm⟩,
            index_unchanged_outside_refl _ _ _ _ _ _, ?_, hinv⟩
          intro p hp
          have := hpos p hp
          omega
      obtain ⟨k1, ⟨x1, k2⟩, k3, k4, k5⟩ := key
      generalize (if run ≠ j2 then write_run lz4 K info m mem gl pfn run (j2 - run) s
        else s) = s1 at k1 k2 k3 k4 k5 ⊢
      obtain ⟨i1, ⟨x2, i2⟩, i3, i4, i5⟩ := ih j2 s1 (by omega) k1 k4 k5
      refine ⟨i1, ⟨x1 ++ x2, by rw [i2, k2, List.append_assoc]⟩, ?_, i4, i5⟩
      exact index_unchanged_outside_trans K m pfn run j2 j2 batch j batch _ _ _ k3 i3
        hr1 (by omega) (by omega) (Nat.le_refl _)
    · refine ⟨haux, ⟨[], (List.append_nil _).symm⟩, index_unchanged_outside_refl _ _ _ _ _ _,
        fun p hp => Nat.le_trans (hpos p hp) hj, hinv⟩

/-- One run written without compression: the block is appended to the file and
every page of the run with an index slot has its entry set to its position. -/
theorem write_run_raw_step (lz4 : LZ4) (K : Consts)
    (hK : K.PCI_HOLE_START_PFN ≤ K.PCI_HOLE_END_PFN) (info : vm_save_info) (m : Nat)
    (mem : List Nat) (gl : Nat → gpfn_info) (pfn : Nat)
    (hm : info.compress_mode = VM_SAVE_COMPRESS_NONE) (s : batch_state) (run b_run : Nat) :
    True ∧
    (∃ x, (write_run lz4 K info m mem gl pfn run b_run s).f = s.f ++ x) ∧
    index_unchanged_outside K m pfn run (run + b_run) s.pfn_off
      (write_run lz4 K info m mem gl pfn run b_run s).pfn_off ∧
    run_indexed lz4 K info m mem gl pfn (write_run lz4 K info m mem gl pfn run b_run s).f
      (write_run lz4 K info m mem gl pfn run b_run s).pfn_off run b_run := by
  have hf : (write_run lz4 K info m mem gl pfn run b_run s).f =
      s.f ++ buf_read mem (gl run).offset (b_run <<< PAGE_SHIFT) := by
    unfold write_run
    simp only [hm]
  have hp : (write_run lz4 K info m mem gl pfn run b_run s).pfn_off =
      index_run_raw K m s.f.length pfn run b_run 0 s.pfn_off := by
    unfold write_run
    simp only [hm]
  refine ⟨trivial, ⟨_, hf⟩, ?_, ?_⟩
  · intro k hk
    rw [hp]
    refine index_run_raw_frame K m _ pfn run b_run 0 _ k (fun t _ h2 hv heq => ?_)
    refine hk (run + t) (by omega) (by omega) ?_ ?_
    · rw [← Nat.add_assoc]
      exact hv
    · rw [← Nat.add_assoc]
      exact heq
  · intro i hi hv
    rw [hp, hf, index_run_raw_spec K hK m _ pfn run b_run 0 _ i (Nat.zero_le _) (by omega) hv]
    refine ⟨s.f.length + i <<< PAGE_SHIFT, ?_, ?_⟩
    · simp only [slot_tag, hm, Nat.add_zero]
    · simp only [slot_content, run_page, hm]
      exact bytes_at_right _ _ _ _ (bytes_at_chunk mem _ b_run i hi)

theorem buf_read_all (b : List Nat) (n : Nat) (h : b.length = n) : buf_read b 0 n = b := by
  subst h
  unfold buf_read
  rw [List.drop_zero, take_pad_eq_self]

theorem enc_u16_length (n : Nat) : (enc_u16 n).length = 2 := le_bytes_length 2 n

/-- One page of the per-page branch: length and data are appended to the
buffer and, when the page has an index slot, its entry is formed for them. -/
theorem compress_page_step_indexed (lz4 : LZ4) (K : Consts) (info : vm_save_info) (m : Nat)
    (mem : List Nat) (gl : Nat → gpfn_info) (pfn run i : Nat) (s : batch_state)
    (pre : List Nat) (hm : info.compress_mode = VM_SAVE_COMPRESS_LZ4)
    (h1 : s.compress_buf.length = s.compress_size) (h2 : s.mem_pos = pre.length) :
    ((compress_page_step lz4 K info m mem gl pfn run i s).compress_buf.length =
        (compress_page_step lz4 K info m mem gl pfn run i s).compress_size ∧
      (compress_page_step lz4 K info m mem gl pfn run i s).mem_pos = pre.length) ∧
    (∃ x, (compress_page_step lz4 K info m mem gl pfn run i s).compress_buf =
      s.compress_buf ++ x) ∧
    index_unchanged_outside K m pfn (run + i) (run + i + 1) s.pfn_off
      (compress_page_step lz4 K info m mem gl pfn run i s).pfn_off ∧
    (poi_valid_pfn K m (pfn + run + i) = true →
      slot_written lz4 info
        (pre ++ (compress_page_step lz4 K info m mem gl pfn run i s).compress_buf)
        ((compress_page_step lz4 K info m mem gl pfn run i s).pfn_off
          (poi_pfn_index K (pfn + run + i)))
        (run_page info mem gl run i)) := by
  have hb := buf_read_all s.compress_buf s.compress_size h1
  have hpl : (buf_read mem (gl (run + i)).offset PAGE_SIZE).length = PAGE_SIZE :=
    take_pad_length _ _
  have hrp : run_page info mem gl run i = buf_read mem (gl (run + i)).offset PAGE_SIZE := by
    simp only [run_page, hm]
  rw [hrp]
  obtain ⟨page, hpage⟩ : ∃ page, buf_read mem (gl (run + i)).offset PAGE_SIZE = page := ⟨_, rfl⟩
  rw [hpage] at hpl ⊢
  have hcb : (compress_page_step lz4 K info m mem gl pfn run i s).compress_buf =
      s.compress_buf ++ slot_content lz4 info page := by
    unfold compress_page_step
    simp only [hpage, hb, slot_content, hm, List.append_assoc, decide_eq_true_eq]
    by_cases hv : (uxenvm_compress_lz4 lz4 info.high_compress page).length ≥ PAGE_SIZE
    · simp only [hv, if_true]
    · simp only [hv, if_false]
  have hcs : (compress_page_step lz4 K info m mem gl pfn run i s).compress_size =
      s.compress_size + (slot_content lz4 info page).length := by
    unfold compress_page_step
    simp only [hpage, slot_content, hm, decide_eq_true_eq, sizeof_cs16]
    by_cases hv : (uxenvm_compress_lz4 lz4 info.high_compress page).length ≥ PAGE_SIZE
    · simp only [hv, if_true, List.length_append, enc_u16_length, hpl]
      omega
    · simp only [hv, if_false, List.length_append, enc_u16_length]
      omega
  have hpo : (compress_page_step lz4 K info m mem gl pfn run i s).pfn_off =
      if poi_valid_pfn K m (pfn + run + i) then
        pfn_off_set s.pfn_off (poi_pfn_index K (pfn + run + i))
          ((s.mem_pos + s.compress_size) + slot_tag lz4 info page)
      else s.pfn_off := by
    unfold compress_page_step
    simp only [hpage, slot_tag, hm, decide_eq_true_eq]
    by_cases hv : (uxenvm_compress_lz4 lz4 info.high_compress page).length ≥ PAGE_SIZE
    · simp only [hv, if_true]
    · have : (uxenvm_compress_lz4 lz4 info.high_compress page).length ≠ PAGE_SIZE := by omega
      simp only [hv, if_false, this]
  refine ⟨⟨?_, h2⟩, ⟨_, hcb⟩, ?_, ?_⟩
  · rw [hcb, hcs, List.length_append, h1]
  · intro k hk
    rw [hpo]
    split
    · rename_i hv
      unfold pfn_off_set
      rw [if_neg (fun hk2 => hk (run + i) (Nat.le_refl _) (by omega)
        (by rw [← Nat.add_assoc]; exact hv) (by rw [← Nat.add_assoc]; exact hk2.symm))]
    · rfl
  · intro hv
    rw [hpo, if_pos hv, hcb]
    refine ⟨pre.length + s.compress_buf.length, ?_, ?_⟩
    · unfold pfn_off_set
      rw [if_pos rfl, h2, h1]
    · rw [← List.append_assoc]
      have := bytes_at_mid (pre ++ s.compress_buf) (slot_content lz4 info page) []
        (pre.length + s.compress_buf.length) (List.length_append _ _)
      rw [List.append_nil] at this
      exact this

theorem compress_run_single_page_indexed (lz4 : LZ4) (K : Consts)
    (hK : K.PCI_HOLE_START_PFN ≤ K.PCI_HOLE_END_PFN) (info : vm_save_info) (m : Nat)
    (mem : List Nat) (gl : Nat → gpfn_info) (pfn run : Nat) (pre : List Nat)
    (hm : info.compress_mode = VM_SAVE_COMPRESS_LZ4) (n i : Nat) (s : batch_state)
    (h1 : s.compress_buf.length = s.compress_size) (h2 : s.mem_pos = pre.length) :
    ((compress_run_single_page lz4 K info m mem gl pfn run n i s).compress_buf.length =
        (compress_run_single_page lz4 K info m mem gl pfn run n i s).compress_size ∧
      (compress_run_single_page lz4 K info m mem gl pfn run n i s).mem_pos = pre.length) ∧
    (∃ x, (compress_run_single_page lz4 K info m mem gl pfn run n i s).compress_buf =
      s.compress_buf ++ x) ∧
    index_unchanged_outside K m pfn (run + i) (run + i + n) s.pfn_off
      (compress_run_single_page lz4 K info m mem gl pfn run n i s).pfn_off ∧
    (∀ t, i ≤ t → t < i + n → poi_valid_pfn K m (pfn + run + t) = true →
      slot_written lz4 info
        (pre ++ (compress_run_single_page lz4 K info m mem gl pfn run n i s).compress_buf)
        ((compress_run_single_page lz4 K info m mem gl pfn run n i s).pfn_off
          (poi_pfn_index K (pfn + run + t)))
        (run_page info mem gl run t)) := by
  induction n generalizing i s with
  | zero =>
    refine ⟨⟨h1, h2⟩, ⟨[], (List.append_nil _).symm⟩,
      index_unchanged_outside_refl _ _ _ _ _ _, fun t ha hb => ?_⟩
    omega
  | succ n ih =>
    unfold compress_run_single_page
    obtain ⟨⟨a1, a2⟩, ⟨x1, a3⟩, a4, a5⟩ :=
      compress_page_step_indexed lz4 K info m mem gl pfn run i s pre hm h1 h2
    generalize compress_page_step lz4 K info m mem gl pfn run i s = s1 at a1 a2 a3 a4 a5 ⊢
    obtain ⟨b1, ⟨x2, b3⟩, b4, b5⟩ := ih (i + 1) s1 a1 a2
    refine ⟨b1, ⟨x1 ++ x2, by rw [b3, a3, List.append_assoc]⟩, ?_, ?_⟩
    · exact index_unchanged_outside_trans K m pfn _ _ _ _ _ _ _ _ _ a4 b4
        (Nat.le_refl _) (by omega) (by omega) (by omega)
    · intro t ht1 ht2 hv
      by_cases ht : t = i
      · subst ht
        rw [b4 _ (fun t2 h3 _ hv2 heq => by
          rw [Nat.add_assoc] at hv heq
          have := poi_pfn_index_inj K hK m _ _ hv2 hv heq
          omega), b3, ← List.append_assoc]
        exact slot_written_append _ _ _ _ _ _ (a5 hv)
      · exact b5 t (by omega) (by omega) hv

/-- One run written in per-page mode, as seen in the image `pre ++ compress_buf`
of the file, where `pre` stands for the bytes before the payload. -/
theorem write_run_pp_step (lz4 : LZ4) (K : Consts)
    (hK : K.PCI_HOLE_START_PFN ≤ K.PCI_HOLE_END_PFN) (info : vm_save_info) (m : Nat)
    (mem : List Nat) (gl : Nat → gpfn_info) (pfn : Nat) (pre : List Nat)
    (hm : info.compress_mode = VM_SAVE_COMPRESS_LZ4) (hs : info.single_page = true)
    (s : batch_state) (run b_run : Nat)
    (haux : s.compress_buf.length = s.compress_size ∧ s.mem_pos = pre.length) :
    ((write_run lz4 K info m mem gl pfn run b_run s).compress_buf.length =
        (write_run lz4 K info m mem gl pfn run b_run s).compress_size ∧
      (write_run lz4 K info m mem gl pfn run b_run s).mem_pos = pre.length) ∧
    (∃ x, pre ++ (write_run lz4 K info m mem gl pfn run b_run s).compress_buf =
      (pre ++ s.compress_buf) ++ x) ∧
    index_unchanged_outside K m pfn run (run + b_run) s.pfn_off
      (write_run lz4 K info m mem gl pfn run b_run s).pfn_off ∧
    run_indexed lz4 K info m mem gl pfn
      (pre ++ (write_run lz4 K info m mem gl pfn run b_run s).compress_buf)
      (write_run lz4 K info m mem gl pfn run b_run s).pfn_off run b_run := by
  obtain ⟨⟨a1, a2⟩, ⟨x, a3⟩, a4, a5⟩ :=
    compress_run_single_page_indexed lz4 K hK info m mem gl pfn run pre hm b_run 0 s
      haux.1 haux.2
  have e1 : (write_run lz4 K info m mem gl pfn run b_run s).compress_buf =
      (compress_run_single_page lz4 K info m mem gl pfn run b_run 0 s).compress_buf := by
    unfold write_run
    simp only [hm, hs, if_true]
  have e2 : (write_run lz4 K info m mem gl pfn run b_run s).compress_size =
      (compress_run_single_page lz4 K info m mem gl pfn run b_run 0 s).compress_size := by
    unfold write_run
    simp only [hm, hs, if_true]
  have e3 : (write_run lz4 K info m mem gl pfn run b_run s).mem_pos =
      (compress_run_single_page lz4 K info m mem gl pfn run b_run 0 s).mem_pos := by
    unfold write_run
    simp only [hm, hs, if_true]
  have e4 : (write_run lz4 K info m mem gl pfn run b_run s).pfn_off =
      (compress_run_single_page lz4 K info m mem gl pfn run b_run 0 s).pfn_off := by
    unfold write_run
    simp only [hm, hs, if_true]
  rw [e1, e2, e3, e4]
  refine ⟨⟨a1, a2⟩, ⟨x, by rw [a3, List.append_assoc]⟩, a4, ?_⟩
  intro i hi hv
  exact a5 i (Nat.zero_le _) (by omega) hv

theorem compress_run_single_page_f (lz4 : LZ4) (K : Consts) (info : vm_save_info)
    (max_gpfn : Nat) (mem : List Nat) (gl : Nat → gpfn_info) (pfn run n i : Nat)
    (s : batch_state) :
    (compress_run_single_page lz4 K info max_gpfn mem gl pfn run n i s).f = s.f := by
  induction n generalizing i s with
  | zero => rfl
  | succ n ih =>
    unfold compress_run_single_page
    rw [ih]
    rfl

theorem write_run_f_lz4 (lz4 : LZ4) (K : Consts) (info : vm_save_info) (m : Nat)
    (mem : List Nat) (gl : Nat → gpfn_info) (pfn run b_run : Nat) (s : batch_state)
    (hm : info.compress_mode = VM_SAVE_COMPRESS_LZ4) :
    (write_run lz4 K info m mem gl pfn run b_run s).f = s.f := by
  unfold write_run
  cases hs : info.single_page
  · simp only [hm, hs]
    rfl
  · simp only [hm, hs, if_true]
    exact compress_run_single_page_f _ _ _ _ _ _ _ _ _ _ _

theorem run_loop_f_lz4 (lz4 : LZ4) (K : Consts) (info : vm_save_info) (m : Nat)
    (mem : List Nat) (gl : Nat → gpfn_info) (pfn batch n j : Nat) (s : batch_state)
    (hm : info.compress_mode = VM_SAVE_COMPRESS_LZ4) :
    (run_loop lz4 K info m mem gl pfn batch n j s).f = s.f := by
  induction n generalizing j s with
  | zero => rfl
  | succ n ih =>
    unfold run_loop
    split
    · simp only
      rw [ih]
      split
      · exact write_run_f_lz4 _ _ _ _ _ _ _ _ _ _ hm
      · rfl
    · rfl

theorem write_run_pfn_off_bulk (lz4 : LZ4) (K : Consts) (info : vm_save_info) (m : Nat)
    (mem : List Nat) (gl : Nat → gpfn_info) (pfn run b_run : Nat) (s : batch_state)
    (hm : info.compress_mode = VM_SAVE_COMPRESS_LZ4) (hs : info.single_page = false) :
    (write_run lz4 K info m mem gl pfn run b_run s).pfn_off = s.pfn_off := by
  unfold write_run
  simp only [hm, hs]
  rfl

theorem run_loop_pfn_off_bulk (lz4 : LZ4) (K : Consts) (info : vm_save_info) (m : Nat)
    (mem : List Nat) (gl : Nat → gpfn_info) (pfn batch n j : Nat) (s : batch_state)
    (hm : info.compress_mode = VM_SAVE_COMPRESS_LZ4) (hs : info.single_page = false) :
    (run_loop lz4 K info m mem gl pfn batch n j s).pfn_off = s.pfn_off := by
  induction n generalizing j s with
  | zero => rfl
  | succ n ih =>
    unfold run_loop
    split
    · simp only
      rw [ih]
      split
      · exact write_run_pfn_off_bulk _ _ _ _ _ _ _ _ _ _ hm hs
      · rfl
    · rfl

theorem finish_batch_pfn_off (lz4 : LZ4) (info : vm_save_info) (s : batch_state) :
    (finish_batch lz4 info s).pfn_off = s.pfn_off := by
  unfold finish_batch
  cases hm : info.compress_mode
  · rfl
  · cases hs : info.single_page <;> rfl

theorem finish_batch_f_none (lz4 : LZ4) (info : vm_save_info) (s : batch_state)
    (hm : info.compress_mode = VM_SAVE_COMPRESS_NONE) : finish_batch lz4 info s = s := by
  unfold finish_batch
  simp only [hm]

theorem finish_batch_f_pp (lz4 : LZ4) (info : vm_save_info) (s : batch_state)
    (hm : info.compress_mode = VM_SAVE_COMPRESS_LZ4) (hs : info.single_page = true) :
    (finish_batch lz4 info s).f =
      s.f ++ enc_u32 s.compress_size ++ buf_read s.compress_buf 0 s.compress_size := by
  unfold finish_batch
  simp only [hm, hs]
  rfl

/-- The payload of one batch, written without compression or in per-page
mode: the file is extended, entries outside the slots of the batch are
untouched, and every run of the batch is indexed in the file. -/
theorem batch_indexed (lz4 : LZ4) (K : Consts)
    (hK : K.PCI_HOLE_START_PFN ≤ K.PCI_HOLE_END_PFN) (info : vm_save_info) (m : Nat)
    (mem : List Nat) (gl : Nat → gpfn_info) (pfn batch : Nat) (b0 : batch_state)
    (hruns : b0.runs = [])
    (hmode : info.compress_mode = VM_SAVE_COMPRESS_NONE ∨
      (info.compress_mode = VM_SAVE_COMPRESS_LZ4 ∧ info.single_page = true ∧
        b0.compress_buf = [] ∧ b0.compress_size = 0 ∧ b0.mem_pos = b0.f.length + 4)) :
    (∃ x, (finish_batch lz4 info (run_loop lz4 K info m mem gl pfn batch batch 0 b0)).f =
      b0.f ++ x) ∧
    index_unchanged_outside K m pfn 0 batch b0.pfn_off
      (finish_batch lz4 info (run_loop lz4 K info m mem gl pfn batch batch 0 b0)).pfn_off ∧
    ∀ p ∈ (finish_batch lz4 info (run_loop lz4 K info m mem gl pfn batch batch 0 b0)).runs,
      p.1 + p.2 ≤ batch ∧
      run_indexed lz4 K info m mem gl pfn
        (finish_batch lz4 info (run_loop lz4 K info m mem gl pfn batch batch 0 b0)).f
        (finish_batch lz4 info (run_loop lz4 K info m mem gl pfn batch batch 0 b0)).pfn_off
        p.1 p.2 := by
  have hno : ∀ p ∈ b0.runs, p.1 + p.2 ≤ 0 := by
    intro p hp
    rw [hruns] at hp
    exact absurd hp (List.not_mem_nil _)
  rcases hmode with hm | ⟨hm, hs, hcb, hcs, hmp⟩
  · obtain ⟨_, ⟨x, a2⟩, a3, a4, a5⟩ := run_loop_indexed lz4 K hK info m mem gl pfn batch
      (fun s => s.f) (fun _ => True)
      (fun s run b_run _ => write_run_raw_step lz4 K hK info m mem gl pfn hm s run b_run)
      batch 0 b0 (Nat.zero_le _) trivial hno
      (fun p hp => by rw [hruns] at hp; exact absurd hp (List.not_mem_nil _))
    rw [finish_batch_f_none _ _ _ hm]
    exact ⟨⟨x, a2⟩, a3, fun p hp => ⟨a4 p hp, a5 p hp⟩⟩
  · have hf1 := run_loop_f_lz4 lz4 K info m mem gl pfn batch batch 0 b0 hm
    obtain ⟨b1, hb1⟩ : ∃ b1, run_loop lz4 K info m mem gl pfn batch batch 0 b0 = b1 := ⟨_, rfl⟩
    obtain ⟨⟨c1, c2⟩, ⟨x, a2⟩, a3, a4, a5⟩ := run_loop_indexed lz4 K hK info m mem gl pfn batch
      (fun s => (b0.f ++ enc_u32 b1.compress_size) ++ s.compress_buf)
      (fun s => s.compress_buf.length = s.compress_size ∧
        s.mem_pos = (b0.f ++ enc_u32 b1.compress_size).length)
      (fun s run b_run h => write_run_pp_step lz4 K hK info m mem gl pfn
        (b0.f ++ enc_u32 b1.compress_size) hm hs s run b_run h)
      batch 0 b0 (Nat.zero_le _)
      ⟨by rw [hcb, hcs]; rfl, by rw [hmp, List.length_append, enc_u32_length]⟩ hno
      (fun p hp => by rw [hruns] at hp; exact absurd hp (List.not_mem_nil _))
    rw [hb1] at hf1 c1 c2 a2 a3 a4 a5 ⊢
    have hf2 : (finish_batch lz4 info b1).f = (b0.f ++ enc_u32 b1.compress_size) ++
        b1.compress_buf := by
      rw [finish_batch_f_pp _ _ _ hm hs, hf1, buf_read_all _ _ c1]
    rw [hf2, finish_batch_pfn_off, finish_batch_runs]
    refine ⟨⟨enc_u32 b1.compress_size ++ b1.compress_buf, by rw [List.append_assoc]⟩, a3,
      fun p hp => ⟨a4 p hp, a5 p hp⟩⟩

/-- The shape of one iteration of the page loop: either a batch record is
written by the run loop, or file and index are left as they are. -/
theorem save_batch_shape (env : SaveEnv) (info : vm_save_info) (p2m_size m : Nat)
    (s : save_state) :
    ∃ (batch : Nat) (cap : capture_result) (gl : Nat → gpfn_info) (pfn_batch : List Nat)
      (e : batch_log),
      (save_batch env info p2m_size m s).pfn = s.pfn + batch ∧
      (save_batch env info p2m_size m s).log = s.log ++ [e] ∧
      e.pfn = s.pfn ∧ e.batch = batch ∧ e.capture = cap ∧ e.classified = gl ∧
      ((pfn_batch.length ≠ 0 ∧
        (save_batch env info p2m_size m s).f =
          (finish_batch env.lz4 info (run_loop env.lz4 env.K info m cap.mem_buffer gl s.pfn
            batch batch 0 (batch_start info s (batch_header info s.f pfn_batch)
              pfn_batch.length))).f ∧
        (save_batch env info p2m_size m s).pfn_off =
          (finish_batch env.lz4 info (run_loop env.lz4 env.K info m cap.mem_buffer gl s.pfn
            batch batch 0 (batch_start info s (batch_header info s.f pfn_batch)
              pfn_batch.length))).pfn_off ∧
        e.runs =
          (finish_batch env.lz4 info (run_loop env.lz4 env.K info m cap.mem_buffer gl s.pfn
            batch batch 0 (batch_start info s (batch_header info s.f pfn_batch)
              pfn_batch.length))).runs) ∨
       ((save_batch env info p2m_size m s).f = s.f ∧
        (save_batch env info p2m_size m s).pfn_off = s.pfn_off ∧ e.runs = [])) := by
  unfold save_batch
  simp only
  split
  · rename_i h
    exact ⟨_, _, _, _, _, rfl, rfl, rfl, rfl, rfl, rfl, Or.inl ⟨h, rfl, rfl, rfl⟩⟩
  · exact ⟨_, _, _, [], _, rfl, rfl, rfl, rfl, rfl, rfl, Or.inr ⟨rfl, rfl, rfl⟩⟩

theorem batch_header_append (info : vm_save_info) (f l : List Nat) :
    ∃ y, batch_header info f l = f ++ y := by
  unfold batch_header
  split
  · exact ⟨_, List.append_assoc _ _ _⟩
  · exact ⟨[], (List.append_nil _).symm⟩

theorem save_batch_indexed (env : SaveEnv) (info : vm_save_info) (p2m_size m : Nat)
    (s : save_state) (hK : env.K.PCI_HOLE_START_PFN ≤ env.K.PCI_HOLE_END_PFN)
    (hmode : info.compress_mode = VM_SAVE_COMPRESS_NONE ∨
      (info.compress_mode = VM_SAVE_COMPRESS_LZ4 ∧ info.single_page = true))
    (h : save_indexed env info m s) :
    save_indexed env info m (save_batch env info p2m_size m s) ∧
    ∃ x, (save_batch env info p2m_size m s).f = s.f ++ x := by
  obtain ⟨batch, cap, gl, pfn_batch, e, hpfn, hlog, he1, he2, he3, he4, hcase⟩ :=
    save_batch_shape env info p2m_size m s
  have key : (∃ x, (save_batch env info p2m_size m s).f = s.f ++ x) ∧
      index_unchanged_outside env.K m s.pfn 0 batch s.pfn_off
        (save_batch env info p2m_size m s).pfn_off ∧
      ∀ p ∈ e.runs, p.1 + p.2 ≤ batch ∧
        run_indexed env.lz4 env.K info m cap.mem_buffer gl s.pfn
          (save_batch env info p2m_size m s).f (save_batch env info p2m_size m s).pfn_off
          p.1 p.2 := by
    rcases hcase with ⟨_, hf, hpo, hr⟩ | ⟨hf, hpo, hr⟩
    · obtain ⟨y, hy⟩ := batch_header_append info s.f pfn_batch
      have hb := batch_indexed env.lz4 env.K hK info m cap.mem_buffer gl s.pfn batch
        (batch_start info s (batch_header info s.f pfn_batch) pfn_batch.length) rfl
        (by
          rcases hmode with hm | ⟨hm, hs⟩
          · exact Or.inl hm
          · refine Or.inr ⟨hm, hs, rfl, ?_, ?_⟩
            · simp [batch_start, hm, hs, vm_save_compress_mode_batched]
            · simp [batch_start, hm, hs, vm_save_compress_mode_batched])
      rw [← hf, ← hpo, ← hr] at hb
      obtain ⟨⟨x, h1⟩, h2, h3⟩ := hb
      refine ⟨⟨y ++ x, ?_⟩, h2, h3⟩
      rw [h1]
      show batch_header info s.f pfn_batch ++ x = s.f ++ (y ++ x)
      rw [hy, List.append_assoc]
    · rw [hf, hpo, hr]
      exact ⟨⟨[], (List.append_nil _).symm⟩, index_unchanged_outside_refl _ _ _ _ _ _,
        fun p hp => absurd hp (List.not_mem_nil _)⟩
  obtain ⟨⟨x, k1⟩, k2, k3⟩ := key
  refine ⟨?_, ⟨x, k1⟩⟩
  intro b hb
  rw [hlog] at hb
  rw [hpfn]
  rcases List.mem_append.mp hb with hb | hb
  · obtain ⟨g1, g2⟩ := h b hb
    refine ⟨by omega, fun p hp => ⟨(g2 p hp).1, ?_⟩⟩
    rw [k1]
    exact run_indexed_mono env.lz4 env.K hK info m _ _ b.pfn _ x _ _ _ _ s.pfn 0 batch
      (g2 p hp).2 k2 (by have := (g2 p hp).1; omega)
  · rw [List.mem_singleton] at hb
    subst hb
    rw [he1, he2, he3, he4]
    exact ⟨Nat.le_refl _, k3⟩

theorem write_pages_loop_indexed (env : SaveEnv) (info : vm_save_info) (p2m_size m n : Nat)
    (s : save_state) (hK : env.K.PCI_HOLE_START_PFN ≤ env.K.PCI_HOLE_END_PFN)
    (hmode : info.compress_mode = VM_SAVE_COMPRESS_NONE ∨
      (info.compress_mode = VM_SAVE_COMPRESS_LZ4 ∧ info.single_page = true))
    (h : save_indexed env info m s) :
    save_indexed env info m (write_pages_loop env info p2m_size m n s) ∧
    ∃ x, (write_pages_loop env info p2m_size m n s).f = s.f ++ x := by
  induction n generalizing s with
  | zero => exact ⟨h, [], (List.append_nil _).symm⟩
  | succ n ih =>
    unfold write_pages_loop
    split
    · obtain ⟨a1, x1, a2⟩ := save_batch_indexed env info p2m_size m
        { s with polls := s.polls + 1 } hK hmode h
      obtain ⟨b1, x2, b2⟩ := ih _ a1
      exact ⟨b1, x1 ++ x2, by rw [b2, a2, List.append_assoc]⟩
    · exact ⟨h, [], (List.append_nil _).symm⟩

theorem save_batch_pfn_off_bulk (env : SaveEnv) (info : vm_save_info) (p2m_size m : Nat)
    (s : save_state) (hm : info.compress_mode = VM_SAVE_COMPRESS_LZ4)
    (hs : info.single_page = false) :
    (save_batch env info p2m_size m s).pfn_off = s.pfn_off := by
  obtain ⟨batch, cap, gl, pfn_batch, e, _, _, _, _, _, _, hcase⟩ :=
    save_batch_shape env info p2m_size m s
  rcases hcase with ⟨_, _, hpo, _⟩ | ⟨_, hpo, _⟩
  · rw [hpo, finish_batch_pfn_off, run_loop_pfn_off_bulk _ _ _ _ _ _ _ _ _ _ _ hm hs]
    rfl
  · exact hpo

theorem write_pages_loop_pfn_off_bulk (env : SaveEnv) (info : vm_save_info)
    (p2m_size m n : Nat) (s : save_state) (hm : info.compress_mode = VM_SAVE_COMPRESS_LZ4)
    (hs : info.single_page = false) :
    (write_pages_loop env info p2m_size m n s).pfn_off = s.pfn_off := by
  induction n generalizing s with
  | zero => rfl
  | succ n ih =>
    unfold write_pages_loop
    split
    · rw [ih, save_batch_pfn_off_bulk _ _ _ _ _ hm hs]
    · rfl

/-- In bulk LZ4 mode the page writer leaves every index entry at 0. -/
theorem write_pages_pfn_off_bulk (env : SaveEnv) (info : vm_save_info) (f0 : List Nat)
    (hm : info.compress_mode = VM_SAVE_COMPRESS_LZ4) (hs : info.single_page = false)
    (k : Nat) : (uxenvm_savevm_write_pages env info f0).pfn_off k = 0 := by
  unfold uxenvm_savevm_write_pages
  split
  · rfl
  · simp only
    rw [write_pages_loop_pfn_off_bulk _ _ _ _ _ _ hm hs]

/-- The result of the page writer in terms of the state at the end of the
page loop: index and log are those of the loop, the file is extended. -/
theorem write_pages_result (env : SaveEnv) (info : vm_save_info) (f0 : List Nat)
    (hneg : ¬ env.xc_domain_maximum_gpfn < 0) :
    (uxenvm_savevm_write_pages env info f0).max_gpfn = write_pages_max_gpfn env ∧
    (uxenvm_savevm_write_pages env info f0).pfn_off = (write_pages_loop_end env info f0).pfn_off ∧
    (uxenvm_savevm_write_pages env info f0).log = (write_pages_loop_end env info f0).log ∧
    ∃ x, (uxenvm_savevm_write_pages env info f0).f = (write_pages_loop_end env info f0).f ++ x := by
  unfold uxenvm_savevm_write_pages
  rw [if_neg hneg]
  refine ⟨rfl, rfl, rfl, ?_⟩
  dsimp only
  unfold write_pages_loop_end write_pages_max_gpfn
  generalize write_pages_loop env info _ _ _ _ = sfin
  generalize env.save_abort sfin.polls = a1
  generalize env.vm_quit_interrupt sfin.polls = a2
  generalize env.save_abort (sfin.polls + 1) = a3
  generalize env.vm_quit_interrupt (sfin.polls + 1) = a4
  cases a1 <;> cases a2 <;> cases a3 <;> cases a4 <;> simp

/-- Without compression and in per-page mode, every run of every logged batch
is indexed in the file that the page writer returns. -/
theorem write_pages_indexed (env : SaveEnv) (info : vm_save_info) (f0 : List Nat)
    (hK : env.K.PCI_HOLE_START_PFN ≤ env.K.PCI_HOLE_END_PFN)
    (hmode : info.compress_mode = VM_SAVE_COMPRESS_NONE ∨
      (info.compress_mode = VM_SAVE_COMPRESS_LZ4 ∧ info.single_page = true))
    (b : batch_log) (hb : b ∈ (uxenvm_savevm_write_pages env info f0).log)
    (p : Nat × Nat) (hp : p ∈ b.runs) :
    run_indexed env.lz4 env.K info (uxenvm_savevm_write_pages env info f0).max_gpfn
      b.capture.mem_buffer b.classified b.pfn (uxenvm_savevm_write_pages env info f0).f
      (uxenvm_savevm_write_pages env info f0).pfn_off p.1 p.2 := by
  by_cases hneg : env.xc_domain_maximum_gpfn < 0
  · unfold uxenvm_savevm_write_pages at hb
    rw [if_pos hneg] at hb
    exact absurd hb (List.not_mem_nil _)
  · obtain ⟨h1, h2, h3, x, h4⟩ := write_pages_result env info f0 hneg
    rw [h3] at hb
    rw [h1, h2, h4]
    obtain ⟨a1, _⟩ := write_pages_loop_indexed env info (env.xc_domain_maximum_gpfn + 1).toNat
      (write_pages_max_gpfn env) ((env.xc_domain_maximum_gpfn + 1).toNat + 1)
      { f := f0,
        zero_bitmap := List.replicate (((env.xc_domain_maximum_gpfn + 1).toNat + 7) / 8) 0,
        pfn_off := fun _ => 0, gpfn_info_list := env.gpfn_info_list0, compress_size := 0,
        mem_pos := 0, total_pages := 0, pfn := 0, polls := 0, trace := [], log := [] }
      hK hmode (fun b hb => absurd hb (List.not_mem_nil _))
    intro i hi hv
    exact slot_written_append _ _ _ _ _ _ (((a1 b hb).2 p hp).2 i hi hv)

/-- An entry formed by the writer, in a file shorter than `2^63` bytes, leads
`vm_lazy_load_page` to the page, and its indicator bit tells whether the page
is stored compressed. -/
theorem slot_written_locates (lz4 : LZ4) (info : vm_save_info) (f : List Nat) (e : Nat)
    (page : List Nat)
    (hmode : info.compress_mode = VM_SAVE_COMPRESS_NONE ∨
      (info.compress_mode = VM_SAVE_COMPRESS_LZ4 ∧ info.single_page = true))
    (hlen : f.length < 2 ^ 63) (hpl : page.length = PAGE_SIZE)
    (h : slot_written lz4 info f e page) :
    entry_locates lz4 info.high_compress f e page ∧
    (e / PAGE_OFFSET_INDEX_PFN_OFF_COMPRESSED % 2 = 1 ↔
      stored_compressed lz4 info page = true) := by
  obtain ⟨o, he, hb⟩ := h
  have hC : PAGE_OFFSET_INDEX_PFN_OFF_COMPRESSED = 9223372036854775808 := by
    unfold PAGE_OFFSET_INDEX_PFN_OFF_COMPRESSED
    norm_num
  have hP : PAGE_SIZE = 4096 := rfl
  have hlen2 : f.length < 9223372036854775808 := by
    have : (2 : Nat) ^ 63 = 9223372036854775808 := by norm_num
    omega
  unfold entry_locates stored_compressed
  rw [hC]
  rcases hmode with hm | ⟨hm, hs⟩
  · simp only [slot_tag, slot_content, hm] at he hb
    have h1 := hb.1
    have he2 : e = o := by omega
    subst he2
    have hd : e / 9223372036854775808 = 0 := Nat.div_eq_of_lt (by omega)
    have hmd : e % 9223372036854775808 = e := Nat.mod_eq_of_lt (by omega)
    rw [hd, hmd, if_pos (by decide)]
    refine ⟨hb, ?_⟩
    simp [hm]
  · by_cases hv : (uxenvm_compress_lz4 lz4 info.high_compress page).length ≥ PAGE_SIZE
    · simp only [slot_tag, slot_content, hm, hv, if_true, sizeof_cs16] at he hb
      have h1 := hb.1
      rw [List.length_append, enc_u16_length] at h1
      have hb2 := bytes_at_sub f o _ _ hb
      rw [enc_u16_length] at hb2
      have he2 : e = o + 2 := by omega
      subst he2
      have hd : (o + 2) / 9223372036854775808 = 0 := Nat.div_eq_of_lt (by omega)
      have hmd : (o + 2) % 9223372036854775808 = o + 2 := Nat.mod_eq_of_lt (by omega)
      rw [hd, hmd, if_pos (by decide)]
      refine ⟨hb2, ?_⟩
      have : ¬ (uxenvm_compress_lz4 lz4 info.high_compress page).length < PAGE_SIZE := by omega
      simp [this]
    · simp only [slot_tag, slot_content, hm, hv, if_false] at he hb
      rw [hC] at he
      have h1 := hb.1
      rw [List.length_append, enc_u16_length] at h1
      have he2 : e = o + 9223372036854775808 := by omega
      subst he2
      have hd : (o + 9223372036854775808) / 9223372036854775808 = 1 := by omega
      have hmd : (o + 9223372036854775808) % 9223372036854775808 = o := by omega
      rw [hd, hmd, if_neg (by decide)]
      refine ⟨hb, ?_⟩
      have : (uxenvm_compress_lz4 lz4 info.high_compress page).length < PAGE_SIZE := by omega
      simp [hm, hs, this]

/-! ## Save: the runs cover the frame list -/

theorem scan_not_normal_spec (gl : Nat → gpfn_info) (rem j k : Nat) (h1 : j ≤ k)
    (h2 : k < scan_not_normal gl rem j) : (gl k).type ≠ XENMEM_MCGI_TYPE_NORMAL := by
  induction rem generalizing j with
  | zero =>
    unfold scan_not_normal at h2
    omega
  | succ rem ih =>
    unfold scan_not_normal at h2
    split at h2
    · rename_i hn
      by_cases hk : k = j
      · rw [hk]
        exact hn
      · exact ih (j + 1) (by omega) h2
    · omega

theorem scan_not_normal_stop (gl : Nat → gpfn_info) (rem j : Nat)
    (h : scan_not_normal gl rem j < j + rem) :
    (gl (scan_not_normal gl rem j)).type = XENMEM_MCGI_TYPE_NORMAL := by
  induction rem generalizing j with
  | zero =>
    unfold scan_not_normal at h
    omega
  | succ rem ih =>
    unfold scan_not_normal at h ⊢
    split
    · rename_i hn
      rw [if_pos hn] at h
      exact ih (j + 1) (by omega)
    · rename_i hn
      exact not_not.mp hn

theorem scan_normal_gt (gl : Nat → gpfn_info) (rem j : Nat) (hrem : 0 < rem)
    (h : (gl j).type = XENMEM_MCGI_TYPE_NORMAL) : j < scan_normal gl rem j := by
  cases rem with
  | zero => omega
  | succ rem =>
    unfold scan_normal
    rw [if_pos h]
    have := scan_normal_ge gl rem (j + 1)
    omega

theorem run_loop_runs_mono (lz4 : LZ4) (K : Consts) (info : vm_save_info) (m : Nat)
    (mem : List Nat) (gl : Nat → gpfn_info) (pfn batch n j : Nat) (s : batch_state)
    (p : Nat × Nat) (hp : p ∈ s.runs) :
    p ∈ (run_loop lz4 K info m mem gl pfn batch n j s).runs := by
  induction n generalizing j s with
  | zero => exact hp
  | succ n ih =>
    unfold run_loop
    split
    · refine ih _ _ ?_
      split
      · rw [write_run_runs]
        exact List.mem_append.mpr (Or.inl hp)
      · exact hp
    · exact hp

/-- Every entry of type Normal below `batch` lies in a run of the run loop. -/
theorem run_loop_covers (lz4 : LZ4) (K : Consts) (info : vm_save_info) (m : Nat)
    (mem : List Nat) (gl : Nat → gpfn_info) (pfn batch n j : Nat) (s : batch_state)
    (hn : batch - j ≤ n) (k : Nat) (hk1 : j ≤ k) (hk2 : k < batch)
    (ht : (gl k).type = XENMEM_MCGI_TYPE_NORMAL) :
    ∃ p ∈ (run_loop lz4 K info m mem gl pfn batch n j s).runs, p.1 ≤ k ∧ k < p.1 + p.2 := by
  induction n generalizing j s with
  | zero => omega
  | succ n ih =>
    unfold run_loop
    rw [if_pos (by omega)]
    simp only
    have hr1 := scan_not_normal_ge gl (batch - j) j
    have hr2 := scan_not_normal_le gl (batch - j) j
    have hr3 := fun h => scan_not_normal_spec gl (batch - j) j k hk1 h ht
    have hr4 := scan_not_normal_stop gl (batch - j) j
    generalize scan_not_normal gl (batch - j) j = run at hr1 hr2 hr3 hr4 ⊢
    have hrk : run ≤ k := by
      by_contra hc
      exact hr3 (by omega)
    have hj0 := scan_normal_gt gl (batch - run) run (by omega) (hr4 (by omega))
    have hj2 := scan_normal_le gl (batch - run) run
    generalize scan_normal gl (batch - run) run = j2 at hj0 hj2 ⊢
    by_cases hkj : k < j2
    · rw [if_pos (by omega)]
      refine ⟨(run, j2 - run), run_loop_runs_mono _ _ _ _ _ _ _ _ _ _ _ _ ?_, hrk, ?_⟩
      · rw [write_run_runs]
        exact List.mem_append.mpr (Or.inr (List.mem_singleton.mpr rfl))
      · show k < run + (j2 - run)
        omega
    · exact ih j2 _ (by omega) (by omega)

theorem save_batch_covered (env : SaveEnv) (info : vm_save_info) (p2m_size m : Nat)
    (s : save_state)
    (hdone : ∀ pfn batch r, (env.xc_domain_memory_capture pfn batch r).batch_done ≤ batch) :
    ∃ e, (save_batch env info p2m_size m s).log = s.log ++ [e] ∧ batch_covered e := by
  have hd := hdone s.pfn (fill_batch p2m_size s.pfn MAX_BATCH_SIZE 0) info.free_mem
  unfold save_batch
  simp only
  generalize fill_batch p2m_size s.pfn MAX_BATCH_SIZE 0 = batch at hd ⊢
  generalize env.xc_domain_memory_capture s.pfn batch info.free_mem = cap at hd ⊢
  generalize hgl0 : (fun j => if j < cap.batch_done then cap.info.getD j (s.gpfn_info_list j)
    else s.gpfn_info_list j) = gl0
  have hmem := classify_mem_pfn_batch info.free_mem cap.mem_buffer s.pfn cap.batch_done 0
    { gpfn_info_list := gl0, pfn_batch := [], zero_bitmap := s.zero_bitmap,
      rezero_pfns := [], rezero := 0, _zero := 0, clone := 0 }
  have hgl := classify_gl info.free_mem cap.mem_buffer s.pfn cap.batch_done 0
    { gpfn_info_list := gl0, pfn_batch := [], zero_bitmap := s.zero_bitmap,
      rezero_pfns := [], rezero := 0, _zero := 0, clone := 0 }
  generalize classify info.free_mem cap.mem_buffer s.pfn cap.batch_done 0
    { gpfn_info_list := gl0, pfn_batch := [], zero_bitmap := s.zero_bitmap,
      rezero_pfns := [], rezero := 0, _zero := 0, clone := 0 } = c at hmem hgl ⊢
  simp only at hmem hgl
  split
  · refine ⟨_, rfl, ?_⟩
    intro g hg
    rcases (hmem g).mp hg with hn | ⟨k, _, hk, hgk, hn⟩
    · exact absurd hn (List.not_mem_nil _)
    · have ht : (c.gpfn_info_list k).type = XENMEM_MCGI_TYPE_NORMAL := by
        rw [hgl k, if_pos ⟨Nat.zero_le _, by omega⟩]
        exact hn
      obtain ⟨p, hp, hp1, hp2⟩ := run_loop_covers env.lz4 env.K info m cap.mem_buffer
        c.gpfn_info_list s.pfn batch batch 0
        (batch_start info s (batch_header info s.f c.pfn_batch) c.pfn_batch.length)
        (by omega) k (Nat.zero_le _) (by omega) ht
      refine ⟨p, ?_, k - p.1, by omega, ?_⟩
      · show p ∈ (finish_batch env.lz4 info _).runs
        rw [finish_batch_runs]
        exact hp
      · show g = s.pfn + p.1 + (k - p.1)
        omega
  · refine ⟨_, rfl, ?_⟩
    intro g hg
    exact absurd hg (List.not_mem_nil _)

theorem write_pages_loop_covered (env : SaveEnv) (info : vm_save_info) (p2m_size m n : Nat)
    (s : save_state)
    (hdone : ∀ pfn batch r, (env.xc_domain_memory_capture pfn batch r).batch_done ≤ batch)
    (h : ∀ b ∈ s.log, batch_covered b) :
    ∀ b ∈ (write_pages_loop env info p2m_size m n s).log, batch_covered b := by
  induction n generalizing s with
  | zero => exact h
  | succ n ih =>
    unfold write_pages_loop
    split
    · refine ih _ ?_
      obtain ⟨e, he, hc⟩ := save_batch_covered env info p2m_size m
        { s with polls := s.polls + 1 } hdone
      intro b hb
      rw [he] at hb
      rcases List.mem_append.mp hb with hb | hb
      · exact h b hb
      · rw [List.mem_singleton] at hb
        rw [hb]
        exact hc
    · exact h

/-- When the capture never reports more entries than requested, every frame of
a frame list is a page of a run written as payload. -/
theorem write_pages_covered (env : SaveEnv) (info : vm_save_info) (f0 : List Nat)
    (hdone : ∀ pfn batch r, (env.xc_domain_memory_capture pfn batch r).batch_done ≤ batch)
    (b : batch_log) (hb : b ∈ (uxenvm_savevm_write_pages env info f0).log) :
    batch_covered b := by
  unfold uxenvm_savevm_write_pages at hb
  split at hb
  · exact absurd hb (List.not_mem_nil _)
  · exact write_pages_loop_covered env info _ _ _ _ hdone
      (fun b hb => absurd hb (List.not_mem_nil _)) b hb

/-! ## Save: the entries of the index that are written -/

theorem compress_page_step_pfn_off (lz4 : LZ4) (K : Consts) (info : vm_save_info) (m : Nat)
    (mem : List Nat) (gl : Nat → gpfn_info) (pfn run i : Nat) (s : batch_state) (k : Nat)
    (h : poi_valid_pfn K m (pfn + run + i) = true → poi_pfn_index K (pfn + run + i) ≠ k) :
    (compress_page_step lz4 K info m mem gl pfn run i s).pfn_off k = s.pfn_off k := by
  unfold compress_page_step
  dsimp only
  split
  · rename_i hv
    unfold pfn_off_set
    rw [if_neg (fun hk => h hv hk.symm)]
  · rfl

theorem compress_run_single_page_pfn_off (lz4 : LZ4) (K : Consts) (info : vm_save_info)
    (m : Nat) (mem : List Nat) (gl : Nat → gpfn_info) (pfn run n i : Nat) (s : batch_state)
    (k : Nat)
    (h : ∀ t, i ≤ t → t < i + n → poi_valid_pfn K m (pfn + run + t) = true →
      poi_pfn_index K (pfn + run + t) ≠ k) :
    (compress_run_single_page lz4 K info m mem gl pfn run n i s).pfn_off k = s.pfn_off k := by
  induction n generalizing i s with
  | zero => rfl
  | succ n ih =>
    unfold compress_run_single_page
    rw [ih (i + 1) _ (fun t h1 h2 => h t (by omega) (by omega)),
      compress_page_step_pfn_off _ _ _ _ _ _ _ _ _ _ _ (h i (Nat.le_refl _) (by omega))]

/-- A run changes no entry of the index but the slots of its pages. -/
theorem write_run_pfn_off_outside (lz4 : LZ4) (K : Consts) (info : vm_save_info) (m : Nat)
    (mem : List Nat) (gl : Nat → gpfn_info) (pfn run b_run : Nat) (s : batch_state) (k : Nat)
    (h : ∀ t, t < b_run → poi_valid_pfn K m (pfn + run + t) = true →
      poi_pfn_index K (pfn + run + t) ≠ k) :
    (write_run lz4 K info m mem gl pfn run b_run s).pfn_off k = s.pfn_off k := by
  cases hm : info.compress_mode
  · have hp : (write_run lz4 K info m mem gl pfn run b_run s).pfn_off =
        index_run_raw K m s.f.length pfn run b_run 0 s.pfn_off := by
      unfold write_run
      simp only [hm]
    rw [hp]
    exact index_run_raw_frame K m _ pfn run b_run 0 _ k (fun t _ h2 => h t (by omega))
  · cases hs : info.single_page
    · rw [write_run_pfn_off_bulk _ _ _ _ _ _ _ _ _ _ hm hs]
    · have hp : (write_run lz4 K info m mem gl pfn run b_run s).pfn_off =
          (compress_run_single_page lz4 K info m mem gl pfn run b_run 0 s).pfn_off := by
        unfold write_run
        simp only [hm, hs, if_true]
      rw [hp]
      exact compress_run_single_page_pfn_off _ _ _ _ _ _ _ _ _ _ _ _
        (fun t _ h2 => h t (by omega))

/-- The run loop changes no entry of the index but the slots of the pages of
the runs it writes. -/
theorem run_loop_pfn_off_outside (lz4 : LZ4) (K : Consts) (info : vm_save_info) (m : Nat)
    (mem : List Nat) (gl : Nat → gpfn_info) (pfn batch n j : Nat) (s : batch_state) (k : Nat)
    (h : ∀ p ∈ (run_loop lz4 K info m mem gl pfn batch n j s).runs, ∀ t, t < p.2 →
      poi_valid_pfn K m (pfn + p.1 + t) = true → poi_pfn_index K (pfn + p.1 + t) ≠ k) :
    (run_loop lz4 K info m mem gl pfn batch n j s).pfn_off k = s.pfn_off k := by
  induction n generalizing j s with
  | zero => rfl
  | succ n ih =>
    unfold run_loop at h ⊢
    split
    · rename_i hj
      rw [if_pos hj] at h
      dsimp only at h ⊢
      split
      · rename_i hr
        rw [if_pos hr] at h
        rw [ih _ _ h]
        refine write_run_pfn_off_outside _ _ _ _ _ _ _ _ _ _ _ (fun t ht => ?_)
        refine h (_, _) (run_loop_runs_mono _ _ _ _ _ _ _ _ _ _ _ _ ?_) t ht
        rw [write_run_runs]
        exact List.mem_append.mpr (Or.inr (List.mem_singleton.mpr rfl))
      · rename_i hr
        rw [if_neg hr] at h
        exact ih _ _ h
    · rfl

theorem save_batch_only_runs (env : SaveEnv) (info : vm_save_info) (p2m_size m : Nat)
    (s : save_state) (h : index_only_runs env.K m s.log s.pfn_off) :
    index_only_runs env.K m (save_batch env info p2m_size m s).log
      (save_batch env info p2m_size m s).pfn_off := by
  unfold save_batch
  simp only
  split
  · intro k hk
    show (finish_batch env.lz4 info _).pfn_off k = 0
    rw [finish_batch_pfn_off, run_loop_pfn_off_outside]
    · exact h k (fun b hb => hk b (List.mem_append.mpr (Or.inl hb)))
    · intro p hp t ht
      have := hk _ (List.mem_append.mpr (Or.inr (List.mem_singleton.mpr rfl))) p
        (by
          show p ∈ (finish_batch env.lz4 info _).runs
          rw [finish_batch_runs]
          exact hp) t ht
      exact this
  · intro k hk
    exact h k (fun b hb => hk b (List.mem_append.mpr (Or.inl hb)))

theorem write_pages_loop_only_runs (env : SaveEnv) (info : vm_save_info) (p2m_size m n : Nat)
    (s : save_state) (h : index_only_runs env.K m s.log s.pfn_off) :
    index_only_runs env.K m (write_pages_loop env info p2m_size m n s).log
      (write_pages_loop env info p2m_size m n s).pfn_off := by
  induction n generalizing s with
  | zero => exact h
  | succ n ih =>
    unfold write_pages_loop
    split
    · exact ih _ (save_batch_only_runs env info p2m_size m { s with polls := s.polls + 1 } h)
    · exact h

/-- The writer writes no entry of the index but the slots of pages of its runs
whose frame is below `max_gpfn` and outside the PCI hole. -/
theorem write_pages_only_runs (env : SaveEnv) (info : vm_save_info) (f0 : List Nat) :
    index_only_runs env.K (uxenvm_savevm_write_pages env info f0).max_gpfn
      (uxenvm_savevm_write_pages env info f0).log
      (uxenvm_savevm_write_pages env info f0).pfn_off := by
  by_cases hneg : env.xc_domain_maximum_gpfn < 0
  · unfold uxenvm_savevm_write_pages
    rw [if_pos hneg]
    exact fun _ _ => rfl
  · obtain ⟨h1, h2, h3, _⟩ := write_pages_result env info f0 hneg
    rw [h1, h2, h3]
    exact write_pages_loop_only_runs env info _ _ _ _ (fun _ _ => rfl)


/-! ## Save: completeness of the page-offset index -/

/-- The three-frame guest saved in bulk LZ4 mode: frame 0 is in the frame list,
not in the zero bitmap and has a slot, its entry is 0 and does not locate its
page. -/
theorem bulk_save_frame_without_entry :
    (uxenvm_savevm_write_pages example_pages_env example_bulk_info []).log.map
        (fun b => (b.pfn, b.pfn_batch)) = [(0, [0])] ∧
      test_bit 0 (uxenvm_savevm_write_pages example_pages_env example_bulk_info []).zero_bitmap =
        false ∧
      poi_valid_pfn example_consts
        (uxenvm_savevm_write_pages example_pages_env example_bulk_info []).max_gpfn 0 = true ∧
      (uxenvm_savevm_write_pages example_pages_env example_bulk_info []).pfn_off
        (poi_pfn_index example_consts 0) = 0 ∧
      ¬ entry_locates stored_lz4 false
        (uxenvm_savevm_write_pages example_pages_env example_bulk_info []).f
        ((uxenvm_savevm_write_pages example_pages_env example_bulk_info []).pfn_off
          (poi_pfn_index example_consts 0))
        (List.replicate 4096 7) := by
  refine ⟨?_, ?_, ?_, ?_, ?_⟩ <;> decide!

/-- The guest with 1 MB of memory and a Normal frame 256, saved in per-page
mode: the frame is in the frame list and not in the zero bitmap, it is not
below `max_gpfn`, and the 256 entries of the index are 0. -/
theorem high_frame_without_entry :
    (uxenvm_savevm_write_pages example_high_frame_env example_per_page_info []).log.map
        (fun b => (b.pfn, b.pfn_batch)) = [(0, [256])] ∧
      test_bit 256
        (uxenvm_savevm_write_pages example_high_frame_env example_per_page_info []).zero_bitmap =
        false ∧
      poi_valid_pfn example_consts
        (uxenvm_savevm_write_pages example_high_frame_env example_per_page_info []).max_gpfn
        256 = false ∧
      (uxenvm_savevm_write_pages example_high_frame_env example_per_page_info []).pfn_off_nr =
        256 ∧
      (List.range 256).all (fun k =>
        (uxenvm_savevm_write_pages example_high_frame_env example_per_page_info []).pfn_off k =
          0) = true := by
  refine ⟨?_, ?_, ?_, ?_, ?_⟩ <;> decide!

/-- The guest whose frame 1 is reported with another type, saved in per-page
mode: the frame is in no frame list and not in the zero bitmap, it has a slot,
its entry is 0, and the entry of frame 0 is written. -/
theorem other_type_frame_without_entry :
    (uxenvm_savevm_write_pages example_other_type_env example_per_page_info []).log.map
        (fun b => (b.pfn, b.pfn_batch, (b.classified 1).type)) = [(0, [0], OTHER)] ∧
      test_bit 1
        (uxenvm_savevm_write_pages example_other_type_env example_per_page_info []).zero_bitmap =
        false ∧
      poi_valid_pfn example_consts
        (uxenvm_savevm_write_pages example_other_type_env example_per_page_info []).max_gpfn
        1 = true ∧
      (uxenvm_savevm_write_pages example_other_type_env example_per_page_info []).pfn_off
        (poi_pfn_index example_consts 1) = 0 ∧
      (uxenvm_savevm_write_pages example_other_type_env example_per_page_info []).pfn_off
        (poi_pfn_index example_consts 0) ≠ 0 := by
  refine ⟨?_, ?_, ?_, ?_, ?_⟩ <;> decide!

/-- C5 (counterexample): three saves in which a frame that is neither in the
zero bitmap nor cloned has no index entry. The three-frame guest saved in bulk
LZ4 mode: frame 0 is in the frame list of the batch, its bit in the zero bitmap
is clear and it has an index slot, but its entry is still 0 and offset 0 of the
file does not hold its page. The guest with 1 MB of memory saved in per-page
mode: frame 256 is in the frame list and its bit in the zero bitmap is clear,
but it is not below `max_gpfn`, and all 256 entries of the index are 0. The
guest whose frame 1 the capture reports with another type, saved in per-page
mode: frame 1 is not populate-on-demand, its bit in the zero bitmap is clear and
it has an index slot, but it is in no frame list and its entry is 0, while the
entry of frame 0 is written. -/
theorem C5_counterexample_pages_without_entry :
    ((uxenvm_savevm_write_pages example_pages_env example_bulk_info []).log.map
        (fun b => (b.pfn, b.pfn_batch)) = [(0, [0])] ∧
      test_bit 0 (uxenvm_savevm_write_pages example_pages_env example_bulk_info []).zero_bitmap =
        false ∧
      poi_valid_pfn example_consts
        (uxenvm_savevm_write_pages example_pages_env example_bulk_info []).max_gpfn 0 = true ∧
      (uxenvm_savevm_write_pages example_pages_env example_bulk_info []).pfn_off
        (poi_pfn_index example_consts 0) = 0 ∧
      ¬ entry_locates stored_lz4 false
        (uxenvm_savevm_write_pages example_pages_env example_bulk_info []).f
        ((uxenvm_savevm_write_pages example_pages_env example_bulk_info []).pfn_off
          (poi_pfn_index example_consts 0))
        (List.replicate 4096 7)) ∧
    ((uxenvm_savevm_write_pages example_high_frame_env example_per_page_info []).log.map
        (fun b => (b.pfn, b.pfn_batch)) = [(0, [256])] ∧
      test_bit 256
        (uxenvm_savevm_write_pages example_high_frame_env example_per_page_info []).zero_bitmap =
        false ∧
      poi_valid_pfn example_consts
        (uxenvm_savevm_write_pages example_high_frame_env example_per_page_info []).max_gpfn
        256 = false ∧
      (uxenvm_savevm_write_pages example_high_frame_env example_per_page_info []).pfn_off_nr =
        256 ∧
      (List.range 256).all (fun k =>
        (uxenvm_savevm_write_pages example_high_frame_env example_per_page_info []).pfn_off k =
          0) = true) ∧
    ((uxenvm_savevm_write_pages example_other_type_env example_per_page_info []).log.map
        (fun b => (b.pfn, b.pfn_batch, (b.classified 1).type)) = [(0, [0], OTHER)] ∧
      test_bit 1
        (uxenvm_savevm_write_pages example_other_type_env example_per_page_info []).zero_bitmap =
        false ∧
      poi_valid_pfn example_consts
        (uxenvm_savevm_write_pages example_other_type_env example_per_page_info []).max_gpfn
        1 = true ∧
      (uxenvm_savevm_write_pages example_other_type_env example_per_page_info []).pfn_off
        (poi_pfn_index example_consts 1) = 0 ∧
      (uxenvm_savevm_write_pages example_other_type_env example_per_page_info []).pfn_off
        (poi_pfn_index example_consts 0) ≠ 0) :=
  ⟨bulk_save_frame_without_entry, high_frame_without_entry, other_type_frame_without_entry⟩

/-- C5 (amended): for a save whose file stays below `2^63` bytes, with a PCI
hole that does not end before it starts and a capture that never reports more
entries than requested. Every frame of a frame list is a page of a run written
as payload, and distinct frames with a slot have distinct index entries. No
entry is written for a frame in the PCI hole or at or above `max_gpfn`: the
entries written are those of pages of runs whose frame has a slot, every other
entry stays 0. In bulk LZ4 mode all entries stay 0. Without compression and in
per-page mode the entry of every written page whose frame is below `max_gpfn`
and outside the PCI hole locates the page in the file: the raw page with the
indicator clear, or the length field of the compressed page with the indicator
set; without compression this is for a page that lies in the capture buffer at
its place in the block of its run, which the writer copies as one block. -/
theorem C5_index_locates_written_pages (env : SaveEnv) (info : vm_save_info) (f0 : List Nat)
    (hK : env.K.PCI_HOLE_START_PFN ≤ env.K.PCI_HOLE_END_PFN)
    (hdone : ∀ pfn batch r, (env.xc_domain_memory_capture pfn batch r).batch_done ≤ batch)
    (hlen : (uxenvm_savevm_write_pages env info f0).f.length < 2 ^ 63) :
    index_locates_pages env info (uxenvm_savevm_write_pages env info f0) := by
  refine ⟨fun g1 g2 h1 h2 h => poi_pfn_index_inj env.K hK _ g1 g2 h1 h2 h,
    fun b hb => write_pages_covered env info f0 hdone b hb,
    write_pages_only_runs env info f0,
    fun hm hs k => write_pages_pfn_off_bulk env info f0 hm hs k, ?_⟩
  intro hmode b hb p hp i hi hv hcontig
  have hmode2 : info.compress_mode = VM_SAVE_COMPRESS_NONE ∨
      (info.compress_mode = VM_SAVE_COMPRESS_LZ4 ∧ info.single_page = true) := by
    cases hm : info.compress_mode
    · exact Or.inl rfl
    · rcases hmode with h | h
      · rw [hm] at h
        exact absurd h (by decide)
      · exact Or.inr ⟨rfl, h⟩
  have hsl := write_pages_indexed env info f0 hK hmode2 b hb p hp i hi hv
  have hpage : run_page info b.capture.mem_buffer b.classified p.1 i =
      buf_read b.capture.mem_buffer (b.classified (p.1 + i)).offset PAGE_SIZE := by
    unfold run_page
    cases hm : info.compress_mode
    · simp only
      rw [hcontig hm]
    · rfl
  rw [hpage] at hsl
  exact slot_written_locates env.lz4 info _ _ _ hmode2 hlen (take_pad_length _ _) hsl

/-- C5 (amended) at the three-frame guest saved in per-page mode. -/
theorem C5_index_locates_written_pages_witness :
    example_pages_env.K.PCI_HOLE_START_PFN ≤ example_pages_env.K.PCI_HOLE_END_PFN ∧
    (∀ pfn batch r,
      (example_pages_env.xc_domain_memory_capture pfn batch r).batch_done ≤ batch) ∧
    (uxenvm_savevm_write_pages example_pages_env example_per_page_info []).f.length < 2 ^ 63 ∧
    index_locates_pages example_pages_env example_per_page_info
      (uxenvm_savevm_write_pages example_pages_env example_per_page_info []) :=
  ⟨by decide, fun _ batch _ => Nat.min_le_left batch 3, by decide!,
    C5_index_locates_written_pages example_pages_env example_per_page_info []
      (by decide) (fun _ batch _ => Nat.min_le_left batch 3) (by decide!)⟩

/-! ## Load: the zero-bitmap record and the decompression pool -/

/-- C13 (failing input): the zero bitmap `[2]` of one byte. The codec cannot
make it smaller, so the record written by the save holds the byte itself
(size field 13, bitmap size 1); the loader hands that byte to
`LZ4_decompress_fast`, whose result is not the payload length, and the load
returns `-EINVAL` without a demand-populate call. -/
theorem C13_raw_zero_bitmap_record_rejected :
    zero_bitmap_record stored_lz4 false [2] 1 =
      enc_i32 XC_SAVE_ID_ZERO_BITMAP ++ enc_u32 13 ++ enc_u32 1 ++ [2] ∧
    (uxenvm_loadvm_execute example_load_env example_globals
        (version_record ++ zero_bitmap_record stored_lz4 false [2] 1 ++ enc_i32 0)
        VM_RESTORE_NORMAL).map
      (fun st => (st.io.ret, st.io.trace)) = some (-EINVAL, []) := by
  constructor <;> decide

/-- C18 (failing input): the stream "version record, one per-page batch whose
length prefix is larger than a page, end marker". The job of the batch fails
in `decompress_batch` and records -1 in `dc->ret`; no batch follows, the pool
is drained, and `uxenvm_loadvm_execute` returns 0 (`vm_load` returns 0) with
no page populated. -/
theorem C18_failed_last_job_reports_success :
    (uxenvm_loadvm_execute example_load_env example_globals
        (version_record ++ corrupt_page_batch ++ enc_i32 0) VM_RESTORE_NORMAL).map
      (fun st => (st.io.ret, st.io.dc.ret, st.io.dc.async_op_ctx, st.io.trace)) =
      some (0, -1, false, [Event.alloc_pp_buffer, Event.alloc_pp_buffer,
        Event.free_pp_buffer, Event.free_pp_buffer, Event.mapcache_init]) ∧
    (vm_load example_load_env example_globals
        (some (version_record ++ corrupt_page_batch ++ enc_i32 0)) VM_RESTORE_NORMAL).map
      (fun r => r.1) = some 0 := by
  constructor <;> decide

theorem uxenvm_load_read_split {α : Type} (P : α → Prop) (io : io_state) (size : Nat)
    (out : io_state → α) (k : List Nat → io_state → α)
    (hout : ∀ f r, P (out { io with f := f, ret := r }))
    (hk : ∀ b f r, P (k b { io with f := f, ret := r })) :
    P (uxenvm_load_read io size out k) := by
  unfold uxenvm_load_read
  dsimp only
  split
  · exact hout _ _
  · exact hk _ _ _

theorem uxenvm_load_read_struct_split {α : Type} (P : α → Prop) (io : io_state) (size : Nat)
    (out : io_state → α) (k : List Nat → io_state → α)
    (hout : ∀ f r, P (out { io with f := f, ret := r }))
    (hk : ∀ b f r, P (k b { io with f := f, ret := r })) :
    P (uxenvm_load_read_struct io size out k) := by
  unfold uxenvm_load_read_struct
  dsimp only
  split
  · exact hout _ _
  · exact hk _ _ _

/-- The four ways through the macro `uxenvm_check_restore_clone`. -/
theorem check_restore_clone_split (P : LoadState × ctl → Prop) (env : LoadEnv) (st : LoadState)
    (k : LoadState → LoadState × ctl)
    (hnot : st.restore_mode ≠ VM_RESTORE_CLONE → P (k st))
    (hfail : st.restore_mode = VM_RESTORE_CLONE → env.xc_domain_clone_physmap < 0 →
      P ({ st with io := { st.io with ret := env.xc_domain_clone_physmap,
                                      trace := st.io.trace ++ [Event.clone_physmap] } },
        ctl.out))
    (hfirst : st.restore_mode = VM_RESTORE_CLONE → ¬ env.xc_domain_clone_physmap < 0 →
      st.g.vm_has_template_uuid = false →
      P ({ st with g := { st.g with vm_has_template_uuid := true },
                   io := { st.io with ret := 0,
                                      trace := st.io.trace ++ [Event.clone_physmap] } },
        ctl.skip_mem))
    (hlater : st.restore_mode = VM_RESTORE_CLONE → ¬ env.xc_domain_clone_physmap < 0 →
      st.g.vm_has_template_uuid = true →
      P (k { st with io := { st.io with ret := env.xc_domain_clone_physmap,
                                        trace := st.io.trace ++ [Event.clone_physmap] },
                     restore_mode := VM_RESTORE_NORMAL })) :
    P (uxenvm_check_restore_clone env st k) := by
  unfold uxenvm_check_restore_clone
  dsimp only
  split
  · rename_i hm
    split
    · rename_i hc
      exact hfail hm hc
    · rename_i hc
      cases hu : st.g.vm_has_template_uuid
      · simp only [Bool.not_false, if_true]
        exact hfirst hm hc hu
      · simp only [Bool.not_true, Bool.false_eq_true, if_false]
        exact hlater hm hc hu
  · rename_i hm
    exact hnot hm

theorem same_buffers_refl (env : LoadEnv) (dc : decompress_ctx) : same_buffers env dc dc :=
  ⟨rfl, Nat.le_refl _, fun _ => rfl⟩

theorem same_buffers_of_sum (env : LoadEnv) (dc dc2 : decompress_ctx)
    (h1 : dc2.async_op_ctx = dc.async_op_ctx)
    (h2 : dc2.list + dc2.pending = dc.list + dc.pending) : same_buffers env dc dc2 :=
  ⟨h1, Nat.le_of_eq h2, fun _ => h2⟩

theorem async_op_process_same (env : LoadEnv) (dc : decompress_ctx) :
    same_buffers env dc (async_op_process env dc) := by
  refine same_buffers_of_sum env _ _ rfl ?_
  unfold async_op_process
  dsimp only
  omega

theorem async_op_wait_process_same (env : LoadEnv) (dc : decompress_ctx) :
    same_buffers env dc (async_op_wait_process env dc) := by
  refine same_buffers_of_sum env _ _ rfl ?_
  unfold async_op_wait_process
  dsimp only
  omega

theorem first_free_buffer_same (env : LoadEnv) (dc : decompress_ctx) :
    same_buffers env dc (first_free_buffer env dc) := by
  unfold first_free_buffer
  split
  · exact async_op_wait_process_same env dc
  · exact same_buffers_refl env dc

theorem same_buffers_trans (env : LoadEnv) (a b c : decompress_ctx)
    (h1 : same_buffers env a b) (h2 : same_buffers env b c) : same_buffers env a c :=
  ⟨h2.1.trans h1.1, Nat.le_trans h2.2.1 h1.2.1, fun h => (h2.2.2 h).trans (h1.2.2 h)⟩

theorem pool_balanced_of_same (env : LoadEnv) (a b : decompress_ctx)
    (h : same_buffers env a b) (ha : pool_balanced env a) : pool_balanced env b := by
  intro hb
  have h1 := ha (h.1 ▸ hb)
  exact ⟨Nat.le_trans h.2.1 h1.1, fun hadd => (h.2.2 hadd).trans (h1.2 hadd)⟩

theorem submit_job_same (env : LoadEnv) (io : io_state)
    (batch : Nat) (pfn_type compress_buf : List Nat) (compress_size : Int) (sp pc : Bool) :
    same_buffers env io.dc
      (submit_job env io batch pfn_type compress_buf compress_size sp pc).dc := by
  have h1 := async_op_process_same env io.dc
  have h2 := first_free_buffer_same env (async_op_process env io.dc)
  have h3 := same_buffers_trans env _ _ _ h1 h2
  unfold submit_job
  dsimp only
  split
  · exact h1
  · split
    · exact h3
    · rename_i hl
      split
      · rename_i hadd
        refine ⟨h3.1, ?_, fun h0 => absurd h0 hadd⟩
        dsimp only
        have := h3.2.1
        omega
      · refine ⟨h3.1, ?_, fun h0 => ?_⟩
        · dsimp only
          have := h3.2.1
          omega
        · dsimp only
          have := h3.2.2 h0
          omega

theorem populate_direct_dc (env : LoadEnv) (io : io_state) (batch : Nat) (pfn_type : List Nat)
    (d l : Bool) (cs : Int) : (populate_direct env io batch pfn_type d l cs).dc = io.dc := by
  unfold populate_direct
  dsimp only
  split
  · rfl
  · split
    · rfl
    · split
      · rfl
      · split
        · rfl
        · split <;> rfl

theorem load_readbatch_same (env : LoadEnv) (io : io_state)
    (batch : Nat) (d sp l pc : Bool) :
    same_buffers env io.dc (uxenvm_load_readbatch env io batch d sp l pc).dc := by
  have h0 := same_buffers_refl env io.dc
  unfold uxenvm_load_readbatch
  dsimp only
  refine uxenvm_load_read_split (fun (r : io_state) => same_buffers env io.dc r.dc) _ _ _ _
    (fun _ _ => h0) (fun _ _ _ => ?_)
  refine ite_cases (fun (r : io_state) => same_buffers env io.dc r.dc) _ _ _ ?_ ?_
  · refine uxenvm_load_read_split (fun (r : io_state) => same_buffers env io.dc r.dc) _ _ _ _
      (fun _ _ => h0) (fun _ _ _ => ?_)
    refine ite_cases (fun (r : io_state) => same_buffers env io.dc r.dc) _ _ _ ?_ ?_
    · dsimp only
      rw [populate_direct_dc]
      exact h0
    · refine ite_cases (fun (r : io_state) => same_buffers env io.dc r.dc) _ _ _ h0 ?_
      refine uxenvm_load_read_split (fun (r : io_state) => same_buffers env io.dc r.dc) _ _ _ _
        (fun _ _ => h0) (fun _ _ _ => ?_)
      exact submit_job_same env _ _ _ _ _ _ _
  · dsimp only
    rw [populate_direct_dc]
    exact h0

theorem load_batch_setup_balanced (env : LoadEnv) (st : LoadState) (d : Bool) (count : Nat)
    (h : pool_balanced env st.io.dc) :
    pool_balanced env (load_batch_setup st d count).io.dc := by
  unfold load_batch_setup
  dsimp only
  split
  · intro _
    exact ⟨Nat.le_refl _, fun _ => rfl⟩
  · exact h

/-- A page batch leaves the pool balanced. -/
theorem load_batch_balanced (env : LoadEnv) (st : LoadState)
    (marker : Int) (l pc : Bool) (h : pool_balanced env st.io.dc) :
    pool_balanced env (uxenvm_load_batch env st marker l pc).io.dc := by
  unfold uxenvm_load_batch
  split
  · exact h
  · dsimp only
    exact pool_balanced_of_same env _ _ (load_readbatch_same env _ _ _ _ _ _)
      (load_batch_setup_balanced env st _ _ h)

/-- The record loop's `switch`: a metadata record leaves pool, trace and
restore mode alone; the other two cases are the zero-bitmap record and the
page batch. -/
theorem load_switch_cases (P : LoadState × ctl → Prop) (env : LoadEnv) (pc : Bool)
    (st : LoadState) (m : Int)
    (hmeta : ∀ r : LoadState × ctl, metadata_step st r.1 → P r)
    (hzb : P (load_zero_bitmap_record env st))
    (hdef : P (load_default env pc st m)) : P (load_switch env pc st m) := by
  unfold load_switch
  refine ite_cases P _ _ _ ?_
    (ite_cases P _ _ _ ?_
    (ite_cases P _ _ _ ?_
    (ite_cases P _ _ _ ?_
    (ite_cases P _ _ _ ?_
    (ite_cases P _ _ _ ?_
    (ite_cases P _ _ _ ?_
    (ite_cases P _ _ _ ?_
    (ite_cases P _ _ _ ?_
    (ite_cases P _ _ _ ?_
    (ite_cases P _ _ _ ?_
    (ite_cases P _ _ _ ?_
    (ite_cases P _ _ _ ?_
    (ite_cases P _ _ _ ?_
    (ite_cases P _ _ _ ?_
    (ite_cases P _ _ _ ?_
    ?_)))))))))))))))
  all_goals first
    | exact hdef
    | exact hzb
    | exact hmeta _ (uxenvm_load_read_struct_split
        (fun (r : LoadState × ctl) => metadata_step st r.1) _ _ _ _
        (fun _ _ => ⟨rfl, rfl, rfl, rfl⟩) (fun _ _ _ => ⟨rfl, rfl, rfl, rfl⟩))
    | exact hmeta _ (uxenvm_load_read_struct_split
        (fun (r : LoadState × ctl) => metadata_step st r.1) _ _ _ _
        (fun _ _ => ⟨rfl, rfl, rfl, rfl⟩) (fun _ _ _ =>
          uxenvm_load_read_split (fun (r : LoadState × ctl) => metadata_step st r.1) _ _ _ _
            (fun _ _ => ⟨rfl, rfl, rfl, rfl⟩) (fun _ _ _ => ⟨rfl, rfl, rfl, rfl⟩)))

theorem load_zero_bitmap_record_dc (env : LoadEnv) (st : LoadState) :
    (load_zero_bitmap_record env st).1.io.dc = st.io.dc := by
  unfold load_zero_bitmap_record goto_out
  refine uxenvm_load_read_struct_split (fun (r : LoadState × ctl) => r.1.io.dc = st.io.dc)
    _ _ _ _ (fun _ _ => rfl) (fun _ _ _ => ?_)
  refine ite_cases (fun (r : LoadState × ctl) => r.1.io.dc = st.io.dc) _ _ _ rfl ?_
  refine uxenvm_load_read_split (fun (r : LoadState × ctl) => r.1.io.dc = st.io.dc)
    _ _ _ _ (fun _ _ => rfl) (fun _ _ _ => ?_)
  refine ite_cases (fun (r : LoadState × ctl) => r.1.io.dc = st.io.dc) _ _ _ rfl ?_
  refine check_restore_clone_split (fun (r : LoadState × ctl) => r.1.io.dc = st.io.dc) _ _ _
    (fun _ => ?_) (fun _ _ => rfl) (fun _ _ _ => rfl) (fun _ _ _ => ?_)
  · exact ite_cases (fun (r : LoadState × ctl) => r.1.io.dc = st.io.dc) _ _ _ rfl rfl
  · exact ite_cases (fun (r : LoadState × ctl) => r.1.io.dc = st.io.dc) _ _ _ rfl rfl

theorem load_default_balanced (env : LoadEnv) (pc : Bool)
    (st : LoadState) (m : Int) (h : pool_balanced env st.io.dc) :
    pool_balanced env (load_default env pc st m).1.io.dc := by
  unfold load_default
  refine check_restore_clone_split (fun (r : LoadState × ctl) => pool_balanced env r.1.io.dc)
    _ _ _ (fun _ => ?_) (fun _ _ => h) (fun _ _ _ => h) (fun _ _ _ => ?_)
  · exact ite_cases (fun (r : LoadState × ctl) => pool_balanced env r.1.io.dc) _ _ _
      (load_batch_balanced env _ _ _ _ h) (load_batch_balanced env _ _ _ _ h)
  · exact ite_cases (fun (r : LoadState × ctl) => pool_balanced env r.1.io.dc) _ _ _
      (load_batch_balanced env _ _ _ _ h) (load_batch_balanced env _ _ _ _ h)

theorem load_record_balanced (env : LoadEnv) (pc : Bool)
    (st : LoadState) (h : pool_balanced env st.io.dc) :
    pool_balanced env (load_record env pc st).1.io.dc := by
  unfold load_record
  refine uxenvm_load_read_split (fun (r : LoadState × ctl) => pool_balanced env r.1.io.dc)
    _ _ _ _ (fun _ _ => h) (fun _ _ _ => ?_)
  refine ite_cases (fun (r : LoadState × ctl) => pool_balanced env r.1.io.dc) _ _ _ h ?_
  refine load_switch_cases (fun (r : LoadState × ctl) => pool_balanced env r.1.io.dc) _ _ _ _
    (fun r hr => ?_) ?_ ?_
  · show pool_balanced env r.1.io.dc
    rw [hr.1]
    exact h
  · show pool_balanced env (load_zero_bitmap_record env _).1.io.dc
    rw [load_zero_bitmap_record_dc]
    exact h
  · exact load_default_balanced env pc _ _ h

theorem load_loop_balanced (env : LoadEnv) (pc : Bool) (n : Nat)
    (st : LoadState) (r : LoadState × ctl) (h : pool_balanced env st.io.dc)
    (hl : load_loop env pc n st = some r) : pool_balanced env r.1.io.dc := by
  induction n generalizing st with
  | zero => simp [load_loop] at hl
  | succ n ih =>
    unfold load_loop at hl
    split at hl
    · cases hl
      exact h
    · have hr := load_record_balanced env pc { st with polls := st.polls + 1 } h
      dsimp only at hl
      split at hl
      · exact ih _ hr hl
      · cases hl
        exact hr

/-- C19: the pool of `DECOMPRESS_THREADS = 2` buffers. Setting the pool up puts
2 buffers on the free list with no job in flight; the completions run by
`async_op_process` move buffers from "in flight" back to the free list; a
submission from a balanced pool ends with at most 2 jobs in flight (a job is
added only after a buffer was found on the free list, if need be after
waiting for a completion) and keeps the pool balanced; the pool is balanced
when the load starts, after every record, and when the record loop is left:
free buffers plus jobs in flight never exceed 2, and number exactly 2 when
`async_op_add` does not fail. -/
theorem C19_pool_bound (env : LoadEnv) (pc : Bool) :
    (∀ (st : LoadState) (count : Nat), st.io.dc.async_op_ctx = false →
      (load_batch_setup st true count).io.dc.async_op_ctx = true ∧
      (load_batch_setup st true count).io.dc.list = DECOMPRESS_THREADS ∧
      (load_batch_setup st true count).io.dc.pending = 0) ∧
    (∀ dc : decompress_ctx,
      (async_op_process env dc).list + (async_op_process env dc).pending =
        dc.list + dc.pending ∧
      (async_op_process env dc).pending ≤ dc.pending) ∧
    (∀ (io : io_state) (batch : Nat) (pfn_type compress_buf : List Nat) (compress_size : Int)
        (sp pcf : Bool), pool_balanced env io.dc → io.dc.async_op_ctx = true →
      (submit_job env io batch pfn_type compress_buf compress_size sp pcf).dc.pending ≤
        DECOMPRESS_THREADS ∧
      pool_balanced env
        (submit_job env io batch pfn_type compress_buf compress_size sp pcf).dc) ∧
    (∀ (g : vm_globals) (file : List Nat) (mode : restore_mode),
      pool_balanced env (load_init g file mode).io.dc) ∧
    (∀ st : LoadState, pool_balanced env st.io.dc →
      pool_balanced env (load_record env pc st).1.io.dc) ∧
    (∀ (n : Nat) (st : LoadState) (r : LoadState × ctl), pool_balanced env st.io.dc →
      load_loop env pc n st = some r → pool_balanced env r.1.io.dc) := by
  refine ⟨?_, ?_, ?_, ?_, ?_, ?_⟩
  · intro st count h
    unfold load_batch_setup
    simp only [h, Bool.not_false, Bool.and_self, if_true]
    exact ⟨trivial, trivial, trivial⟩
  · intro dc
    unfold async_op_process
    dsimp only
    omega
  · intro io batch pfn_type compress_buf compress_size sp pcf hb hctx
    have hs := submit_job_same env io batch pfn_type compress_buf compress_size sp pcf
    have h2 := pool_balanced_of_same env _ _ hs hb
    refine ⟨?_, h2⟩
    have := (h2 (hs.1.trans hctx)).1
    omega
  · intro g file mode h
    exact absurd h (Bool.false_ne_true)
  · exact fun st h => load_record_balanced env pc st h
  · exact fun n st r h hl => load_loop_balanced env pc n st r h hl

/-! ## Load: replay of the zero bitmap -/

theorem set_bits_succ (zb : List Nat) (i : Nat) :
    set_bits zb (i + 1) = set_bits zb i ++ (if test_bit i zb then [i] else []) := by
  unfold set_bits
  rw [List.range_succ, List.filter_append]
  congr 1
  by_cases h : test_bit i zb = true
  · simp [h]
  · simp [h]

theorem set_bits_prefix (zb : List Nat) (i n : Nat) :
    ∃ rest, set_bits zb i ++ rest = set_bits zb (i + n) := by
  induction n with
  | zero => exact ⟨[], List.append_nil _⟩
  | succ n ih =>
    obtain ⟨rest, h⟩ := ih
    refine ⟨rest ++ (if test_bit (i + n) zb then [i + n] else []), ?_⟩
    rw [← Nat.add_assoc, set_bits_succ, ← h, List.append_assoc]

theorem load_zero_bitmap_loop_spec (env : LoadEnv) (zb : List Nat) (N last : Nat)
    (hlast : N ≠ 0 → last = N - 1) (n i : Nat) (pfn_type : List Nat) (cs : List (List Nat))
    (hN : i + n = N) (hlen : pfn_type.length < MAX_BATCH_SIZE) (hn0 : n = 0 → pfn_type = [])
    (hjoin : cs.flatten ++ pfn_type = set_bits zb i)
    (hok : ∀ l ∈ cs, l.length ≤ MAX_BATCH_SIZE ∧
      env.xc_domain_populate_physmap_exact l false = 0)
    (hfull : n ≠ 0 → ∀ l ∈ cs, l.length = MAX_BATCH_SIZE)
    (hdrop : ∀ l ∈ cs.dropLast, l.length = MAX_BATCH_SIZE) :
    ∃ calls,
      (load_zero_bitmap_loop env zb last n i pfn_type (populate_calls cs)).2 =
        populate_calls calls ∧
      zero_bitmap_replayed env zb N calls
        (load_zero_bitmap_loop env zb last n i pfn_type (populate_calls cs)).1 := by
  induction n generalizing i pfn_type cs with
  | zero =>
    refine ⟨cs, rfl, fun l hl => (hok l hl).1,
      fun l hl => ⟨hdrop l hl, (hok l (List.mem_of_mem_dropLast hl)).2⟩, fun _ => ⟨?_, ?_⟩,
      fun h => absurd rfl h⟩
    · rw [hn0 rfl, List.append_nil] at hjoin
      rw [hjoin, ← hN, Nat.add_zero]
    · exact fun l hl => (hok l hl).2
  | succ n ih =>
    have hNz : N ≠ 0 := by omega
    have hl1 := hlast hNz
    unfold load_zero_bitmap_loop
    dsimp only
    obtain ⟨p2, hp2⟩ : ∃ p2, (if test_bit i zb = true then pfn_type ++ [i] else pfn_type) = p2 :=
      ⟨_, rfl⟩
    rw [hp2]
    have hp2len : p2.length ≤ MAX_BATCH_SIZE := by
      rw [← hp2]
      split
      · rw [List.length_append, List.length_singleton]
        omega
      · omega
    have hp2join : cs.flatten ++ p2 = set_bits zb (i + 1) := by
      rw [set_bits_succ, ← hjoin, ← hp2, List.append_assoc]
      congr 1
      split <;> simp
    by_cases hc : p2.length = MAX_BATCH_SIZE ∨ i = last
    · rw [if_pos hc]
      have hcs2 : populate_calls cs ++ [Event.populate_physmap_exact p2 false] =
          populate_calls (cs ++ [p2]) := by
        unfold populate_calls
        rw [List.map_append]
        rfl
      rw [hcs2]
      have hj2 : (cs ++ [p2]).flatten = set_bits zb (i + 1) := by
        rw [List.flatten_append, ← hp2join]
        simp
      by_cases hr : env.xc_domain_populate_physmap_exact p2 false ≠ 0
      · rw [if_pos hr]
        refine ⟨cs ++ [p2], rfl, ?_, ?_, fun h => absurd h hr, fun _ => ⟨p2, ?_, rfl, ?_⟩⟩
        · intro l hl
          rcases List.mem_append.mp hl with hl | hl
          · exact (hok l hl).1
          · rw [List.mem_singleton] at hl
            rw [hl]
            exact hp2len
        · intro l hl
          rw [List.dropLast_concat] at hl
          exact ⟨hfull (by omega) l hl, (hok l hl).2⟩
        · simp
        · rw [hj2]
          obtain ⟨rest, hrest⟩ := set_bits_prefix zb (i + 1) n
          exact ⟨rest, by rw [hrest]; congr 1; omega⟩
      · rw [if_neg hr]
        have hr0 : env.xc_domain_populate_physmap_exact p2 false = 0 := not_not.mp hr
        refine ih (i + 1) [] (cs ++ [p2]) (by omega) (by decide) (fun _ => rfl)
          (by rw [List.append_nil]; exact hj2) ?_ ?_ ?_
        · intro l hl
          rcases List.mem_append.mp hl with hl | hl
          · exact hok l hl
          · rw [List.mem_singleton] at hl
            rw [hl]
            exact ⟨hp2len, hr0⟩
        · intro hn l hl
          rcases List.mem_append.mp hl with hl | hl
          · exact hfull (by omega) l hl
          · rw [List.mem_singleton] at hl
            rw [hl]
            rcases hc with hc | hc
            · exact hc
            · omega
        · intro l hl
          rw [List.dropLast_concat] at hl
          exact hfull (by omega) l hl
    · rw [if_neg hc]
      rw [not_or] at hc
      refine ih (i + 1) p2 cs (by omega) (by omega) (fun hn => ?_) hp2join hok
        (fun _ => hfull (by omega)) hdrop
      omega

/-- C14: for a bitmap of `zero_bitmap_size` bytes (with `8 * zero_bitmap_size`
in the range of `int`), the trace of `uxenvm_load_zero_bitmap` is a sequence of
demand-populate calls. No call carries more than 1023 frames and every call but
the last carries exactly 1023 and succeeds. When the function returns 0 the
frame lists, concatenated in call order, are the indices of the set bits in
increasing order; otherwise the last call made is the first one that failed,
the function returns its error, and the frame lists are an initial part of the
set bits. -/
theorem C14_zero_bitmap_replay (env : LoadEnv) (zero_bitmap : List Nat) (zero_bitmap_size : Nat)
    (hsize : 8 * zero_bitmap_size < 2147483648) :
    ∃ calls,
      (uxenvm_load_zero_bitmap env zero_bitmap zero_bitmap_size).2 = populate_calls calls ∧
      zero_bitmap_replayed env zero_bitmap (8 * zero_bitmap_size) calls
        (uxenvm_load_zero_bitmap env zero_bitmap zero_bitmap_size).1 := by
  unfold uxenvm_load_zero_bitmap
  have hn : (8 * zero_bitmap_size) % 4294967296 = 8 * zero_bitmap_size :=
    Nat.mod_eq_of_lt (by omega)
  rw [hn]
  dsimp only
  refine load_zero_bitmap_loop_spec env zero_bitmap (8 * zero_bitmap_size) _ (fun h => ?_)
    (8 * zero_bitmap_size) 0 [] [] (Nat.zero_add _) (by decide) (fun _ => rfl) rfl
    (fun l hl => absurd hl (List.not_mem_nil _)) (fun _ l hl => absurd hl (List.not_mem_nil _))
    (fun l hl => absurd hl (List.not_mem_nil _))
  omega

/-- C14 on the two-byte bitmap `[5, 1]` (bits 0, 2 and 8 set). -/
theorem C14_zero_bitmap_replay_witness :
    8 * 2 < 2147483648 ∧
    ∃ calls,
      (uxenvm_load_zero_bitmap example_load_env [5, 1] 2).2 = populate_calls calls ∧
      zero_bitmap_replayed example_load_env [5, 1] (8 * 2) calls
        (uxenvm_load_zero_bitmap example_load_env [5, 1] 2).1 :=
  ⟨by decide, C14_zero_bitmap_replay example_load_env [5, 1] 2 (by decide)⟩

/-! ## Save: re-sharing of zero pages -/

theorem classify_rezero_pfns (fm : Bool) (mem : List Nat) (pfn n j : Nat)
    (s : classify_state) :
    (classify fm mem pfn n j s).rezero_pfns =
      s.rezero_pfns ++ ((List.range' j n).filter fun k =>
        decide ((s.gpfn_info_list k).type = XENMEM_MCGI_TYPE_NORMAL) &&
          page_is_zero mem (s.gpfn_info_list k).offset && !fm).map fun k => pfn + k := by
  induction n generalizing j s with
  | zero =>
    unfold classify
    simp
  | succ n ih =>
    unfold classify
    rw [ih, List.range'_succ, List.filter_cons]
    have hcongr : (List.range' (j + 1) n).filter (fun k =>
          decide (((classify_step fm mem pfn j s).gpfn_info_list k).type =
            XENMEM_MCGI_TYPE_NORMAL) &&
            page_is_zero mem ((classify_step fm mem pfn j s).gpfn_info_list k).offset && !fm) =
        (List.range' (j + 1) n).filter (fun k =>
          decide ((s.gpfn_info_list k).type = XENMEM_MCGI_TYPE_NORMAL) &&
            page_is_zero mem (s.gpfn_info_list k).offset && !fm) := by
      refine List.filter_congr (fun k hk => ?_)
      have hkj : k ≠ j := by
        have := (List.mem_range'_1.mp hk).1
        omega
      rw [classify_step_gl, if_neg hkj]
    rw [hcongr]
    have hstep : (classify_step fm mem pfn j s).rezero_pfns =
        if (decide ((s.gpfn_info_list j).type = XENMEM_MCGI_TYPE_NORMAL) &&
            page_is_zero mem (s.gpfn_info_list j).offset && !fm) = true then
          s.rezero_pfns ++ [pfn + j]
        else s.rezero_pfns := rfl
    rw [hstep]
    split
    · rw [List.map_cons, List.append_assoc]
      rfl
    · rfl

theorem save_trace_append (info : vm_save_info) (l : List batch_log) (e : batch_log) :
    save_trace info (l ++ [e]) = save_trace info l ++ batch_trace info e := by
  induction l with
  | nil => simp [save_trace]
  | cons b bs ih => simp [save_trace, ih]

/-- One iteration of the page loop appends the hypercalls of its batch to the
trace, and every captured Normal page that passes the zero test is typed Zero
in the classified list. -/
theorem save_batch_trace (env : SaveEnv) (info : vm_save_info) (p2m_size m : Nat)
    (s : save_state) :
    ∃ e, (save_batch env info p2m_size m s).log = s.log ++ [e] ∧
      (save_batch env info p2m_size m s).trace = s.trace ++ batch_trace info e ∧
      ∀ j, j < e.capture.batch_done → (e.captured j).type = XENMEM_MCGI_TYPE_NORMAL →
        page_is_zero e.capture.mem_buffer (e.captured j).offset = true →
        (e.classified j).type = XENMEM_MCGI_TYPE_ZERO := by
  unfold save_batch
  simp only
  generalize fill_batch p2m_size s.pfn MAX_BATCH_SIZE 0 = batch
  generalize env.xc_domain_memory_capture s.pfn batch info.free_mem = cap
  generalize hgl0 : (fun j => if j < cap.batch_done then cap.info.getD j (s.gpfn_info_list j)
    else s.gpfn_info_list j) = gl0
  have hrz := classify_rezero_pfns info.free_mem cap.mem_buffer s.pfn cap.batch_done 0
    { gpfn_info_list := gl0, pfn_batch := [], zero_bitmap := s.zero_bitmap,
      rezero_pfns := [], rezero := 0, _zero := 0, clone := 0 }
  have hgl := classify_gl info.free_mem cap.mem_buffer s.pfn cap.batch_done 0
    { gpfn_info_list := gl0, pfn_batch := [], zero_bitmap := s.zero_bitmap,
      rezero_pfns := [], rezero := 0, _zero := 0, clone := 0 }
  generalize classify info.free_mem cap.mem_buffer s.pfn cap.batch_done 0
    { gpfn_info_list := gl0, pfn_batch := [], zero_bitmap := s.zero_bitmap,
      rezero_pfns := [], rezero := 0, _zero := 0, clone := 0 } = c at hrz hgl ⊢
  simp only [List.nil_append] at hrz hgl
  have hz : ∀ j, j < cap.batch_done → (gl0 j).type = XENMEM_MCGI_TYPE_NORMAL →
      page_is_zero cap.mem_buffer (gl0 j).offset = true →
      (c.gpfn_info_list j).type = XENMEM_MCGI_TYPE_ZERO := by
    intro j hj ht hp
    rw [hgl j, if_pos ⟨Nat.zero_le _, by omega⟩]
    exact rescan_type_zero_page _ _ ht hp
  split
  · refine ⟨_, rfl, ?_, hz⟩
    dsimp only
    unfold batch_trace rezero_frames
    dsimp only
    rw [← hrz, List.append_assoc]
  · refine ⟨_, rfl, ?_, hz⟩
    dsimp only
    unfold batch_trace rezero_frames
    dsimp only
    rw [← hrz, List.append_assoc]

theorem write_pages_loop_trace (env : SaveEnv) (info : vm_save_info) (p2m_size m n : Nat)
    (s : save_state) (h : s.trace = save_trace info s.log)
    (hz : ∀ e ∈ s.log, ∀ j, j < e.capture.batch_done →
      (e.captured j).type = XENMEM_MCGI_TYPE_NORMAL →
      page_is_zero e.capture.mem_buffer (e.captured j).offset = true →
      (e.classified j).type = XENMEM_MCGI_TYPE_ZERO) :
    (write_pages_loop env info p2m_size m n s).trace =
      save_trace info (write_pages_loop env info p2m_size m n s).log ∧
    ∀ e ∈ (write_pages_loop env info p2m_size m n s).log, ∀ j, j < e.capture.batch_done →
      (e.captured j).type = XENMEM_MCGI_TYPE_NORMAL →
      page_is_zero e.capture.mem_buffer (e.captured j).offset = true →
      (e.classified j).type = XENMEM_MCGI_TYPE_ZERO := by
  induction n generalizing s with
  | zero => exact ⟨h, hz⟩
  | succ n ih =>
    unfold write_pages_loop
    split
    · obtain ⟨e, h1, h2, h3⟩ := save_batch_trace env info p2m_size m
        { s with polls := s.polls + 1 }
      refine ih _ ?_ ?_
      · rw [h2, h1, save_trace_append]
        show s.trace ++ _ = save_trace info s.log ++ _
        rw [h]
      · intro b hb
        rw [h1] at hb
        rcases List.mem_append.mp hb with hb | hb
        · exact hz b hb
        · rw [List.mem_singleton] at hb
          rw [hb]
          exact h3
    · exact ⟨h, hz⟩

theorem rezero_frames_free_mem (b : batch_log) : rezero_frames true b = [] := by
  unfold rezero_frames
  simp

theorem mem_rezero_frames_resident (b : batch_log) (g : Nat) :
    g ∈ rezero_frames false b ↔ ∃ j, j < b.capture.batch_done ∧ g = b.pfn + j ∧
      (b.captured j).type = XENMEM_MCGI_TYPE_NORMAL ∧
      page_is_zero b.capture.mem_buffer (b.captured j).offset = true := by
  unfold rezero_frames
  simp only [List.mem_map, List.mem_filter, List.mem_range'_1, Bool.not_false, Bool.and_true,
    Bool.and_eq_true, decide_eq_true_eq]
  constructor
  · rintro ⟨j, ⟨⟨_, hj⟩, ht, hz⟩, hg⟩
    exact ⟨j, by omega, hg.symm, ht, hz⟩
  · rintro ⟨j, hj, hg, ht, hz⟩
    exact ⟨j, ⟨⟨Nat.zero_le _, by omega⟩, ht, hz⟩, hg.symm⟩

theorem save_trace_free_mem (info : vm_save_info) (hf : info.free_mem = true)
    (log : List batch_log) (l : List Nat) : Event.populate_physmap l ∉ save_trace info log := by
  induction log with
  | nil => exact List.not_mem_nil _
  | cons b bs ih =>
    unfold save_trace batch_trace
    rw [hf, rezero_frames_free_mem]
    simp only [List.length_nil, ne_eq, not_true_eq_false, if_false, List.append_nil,
      List.singleton_append, List.mem_cons, not_or]
    exact ⟨by simp, ih⟩

/-- C15 (counterexample): the three-frame guest, whose frame 1 is a Normal page
of zero bytes. With `free_mem` set the page is retyped Zero and the only
hypercall of the save is the capture; with `free_mem` clear (guest memory kept
resident) the frame is re-requested with `xc_domain_populate_physmap`. -/
theorem C15_counterexample_free_mem :
    (uxenvm_savevm_write_pages example_pages_env example_save_info []).trace =
      [Event.memory_capture 0 3 true] ∧
    (uxenvm_savevm_write_pages example_pages_env example_save_info []).log.map
      (fun b => ((b.captured 1).type, (b.classified 1).type)) =
      [(XENMEM_MCGI_TYPE_NORMAL, XENMEM_MCGI_TYPE_ZERO)] ∧
    (uxenvm_savevm_write_pages example_pages_env example_resident_info []).trace =
      [Event.memory_capture 0 3 false, Event.populate_physmap [1]] := by
  refine ⟨?_, ?_, ?_⟩ <;> decide!

/-- C15 (amended): the hypercalls of a save are, batch after batch, the capture
followed by at most one `xc_domain_populate_physmap` call. Every captured
Normal page that passes the zero test is retyped Zero. When `free_mem` is set
no populate call is issued. When `free_mem` is clear (guest memory is kept
resident) the populate call of a batch carries exactly the frames of the
batch that were captured as Normal and passed the zero test, and is issued
when there is such a frame. -/
theorem C15_zero_pages_reshared_when_resident (env : SaveEnv) (info : vm_save_info)
    (f0 : List Nat) :
    (uxenvm_savevm_write_pages env info f0).trace =
      save_trace info (uxenvm_savevm_write_pages env info f0).log ∧
    (∀ b ∈ (uxenvm_savevm_write_pages env info f0).log, ∀ j, j < b.capture.batch_done →
      (b.captured j).type = XENMEM_MCGI_TYPE_NORMAL →
      page_is_zero b.capture.mem_buffer (b.captured j).offset = true →
      (b.classified j).type = XENMEM_MCGI_TYPE_ZERO) ∧
    (info.free_mem = true →
      ∀ l, Event.populate_physmap l ∉ (uxenvm_savevm_write_pages env info f0).trace) ∧
    (info.free_mem = false → ∀ b ∈ (uxenvm_savevm_write_pages env info f0).log, ∀ g,
      g ∈ rezero_frames info.free_mem b ↔ ∃ j, j < b.capture.batch_done ∧ g = b.pfn + j ∧
        (b.captured j).type = XENMEM_MCGI_TYPE_NORMAL ∧
        page_is_zero b.capture.mem_buffer (b.captured j).offset = true) := by
  have key : (uxenvm_savevm_write_pages env info f0).trace =
        save_trace info (uxenvm_savevm_write_pages env info f0).log ∧
      (∀ b ∈ (uxenvm_savevm_write_pages env info f0).log, ∀ j, j < b.capture.batch_done →
        (b.captured j).type = XENMEM_MCGI_TYPE_NORMAL →
        page_is_zero b.capture.mem_buffer (b.captured j).offset = true →
        (b.classified j).type = XENMEM_MCGI_TYPE_ZERO) := by
    unfold uxenvm_savevm_write_pages
    split
    · exact ⟨rfl, fun b hb => absurd hb (List.not_mem_nil _)⟩
    · exact write_pages_loop_trace env info _ _ _ _ rfl
        (fun b hb => absurd hb (List.not_mem_nil _))
  refine ⟨key.1, key.2, fun hf l => ?_, fun hf b _ g => ?_⟩
  · rw [key.1]
    exact save_trace_free_mem info hf _ l
  · rw [hf]
    exact mem_rezero_frames_resident b g

/-! ## Save: an aborted save -/

theorem save_batch_polls (env : SaveEnv) (info : vm_save_info) (p2m_size m : Nat)
    (s : save_state) : (save_batch env info p2m_size m s).polls = s.polls := by
  unfold save_batch
  simp only
  split <;> rfl

theorem write_pages_loop_polls (env : SaveEnv) (info : vm_save_info) (p2m_size m n : Nat)
    (s : save_state) :
    s.polls ≤ (write_pages_loop env info p2m_size m n s).polls ∧
    (n ≠ 0 → s.polls + 1 ≤ (write_pages_loop env info p2m_size m n s).polls) := by
  induction n generalizing s with
  | zero => exact ⟨Nat.le_refl _, fun h => absurd rfl h⟩
  | succ n ih =>
    unfold write_pages_loop
    split
    · have h1 := (ih (save_batch env info p2m_size m { s with polls := s.polls + 1 })).1
      rw [save_batch_polls] at h1
      exact ⟨Nat.le_of_succ_le h1, fun _ => h1⟩
    · exact ⟨Nat.le_succ _, fun _ => Nat.le_refl _⟩

/-- The result of the page writer when both tests after the page loop find a
flag set: the file is the one the loop left. -/
theorem write_pages_aborted (env : SaveEnv) (info : vm_save_info) (f0 : List Nat)
    (hneg : ¬ env.xc_domain_maximum_gpfn < 0)
    (h1 : env.save_abort (write_pages_loop_end env info f0).polls = true ∨
      env.vm_quit_interrupt (write_pages_loop_end env info f0).polls = true)
    (h2 : env.save_abort ((write_pages_loop_end env info f0).polls + 1) = true ∨
      env.vm_quit_interrupt ((write_pages_loop_end env info f0).polls + 1) = true) :
    (uxenvm_savevm_write_pages env info f0).f = (write_pages_loop_end env info f0).f ∧
    (uxenvm_savevm_write_pages env info f0).page_offsets_offset = 0 ∧
    (uxenvm_savevm_write_pages env info f0).ret = 0 := by
  unfold uxenvm_savevm_write_pages
  rw [if_neg hneg]
  dsimp only
  unfold write_pages_loop_end write_pages_max_gpfn at h1 h2 ⊢
  generalize write_pages_loop env info _ _ _ _ = sfin at h1 h2 ⊢
  have g1 : (!env.save_abort sfin.polls && !env.vm_quit_interrupt sfin.polls) = false := by
    rcases h1 with h | h <;> simp [h]
  have g2 : (!env.save_abort (sfin.polls + 1) && !env.vm_quit_interrupt (sfin.polls + 1)) =
      false := by
    rcases h2 with h | h <;> simp [h]
  rw [g1, g2]
  simp only [Bool.false_eq_true, if_false]
  exact ⟨trivial, trivial, trivial⟩

/-- C16: for flags that stay set once they are set, when `save_abort` or
`vm_quit_interrupt` is set at the test that leaves the page loop, the file
returned by `uxenvm_savevm_write_pages` is the file as the loop left it, after
the last completed batch: no zero-bitmap record, no page-offsets record
(`page_offsets_index.offset` stays 0), no end marker and no index pointer are
written; trace and log are those of the loop, so no batch is captured after
that test. -/
theorem C16_abort_writes_no_trailer (env : SaveEnv) (info : vm_save_info) (f0 : List Nat)
    (hneg : ¬ env.xc_domain_maximum_gpfn < 0)
    (hmono : ∀ k, (env.save_abort k = true → env.save_abort (k + 1) = true) ∧
      (env.vm_quit_interrupt k = true → env.vm_quit_interrupt (k + 1) = true))
    (hset : env.save_abort ((write_pages_loop_end env info f0).polls - 1) = true ∨
      env.vm_quit_interrupt ((write_pages_loop_end env info f0).polls - 1) = true) :
    (uxenvm_savevm_write_pages env info f0).f = (write_pages_loop_end env info f0).f ∧
    (uxenvm_savevm_write_pages env info f0).f.length =
      (uxenvm_savevm_write_pages env info f0).loop_end ∧
    (uxenvm_savevm_write_pages env info f0).page_offsets_offset = 0 ∧
    (uxenvm_savevm_write_pages env info f0).trace = (write_pages_loop_end env info f0).trace ∧
    (uxenvm_savevm_write_pages env info f0).log = (write_pages_loop_end env info f0).log := by
  have hp : 1 ≤ (write_pages_loop_end env info f0).polls := by
    unfold write_pages_loop_end
    have := (write_pages_loop_polls env info (env.xc_domain_maximum_gpfn + 1).toNat
      (write_pages_max_gpfn env) ((env.xc_domain_maximum_gpfn + 1).toNat + 1)
      { f := f0,
        zero_bitmap := List.replicate (((env.xc_domain_maximum_gpfn + 1).toNat + 7) / 8) 0,
        pfn_off := fun _ => 0, gpfn_info_list := env.gpfn_info_list0, compress_size := 0,
        mem_pos := 0, total_pages := 0, pfn := 0, polls := 0, trace := [], log := [] }).2
      (Nat.succ_ne_zero _)
    exact this
  have e : (write_pages_loop_end env info f0).polls - 1 + 1 =
      (write_pages_loop_end env info f0).polls := by omega
  have h1 : env.save_abort (write_pages_loop_end env info f0).polls = true ∨
      env.vm_quit_interrupt (write_pages_loop_end env info f0).polls = true := by
    rw [← e]
    rcases hset with h | h
    · exact Or.inl ((hmono _).1 h)
    · exact Or.inr ((hmono _).2 h)
  have h2 : env.save_abort ((write_pages_loop_end env info f0).polls + 1) = true ∨
      env.vm_quit_interrupt ((write_pages_loop_end env info f0).polls + 1) = true := by
    rcases h1 with h | h
    · exact Or.inl ((hmono _).1 h)
    · exact Or.inr ((hmono _).2 h)
  obtain ⟨a1, a2, _⟩ := write_pages_aborted env info f0 hneg h1 h2
  obtain ⟨_, _, a3, _⟩ := write_pages_result env info f0 hneg
  refine ⟨a1, ?_, a2, ?_, a3⟩
  · rw [a1]
    unfold uxenvm_savevm_write_pages
    rw [if_neg hneg]
    rfl
  · unfold uxenvm_savevm_write_pages
    rw [if_neg hneg]
    rfl

/-- C16 on the three-frame guest with `save_abort` set from the start: the
first test leaves the loop and the file stays as it was. -/
theorem C16_abort_writes_no_trailer_witness :
    (¬ example_aborted_env.xc_domain_maximum_gpfn < 0) ∧
    (∀ k, (example_aborted_env.save_abort k = true →
        example_aborted_env.save_abort (k + 1) = true) ∧
      (example_aborted_env.vm_quit_interrupt k = true →
        example_aborted_env.vm_quit_interrupt (k + 1) = true)) ∧
    (example_aborted_env.save_abort
        ((write_pages_loop_end example_aborted_env example_save_info version_record).polls - 1) =
        true ∨
      example_aborted_env.vm_quit_interrupt
        ((write_pages_loop_end example_aborted_env example_save_info version_record).polls - 1) =
        true) ∧
    ((uxenvm_savevm_write_pages example_aborted_env example_save_info version_record).f =
      (write_pages_loop_end example_aborted_env example_save_info version_record).f ∧
    (uxenvm_savevm_write_pages example_aborted_env example_save_info version_record).f.length =
      (uxenvm_savevm_write_pages example_aborted_env example_save_info version_record).loop_end ∧
    (uxenvm_savevm_write_pages example_aborted_env example_save_info
      version_record).page_offsets_offset = 0 ∧
    (uxenvm_savevm_write_pages example_aborted_env example_save_info version_record).trace =
      (write_pages_loop_end example_aborted_env example_save_info version_record).trace ∧
    (uxenvm_savevm_write_pages example_aborted_env example_save_info version_record).log =
      (write_pages_loop_end example_aborted_env example_save_info version_record).log) :=
  ⟨by decide, fun _ => ⟨fun _ => rfl, fun h => h⟩, Or.inl rfl,
    C16_abort_writes_no_trailer example_aborted_env example_save_info version_record
      (by decide) (fun _ => ⟨fun _ => rfl, fun h => h⟩) (Or.inl rfl)⟩

theorem write_pages_ret (env : SaveEnv) (info : vm_save_info) (f0 : List Nat)
    (hneg : ¬ env.xc_domain_maximum_gpfn < 0) :
    (uxenvm_savevm_write_pages env info f0).ret = 0 := by
  unfold uxenvm_savevm_write_pages
  rw [if_neg hneg]

/-- C17 (counterexample): the three-frame guest with `save_abort` set from the
start. The page writer returns 0; `vm_save_execute` ends with `ret = 0`,
flushes the file without closing it and passes 0 to
`control_command_save_finish`. -/
theorem C17_counterexample_abort_returns_zero :
    (uxenvm_savevm_write_pages example_aborted_env example_save_info version_record).ret = 0 ∧
    (vm_save_execute example_exec_env example_aborted_env example_save_info).ret = 0 ∧
    (vm_save_execute example_exec_env example_aborted_env example_save_info).flushed = true ∧
    (vm_save_execute example_exec_env example_aborted_env
      example_save_info).closed_for_deletion = false ∧
    (vm_save_execute example_exec_env example_aborted_env example_save_info).finish_status =
      some 0 := by
  refine ⟨?_, ?_, ?_, ?_, ?_⟩ <;> decide

/-- C17 (amended): whenever `xc_domain_maximum_gpfn` succeeds, the page writer
returns 0, aborted or not (allocations taken to succeed). So when the file is
opened and the device-model state and info records are written,
`vm_save_execute` ends with `ret = 0`, flushes the file and leaves it open
(it is not closed for deletion), and the status it passes to
`control_command_save_finish` is 0. -/
theorem C17_abort_not_reported (x : SaveExecEnv) (env : SaveEnv) (info : vm_save_info)
    (hopen : x.filebuf_open_errno = none) (hdm : x.uxenvm_savevm_get_dm_state = 0)
    (hinfo : x.uxenvm_savevm_write_info.1 = 0) (hneg : ¬ env.xc_domain_maximum_gpfn < 0) :
    (uxenvm_savevm_write_pages env info x.uxenvm_savevm_write_info.2).ret = 0 ∧
    (vm_save_execute x env info).ret = 0 ∧
    (vm_save_execute x env info).flushed = true ∧
    (vm_save_execute x env info).closed_for_deletion = false ∧
    (vm_save_execute x env info).finish_status = (if x.command_cd then some 0 else none) := by
  have hr := write_pages_ret env info x.uxenvm_savevm_write_info.2 hneg
  unfold vm_save_execute
  rw [hopen]
  dsimp only
  rw [if_neg (by rw [hdm]; decide), if_neg (by rw [hinfo]; decide), if_neg (by rw [hr]; decide),
    hr]
  exact ⟨rfl, rfl, rfl, rfl, rfl⟩

/-- C17 (amended) on the three-frame guest with `save_abort` set from the
start. -/
theorem C17_abort_not_reported_witness :
    example_exec_env.filebuf_open_errno = none ∧
    example_exec_env.uxenvm_savevm_get_dm_state = 0 ∧
    example_exec_env.uxenvm_savevm_write_info.1 = 0 ∧
    (¬ example_aborted_env.xc_domain_maximum_gpfn < 0) ∧
    ((uxenvm_savevm_write_pages example_aborted_env example_save_info
      example_exec_env.uxenvm_savevm_write_info.2).ret = 0 ∧
    (vm_save_execute example_exec_env example_aborted_env example_save_info).ret = 0 ∧
    (vm_save_execute example_exec_env example_aborted_env example_save_info).flushed = true ∧
    (vm_save_execute example_exec_env example_aborted_env
      example_save_info).closed_for_deletion = false ∧
    (vm_save_execute example_exec_env example_aborted_env example_save_info).finish_status =
      (if example_exec_env.command_cd then some 0 else none)) :=
  ⟨rfl, rfl, rfl, by decide,
    C17_abort_not_reported example_exec_env example_aborted_env example_save_info rfl rfl rfl
      (by decide)⟩

/-! ## Lazy load: reading a page back through the index -/

theorem filebuf_read_bytes_at (fb : filebuf) (d : List Nat) (h : bytes_at fb.data fb.pos d) :
    filebuf_read fb d.length = (d, { fb with pos := fb.pos + d.length }) := by
  unfold filebuf_read
  simp only [h.2]

theorem stored_inverse_rest (src rest : List Nat) :
    stored_decompress_fast (stored_compress src ++ rest) src.length =
      ((((stored_compress src).length : Nat) : Int), src) := by
  unfold stored_compress
  by_cases h : src.length < 15
  · rw [if_pos h]
    unfold stored_decompress_fast
    simp only [List.cons_append]
    rw [if_neg (by omega), if_pos (by omega),
      if_pos ⟨by omega, by rw [List.length_append]; omega⟩]
    simp only [List.take_left, List.length_cons]
    congr 2
    omega
  · rw [if_neg h]
    unfold stored_decompress_fast lz4_length_bytes
    simp only [List.append_assoc, List.singleton_append, List.cons_append, List.nil_append]
    rw [if_neg (by decide), if_neg (by decide),
      read_length_bytes_encoded _ _ _ _ (Nat.mod_lt _ (by decide))]
    simp only
    have e : 15 + (src.length - 15) / 255 * 255 + (src.length - 15) % 255 = src.length := by
      have := Nat.div_add_mod (src.length - 15) 255
      omega
    rw [if_pos ⟨e, by rw [List.length_append]; omega⟩]
    simp only [List.take_left, List.length_cons, List.length_append, List.length_replicate,
      List.length_nil]
    congr 2
    omega

/-- The packing codec satisfies the assumption made on LZ4, also when bytes
follow the block in the source buffer. -/
theorem packed_lz4_inverse (high_compress : Bool) (page rest : List Nat)
    (h : page.length = PAGE_SIZE) :
    packed_lz4.LZ4_decompress_fast
        (uxenvm_compress_lz4 packed_lz4 high_compress page ++ rest) PAGE_SIZE =
      ((((uxenvm_compress_lz4 packed_lz4 high_compress page).length : Nat) : Int), page) := by
  have e : uxenvm_compress_lz4 packed_lz4 high_compress page = packed_compress page := by
    unfold uxenvm_compress_lz4
    cases high_compress <;> rfl
  rw [e]
  show packed_decompress_fast (packed_compress page ++ rest) PAGE_SIZE = _
  unfold packed_compress
  by_cases hc : page = List.replicate PAGE_SIZE (page.headD 0)
  · rw [if_pos hc]
    unfold packed_decompress_fast
    simp only [List.cons_append, List.headD_cons, if_true, List.getD_cons_succ,
      List.getD_cons_zero, List.length_cons, List.length_nil]
    rw [← hc]
    rfl
  · rw [if_neg hc]
    unfold packed_decompress_fast
    have h15 : ¬ page.length < 15 := by
      rw [h]
      decide
    have h240 : (stored_compress page ++ rest).headD 0 = 240 := by
      unfold stored_compress
      rw [if_neg h15]
      rfl
    rw [h240, if_neg (by decide)]
    have := stored_inverse_rest page rest
    rw [h] at this
    exact this

theorem poi_pfn_index_lt (K : Consts) (hK : K.PCI_HOLE_START_PFN ≤ K.PCI_HOLE_END_PFN)
    (m g : Nat) (h : poi_valid_pfn K m g = true) : poi_pfn_index K g < poi_pfn_index K m := by
  unfold poi_valid_pfn at h
  simp only [Bool.and_eq_true, Bool.or_eq_true, decide_eq_true_eq] at h
  unfold poi_pfn_index skip_pci_hole
  split <;> split <;> omega

theorem write_pages_pfn_off_nr (env : SaveEnv) (info : vm_save_info) (f0 : List Nat) :
    (uxenvm_savevm_write_pages env info f0).pfn_off_nr =
      poi_pfn_index env.K (uxenvm_savevm_write_pages env info f0).max_gpfn := by
  unfold uxenvm_savevm_write_pages
  split
  · simp [poi_pfn_index, skip_pci_hole]
  · rfl

/-- Through an entry formed by the writer in per-page mode, in a file shorter
than `2^63` bytes, `vm_lazy_load_page` reads the page into the destination and
returns the size of a page. -/
theorem vm_lazy_load_page_slot (lz4 : LZ4) (K : Consts) (info : vm_save_info)
    (lli : page_offset_info) (errno : Int) (page0 va : List Nat) (gpfn : Nat)
    (compressed : Bool) (e : Nat) (page : List Nat)
    (hm : info.compress_mode = VM_SAVE_COMPRESS_LZ4)
    (hlz4 : ∀ rest, lz4.LZ4_decompress_fast
        (uxenvm_compress_lz4 lz4 info.high_compress page ++ rest) PAGE_SIZE =
      ((((uxenvm_compress_lz4 lz4 info.high_compress page).length : Nat) : Int), page))
    (hv : poi_valid_pfn K lli.max_gpfn gpfn = true)
    (he : lli.pfn_off.getD (skip_pci_hole K gpfn) 0 = e)
    (hlen : lli.fb.data.length < 2 ^ 63) (hpl : page.length = PAGE_SIZE)
    (h : slot_written lz4 info lli.fb.data e page) :
    vm_lazy_load_page lz4 K lli errno page0 va gpfn compressed =
      some (((PAGE_SIZE : Nat) : Int), page ++ va.drop PAGE_SIZE) := by
  obtain ⟨o, heo, hb⟩ := h
  have hC : PAGE_OFFSET_INDEX_PFN_OFF_COMPRESSED = 9223372036854775808 := by
    unfold PAGE_OFFSET_INDEX_PFN_OFF_COMPRESSED
    norm_num
  have hP : PAGE_SIZE = 4096 := rfl
  have hS : sizeof_cs16 = 2 := rfl
  have hlen2 : lli.fb.data.length < 9223372036854775808 := by
    have : (2 : Nat) ^ 63 = 9223372036854775808 := by norm_num
    omega
  unfold poi_valid_pfn at hv
  simp only [Bool.and_eq_true, Bool.or_eq_true, decide_eq_true_eq] at hv
  unfold vm_lazy_load_page
  rw [if_neg (by omega), if_neg (by omega)]
  simp only [he, hC]
  simp only [slot_tag, slot_content, hm] at heo hb
  obtain ⟨c, hc⟩ : ∃ c, uxenvm_compress_lz4 lz4 info.high_compress page = c := ⟨_, rfl⟩
  rw [hc] at heo hb
  have hz := hlz4
  rw [hc] at hz
  by_cases hcl : c.length ≥ PAGE_SIZE
  · rw [if_pos hcl] at heo hb
    have h1 := hb.1
    rw [List.length_append, enc_u16_length, hpl] at h1
    have he2 : e = o + 2 := by omega
    have hb2 : bytes_at lli.fb.data (o + 2) page := by
      have := bytes_at_sub _ _ _ _ hb
      rw [enc_u16_length] at this
      exact this
    have hmod : e % 9223372036854775808 = o + 2 := by omega
    have hflag : e / 9223372036854775808 % 2 = 0 := by omega
    rw [hflag, hmod, filebuf_seek_set]
    have hr := filebuf_read_bytes_at { lli.fb with pos := o + 2 } page hb2
    rw [hpl] at hr
    simp only [ne_eq, not_true_eq_false, if_false, hr, hpl, read_into]
  · rw [if_neg hcl] at heo hb
    have hcl2 : c.length < 4096 := by omega
    have h1 := hb.1
    rw [List.length_append, enc_u16_length] at h1
    have he2 : e = o + 9223372036854775808 := by omega
    have hmod : e % 9223372036854775808 = o := by omega
    have hflag : e / 9223372036854775808 % 2 = 1 := by omega
    have hb1 : bytes_at lli.fb.data o (enc_u16 c.length) :=
      ⟨by rw [enc_u16_length]; omega, by
        have := congrArg (List.take 2) hb.2
        rw [List.take_take, List.take_left' (enc_u16_length _)] at this
        rw [enc_u16_length]
        rw [← this]
        congr 1
        rw [List.length_append, enc_u16_length]
        omega⟩
    have hb2 : bytes_at lli.fb.data (o + 2) c := by
      have := bytes_at_sub _ _ _ _ hb
      rw [enc_u16_length] at this
      exact this
    have hr1 := filebuf_read_bytes_at { lli.fb with pos := o } (enc_u16 c.length) hb1
    rw [enc_u16_length] at hr1
    have hr2 := filebuf_read_bytes_at { lli.fb with pos := o + 2 } c hb2
    have hval : le_value (enc_u16 c.length) = c.length := by
      unfold enc_u16
      rw [le_value_le_bytes]
      exact Nat.mod_eq_of_lt (by norm_num; omega)
    rw [hflag, hmod, filebuf_seek_set]
    have hz2 : ∀ rest, lz4.LZ4_decompress_fast (c ++ rest) 4096 = (((c.length : Nat) : Int), page) := hz
    simp only [hS, hr1, enc_u16_length, hval, hP, lazy_compressed, Bool.false_and, hr2,
      read_into, hz2, hpl]
    simp [hcl2, Nat.ne_of_lt hcl2, Nat.not_lt.mpr (Nat.le_of_lt hcl2)]

/-- C12 (counterexample): the three-frame guest saved in per-page mode with a
codec that does not make the page of frame 0 smaller. Frame 0 is written (the
one page of the one run of the batch) and has an index slot; its length field
of a full page stands at offset 12 and the page at offset 14; the entry is 14,
with the indicator bit clear. -/
theorem C12_counterexample_raw_page :
    (uxenvm_savevm_write_pages example_pages_env example_per_page_info []).log.map
      (fun b => (b.pfn, b.runs)) = [(0, [(0, 1)])] ∧
    poi_valid_pfn example_pages_env.K
      (uxenvm_savevm_write_pages example_pages_env example_per_page_info []).max_gpfn 0 = true ∧
    bytes_at (uxenvm_savevm_write_pages example_pages_env example_per_page_info []).f 12
      (enc_u16 PAGE_SIZE ++ List.replicate 4096 7) ∧
    (uxenvm_savevm_write_pages example_pages_env example_per_page_info []).pfn_off
      (poi_pfn_index example_pages_env.K 0) = 14 ∧
    (uxenvm_savevm_write_pages example_pages_env example_per_page_info []).pfn_off
      (poi_pfn_index example_pages_env.K 0) / PAGE_OFFSET_INDEX_PFN_OFF_COMPRESSED % 2 = 0 := by
  refine ⟨?_, ?_, ?_, ?_, ?_⟩ <;> decide!

/-- C12 (amended): in per-page LZ4 mode, for a save whose file stays below
`2^63` bytes and a PCI hole that does not end before it starts, every written
page whose frame is below `max_gpfn` and outside the PCI hole stands in the
file as a 2-byte length field followed by its data. If compression made the
page smaller, its entry has the indicator bit set and the remaining 63 bits are
the offset of the length field. Otherwise the page is kept raw behind a length
field of 4096, the indicator bit is clear and the entry is the offset of the
page itself, two bytes after the length field. -/
theorem C12_per_page_entries (env : SaveEnv) (info : vm_save_info) (f0 : List Nat)
    (hK : env.K.PCI_HOLE_START_PFN ≤ env.K.PCI_HOLE_END_PFN)
    (hlen : (uxenvm_savevm_write_pages env info f0).f.length < 2 ^ 63)
    (hm : info.compress_mode = VM_SAVE_COMPRESS_LZ4) (hs : info.single_page = true) :
    ∀ b ∈ (uxenvm_savevm_write_pages env info f0).log, ∀ p ∈ b.runs, ∀ i, i < p.2 →
      poi_valid_pfn env.K (uxenvm_savevm_write_pages env info f0).max_gpfn
        (b.pfn + p.1 + i) = true →
      per_page_entry env.lz4 info.high_compress (uxenvm_savevm_write_pages env info f0).f
        ((uxenvm_savevm_write_pages env info f0).pfn_off (poi_pfn_index env.K (b.pfn + p.1 + i)))
        (buf_read b.capture.mem_buffer (b.classified (p.1 + i)).offset PAGE_SIZE) := by
  intro b hb p hp i hi hv
  have hsl := write_pages_indexed env info f0 hK (Or.inr ⟨hm, hs⟩) b hb p hp i hi hv
  have hpage : run_page info b.capture.mem_buffer b.classified p.1 i =
      buf_read b.capture.mem_buffer (b.classified (p.1 + i)).offset PAGE_SIZE := by
    unfold run_page
    rw [hm]
  rw [hpage] at hsl
  generalize (uxenvm_savevm_write_pages env info f0).f = f at hlen hsl ⊢
  generalize (uxenvm_savevm_write_pages env info f0).pfn_off
    (poi_pfn_index env.K (b.pfn + p.1 + i)) = e at hsl ⊢
  generalize hpg : buf_read b.capture.mem_buffer (b.classified (p.1 + i)).offset PAGE_SIZE =
    page at hsl ⊢
  have hpl : page.length = PAGE_SIZE := by
    rw [← hpg]
    exact take_pad_length _ _
  obtain ⟨o, heo, hbs⟩ := hsl
  have hC : PAGE_OFFSET_INDEX_PFN_OFF_COMPRESSED = 9223372036854775808 := by
    unfold PAGE_OFFSET_INDEX_PFN_OFF_COMPRESSED
    norm_num
  have hP : PAGE_SIZE = 4096 := rfl
  have hS : sizeof_cs16 = 2 := rfl
  have hlen2 : f.length < 9223372036854775808 := by
    have : (2 : Nat) ^ 63 = 9223372036854775808 := by norm_num
    omega
  simp only [slot_tag, slot_content, hm] at heo hbs
  refine ⟨o, ?_⟩
  by_cases hcl : (uxenvm_compress_lz4 env.lz4 info.high_compress page).length ≥ PAGE_SIZE
  · rw [if_pos hcl] at heo hbs
    rw [if_neg (by omega)]
    have h1 := hbs.1
    rw [List.length_append, enc_u16_length, hpl] at h1
    rw [hC]
    exact ⟨hbs, by omega, by omega⟩
  · rw [if_neg hcl] at heo hbs
    rw [if_pos (by omega)]
    have h1 := hbs.1
    rw [List.length_append, enc_u16_length] at h1
    rw [hC]
    exact ⟨hbs, by omega, by omega⟩

/-- C12 (amended) at the three-frame guest saved in per-page mode with the
packing codec: frame 0 is stored compressed, frame 1 raw. -/
theorem C12_per_page_entries_witness :
    example_mixed_env.K.PCI_HOLE_START_PFN ≤ example_mixed_env.K.PCI_HOLE_END_PFN ∧
    (uxenvm_savevm_write_pages example_mixed_env example_per_page_info []).f.length < 2 ^ 63 ∧
    example_per_page_info.compress_mode = VM_SAVE_COMPRESS_LZ4 ∧
    example_per_page_info.single_page = true ∧
    ∀ b ∈ (uxenvm_savevm_write_pages example_mixed_env example_per_page_info []).log,
      ∀ p ∈ b.runs, ∀ i, i < p.2 →
      poi_valid_pfn example_mixed_env.K
        (uxenvm_savevm_write_pages example_mixed_env example_per_page_info []).max_gpfn
        (b.pfn + p.1 + i) = true →
      per_page_entry example_mixed_env.lz4 example_per_page_info.high_compress
        (uxenvm_savevm_write_pages example_mixed_env example_per_page_info []).f
        ((uxenvm_savevm_write_pages example_mixed_env example_per_page_info []).pfn_off
          (poi_pfn_index example_mixed_env.K (b.pfn + p.1 + i)))
        (buf_read b.capture.mem_buffer (b.classified (p.1 + i)).offset PAGE_SIZE) :=
  ⟨by decide, by decide!, rfl, rfl,
    C12_per_page_entries example_mixed_env example_per_page_info [] (by decide) (by decide!)
      rfl rfl⟩

/-- C11: in per-page LZ4 mode, for a save whose file stays below `2^63` bytes,
a PCI hole that does not end before it starts, and an LZ4 whose decompression
of a compressed page returns the compressed length and the page. With the
saved index (the file, `max_gpfn` and the entries as the lazy-load block maps
them), `vm_lazy_load_page` called for a written page whose frame is below
`max_gpfn` and outside the PCI hole returns 4096 with the 4096 bytes of the page
at the start of the destination, for a page stored compressed as for a page
kept raw. For any index, an entry with the indicator set that leads to a
length field greater than 4096 makes the function return `-EINVAL` and leave
the destination as it was. -/
theorem C11_lazy_load_round_trip (env : SaveEnv) (info : vm_save_info) (f0 : List Nat)
    (lli : page_offset_info) (errno : Int) (page0 va : List Nat) (compressed : Bool)
    (hK : env.K.PCI_HOLE_START_PFN ≤ env.K.PCI_HOLE_END_PFN)
    (hlen : (uxenvm_savevm_write_pages env info f0).f.length < 2 ^ 63)
    (hm : info.compress_mode = VM_SAVE_COMPRESS_LZ4) (hs : info.single_page = true)
    (hlz4 : ∀ page rest, page.length = PAGE_SIZE →
      env.lz4.LZ4_decompress_fast
          (uxenvm_compress_lz4 env.lz4 info.high_compress page ++ rest) PAGE_SIZE =
        ((((uxenvm_compress_lz4 env.lz4 info.high_compress page).length : Nat) : Int), page))
    (hfb : lli.fb.data = (uxenvm_savevm_write_pages env info f0).f)
    (hmax : lli.max_gpfn = (uxenvm_savevm_write_pages env info f0).max_gpfn)
    (hoff : lli.pfn_off = (List.range (uxenvm_savevm_write_pages env info f0).pfn_off_nr).map
      fun k => (uxenvm_savevm_write_pages env info f0).pfn_off k % 18446744073709551616) :
    (∀ b ∈ (uxenvm_savevm_write_pages env info f0).log, ∀ p ∈ b.runs, ∀ i, i < p.2 →
      poi_valid_pfn env.K (uxenvm_savevm_write_pages env info f0).max_gpfn
        (b.pfn + p.1 + i) = true →
      vm_lazy_load_page env.lz4 env.K lli errno page0 va (b.pfn + p.1 + i) compressed =
        some (4096, buf_read b.capture.mem_buffer (b.classified (p.1 + i)).offset PAGE_SIZE ++
          va.drop PAGE_SIZE)) ∧
    ∀ (lli2 : page_offset_info) (gpfn cs1 : Nat),
      poi_valid_pfn env.K lli2.max_gpfn gpfn = true →
      lli2.pfn_off.getD (skip_pci_hole env.K gpfn) 0 /
        PAGE_OFFSET_INDEX_PFN_OFF_COMPRESSED % 2 = 1 →
      bytes_at lli2.fb.data
        (lli2.pfn_off.getD (skip_pci_hole env.K gpfn) 0 % PAGE_OFFSET_INDEX_PFN_OFF_COMPRESSED)
        (enc_u16 cs1) →
      PAGE_SIZE < cs1 → cs1 < 65536 →
      vm_lazy_load_page env.lz4 env.K lli2 errno page0 va gpfn compressed =
        some (-EINVAL, va) := by
  constructor
  · intro b hb p hp i hi hv
    have hsl := write_pages_indexed env info f0 hK (Or.inr ⟨hm, hs⟩) b hb p hp i hi hv
    have hpage : run_page info b.capture.mem_buffer b.classified p.1 i =
        buf_read b.capture.mem_buffer (b.classified (p.1 + i)).offset PAGE_SIZE := by
      unfold run_page
      rw [hm]
    rw [hpage] at hsl
    have hidx := poi_pfn_index_lt env.K hK _ _ hv
    rw [← write_pages_pfn_off_nr] at hidx
    have hent : lli.pfn_off.getD (skip_pci_hole env.K (b.pfn + p.1 + i)) 0 =
        (uxenvm_savevm_write_pages env info f0).pfn_off
          (poi_pfn_index env.K (b.pfn + p.1 + i)) := by
      obtain ⟨o, heo, _⟩ := hsl
      have hidx2 : skip_pci_hole env.K (b.pfn + p.1 + i) <
          (uxenvm_savevm_write_pages env info f0).pfn_off_nr := hidx
      rw [hoff, List.getD_eq_getElem?_getD, List.getElem?_map,
        List.getElem?_range hidx2]
      show (uxenvm_savevm_write_pages env info f0).pfn_off
          (poi_pfn_index env.K (b.pfn + p.1 + i)) % 18446744073709551616 = _
      rw [heo]
      exact Nat.mod_mod _ _
    rw [← hfb] at hsl hlen
    rw [← hmax] at hv
    exact vm_lazy_load_page_slot env.lz4 env.K info lli errno page0 va _ compressed _ _ hm
      (fun rest => hlz4 _ rest (take_pad_length _ _)) hv hent hlen (take_pad_length _ _) hsl
  · intro lli2 gpfn cs1 hv hflag hb hgt hlt
    have hP : PAGE_SIZE = 4096 := rfl
    unfold poi_valid_pfn at hv
    simp only [Bool.and_eq_true, Bool.or_eq_true, decide_eq_true_eq] at hv
    unfold vm_lazy_load_page
    rw [if_neg (by omega), if_neg (by omega)]
    have hr := filebuf_read_bytes_at
      { lli2.fb with pos := lli2.pfn_off.getD (skip_pci_hole env.K gpfn) 0 %
        PAGE_OFFSET_INDEX_PFN_OFF_COMPRESSED } (enc_u16 cs1) hb
    rw [enc_u16_length] at hr
    have hval : le_value (enc_u16 cs1) = cs1 := by
      unfold enc_u16
      rw [le_value_le_bytes]
      exact Nat.mod_eq_of_lt (by norm_num; omega)
    have hS : sizeof_cs16 = 2 := rfl
    simp only [hflag, filebuf_seek_set, hS, hr, enc_u16_length, hval]
    simp [hgt]

/-- C11 at the three-frame guest saved in per-page mode with the packing
codec: frame 0 is stored compressed, frame 1 raw. -/
theorem C11_lazy_load_round_trip_witness :
    example_mixed_env.K.PCI_HOLE_START_PFN ≤ example_mixed_env.K.PCI_HOLE_END_PFN ∧
    (uxenvm_savevm_write_pages example_mixed_env example_per_page_info []).f.length < 2 ^ 63 ∧
    example_per_page_info.compress_mode = VM_SAVE_COMPRESS_LZ4 ∧
    example_per_page_info.single_page = true ∧
    (∀ page rest, page.length = PAGE_SIZE →
      example_mixed_env.lz4.LZ4_decompress_fast
          (uxenvm_compress_lz4 example_mixed_env.lz4 example_per_page_info.high_compress page ++
            rest) PAGE_SIZE =
        ((((uxenvm_compress_lz4 example_mixed_env.lz4 example_per_page_info.high_compress
          page).length : Nat) : Int), page)) ∧
    ((∀ b ∈ (uxenvm_savevm_write_pages example_mixed_env example_per_page_info []).log,
      ∀ p ∈ b.runs, ∀ i, i < p.2 →
      poi_valid_pfn example_mixed_env.K
        (uxenvm_savevm_write_pages example_mixed_env example_per_page_info []).max_gpfn
        (b.pfn + p.1 + i) = true →
      vm_lazy_load_page example_mixed_env.lz4 example_mixed_env.K
          (saved_index (uxenvm_savevm_write_pages example_mixed_env example_per_page_info []))
          5 (List.replicate 4096 9) (List.replicate 4096 3) (b.pfn + p.1 + i) false =
        some (4096, buf_read b.capture.mem_buffer (b.classified (p.1 + i)).offset PAGE_SIZE ++
          (List.replicate 4096 3).drop PAGE_SIZE)) ∧
    ∀ (lli2 : page_offset_info) (gpfn cs1 : Nat),
      poi_valid_pfn example_mixed_env.K lli2.max_gpfn gpfn = true →
      lli2.pfn_off.getD (skip_pci_hole example_mixed_env.K gpfn) 0 /
        PAGE_OFFSET_INDEX_PFN_OFF_COMPRESSED % 2 = 1 →
      bytes_at lli2.fb.data
        (lli2.pfn_off.getD (skip_pci_hole example_mixed_env.K gpfn) 0 %
          PAGE_OFFSET_INDEX_PFN_OFF_COMPRESSED)
        (enc_u16 cs1) →
      PAGE_SIZE < cs1 → cs1 < 65536 →
      vm_lazy_load_page example_mixed_env.lz4 example_mixed_env.K lli2 5
          (List.replicate 4096 9) (List.replicate 4096 3) gpfn false =
        some (-EINVAL, List.replicate 4096 3)) :=
  ⟨by decide, by decide!, rfl, rfl, fun page rest h => packed_lz4_inverse false page rest h,
    C11_lazy_load_round_trip example_mixed_env example_per_page_info []
      (saved_index (uxenvm_savevm_write_pages example_mixed_env example_per_page_info []))
      5 (List.replicate 4096 9) (List.replicate 4096 3) false (by decide) (by decide!) rfl rfl
      (fun page rest h => packed_lz4_inverse false page rest h) rfl rfl rfl⟩

/-! ## Load: the clone hypercall -/

theorem clone_calls_append (a b : List Event) :
    clone_calls (a ++ b) = clone_calls a + clone_calls b := by
  unfold clone_calls
  rw [List.filter_append, List.length_append]

theorem filter_map_quiet {α : Type} (p : Event → Bool) (f : α → Event) (l : List α)
    (h : ∀ x, p (f x) = false) : (l.map f).filter p = [] := by
  induction l with
  | nil => rfl
  | cons a l ih => simp [h a, ih]

theorem wait_all_quiet (p : Event → Bool) (hq : ∀ e, deferred_call e = true → p e = false)
    (env : LoadEnv) (n : Nat) (dc : decompress_ctx) (ret : Int) (ev : List Event) :
    (decompress_wait_all env dc n ret ev).2.2.filter p = ev.filter p := by
  induction n generalizing dc ret ev with
  | zero => rfl
  | succ n ih =>
    unfold decompress_wait_all
    dsimp only
    split
    · exact ih _ _ _
    · rw [ih, List.filter_append]
      simp [hq Event.free_pp_buffer rfl]

theorem load_out_quiet (p : Event → Bool) (hq : ∀ e, deferred_call e = true → p e = false)
    (env : LoadEnv) (st : LoadState) :
    (load_out env st).io.trace.filter p = st.io.trace.filter p ∧
      (load_out env st).io.f = st.io.f := by
  unfold load_out
  split
  · dsimp only
    rw [List.filter_append, wait_all_quiet p hq]
    simp
  · exact ⟨rfl, rfl⟩

theorem drain_pool_quiet (p : Event → Bool) (hq : ∀ e, deferred_call e = true → p e = false)
    (env : LoadEnv) (st : LoadState) :
    (drain_pool env st).1.io.trace.filter p = st.io.trace.filter p := by
  unfold drain_pool
  split
  · dsimp only
    split
    · dsimp only
      rw [List.filter_append, wait_all_quiet p hq]
      simp
    · dsimp only
      rw [List.filter_append, wait_all_quiet p hq]
      simp
  · rfl

theorem apply_scalars_quiet (p : Event → Bool)
    (hq : ∀ e, deferred_call e = true → p e = false) (r : saved_records) :
    (apply_scalars r).filter p = [] := by
  unfold apply_scalars
  simp only [List.filter_append]
  cases r.s_tsc_info <;> cases r.s_hvm_ident_pt <;> cases r.s_hvm_vm86_tss <;>
    cases r.s_hvm_console_pfn <;> cases r.s_hvm_acpi_ioports_location <;>
    simp [hq (Event.set_tsc_info _ _ _ _) rfl, hq (Event.set_hvm_param _ _) rfl,
      hq (Event.clear_domain_page _) rfl]

theorem apply_context_quiet (p : Event → Bool)
    (hq : ∀ e, deferred_call e = true → p e = false) (r : saved_records) :
    (apply_context r).filter p = [] := by
  unfold apply_context
  cases r.s_hvm_context <;> simp [hq (Event.hvm_setcontext _) rfl]

theorem apply_magic_pfns_quiet (p : Event → Bool)
    (hq : ∀ e, deferred_call e = true → p e = false) (env : LoadEnv) (r : saved_records)
    (io : io_state) :
    (apply_magic_pfns env r io).trace.filter p = io.trace.filter p ∧
      (apply_magic_pfns env r io).f = io.f := by
  have hmap : ∀ (a : Nat) (l : List Nat),
      (l.map (fun i => Event.clear_domain_page (a + i))).filter p = [] :=
    fun a l => filter_map_quiet p _ l (fun _ => hq _ rfl)
  unfold apply_magic_pfns
  cases r.s_hvm_magic_pfns with
  | none => simp [List.filter_append, apply_context_quiet p hq]
  | some pl =>
    dsimp only
    split_ifs <;>
      simp [List.filter_append, apply_context_quiet p hq, hmap,
        hq (Event.set_hvm_param _ _) rfl, hq (Event.clear_domain_page _) rfl,
        hq (Event.add_to_physmap_shared_info _) rfl, hq Event.dmreq_init rfl]

theorem apply_template_quiet (p : Event → Bool)
    (hq : ∀ e, deferred_call e = true → p e = false) (env : LoadEnv) (r : saved_records)
    (io : io_state) :
    (apply_template env r io).trace.filter p = io.trace.filter p ∧
      (apply_template env r io).f = io.f := by
  unfold apply_template
  dsimp only
  split
  · simp [List.filter_append, hq Event.sethandle rfl]
  · cases r.immutable_ranges <;>
      simp [List.filter_append, hq Event.sethandle rfl,
        hq (Event.apply_immutable_memory _) rfl]

/-- The code from the label `skip_mem` on issues none of the calls that `p`
selects, when `p` selects no call of the deferred metadata, and does not move
the file cursor. -/
theorem apply_deferred_quiet (p : Event → Bool)
    (hq : ∀ e, deferred_call e = true → p e = false) (env : LoadEnv) (st s2 : LoadState)
    (h : apply_deferred env st = some s2) :
    s2.io.trace.filter p = st.io.trace.filter p ∧ s2.io.f = st.io.f := by
  unfold apply_deferred at h
  split at h
  · cases h
    exact ⟨rfl, rfl⟩
  · dsimp only at h
    split at h
    · cases h
      exact apply_template_quiet p hq env _ _
    · simp only [load_lazy_load_info, Bool.false_eq_true, if_false] at h
      cases h
      dsimp only
      obtain ⟨a1, a2⟩ := apply_magic_pfns_quiet p hq env st.recs
        { st.io with trace := st.io.trace ++
            (match st.recs.s_mapcache_params with
             | some p => [Event.mapcache_init_restore (field p 0 4) (field p 4 4) (field p 8 4)]
             | none => [Event.mapcache_init]) ++ apply_scalars st.recs }
      refine ⟨?_, a2⟩
      rw [a1]
      dsimp only
      rw [List.filter_append, List.filter_append, apply_scalars_quiet p hq]
      cases st.recs.s_mapcache_params <;>
        simp [hq Event.mapcache_init rfl, hq (Event.mapcache_init_restore _ _ _) rfl]

theorem clone_quiet : ∀ e, deferred_call e = true → is_clone e = false := by
  intro e h
  cases e <;> first | rfl | simp [deferred_call] at h

theorem memory_quiet : ∀ e, deferred_call e = true → memory_call e = false := by
  intro e h
  cases e <;> first | rfl | simp [deferred_call] at h

theorem populate_direct_clone (env : LoadEnv) (io : io_state) (batch : Nat)
    (pfn_type : List Nat) (d l : Bool) (cs : Int) :
    clone_calls (populate_direct env io batch pfn_type d l cs).trace = clone_calls io.trace := by
  unfold populate_direct
  dsimp only
  split
  · simp [clone_calls_append, clone_calls, is_clone]
  · split
    · simp [clone_calls_append, clone_calls, is_clone]
    · split
      · simp [clone_calls_append, clone_calls, is_clone]
      · split
        · simp [clone_calls_append, clone_calls, is_clone]
        · split <;> simp [clone_calls_append, clone_calls, is_clone]

theorem decompress_cb_clone (env : LoadEnv) (r : Int) (batch : Nat)
    (pfn_type buf : List Nat) (cs : Int) (sp pc : Bool) :
    clone_calls (decompress_cb env r batch pfn_type buf cs sp pc).1 = 0 := by
  unfold decompress_cb
  dsimp only
  split_ifs <;> simp [clone_calls, is_clone]

theorem submit_job_clone (env : LoadEnv) (io : io_state) (batch : Nat)
    (pfn_type buf : List Nat) (cs : Int) (sp pc : Bool) :
    clone_calls (submit_job env io batch pfn_type buf cs sp pc).trace = clone_calls io.trace := by
  unfold submit_job
  dsimp only
  split
  · rfl
  · split
    · rfl
    · split
      · rfl
      · dsimp only
        rw [clone_calls_append, decompress_cb_clone]
        rfl

theorem load_readbatch_clone (env : LoadEnv) (io : io_state) (batch : Nat)
    (d sp l pc : Bool) :
    clone_calls (uxenvm_load_readbatch env io batch d sp l pc).trace = clone_calls io.trace := by
  unfold uxenvm_load_readbatch
  dsimp only
  refine uxenvm_load_read_split
    (fun (r : io_state) => clone_calls r.trace = clone_calls io.trace) _ _ _ _
    (fun _ _ => rfl) (fun _ _ _ => ?_)
  refine ite_cases (fun (r : io_state) => clone_calls r.trace = clone_calls io.trace)
    _ _ _ ?_ ?_
  · refine uxenvm_load_read_split
      (fun (r : io_state) => clone_calls r.trace = clone_calls io.trace) _ _ _ _
      (fun _ _ => rfl) (fun _ _ _ => ?_)
    refine ite_cases (fun (r : io_state) => clone_calls r.trace = clone_calls io.trace)
      _ _ _ ?_ ?_
    · dsimp only
      rw [populate_direct_clone]
    · refine ite_cases (fun (r : io_state) => clone_calls r.trace = clone_calls io.trace)
        _ _ _ rfl ?_
      refine uxenvm_load_read_split
        (fun (r : io_state) => clone_calls r.trace = clone_calls io.trace) _ _ _ _
        (fun _ _ => rfl) (fun _ _ _ => ?_)
      dsimp only
      rw [submit_job_clone]
  · dsimp only
    rw [populate_direct_clone]

theorem load_batch_clone (env : LoadEnv) (st : LoadState) (marker : Int) (l pc : Bool) :
    clone_calls (uxenvm_load_batch env st marker l pc).io.trace = clone_calls st.io.trace ∧
      (uxenvm_load_batch env st marker l pc).restore_mode = st.restore_mode := by
  unfold uxenvm_load_batch
  split
  · exact ⟨rfl, rfl⟩
  · dsimp only
    refine ⟨?_, rfl⟩
    rw [load_readbatch_clone]
    unfold load_batch_setup
    dsimp only
    split
    · rw [clone_calls_append]
      simp [clone_calls, DECOMPRESS_THREADS, is_clone]
    · rfl

theorem load_zero_bitmap_loop_clone (env : LoadEnv) (zb : List Nat) (last n i : Nat)
    (pfn_type : List Nat) (ev : List Event) :
    clone_calls (load_zero_bitmap_loop env zb last n i pfn_type ev).2 = clone_calls ev := by
  induction n generalizing i pfn_type ev with
  | zero => rfl
  | succ n ih =>
    unfold load_zero_bitmap_loop
    dsimp only
    split_ifs <;> first
      | exact ih _ _ _
      | (rw [ih]
         simp [clone_calls_append, clone_calls, is_clone])
      | simp [clone_calls_append, clone_calls, is_clone]

theorem within_budget_of_eq (b : Nat) (st : LoadState) (c : ctl)
    (h : clone_budget st ≤ b) : within_budget b (st, c) := by
  refine ⟨?_, fun _ => h⟩
  unfold clone_budget at h
  show clone_calls st.io.trace ≤ b
  omega

theorem load_batch_budget (env : LoadEnv) (st : LoadState) (m : Int) (l pc : Bool) :
    clone_budget (uxenvm_load_batch env st m l pc) = clone_budget st := by
  unfold clone_budget
  rw [(load_batch_clone env st m l pc).1, (load_batch_clone env st m l pc).2]

theorem load_default_budget (env : LoadEnv) (pc : Bool) (st : LoadState) (m : Int) :
    within_budget (clone_budget st) (load_default env pc st m) := by
  unfold load_default
  refine check_restore_clone_split (fun (r : LoadState × ctl) =>
    within_budget (clone_budget st) r) _ _ _ (fun _ => ?_) (fun hc _ => ?_)
    (fun hc _ _ => ?_) (fun hc _ _ => ?_)
  · exact ite_cases (fun (r : LoadState × ctl) => within_budget (clone_budget st) r) _ _ _
      (within_budget_of_eq _ _ _ (Nat.le_of_eq (load_batch_budget env _ _ _ _)))
      (within_budget_of_eq _ _ _ (Nat.le_of_eq (load_batch_budget env _ _ _ _)))
  · refine ⟨?_, fun h => absurd (show ctl.out = ctl.next from h) (by decide)⟩
    show clone_calls (st.io.trace ++ [Event.clone_physmap]) ≤ clone_budget st
    unfold clone_budget
    rw [if_pos hc, clone_calls_append]
    exact Nat.le_refl _
  · refine ⟨?_, fun h => absurd (show ctl.skip_mem = ctl.next from h) (by decide)⟩
    show clone_calls (st.io.trace ++ [Event.clone_physmap]) ≤ clone_budget st
    unfold clone_budget
    rw [if_pos hc, clone_calls_append]
    exact Nat.le_refl _
  · have hb : clone_budget
        { st with io := { st.io with ret := env.xc_domain_clone_physmap,
                                     trace := st.io.trace ++ [Event.clone_physmap] },
                  restore_mode := VM_RESTORE_NORMAL } ≤ clone_budget st := by
      unfold clone_budget
      dsimp only
      rw [if_pos hc, if_neg (by decide), clone_calls_append]
      exact Nat.le_refl _
    exact ite_cases (fun (r : LoadState × ctl) => within_budget (clone_budget st) r) _ _ _
      (within_budget_of_eq _ _ _ (Nat.le_trans (Nat.le_of_eq (load_batch_budget env _ _ _ _)) hb))
      (within_budget_of_eq _ _ _ (Nat.le_trans (Nat.le_of_eq (load_batch_budget env _ _ _ _)) hb))

theorem zero_bitmap_clone (env : LoadEnv) (zb : List Nat) (n : Nat) (tr : List Event) :
    clone_calls (tr ++ (uxenvm_load_zero_bitmap env zb n).2) = clone_calls tr := by
  unfold uxenvm_load_zero_bitmap
  dsimp only
  rw [clone_calls_append, load_zero_bitmap_loop_clone]
  rfl

theorem load_zero_bitmap_record_budget (env : LoadEnv) (st : LoadState) :
    within_budget (clone_budget st) (load_zero_bitmap_record env st) := by
  have h0 : ∀ (io : io_state) (recs : saved_records) (c : ctl), io.trace = st.io.trace →
      within_budget (clone_budget st) ({ st with io := io, recs := recs }, c) := by
    intro io recs c h
    refine within_budget_of_eq _ _ _ (Nat.le_of_eq ?_)
    unfold clone_budget
    dsimp only
    rw [h]
  unfold load_zero_bitmap_record goto_out
  refine uxenvm_load_read_struct_split (fun (r : LoadState × ctl) =>
    within_budget (clone_budget st) r) _ _ _ _ (fun _ _ => h0 _ st.recs _ rfl) (fun _ _ _ => ?_)
  refine ite_cases (fun (r : LoadState × ctl) => within_budget (clone_budget st) r) _ _ _
    (h0 _ st.recs _ rfl) ?_
  refine uxenvm_load_read_split (fun (r : LoadState × ctl) =>
    within_budget (clone_budget st) r) _ _ _ _ (fun _ _ => h0 _ st.recs _ rfl) (fun _ _ _ => ?_)
  refine ite_cases (fun (r : LoadState × ctl) => within_budget (clone_budget st) r) _ _ _
    (h0 _ _ _ rfl) ?_
  refine check_restore_clone_split (fun (r : LoadState × ctl) =>
    within_budget (clone_budget st) r) _ _ _ (fun _ => ?_) (fun hc _ => ?_)
    (fun hc _ _ => ?_) (fun hc _ _ => ?_)
  · refine ite_cases (fun (r : LoadState × ctl) => within_budget (clone_budget st) r) _ _ _
      ?_ ?_ <;>
    · refine within_budget_of_eq _ _ _ (Nat.le_of_eq ?_)
      unfold clone_budget
      dsimp only
      rw [zero_bitmap_clone]
  · refine ⟨?_, fun h => absurd (show ctl.out = ctl.next from h) (by decide)⟩
    show clone_calls (st.io.trace ++ [Event.clone_physmap]) ≤ clone_budget st
    have hc2 : st.restore_mode = VM_RESTORE_CLONE := hc
    unfold clone_budget
    rw [if_pos hc2, clone_calls_append]
    exact Nat.le_refl _
  · refine ⟨?_, fun h => absurd (show ctl.skip_mem = ctl.next from h) (by decide)⟩
    show clone_calls (st.io.trace ++ [Event.clone_physmap]) ≤ clone_budget st
    have hc2 : st.restore_mode = VM_RESTORE_CLONE := hc
    unfold clone_budget
    rw [if_pos hc2, clone_calls_append]
    exact Nat.le_refl _
  · have hc2 : st.restore_mode = VM_RESTORE_CLONE := hc
    refine ite_cases (fun (r : LoadState × ctl) => within_budget (clone_budget st) r) _ _ _
      ?_ ?_ <;>
    · refine within_budget_of_eq _ _ _ ?_
      unfold clone_budget
      dsimp only
      rw [zero_bitmap_clone, if_pos hc2, if_neg (by decide), clone_calls_append]
      exact Nat.le_refl _

theorem load_record_budget (env : LoadEnv) (pc : Bool) (st : LoadState) :
    within_budget (clone_budget st) (load_record env pc st) := by
  unfold load_record goto_out
  refine uxenvm_load_read_split (fun (r : LoadState × ctl) =>
    within_budget (clone_budget st) r) _ _ _ _
    (fun _ _ => within_budget_of_eq _ _ _ (Nat.le_refl _)) (fun _ _ _ => ?_)
  refine ite_cases (fun (r : LoadState × ctl) => within_budget (clone_budget st) r) _ _ _
    (within_budget_of_eq _ _ _ (Nat.le_refl _)) ?_
  refine load_switch_cases (fun (r : LoadState × ctl) => within_budget (clone_budget st) r)
    _ _ _ _ (fun r hr => ?_) ?_ ?_
  · refine within_budget_of_eq _ _ _ (Nat.le_of_eq ?_)
    unfold clone_budget
    rw [hr.2.1, hr.2.2.1]
  · exact load_zero_bitmap_record_budget env _
  · exact load_default_budget env pc _ _

theorem load_loop_budget (env : LoadEnv) (pc : Bool) (n : Nat) (st : LoadState)
    (r : LoadState × ctl) (hl : load_loop env pc n st = some r) :
    clone_calls r.1.io.trace ≤ clone_budget st := by
  induction n generalizing st with
  | zero => simp [load_loop] at hl
  | succ n ih =>
    unfold load_loop at hl
    split at hl
    · cases hl
      unfold clone_budget
      exact Nat.le_add_right _ _
    · have hr := load_record_budget env pc { st with polls := st.polls + 1 }
      have hb : clone_budget { st with polls := st.polls + 1 } = clone_budget st := rfl
      rw [hb] at hr
      dsimp only at hl
      split at hl
      · rename_i hnext
        exact Nat.le_trans (ih _ hl) (hr.2 hnext)
      · cases hl
        exact hr.1

theorem clone_calls_of_filter (a b : List Event)
    (h : a.filter is_clone = b.filter is_clone) : clone_calls a = clone_calls b := by
  unfold clone_calls
  rw [h]

theorem load_out_clone (env : LoadEnv) (st : LoadState) :
    clone_calls (load_out env st).io.trace = clone_calls st.io.trace :=
  clone_calls_of_filter _ _ (load_out_quiet is_clone clone_quiet env st).1

theorem deferred_clone (env : LoadEnv) (st : LoadState) (r : LoadState)
    (h : (apply_deferred env st).map (load_out env) = some r) :
    clone_calls r.io.trace = clone_calls st.io.trace := by
  cases hd : apply_deferred env st with
  | none =>
    rw [hd] at h
    cases h
  | some s2 =>
    rw [hd] at h
    cases h
    rw [load_out_clone]
    exact clone_calls_of_filter _ _ (apply_deferred_quiet is_clone clone_quiet env st s2 hd).1

theorem load_records_clone (env : LoadEnv) (pc : Bool) (n : Nat) (st r : LoadState)
    (h : load_records env pc n st = some r) : clone_calls r.io.trace ≤ clone_budget st := by
  unfold load_records at h
  split at h
  · cases h
  · rename_i s hl
    cases h
    rw [load_out_clone]
    exact load_loop_budget env pc n st _ hl
  · rename_i s hl
    rw [deferred_clone env s r h]
    exact load_loop_budget env pc n st _ hl
  · rename_i s c _ _ hl
    have hb := load_loop_budget env pc n st _ hl
    have hd := clone_calls_of_filter _ _ (drain_pool_quiet is_clone clone_quiet env s)
    split at h
    · rename_i s2 hdr
      cases h
      rw [load_out_clone]
      rw [hdr] at hd
      rw [hd]
      exact hb
    · rename_i s2 c2 _ hdr
      rw [deferred_clone env s2 r h]
      rw [hdr] at hd
      rw [hd]
      exact hb

theorem check_version_clone (env : LoadEnv) (pc : Bool) (fuel version : Nat)
    (st r : LoadState) (hb : clone_budget st ≤ 1)
    (h : check_version env pc fuel version st = some r) : clone_calls r.io.trace ≤ 1 := by
  unfold check_version at h
  dsimp only at h
  split at h
  · cases h
    rw [load_out_clone]
    unfold clone_budget at hb
    show clone_calls st.io.trace ≤ 1
    omega
  · exact Nat.le_trans (load_records_clone env pc fuel _ r h) hb

/-- A load issues the clone hypercall at most once. -/
theorem execute_clone_once (env : LoadEnv) (g : vm_globals) (fuel : Nat) (file : List Nat)
    (mode : restore_mode) (r : LoadState)
    (h : uxenvm_loadvm_execute_fuel env g fuel file mode = some r) :
    clone_calls r.io.trace ≤ 1 := by
  have hb : ∀ io : io_state, io.trace = [] →
      clone_budget { load_init g file mode with io := io } ≤ 1 := by
    intro io hio
    unfold clone_budget
    dsimp only
    rw [hio]
    split <;> simp [clone_calls]
  have hout : ∀ io : io_state, io.trace = [] → ∀ r,
      some (load_out env { load_init g file mode with io := io }) = some r →
      clone_calls r.io.trace ≤ 1 := by
    intro io hio r hr
    cases hr
    rw [load_out_clone]
    show clone_calls io.trace ≤ 1
    rw [hio]
    simp [clone_calls]
  revert h
  unfold uxenvm_loadvm_execute_fuel
  dsimp only
  refine uxenvm_load_read_split (fun (o : Option LoadState) =>
    o = some r → clone_calls r.io.trace ≤ 1) _ _ _ _
    (fun _ _ => hout _ rfl r) (fun _ _ _ => ?_)
  refine ite_cases (fun (o : Option LoadState) => o = some r → clone_calls r.io.trace ≤ 1)
    _ _ _ ?_ ?_
  · refine uxenvm_load_read_struct_split (fun (o : Option LoadState) =>
      o = some r → clone_calls r.io.trace ≤ 1) _ _ _ _
      (fun _ _ => hout _ rfl r) (fun _ _ _ => ?_)
    exact check_version_clone env _ fuel _ _ r (hb _ rfl)
  · exact check_version_clone env _ fuel _ _ r (hb _ rfl)

theorem load_default_first_clone (env : LoadEnv) (pc : Bool) (st : LoadState) (m : Int)
    (hc : st.restore_mode = VM_RESTORE_CLONE) (hu : st.g.vm_has_template_uuid = false)
    (hp : 0 ≤ env.xc_domain_clone_physmap) :
    load_default env pc st m = (first_clone_state st, ctl.skip_mem) := by
  unfold load_default uxenvm_check_restore_clone
  rw [if_pos hc]
  dsimp only
  rw [if_neg (by omega), hu]
  rfl

theorem load_switch_zero_bitmap (env : LoadEnv) (pc : Bool) (st : LoadState) :
    load_switch env pc st XC_SAVE_ID_ZERO_BITMAP = load_zero_bitmap_record env st := by
  unfold load_switch
  rw [if_neg (by decide), if_neg (by decide), if_neg (by decide), if_neg (by decide),
    if_neg (by decide), if_neg (by decide), if_neg (by decide), if_neg (by decide),
    if_neg (by decide), if_neg (by decide), if_neg (by decide), if_neg (by decide),
    if_neg (by decide), if_neg (by decide), if_neg (by decide), if_pos rfl]

/-- The zero-bitmap record of a first-generation clone: either the record
fails to read or decode and control goes to `out` with no call issued, or the
clone call is issued and control goes to `skip_mem` with `ret = 0`. No job is
given to the pool. -/
theorem load_zero_bitmap_record_first_clone (env : LoadEnv) (st : LoadState)
    (hc : st.restore_mode = VM_RESTORE_CLONE) (hu : st.g.vm_has_template_uuid = false)
    (hp : 0 ≤ env.xc_domain_clone_physmap) :
    (load_zero_bitmap_record env st).1.io.dc = st.io.dc ∧
    (((load_zero_bitmap_record env st).2 = ctl.out ∧
        (load_zero_bitmap_record env st).1.io.trace = st.io.trace) ∨
      ((load_zero_bitmap_record env st).2 = ctl.skip_mem ∧
        (load_zero_bitmap_record env st).1.io.trace = st.io.trace ++ [Event.clone_physmap] ∧
        (load_zero_bitmap_record env st).1.io.ret = 0 ∧
        (load_zero_bitmap_record env st).1.g.vm_has_template_uuid = true)) := by
  refine ⟨load_zero_bitmap_record_dc env st, ?_⟩
  unfold load_zero_bitmap_record goto_out
  refine uxenvm_load_read_struct_split (fun (r : LoadState × ctl) =>
    (r.2 = ctl.out ∧ r.1.io.trace = st.io.trace) ∨
      (r.2 = ctl.skip_mem ∧ r.1.io.trace = st.io.trace ++ [Event.clone_physmap] ∧
        r.1.io.ret = 0 ∧ r.1.g.vm_has_template_uuid = true)) _ _ _ _
    (fun _ _ => Or.inl ⟨rfl, rfl⟩) (fun _ _ _ => ?_)
  refine ite_cases (fun (r : LoadState × ctl) =>
    (r.2 = ctl.out ∧ r.1.io.trace = st.io.trace) ∨
      (r.2 = ctl.skip_mem ∧ r.1.io.trace = st.io.trace ++ [Event.clone_physmap] ∧
        r.1.io.ret = 0 ∧ r.1.g.vm_has_template_uuid = true)) _ _ _ (Or.inl ⟨rfl, rfl⟩) ?_
  refine uxenvm_load_read_split (fun (r : LoadState × ctl) =>
    (r.2 = ctl.out ∧ r.1.io.trace = st.io.trace) ∨
      (r.2 = ctl.skip_mem ∧ r.1.io.trace = st.io.trace ++ [Event.clone_physmap] ∧
        r.1.io.ret = 0 ∧ r.1.g.vm_has_template_uuid = true)) _ _ _ _
    (fun _ _ => Or.inl ⟨rfl, rfl⟩) (fun _ _ _ => ?_)
  refine ite_cases (fun (r : LoadState × ctl) =>
    (r.2 = ctl.out ∧ r.1.io.trace = st.io.trace) ∨
      (r.2 = ctl.skip_mem ∧ r.1.io.trace = st.io.trace ++ [Event.clone_physmap] ∧
        r.1.io.ret = 0 ∧ r.1.g.vm_has_template_uuid = true)) _ _ _ (Or.inl ⟨rfl, rfl⟩) ?_
  refine check_restore_clone_split (fun (r : LoadState × ctl) =>
    (r.2 = ctl.out ∧ r.1.io.trace = st.io.trace) ∨
      (r.2 = ctl.skip_mem ∧ r.1.io.trace = st.io.trace ++ [Event.clone_physmap] ∧
        r.1.io.ret = 0 ∧ r.1.g.vm_has_template_uuid = true)) _ _ _
    (fun h => absurd hc h) (fun _ h => absurd h (by omega))
    (fun _ _ _ => Or.inr ⟨rfl, rfl, rfl, rfl⟩)
    (fun _ _ h => absurd (hu.symm.trans h) Bool.false_ne_true)

theorem load_loop_step (env : LoadEnv) (pc : Bool) (n : Nat) (st : LoadState)
    (hq : env.vm_quit_interrupt st.polls = false) (r : LoadState × ctl)
    (h : load_record env pc { st with polls := st.polls + 1 } = r) (hn : r.2 ≠ ctl.next) :
    load_loop env pc (n + 1) st = some r := by
  unfold load_loop
  rw [hq]
  simp only [Bool.false_eq_true, if_false]
  rw [h]
  obtain ⟨s, c⟩ := r
  cases c
  · exact absurd rfl hn
  · rfl
  · rfl
  · rfl

/-- C20 (counterexample): two Clone-mode loads without a template uuid whose
first memory record is a zero-bitmap record. The payload of the record is read
and LZ4-decoded before the clone hypercall: with a payload that decodes, the
hypercall is issued and the load continues with the deferred metadata and
returns 0; with a payload that does not decode, the load returns `-EINVAL` and
the hypercall is not issued at all. -/
theorem C20_counterexample_zero_bitmap_decoded_first :
    (uxenvm_loadvm_execute example_load_env example_globals
        (version_record ++ decodable_zero_bitmap_record ++ enc_i32 0) VM_RESTORE_CLONE).map
      (fun st => (st.io.ret, st.io.trace)) =
      some (0, [Event.clone_physmap, Event.mapcache_init]) ∧
    (uxenvm_loadvm_execute example_load_env example_globals
        (version_record ++ undecodable_zero_bitmap_record ++ enc_i32 0) VM_RESTORE_CLONE).map
      (fun st => (st.io.ret, st.io.trace)) = some (-EINVAL, []) := by
  constructor <;> decide

/-- C20 (amended): a load issues the clone hypercall at most once. In a state
of the record loop in Clone mode with no template uuid set, with a clone
hypercall that succeeds: at a page-batch marker the hypercall is issued before
anything of the batch is read, control goes to `skip_mem` with `ret = 0`, the
file cursor stays behind the marker, the pool is untouched and the load goes
on with the deferred metadata; at a zero-bitmap record the payload is read and
LZ4-decoded first, and either that fails and the load leaves through `out`
with no call issued, or the hypercall is issued and the load goes on from
`skip_mem` with `ret = 0`, with no job given to the pool. The code from
`skip_mem` on issues no populate, map or fill call and no clone call, and does
not move the file cursor. -/
theorem C20_first_generation_clone (env : LoadEnv) (pc : Bool) (n : Nat) (st : LoadState)
    (hc : st.restore_mode = VM_RESTORE_CLONE) (hu : st.g.vm_has_template_uuid = false)
    (hp : 0 ≤ env.xc_domain_clone_physmap)
    (hq : env.vm_quit_interrupt st.polls = false)
    (hlen : st.io.f.pos + 4 ≤ st.io.f.data.length) :
    (∀ g file mode fuel r, uxenvm_loadvm_execute_fuel env g fuel file mode = some r →
      clone_calls r.io.trace ≤ 1) ∧
    (dec_i32 ((st.io.f.data.drop st.io.f.pos).take 4) ≠ 0 →
      dec_i32 ((st.io.f.data.drop st.io.f.pos).take 4) ∉ known_record_ids →
      load_loop env pc (n + 1) st = some (first_clone_state (after_marker st), ctl.skip_mem) ∧
      load_records env pc (n + 1) st =
        (apply_deferred env (first_clone_state (after_marker st))).map (load_out env)) ∧
    (dec_i32 ((st.io.f.data.drop st.io.f.pos).take 4) = XC_SAVE_ID_ZERO_BITMAP →
      ∃ st1 c, load_record env pc { st with polls := st.polls + 1 } = (st1, c) ∧
        st1.io.dc = st.io.dc ∧
        ((c = ctl.out ∧ st1.io.trace = st.io.trace ∧
            load_records env pc (n + 1) st = some (load_out env st1)) ∨
          (c = ctl.skip_mem ∧ st1.io.trace = st.io.trace ++ [Event.clone_physmap] ∧
            st1.io.ret = 0 ∧ st1.g.vm_has_template_uuid = true ∧
            load_records env pc (n + 1) st =
              (apply_deferred env st1).map (load_out env)))) ∧
    (∀ s s2, apply_deferred env s = some s2 →
      (load_out env s2).io.trace.filter memory_call = s.io.trace.filter memory_call ∧
      clone_calls (load_out env s2).io.trace = clone_calls s.io.trace ∧
      (load_out env s2).io.f = s.io.f) := by
  refine ⟨fun g file mode fuel r h => execute_clone_once env g fuel file mode r h, ?_, ?_, ?_⟩
  · intro hnz hunk
    have hrec := load_record_marker env pc { st with polls := st.polls + 1 } hlen hnz
    rw [load_switch_unknown env pc _ _ hunk] at hrec
    have hd := load_default_first_clone env pc (after_marker st)
      (dec_i32 ((st.io.f.data.drop st.io.f.pos).take 4)) hc hu hp
    have hrec2 : load_record env pc { st with polls := st.polls + 1 } =
        (first_clone_state (after_marker st), ctl.skip_mem) := hrec.trans hd
    have hskip : ∀ x : LoadState, (x, ctl.skip_mem).2 ≠ ctl.next :=
      fun _ h => absurd (show ctl.skip_mem = ctl.next from h) (by decide)
    have hloop := load_loop_step env pc n st hq _ hrec2 (hskip _)
    refine ⟨hloop, ?_⟩
    unfold load_records
    rw [hloop]
  · intro hm
    have hnz : dec_i32 ((st.io.f.data.drop st.io.f.pos).take 4) ≠ 0 := by
      rw [hm]
      decide
    have hrec := load_record_marker env pc { st with polls := st.polls + 1 } hlen hnz
    have hrec2 : load_record env pc { st with polls := st.polls + 1 } =
        load_zero_bitmap_record env (after_marker st) := by
      rw [hrec]
      have hm2 : dec_i32 (({ st with polls := st.polls + 1 } : LoadState).io.f.data.drop
          ({ st with polls := st.polls + 1 } : LoadState).io.f.pos |>.take 4) =
          XC_SAVE_ID_ZERO_BITMAP := hm
      rw [hm2]
      exact load_switch_zero_bitmap env pc _
    obtain ⟨hdc, hcase⟩ := load_zero_bitmap_record_first_clone env (after_marker st) hc hu hp
    obtain ⟨st1, c, hr⟩ : ∃ st1 c, load_zero_bitmap_record env (after_marker st) = (st1, c) :=
      ⟨_, _, rfl⟩
    rw [hr] at hdc hcase hrec2
    refine ⟨st1, c, hrec2, hdc, ?_⟩
    rcases hcase with ⟨h1, h2⟩ | ⟨h1, h2, h3, h4⟩
    · have h1' : c = ctl.out := h1
      subst h1'
      exact Or.inl ⟨rfl, h2, load_records_of_out env pc n st st1 hq hrec2⟩
    · have h1' : c = ctl.skip_mem := h1
      subst h1'
      have hskip : ∀ x : LoadState, (x, ctl.skip_mem).2 ≠ ctl.next :=
        fun _ h => absurd (show ctl.skip_mem = ctl.next from h) (by decide)
      have hloop := load_loop_step env pc n st hq _ hrec2 (hskip _)
      refine Or.inr ⟨rfl, h2, h3, h4, ?_⟩
      unfold load_records
      rw [hloop]
  · intro s s2 h
    obtain ⟨a1, a2⟩ := apply_deferred_quiet memory_call memory_quiet env s s2 h
    obtain ⟨b1, b2⟩ := load_out_quiet memory_call memory_quiet env s2
    refine ⟨b1.trans a1, ?_, b2.trans a2⟩
    rw [load_out_clone]
    exact clone_calls_of_filter _ _ (apply_deferred_quiet is_clone clone_quiet env s s2 h).1

/-- C20 (amended) at a Clone-mode load without a template uuid whose file
holds the marker of a raw batch of one page and nothing else: the load goes on
with the deferred metadata and ends with result 0, the clone hypercall its
only memory call, the cursor still behind the marker. -/
theorem C20_first_generation_clone_witness :
    (load_init example_globals (enc_i32 1) VM_RESTORE_CLONE).restore_mode = VM_RESTORE_CLONE ∧
    (load_init example_globals (enc_i32 1) VM_RESTORE_CLONE).g.vm_has_template_uuid = false ∧
    0 ≤ example_load_env.xc_domain_clone_physmap ∧
    example_load_env.vm_quit_interrupt
      (load_init example_globals (enc_i32 1) VM_RESTORE_CLONE).polls = false ∧
    (load_init example_globals (enc_i32 1) VM_RESTORE_CLONE).io.f.pos + 4 ≤
      (load_init example_globals (enc_i32 1) VM_RESTORE_CLONE).io.f.data.length ∧
    load_records example_load_env false (0 + 1)
        (load_init example_globals (enc_i32 1) VM_RESTORE_CLONE) =
      (apply_deferred example_load_env
        (first_clone_state
          (after_marker (load_init example_globals (enc_i32 1) VM_RESTORE_CLONE)))).map
        (load_out example_load_env) ∧
    (load_records example_load_env false (0 + 1)
        (load_init example_globals (enc_i32 1) VM_RESTORE_CLONE)).map
      (fun st => (st.io.ret, st.io.f.pos, st.io.trace)) =
      some (0, 4, [Event.clone_physmap, Event.mapcache_init]) :=
  ⟨rfl, rfl, by decide, rfl, by decide,
    ((C20_first_generation_clone example_load_env false 0
      (load_init example_globals (enc_i32 1) VM_RESTORE_CLONE) rfl rfl (by decide) rfl
      (by decide)).2.1 (by decide) (by decide)).2, by decide⟩

/-! ## Load: the calls of the record loop -/

theorem populate_direct_quiet (p : Event → Bool) (l pc : Bool)
    (hq : ∀ e, loop_call l pc e = true → p e = false) (env : LoadEnv) (io : io_state)
    (batch : Nat) (pfn_type : List Nat) (d l1 : Bool) (cs : Int) (hl : l1 = true → l = true) :
    (populate_direct env io batch pfn_type d l1 cs).trace.filter p = io.trace.filter p := by
  have h1 : p (Event.populate_physmap_exact pfn_type l1) = false := by
    refine hq _ ?_
    cases l1
    · rfl
    · simp [loop_call, hl rfl]
  have h2 : ∀ x, p (Event.map_foreign_bulk x) = false := fun _ => hq _ rfl
  have h3 : ∀ x y, p (Event.write_mapped x y) = false := fun _ _ => hq _ rfl
  unfold populate_direct
  dsimp only
  split
  · simp [List.filter_append, h1]
  · split
    · simp [List.filter_append, h1]
    · split
      · simp [List.filter_append, h1, h2]
      · split
        · simp [List.filter_append, h1, h2]
        · split <;> simp [List.filter_append, h1, h2, h3]

theorem decompress_cb_quiet (p : Event → Bool) (l pc : Bool)
    (hq : ∀ e, loop_call l pc e = true → p e = false) (env : LoadEnv) (r : Int) (batch : Nat)
    (pfn_type buf : List Nat) (cs : Int) (sp pc1 : Bool) (hpc : pc1 = true → pc = true) :
    (decompress_cb env r batch pfn_type buf cs sp pc1).1.filter p = [] := by
  have h1 : ∀ x, p (Event.populate_physmap_from_buffer pfn_type x pc1) = false := by
    intro x
    refine hq _ ?_
    cases pc1
    · rfl
    · simp [loop_call, hpc rfl]
  unfold decompress_cb
  dsimp only
  split_ifs <;> simp [h1]

theorem submit_job_quiet (p : Event → Bool) (l pc : Bool)
    (hq : ∀ e, loop_call l pc e = true → p e = false) (env : LoadEnv) (io : io_state)
    (batch : Nat) (pfn_type buf : List Nat) (cs : Int) (sp pc1 : Bool)
    (hpc : pc1 = true → pc = true) :
    (submit_job env io batch pfn_type buf cs sp pc1).trace.filter p = io.trace.filter p := by
  unfold submit_job
  dsimp only
  split
  · rfl
  · split
    · rfl
    · split
      · rfl
      · dsimp only
        rw [List.filter_append, decompress_cb_quiet p l pc hq env _ _ _ _ _ _ _ hpc,
          List.append_nil]

theorem batch_frames_lazy (K : Consts) (batch : Nat) (bytes : List Nat) (l : Bool) :
    (batch_frames K batch bytes l).2 = true → l = true := by
  unfold batch_frames
  dsimp only
  generalize (dec_u32_list batch bytes).map
    (fun x => x &&& (4294967295 ^^^ K.XEN_DOMCTL_PFINFO_LTAB_MASK)) = fr
  induction fr generalizing l with
  | nil => exact id
  | cons a fr ih =>
    intro h
    rw [List.foldl_cons] at h
    have h2 := ih _ h
    cases l
    · simp at h2
    · rfl

theorem load_readbatch_quiet (p : Event → Bool) (l pc : Bool)
    (hq : ∀ e, loop_call l pc e = true → p e = false) (env : LoadEnv) (io : io_state)
    (batch : Nat) (d sp l1 pc1 : Bool) (hl : l1 = true → l = true)
    (hpc : sp = true → pc1 = true → pc = true) :
    (uxenvm_load_readbatch env io batch d sp l1 pc1).trace.filter p = io.trace.filter p := by
  have hpc2 : (if !sp then false else pc1) = true → pc = true := by
    cases sp
    · intro h
      simp at h
    · exact hpc rfl
  unfold uxenvm_load_readbatch
  dsimp only
  refine uxenvm_load_read_split
    (fun (r : io_state) => r.trace.filter p = io.trace.filter p) _ _ _ _
    (fun _ _ => rfl) (fun bs _ _ => ?_)
  have hl2 : (batch_frames env.K batch bs l1).2 = true → l = true :=
    fun h => hl (batch_frames_lazy env.K batch bs l1 h)
  refine ite_cases (fun (r : io_state) => r.trace.filter p = io.trace.filter p)
    _ _ _ ?_ ?_
  · refine uxenvm_load_read_split
      (fun (r : io_state) => r.trace.filter p = io.trace.filter p) _ _ _ _
      (fun _ _ => rfl) (fun _ _ _ => ?_)
    refine ite_cases (fun (r : io_state) => r.trace.filter p = io.trace.filter p)
      _ _ _ ?_ ?_
    · dsimp only
      rw [populate_direct_quiet p l pc hq env _ _ _ _ _ _ hl2]
    · refine ite_cases (fun (r : io_state) => r.trace.filter p = io.trace.filter p)
        _ _ _ rfl ?_
      refine uxenvm_load_read_split
        (fun (r : io_state) => r.trace.filter p = io.trace.filter p) _ _ _ _
        (fun _ _ => rfl) (fun _ _ _ => ?_)
      dsimp only
      rw [submit_job_quiet p l pc hq env _ _ _ _ _ _ _ hpc2]
  · dsimp only
    rw [populate_direct_quiet p l pc hq env _ _ _ _ _ _ hl2]

theorem load_batch_quiet (p : Event → Bool) (l pc : Bool)
    (hq : ∀ e, loop_call l pc e = true → p e = false) (env : LoadEnv) (st : LoadState)
    (marker : Int) (l1 pc1 : Bool) (hl : l1 = true → l = true)
    (hpc : pc1 = true → pc = true) :
    (uxenvm_load_batch env st marker l1 pc1).io.trace.filter p = st.io.trace.filter p ∧
      (uxenvm_load_batch env st marker l1 pc1).do_lazy_load = st.do_lazy_load := by
  unfold uxenvm_load_batch
  split
  · exact ⟨rfl, rfl⟩
  · dsimp only
    refine ⟨?_, rfl⟩
    rw [load_readbatch_quiet p l pc hq env _ _ _ _ _ _ hl (fun _ => hpc)]
    unfold load_batch_setup
    dsimp only
    split
    · rw [List.filter_append]
      simp [DECOMPRESS_THREADS, hq Event.alloc_pp_buffer rfl]
    · rfl

theorem load_zero_bitmap_loop_quiet (p : Event → Bool) (l pc : Bool)
    (hq : ∀ e, loop_call l pc e = true → p e = false) (env : LoadEnv) (zb : List Nat)
    (last n i : Nat) (pfn_type : List Nat) (ev : List Event) :
    (load_zero_bitmap_loop env zb last n i pfn_type ev).2.filter p = ev.filter p := by
  have h1 : ∀ x, p (Event.populate_physmap_exact x false) = false := fun _ => hq _ rfl
  induction n generalizing i pfn_type ev with
  | zero => rfl
  | succ n ih =>
    unfold load_zero_bitmap_loop
    dsimp only
    split_ifs <;> first
      | exact ih _ _ _
      | (rw [ih]
         simp [List.filter_append, h1])
      | simp [List.filter_append, h1]

theorem zero_bitmap_quiet (p : Event → Bool) (l pc : Bool)
    (hq : ∀ e, loop_call l pc e = true → p e = false) (env : LoadEnv) (zb : List Nat)
    (n : Nat) (tr : List Event) :
    (tr ++ (uxenvm_load_zero_bitmap env zb n).2).filter p = tr.filter p := by
  unfold uxenvm_load_zero_bitmap
  dsimp only
  rw [List.filter_append, load_zero_bitmap_loop_quiet p l pc hq]
  simp

/-- A step on the zero-bitmap record or on a page batch issues only calls of
the record loop and does not set the caller's `do_lazy_load`. -/
theorem load_memory_record_quiet (p : Event → Bool) (l pc : Bool)
    (hq : ∀ e, loop_call l pc e = true → p e = false) (env : LoadEnv) (pc1 : Bool)
    (st : LoadState) (m : Int) (hl : st.do_lazy_load = true → l = true)
    (hpc : pc1 = true → pc = true) :
    ((load_zero_bitmap_record env st).1.io.trace.filter p = st.io.trace.filter p ∧
      (load_zero_bitmap_record env st).1.do_lazy_load = st.do_lazy_load) ∧
    ((load_default env pc1 st m).1.io.trace.filter p = st.io.trace.filter p ∧
      (load_default env pc1 st m).1.do_lazy_load = st.do_lazy_load) := by
  have hc : p Event.clone_physmap = false := hq _ rfl
  have hcl : (st.io.trace ++ [Event.clone_physmap]).filter p = st.io.trace.filter p := by
    simp [List.filter_append, hc]
  constructor
  · unfold load_zero_bitmap_record goto_out
    refine uxenvm_load_read_struct_split (fun (r : LoadState × ctl) =>
      r.1.io.trace.filter p = st.io.trace.filter p ∧ r.1.do_lazy_load = st.do_lazy_load)
      _ _ _ _ (fun _ _ => ⟨rfl, rfl⟩) (fun _ _ _ => ?_)
    refine ite_cases (fun (r : LoadState × ctl) =>
      r.1.io.trace.filter p = st.io.trace.filter p ∧ r.1.do_lazy_load = st.do_lazy_load)
      _ _ _ ⟨rfl, rfl⟩ ?_
    refine uxenvm_load_read_split (fun (r : LoadState × ctl) =>
      r.1.io.trace.filter p = st.io.trace.filter p ∧ r.1.do_lazy_load = st.do_lazy_load)
      _ _ _ _ (fun _ _ => ⟨rfl, rfl⟩) (fun _ _ _ => ?_)
    refine ite_cases (fun (r : LoadState × ctl) =>
      r.1.io.trace.filter p = st.io.trace.filter p ∧ r.1.do_lazy_load = st.do_lazy_load)
      _ _ _ ⟨rfl, rfl⟩ ?_
    refine check_restore_clone_split (fun (r : LoadState × ctl) =>
      r.1.io.trace.filter p = st.io.trace.filter p ∧ r.1.do_lazy_load = st.do_lazy_load)
      _ _ _ (fun _ => ?_) (fun _ _ => ⟨hcl, rfl⟩) (fun _ _ _ => ⟨hcl, rfl⟩) (fun _ _ _ => ?_)
    · refine ite_cases (fun (r : LoadState × ctl) =>
        r.1.io.trace.filter p = st.io.trace.filter p ∧ r.1.do_lazy_load = st.do_lazy_load)
        _ _ _ ?_ ?_ <;>
      · refine ⟨?_, rfl⟩
        dsimp only
        rw [zero_bitmap_quiet p l pc hq]
    · refine ite_cases (fun (r : LoadState × ctl) =>
        r.1.io.trace.filter p = st.io.trace.filter p ∧ r.1.do_lazy_load = st.do_lazy_load)
        _ _ _ ?_ ?_ <;>
      · refine ⟨?_, rfl⟩
        dsimp only
        rw [zero_bitmap_quiet p l pc hq]
        exact hcl
  · unfold load_default
    refine check_restore_clone_split (fun (r : LoadState × ctl) =>
      r.1.io.trace.filter p = st.io.trace.filter p ∧ r.1.do_lazy_load = st.do_lazy_load)
      _ _ _ (fun _ => ?_) (fun _ _ => ⟨hcl, rfl⟩) (fun _ _ _ => ⟨hcl, rfl⟩) (fun _ _ _ => ?_)
    · have hb := load_batch_quiet p l pc hq env st m st.do_lazy_load pc1 hl hpc
      exact ite_cases (fun (r : LoadState × ctl) =>
        r.1.io.trace.filter p = st.io.trace.filter p ∧ r.1.do_lazy_load = st.do_lazy_load)
        _ _ _ hb hb
    · have hb := load_batch_quiet p l pc hq env
        { st with io := { st.io with ret := env.xc_domain_clone_physmap,
                                     trace := st.io.trace ++ [Event.clone_physmap] },
                  restore_mode := VM_RESTORE_NORMAL } m st.do_lazy_load pc1 hl hpc
      have hb2 : (uxenvm_load_batch env
          { st with io := { st.io with ret := env.xc_domain_clone_physmap,
                                       trace := st.io.trace ++ [Event.clone_physmap] },
                    restore_mode := VM_RESTORE_NORMAL } m st.do_lazy_load
            pc1).io.trace.filter p = st.io.trace.filter p ∧
          (uxenvm_load_batch env
          { st with io := { st.io with ret := env.xc_domain_clone_physmap,
                                       trace := st.io.trace ++ [Event.clone_physmap] },
                    restore_mode := VM_RESTORE_NORMAL } m st.do_lazy_load
            pc1).do_lazy_load = st.do_lazy_load := ⟨hb.1.trans hcl, hb.2⟩
      exact ite_cases (fun (r : LoadState × ctl) =>
        r.1.io.trace.filter p = st.io.trace.filter p ∧ r.1.do_lazy_load = st.do_lazy_load)
        _ _ _ hb2 hb2

/-- The handlers of the metadata records never set `do_lazy_load`. -/
theorem load_switch_lazy (env : LoadEnv) (pc : Bool) (st : LoadState) (m : Int) :
    (load_switch env pc st m).1.do_lazy_load = true → st.do_lazy_load = true := by
  have hm := load_memory_record_quiet (fun _ => false) true true (fun _ _ => rfl) env pc st m
    (fun _ => rfl) (fun _ => rfl)
  unfold load_switch load_struct goto_out
  refine ite_cases (fun (r : LoadState × ctl) => r.1.do_lazy_load = true → st.do_lazy_load = true)
    _ _ _ ?_
    (ite_cases (fun (r : LoadState × ctl) => r.1.do_lazy_load = true → st.do_lazy_load = true)
      _ _ _ ?_
    (ite_cases (fun (r : LoadState × ctl) => r.1.do_lazy_load = true → st.do_lazy_load = true)
      _ _ _ ?_
    (ite_cases (fun (r : LoadState × ctl) => r.1.do_lazy_load = true → st.do_lazy_load = true)
      _ _ _ ?_
    (ite_cases (fun (r : LoadState × ctl) => r.1.do_lazy_load = true → st.do_lazy_load = true)
      _ _ _ ?_
    (ite_cases (fun (r : LoadState × ctl) => r.1.do_lazy_load = true → st.do_lazy_load = true)
      _ _ _ ?_
    (ite_cases (fun (r : LoadState × ctl) => r.1.do_lazy_load = true → st.do_lazy_load = true)
      _ _ _ ?_
    (ite_cases (fun (r : LoadState × ctl) => r.1.do_lazy_load = true → st.do_lazy_load = true)
      _ _ _ ?_
    (ite_cases (fun (r : LoadState × ctl) => r.1.do_lazy_load = true → st.do_lazy_load = true)
      _ _ _ ?_
    (ite_cases (fun (r : LoadState × ctl) => r.1.do_lazy_load = true → st.do_lazy_load = true)
      _ _ _ ?_
    (ite_cases (fun (r : LoadState × ctl) => r.1.do_lazy_load = true → st.do_lazy_load = true)
      _ _ _ ?_
    (ite_cases (fun (r : LoadState × ctl) => r.1.do_lazy_load = true → st.do_lazy_load = true)
      _ _ _ ?_
    (ite_cases (fun (r : LoadState × ctl) => r.1.do_lazy_load = true → st.do_lazy_load = true)
      _ _ _ ?_
    (ite_cases (fun (r : LoadState × ctl) => r.1.do_lazy_load = true → st.do_lazy_load = true)
      _ _ _ ?_
    (ite_cases (fun (r : LoadState × ctl) => r.1.do_lazy_load = true → st.do_lazy_load = true)
      _ _ _ ?_
    (ite_cases (fun (r : LoadState × ctl) => r.1.do_lazy_load = true → st.do_lazy_load = true)
      _ _ _ ?_
    ?_)))))))))))))))
  all_goals first
    | (intro h
       rw [hm.2.2] at h
       exact h)
    | (intro h
       rw [hm.1.2] at h
       exact h)
    | exact uxenvm_load_read_struct_split
        (fun (r : LoadState × ctl) => r.1.do_lazy_load = true → st.do_lazy_load = true) _ _ _ _
        (fun _ _ h => h) (fun _ _ _ h => by first | exact h | cases h)
    | exact uxenvm_load_read_struct_split
        (fun (r : LoadState × ctl) => r.1.do_lazy_load = true → st.do_lazy_load = true) _ _ _ _
        (fun _ _ h => h) (fun _ _ _ =>
          uxenvm_load_read_split
            (fun (r : LoadState × ctl) => r.1.do_lazy_load = true → st.do_lazy_load = true)
            _ _ _ _ (fun _ _ h => h) (fun _ _ _ h => by first | exact h | cases h))

theorem load_record_quiet (p : Event → Bool) (l pc : Bool)
    (hq : ∀ e, loop_call l pc e = true → p e = false) (env : LoadEnv) (pc1 : Bool)
    (st : LoadState) (hl : st.do_lazy_load = true → l = true)
    (hpc : pc1 = true → pc = true) :
    (load_record env pc1 st).1.io.trace.filter p = st.io.trace.filter p ∧
      ((load_record env pc1 st).1.do_lazy_load = true → st.do_lazy_load = true) := by
  unfold load_record goto_out
  refine uxenvm_load_read_split (fun (r : LoadState × ctl) =>
    r.1.io.trace.filter p = st.io.trace.filter p ∧
      (r.1.do_lazy_load = true → st.do_lazy_load = true)) _ _ _ _
    (fun _ _ => ⟨rfl, id⟩) (fun _ f r => ?_)
  refine ite_cases (fun (r : LoadState × ctl) =>
    r.1.io.trace.filter p = st.io.trace.filter p ∧
      (r.1.do_lazy_load = true → st.do_lazy_load = true)) _ _ _ ⟨rfl, id⟩ ?_
  refine ⟨?_, load_switch_lazy env pc1 _ _⟩
  have hm := load_memory_record_quiet p l pc hq env pc1
    { st with io := { st.io with f := f, ret := r } }
  refine load_switch_cases (fun (r : LoadState × ctl) =>
    r.1.io.trace.filter p = st.io.trace.filter p) _ _ _ _ (fun r hr => ?_) ?_ ?_
  · show r.1.io.trace.filter p = st.io.trace.filter p
    rw [hr.2.1]
  · exact (hm 0 hl hpc).1.1
  · exact (hm _ hl hpc).2.1

theorem load_loop_quiet (p : Event → Bool) (l pc : Bool)
    (hq : ∀ e, loop_call l pc e = true → p e = false) (env : LoadEnv) (pc1 : Bool) (n : Nat)
    (st : LoadState) (r : LoadState × ctl) (hl : st.do_lazy_load = true → l = true)
    (hpc : pc1 = true → pc = true) (h : load_loop env pc1 n st = some r) :
    r.1.io.trace.filter p = st.io.trace.filter p := by
  induction n generalizing st with
  | zero => simp [load_loop] at h
  | succ n ih =>
    unfold load_loop at h
    split at h
    · cases h
      rfl
    · have hr := load_record_quiet p l pc hq env pc1 { st with polls := st.polls + 1 } hl hpc
      dsimp only at h
      split at h
      · exact (ih _ (fun h1 => hl (hr.2 h1)) h).trans hr.1
      · cases h
        exact hr.1

/-- The calls of a whole load after the version check: a property `p` that
selects no call of the record loop and no call of the deferred metadata
selects no call of the load. -/
theorem load_records_quiet (p : Event → Bool) (l pc : Bool)
    (hq : ∀ e, loop_call l pc e = true → p e = false)
    (hq2 : ∀ e, deferred_call e = true → p e = false) (env : LoadEnv) (pc1 : Bool) (n : Nat)
    (st r : LoadState) (hl : st.do_lazy_load = true → l = true)
    (hpc : pc1 = true → pc = true) (h : load_records env pc1 n st = some r) :
    r.io.trace.filter p = st.io.trace.filter p := by
  have hdef : ∀ s : LoadState, (apply_deferred env s).map (load_out env) = some r →
      r.io.trace.filter p = s.io.trace.filter p := by
    intro s hs
    cases hd : apply_deferred env s with
    | none =>
      rw [hd] at hs
      cases hs
    | some s2 =>
      rw [hd] at hs
      cases hs
      exact (load_out_quiet p hq2 env s2).1.trans (apply_deferred_quiet p hq2 env s s2 hd).1
  unfold load_records at h
  split at h
  · cases h
  · rename_i s hlp
    cases h
    exact (load_out_quiet p hq2 env s).1.trans
      (load_loop_quiet p l pc hq env pc1 n st _ hl hpc hlp)
  · rename_i s hlp
    exact (hdef s h).trans (load_loop_quiet p l pc hq env pc1 n st _ hl hpc hlp)
  · rename_i s c _ _ hlp
    have hb := load_loop_quiet p l pc hq env pc1 n st _ hl hpc hlp
    have hd := drain_pool_quiet p hq2 env s
    split at h
    · rename_i s2 hdr
      cases h
      rw [hdr] at hd
      exact (load_out_quiet p hq2 env s2).1.trans (hd.trans hb)
    · rename_i s2 c2 _ hdr
      rw [hdr] at hd
      exact (hdef s2 h).trans (hd.trans hb)

/-- The calls of `uxenvm_loadvm_execute`: a property `p` that selects no call
of the record loop run without lazy loading, with the `populate_compressed` of
the restore mode, and no call of the deferred metadata selects no call of the
load. -/
theorem execute_quiet (p : Event → Bool) (env : LoadEnv) (g : vm_globals) (fuel : Nat)
    (file : List Nat) (mode : restore_mode)
    (hq : ∀ e, loop_call false (decide (mode = VM_RESTORE_TEMPLATE) && !env.uncomptmpl) e = true →
      p e = false)
    (hq2 : ∀ e, deferred_call e = true → p e = false) (r : LoadState)
    (h : uxenvm_loadvm_execute_fuel env g fuel file mode = some r) :
    r.io.trace.filter p = [] := by
  have hout : ∀ io : io_state, io.trace = [] → ∀ r,
      some (load_out env { load_init g file mode with io := io }) = some r →
      r.io.trace.filter p = [] := by
    intro io hio r hr
    cases hr
    rw [(load_out_quiet p hq2 env _).1]
    show io.trace.filter p = []
    rw [hio]
    rfl
  have hcv : ∀ (io : io_state) (version : Nat), io.trace = [] → ∀ r,
      check_version env (decide (mode = VM_RESTORE_TEMPLATE) && !env.uncomptmpl) fuel version
        { load_init g file mode with io := io } = some r → r.io.trace.filter p = [] := by
    intro io version hio r hr
    unfold check_version at hr
    dsimp only at hr
    split at hr
    · cases hr
      rw [(load_out_quiet p hq2 env _).1]
      show io.trace.filter p = []
      rw [hio]
      rfl
    · have := load_records_quiet p false _ hq hq2 env _ fuel _ r
        (fun h => absurd h Bool.false_ne_true) id hr
      rw [this]
      show io.trace.filter p = []
      rw [hio]
      rfl
  revert h
  unfold uxenvm_loadvm_execute_fuel
  dsimp only
  refine uxenvm_load_read_split (fun (o : Option LoadState) =>
    o = some r → r.io.trace.filter p = []) _ _ _ _
    (fun _ _ => hout _ rfl r) (fun _ _ _ => ?_)
  refine ite_cases (fun (o : Option LoadState) => o = some r → r.io.trace.filter p = [])
    _ _ _ ?_ ?_
  · refine uxenvm_load_read_struct_split (fun (o : Option LoadState) =>
      o = some r → r.io.trace.filter p = []) _ _ _ _
      (fun _ _ => hout _ rfl r) (fun _ _ _ => ?_)
    exact hcv _ _ rfl r
  · exact hcv _ _ rfl r

/-! ## Load: lazy loading and the PCI hole -/

/-- C24 (counterexample): resume after the program's own saves. After an
aborted save the file has no end marker: `vm_restore_memory` meets the end of
the file and returns `-EIO`, and `vm_resume` goes on to `qemu_savevm_resume`
and `xc_domain_resume`, returns 0 and passes 0 to
`control_command_resume_finish`. After a completed save `vm_restore_memory`
repopulates frame 0 and returns 4, the byte count of its last read, and
`vm_resume` does the same. -/
theorem C24_counterexample_aborted_save_resumed :
    (example_abort_resume_env.file = some version_record ∧
      example_abort_resume_env.free_mem = true ∧
      example_abort_resume_env.page_batch_offset = 8) ∧
    (vm_restore_memory example_load_env example_abort_resume_env.file
        example_abort_resume_env.page_batch_offset 2).map
      (fun o => match o with
        | outcome.exit => none
        | outcome.returned st => some st.io.ret) = some (some (-EIO_errno)) ∧
    vm_resume example_load_env example_abort_resume_env 2 =
      some (outcome.returned
        { ret := 0, restore_memory := some (-EIO_errno), qemu_savevm_resume := true,
          file_kept := some true, xc_domain_resume := true, finish_status := some 0 }) ∧
    (vm_restore_memory example_load_env example_complete_resume_env.file
        example_complete_resume_env.page_batch_offset 5).map
      (fun o => match o with
        | outcome.exit => none
        | outcome.returned st => some (st.io.ret, populated_frames st.io.trace)) =
      some (some (4, [[0]])) ∧
    vm_resume example_load_env example_complete_resume_env 5 =
      some (outcome.returned
        { ret := 0, restore_memory := some 4, qemu_savevm_resume := true,
          file_kept := some true, xc_domain_resume := true, finish_status := some 0 }) := by
  refine ⟨⟨?_, ?_, ?_⟩, ?_, ?_, ?_, ?_⟩ <;> decide!

/-- C24 (amended): `vm_resume` does not act on the result of
`vm_restore_memory`. Without a file, or when the save did not release guest
memory, it returns without the pass; when the pass returns, with whatever
value, `vm_resume` returns too. Whenever `vm_resume` returns it has called
`xc_domain_resume` (and `qemu_savevm_resume` when a file was open), its return
value is 0 when `xc_domain_resume` succeeded and the negated result of that
call otherwise, and this is the status passed to
`control_command_resume_finish`. -/
theorem C24_resume_ignores_restore_result (env : LoadEnv) (x : ResumeEnv) (fuel : Nat) :
    (x.file = none ∨ x.free_mem = false →
      ∃ r, vm_resume env x fuel = some (outcome.returned r) ∧ r.restore_memory = none) ∧
    (∀ st, x.file ≠ none → x.free_mem = true →
      vm_restore_memory env x.file x.page_batch_offset fuel = some (outcome.returned st) →
      ∃ r, vm_resume env x fuel = some (outcome.returned r) ∧
        r.restore_memory = some st.io.ret) ∧
    (∀ r, vm_resume env x fuel = some (outcome.returned r) →
      r.xc_domain_resume = true ∧ r.qemu_savevm_resume = x.file.isSome ∧
      r.ret = (if x.xc_domain_resume ≠ 0 then -x.xc_domain_resume else x.xc_domain_resume) ∧
      r.finish_status = (if x.resume_cd then some r.ret else none)) := by
  refine ⟨?_, ?_, ?_⟩
  · intro h
    unfold vm_resume
    cases hf : x.file with
    | none => exact ⟨_, rfl, rfl⟩
    | some d =>
      rcases h with h | h
      · rw [hf] at h
        cases h
      · dsimp only
        rw [if_neg (by rw [h]; decide)]
        exact ⟨_, rfl, rfl⟩
  · intro st hf hfree h
    unfold vm_resume
    cases hd : x.file with
    | none => exact absurd hd hf
    | some d =>
      dsimp only
      rw [if_pos hfree, ← hd, h]
      exact ⟨_, rfl, rfl⟩
  · intro r h
    unfold vm_resume at h
    split at h
    · rename_i d hd
      split at h
      · split at h
        · cases h
        · cases h
        · cases h
          rw [hd]
          exact ⟨rfl, rfl, rfl, rfl⟩
      · cases h
        rw [hd]
        exact ⟨rfl, rfl, rfl, rfl⟩
    · rename_i hd
      cases h
      rw [hd]
      exact ⟨rfl, rfl, rfl, rfl⟩

/-- C24 (amended) at the resume after the aborted save: the pass returned
`-EIO`, and the result of `vm_resume` has `xc_domain_resume` called and
`ret = 0`. -/
theorem C24_resume_ignores_restore_result_witness :
    vm_resume example_load_env example_abort_resume_env 2 =
      some (outcome.returned
        { ret := 0, restore_memory := some (-EIO_errno), qemu_savevm_resume := true,
          file_kept := some true, xc_domain_resume := true, finish_status := some 0 }) ∧
    (({ ret := 0, restore_memory := some (-EIO_errno), qemu_savevm_resume := true,
        file_kept := some true, xc_domain_resume := true,
        finish_status := some 0 } : resume_result).xc_domain_resume = true ∧
      ({ ret := 0, restore_memory := some (-EIO_errno), qemu_savevm_resume := true,
         file_kept := some true, xc_domain_resume := true,
         finish_status := some 0 } : resume_result).ret = 0) :=
  ⟨by decide!,
    let h := (C24_resume_ignores_restore_result example_load_env example_abort_resume_env 2).2.2
      { ret := 0, restore_memory := some (-EIO_errno), qemu_savevm_resume := true,
        file_kept := some true, xc_domain_resume := true, finish_status := some 0 }
      (by decide!)
    ⟨h.1, h.2.2.1⟩⟩

theorem restore_record_quiet (p : Event → Bool)
    (hq : ∀ e, loop_call false false e = true → p e = false) (env : LoadEnv) (st : LoadState) :
    (restore_record env st).1.io.trace.filter p = st.io.trace.filter p := by
  unfold restore_record restore_skip_record goto_out
  refine uxenvm_load_read_split (fun (r : LoadState × ctl) =>
    r.1.io.trace.filter p = st.io.trace.filter p) _ _ _ _ (fun _ _ => rfl) (fun _ _ _ => ?_)
  refine ite_cases (fun (r : LoadState × ctl) => r.1.io.trace.filter p = st.io.trace.filter p)
    _ _ _ rfl ?_
  refine ite_cases (fun (r : LoadState × ctl) => r.1.io.trace.filter p = st.io.trace.filter p)
    _ _ _ ?_ ?_
  · refine uxenvm_load_read_struct_split (fun (r : LoadState × ctl) =>
      r.1.io.trace.filter p = st.io.trace.filter p) _ _ _ _ (fun _ _ => rfl) (fun _ _ _ => ?_)
    exact ite_cases (fun (r : LoadState × ctl) => r.1.io.trace.filter p = st.io.trace.filter p)
      _ _ _ rfl rfl
  · have hb := fun s m => (load_batch_quiet p false false hq env s m false false
      (fun h => h) (fun h => h)).1
    exact ite_cases (fun (r : LoadState × ctl) => r.1.io.trace.filter p = st.io.trace.filter p)
      _ _ _ (hb _ _) (hb _ _)

theorem restore_loop_quiet (p : Event → Bool)
    (hq : ∀ e, loop_call false false e = true → p e = false) (env : LoadEnv) (n : Nat)
    (st : LoadState) (r : LoadState × ctl) (h : restore_loop env n st = some r) :
    r.1.io.trace.filter p = st.io.trace.filter p := by
  induction n generalizing st with
  | zero => simp [restore_loop] at h
  | succ n ih =>
    unfold restore_loop at h
    have hr := restore_record_quiet p hq env st
    dsimp only at h
    split at h
    · exact (ih _ h).trans hr
    · cases h
      exact hr

/-- The calls of `vm_restore_memory`: a property that selects no call of the
record loop run with `do_lazy_load = 0` and `populate_compressed = 0` and no
call of the drain of the pool selects no call of the pass. -/
theorem vm_restore_memory_quiet (p : Event → Bool)
    (hq : ∀ e, loop_call false false e = true → p e = false)
    (hq2 : ∀ e, deferred_call e = true → p e = false) (env : LoadEnv)
    (file : Option (List Nat)) (off fuel : Nat) (st : LoadState)
    (h : vm_restore_memory env file off fuel = some (outcome.returned st)) :
    st.io.trace.filter p = [] := by
  unfold vm_restore_memory at h
  split at h
  · cases h
  · split at h
    · cases h
    · dsimp only at h
      split at h
      · cases h
        rw [(load_out_quiet p hq2 env _).1]
        rfl
      · split at h
        · cases h
        · rename_i s c hl
          cases h
          rw [(load_out_quiet p hq2 env _).1, restore_loop_quiet p hq env _ _ _ hl]
          rfl

/-! ## Load: lazy loading is disabled in every load -/

/-- C22: the populate-from-buffer hypercall carries
`XENMEMF_populate_from_buffer_compressed` only in a Template restore of a
per-page batch. A load in Normal or Clone mode (or with `uncomptmpl`) issues no
such call, nor does `vm_restore_memory`, nor any batch that is not per-page
compressed. Without the flag the job decompresses the batch and hands the
decompressed bytes to the hypercall, which is issued only when decompression
succeeded; with the flag the bytes read from the file are handed on as they
are. -/
theorem C22_compressed_populate_only_for_template (env : LoadEnv) :
    (∀ g file mode fuel r, mode ≠ VM_RESTORE_TEMPLATE ∨ env.uncomptmpl = true →
      uxenvm_loadvm_execute_fuel env g fuel file mode = some r →
      r.io.trace.filter compressed_populate = []) ∧
    (∀ file off fuel st, vm_restore_memory env file off fuel = some (outcome.returned st) →
      st.io.trace.filter compressed_populate = []) ∧
    (∀ (io : io_state) (batch : Nat) (d l pc : Bool),
      (uxenvm_load_readbatch env io batch d false l pc).trace.filter compressed_populate =
        io.trace.filter compressed_populate) ∧
    (∀ (r : Int) (batch : Nat) (pfn_type buf : List Nat) (cs : Int) (sp : Bool),
      decompress_cb env r batch pfn_type buf cs sp false =
        if (decompress_batch env.lz4 batch buf cs sp).1 ≠ 0 then
          ([], (decompress_batch env.lz4 batch buf cs sp).1)
        else
          ([Event.populate_physmap_from_buffer pfn_type
              (decompress_batch env.lz4 batch buf cs sp).2 false],
            if env.xc_domain_populate_physmap_from_buffer pfn_type
                (decompress_batch env.lz4 batch buf cs sp).2 false ≠ 0 then
              env.xc_domain_populate_physmap_from_buffer pfn_type
                (decompress_batch env.lz4 batch buf cs sp).2 false
            else r)) ∧
    (∀ (r : Int) (batch : Nat) (pfn_type buf : List Nat) (cs : Int) (sp : Bool),
      (decompress_cb env r batch pfn_type buf cs sp true).1 =
        [Event.populate_physmap_from_buffer pfn_type (buf_read buf 0 cs.toNat) true]) := by
  have hq : ∀ l e, loop_call l false e = true → compressed_populate e = false := by
    intro l e h
    cases e <;> first | rfl | simp [loop_call] at h
    rename_i pfns buffer c
    cases c
    · rfl
    · simp [loop_call] at h
  have hq2 : ∀ e, deferred_call e = true → compressed_populate e = false := by
    intro e h
    cases e <;> first | rfl | simp [deferred_call] at h
  refine ⟨?_, ?_, ?_, ?_, ?_⟩
  · intro g file mode fuel r hm h
    have hpc : (decide (mode = VM_RESTORE_TEMPLATE) && !env.uncomptmpl) = false := by
      rcases hm with hm | hm
      · simp [hm]
      · simp [hm]
    refine execute_quiet compressed_populate env g fuel file mode ?_ hq2 r h
    rw [hpc]
    exact hq false
  · intro file off fuel st h
    exact vm_restore_memory_quiet compressed_populate (hq false) hq2 env file off fuel st h
  · intro io batch d l pc
    exact load_readbatch_quiet compressed_populate l false (hq l) env io batch d false l pc
      (fun h => h) (fun h => absurd h Bool.false_ne_true)
  · intro r batch pfn_type buf cs sp
    unfold decompress_cb
    simp only [Bool.not_false, if_true]
  · intro r batch pfn_type buf cs sp
    unfold decompress_cb
    simp

/-! ## Load: the order of the deferred metadata -/

/-- The calls of the magic-pfns block are an initial part of `magic_calls`, the
whole of it when the block ends with `ret = 0`. -/
theorem apply_magic_pfns_calls (env : LoadEnv) (r : saved_records) (io : io_state)
    (p : List Nat) (hp : r.s_hvm_magic_pfns = some p) :
    ∃ T, (apply_magic_pfns env r io).trace = io.trace ++ T ∧
      T <+: magic_calls p (apply_context r) ∧
      ((apply_magic_pfns env r io).ret = 0 → T = magic_calls p (apply_context r)) := by
  unfold apply_magic_pfns magic_calls
  rw [hp]
  dsimp only
  generalize (if field p 20 8 = 0 then 18446744073709551615 else field p 20 8) = m2
  generalize (List.range (field p 12 8 + 1 - field p 4 8)).map
    (fun i => Event.clear_domain_page (field p 4 8 + i)) = clears
  generalize apply_context r = ctx
  by_cases hm2 : m2 ≠ 18446744073709551615
  · by_cases ha : env.xc_domain_add_to_physmap m2 < 0
    · rw [if_pos hm2, if_pos ⟨hm2, ha⟩, if_pos hm2]
      refine ⟨[Event.set_hvm_param hvm_param.HVM_PARAM_IO_PFN_FIRST (field p 4 8),
         Event.set_hvm_param hvm_param.HVM_PARAM_IO_PFN_LAST (field p 12 8)] ++ clears ++ [Event.add_to_physmap_shared_info m2],
        by simp only [List.append_assoc, List.cons_append, List.nil_append],
        ⟨[Event.clear_domain_page (field p 28 8), Event.set_hvm_param hvm_param.HVM_PARAM_DMREQ_VCPU_PFN (field p 36 8), Event.set_hvm_param hvm_param.HVM_PARAM_DMREQ_PFN (field p 28 8), Event.dmreq_init] ++ ctx, by simp only [List.append_assoc, List.cons_append, List.nil_append]⟩,
        fun h => ?_⟩
      exfalso
      have h2 : env.xc_domain_add_to_physmap m2 = 0 := h
      omega
    · rw [if_pos hm2, if_neg (fun h => ha h.2), if_pos hm2]
      by_cases h4 : env.xc_set_hvm_param hvm_param.HVM_PARAM_DMREQ_VCPU_PFN (field p 36 8) < 0
      · rw [if_pos h4]
        refine ⟨[Event.set_hvm_param hvm_param.HVM_PARAM_IO_PFN_FIRST (field p 4 8),
           Event.set_hvm_param hvm_param.HVM_PARAM_IO_PFN_LAST (field p 12 8)] ++ clears ++ [Event.add_to_physmap_shared_info m2] ++ [Event.clear_domain_page (field p 28 8), Event.set_hvm_param hvm_param.HVM_PARAM_DMREQ_VCPU_PFN (field p 36 8)],
          by simp only [List.append_assoc, List.cons_append, List.nil_append],
          ⟨[Event.set_hvm_param hvm_param.HVM_PARAM_DMREQ_PFN (field p 28 8), Event.dmreq_init] ++ ctx, by simp only [List.append_assoc, List.cons_append, List.nil_append]⟩,
          fun h => ?_⟩
        exfalso
        have h2 : env.xc_set_hvm_param hvm_param.HVM_PARAM_DMREQ_VCPU_PFN (field p 36 8) = 0 := h
        omega
      · rw [if_neg h4]
        by_cases h3 : env.xc_set_hvm_param hvm_param.HVM_PARAM_DMREQ_PFN (field p 28 8) < 0
        · rw [if_pos h3]
          refine ⟨[Event.set_hvm_param hvm_param.HVM_PARAM_IO_PFN_FIRST (field p 4 8),
             Event.set_hvm_param hvm_param.HVM_PARAM_IO_PFN_LAST (field p 12 8)] ++ clears ++ [Event.add_to_physmap_shared_info m2] ++ [Event.clear_domain_page (field p 28 8), Event.set_hvm_param hvm_param.HVM_PARAM_DMREQ_VCPU_PFN (field p 36 8), Event.set_hvm_param hvm_param.HVM_PARAM_DMREQ_PFN (field p 28 8)],
            by simp only [List.append_assoc, List.cons_append, List.nil_append],
            ⟨[Event.dmreq_init] ++ ctx, by simp only [List.append_assoc, List.cons_append, List.nil_append]⟩,
            fun h => ?_⟩
          exfalso
          have h2 : env.xc_set_hvm_param hvm_param.HVM_PARAM_DMREQ_PFN (field p 28 8) = 0 := h
          omega
        · rw [if_neg h3]
          refine ⟨[Event.set_hvm_param hvm_param.HVM_PARAM_IO_PFN_FIRST (field p 4 8),
             Event.set_hvm_param hvm_param.HVM_PARAM_IO_PFN_LAST (field p 12 8)] ++ clears ++ [Event.add_to_physmap_shared_info m2] ++ [Event.clear_domain_page (field p 28 8), Event.set_hvm_param hvm_param.HVM_PARAM_DMREQ_VCPU_PFN (field p 36 8), Event.set_hvm_param hvm_param.HVM_PARAM_DMREQ_PFN (field p 28 8), Event.dmreq_init] ++ ctx,
            by simp only [List.append_assoc, List.cons_append, List.nil_append], ?_, fun _ => ?_⟩
          · simp only [List.append_assoc, List.cons_append, List.nil_append]
            exact List.prefix_refl _
          · simp only [List.append_assoc, List.cons_append, List.nil_append]
  · rw [if_neg hm2, if_neg (fun h => hm2 h.1), if_neg hm2]
    by_cases h4 : env.xc_set_hvm_param hvm_param.HVM_PARAM_DMREQ_VCPU_PFN (field p 36 8) < 0
    · rw [if_pos h4]
      refine ⟨[Event.set_hvm_param hvm_param.HVM_PARAM_IO_PFN_FIRST (field p 4 8),
         Event.set_hvm_param hvm_param.HVM_PARAM_IO_PFN_LAST (field p 12 8)] ++ clears ++ [Event.clear_domain_page (field p 28 8), Event.set_hvm_param hvm_param.HVM_PARAM_DMREQ_VCPU_PFN (field p 36 8)],
        by simp only [List.append_assoc, List.cons_append, List.nil_append],
        ⟨[Event.set_hvm_param hvm_param.HVM_PARAM_DMREQ_PFN (field p 28 8), Event.dmreq_init] ++ ctx, by simp only [List.append_assoc, List.cons_append, List.nil_append]⟩,
        fun h => ?_⟩
      exfalso
      have h2 : env.xc_set_hvm_param hvm_param.HVM_PARAM_DMREQ_VCPU_PFN (field p 36 8) = 0 := h
      omega
    · rw [if_neg h4]
      by_cases h3 : env.xc_set_hvm_param hvm_param.HVM_PARAM_DMREQ_PFN (field p 28 8) < 0
      · rw [if_pos h3]
        refine ⟨[Event.set_hvm_param hvm_param.HVM_PARAM_IO_PFN_FIRST (field p 4 8),
           Event.set_hvm_param hvm_param.HVM_PARAM_IO_PFN_LAST (field p 12 8)] ++ clears ++ [Event.clear_domain_page (field p 28 8), Event.set_hvm_param hvm_param.HVM_PARAM_DMREQ_VCPU_PFN (field p 36 8), Event.set_hvm_param hvm_param.HVM_PARAM_DMREQ_PFN (field p 28 8)],
          by simp only [List.append_assoc, List.cons_append, List.nil_append],
          ⟨[Event.dmreq_init] ++ ctx, by simp only [List.append_assoc, List.cons_append, List.nil_append]⟩,
          fun h => ?_⟩
        exfalso
        have h2 : env.xc_set_hvm_param hvm_param.HVM_PARAM_DMREQ_PFN (field p 28 8) = 0 := h
        omega
      · rw [if_neg h3]
        refine ⟨[Event.set_hvm_param hvm_param.HVM_PARAM_IO_PFN_FIRST (field p 4 8),
           Event.set_hvm_param hvm_param.HVM_PARAM_IO_PFN_LAST (field p 12 8)] ++ clears ++ [Event.clear_domain_page (field p 28 8), Event.set_hvm_param hvm_param.HVM_PARAM_DMREQ_VCPU_PFN (field p 36 8), Event.set_hvm_param hvm_param.HVM_PARAM_DMREQ_PFN (field p 28 8), Event.dmreq_init] ++ ctx,
          by simp only [List.append_assoc, List.cons_append, List.nil_append], ?_, fun _ => ?_⟩
        · simp only [List.append_assoc, List.cons_append, List.nil_append]
          exact List.prefix_refl _
        · simp only [List.append_assoc, List.cons_append, List.nil_append]

/-- C23 (counterexample): a Normal restore of a file whose records come in the
order "HVM context, magic pfns, console pfn". The console page and the two IO
pages are cleared before the shared-info mapping is made; only the dmreq page
is cleared after it. -/
theorem C23_counterexample_clear_before_shared_info :
    (uxenvm_loadvm_execute example_load_env example_globals example_metadata_file
        VM_RESTORE_NORMAL).map (fun st => (st.io.ret, st.io.trace)) =
      some (0,
        [Event.mapcache_init,
         Event.clear_domain_page 20,
         Event.set_hvm_param hvm_param.HVM_PARAM_CONSOLE_PFN 20,
         Event.set_hvm_param hvm_param.HVM_PARAM_IO_PFN_FIRST 10,
         Event.set_hvm_param hvm_param.HVM_PARAM_IO_PFN_LAST 11,
         Event.clear_domain_page 10,
         Event.clear_domain_page 11,
         Event.add_to_physmap_shared_info 5,
         Event.clear_domain_page 6,
         Event.set_hvm_param hvm_param.HVM_PARAM_DMREQ_VCPU_PFN 7,
         Event.set_hvm_param hvm_param.HVM_PARAM_DMREQ_PFN 6,
         Event.dmreq_init,
         Event.hvm_setcontext [1, 2]]) := by
  decide

/-- C23 (amended): the record loop and the drain of the pool issue no TSC,
HVM-parameter, shared-info, page-clearing or HVM-context call. In a restore
that is not a template load, the code from `skip_mem` on (interrupt flag
clear) appends its calls in program order, whatever the order of the records
was: the mapcache call, the calls of `apply_scalars` (TSC info, ident-pt,
vm86-tss, clearing of the console page and the console parameter, ACPI
location), and then, without a magic-pfns record, the HVM-context restore; with
one, an initial part of `magic_calls` (IO-page parameters, clearing of the IO
pages, shared-info mapping, clearing of the dmreq page, dmreq parameters,
`dmreq_init`, HVM-context restore), which is the whole of it when the load
ends with `ret = 0`. So the HVM-context restore is the last call, and the
shared-info mapping comes after the clearing of the console and IO pages and
before the clearing of the dmreq page. -/
theorem C23_deferred_metadata_order (env : LoadEnv) (s : LoadState)
    (hm : s.restore_mode ≠ VM_RESTORE_TEMPLATE)
    (hq : env.vm_quit_interrupt s.polls = false) :
    (∀ (pc : Bool) (n : Nat) (st : LoadState) (r : LoadState × ctl),
      st.do_lazy_load = false → load_loop env pc n st = some r →
      r.1.io.trace.filter metadata_call = st.io.trace.filter metadata_call) ∧
    (∀ st : LoadState, (drain_pool env st).1.io.trace.filter metadata_call =
      st.io.trace.filter metadata_call) ∧
    ∃ s2 T, apply_deferred env s = some s2 ∧
      s2.io.trace = s.io.trace ++ (mapcache_call s.recs ++ apply_scalars s.recs ++ T) ∧
      (s.recs.s_hvm_magic_pfns = none → T = apply_context s.recs) ∧
      (∀ p, s.recs.s_hvm_magic_pfns = some p →
        T <+: magic_calls p (apply_context s.recs) ∧
        (s2.io.ret = 0 → T = magic_calls p (apply_context s.recs))) := by
  have hq1 : ∀ pc e, loop_call false pc e = true → metadata_call e = false := by
    intro pc e h
    cases e <;> first | rfl | simp [loop_call] at h
  refine ⟨fun pc n st r hl h => load_loop_quiet metadata_call false pc (hq1 pc) env pc n st r
      (fun h1 => absurd (hl.symm.trans h1) Bool.false_ne_true) id h, ?_, ?_⟩
  · intro st
    unfold drain_pool
    split
    · have hw : ∀ (dc : decompress_ctx) (n : Nat) (ret : Int) (ev : List Event),
          (decompress_wait_all env dc n ret ev).2.2.filter metadata_call =
            ev.filter metadata_call := by
        intro dc n
        induction n generalizing dc with
        | zero => exact fun _ _ => rfl
        | succ n ih =>
          intro ret ev
          unfold decompress_wait_all
          dsimp only
          split
          · exact ih _ _ _
          · rw [ih, List.filter_append]
            simp [metadata_call]
      dsimp only
      split <;>
      · dsimp only
        rw [List.filter_append, hw]
        simp
    · rfl
  · unfold apply_deferred
    rw [hq]
    simp only [Bool.false_eq_true, if_false, load_lazy_load_info]
    rw [if_neg hm]
    cases hmp : s.recs.s_hvm_magic_pfns with
    | none =>
      refine ⟨_, apply_context s.recs, rfl, ?_, fun _ => rfl, fun p hp => by cases hp⟩
      show (apply_magic_pfns env s.recs _).trace = _
      unfold apply_magic_pfns
      rw [hmp]
      simp only [mapcache_call, List.append_assoc]
    | some p =>
      obtain ⟨T, h1, h2, h3⟩ := apply_magic_pfns_calls env s.recs
        { s.io with trace := s.io.trace ++
            (match s.recs.s_mapcache_params with
             | some p => [Event.mapcache_init_restore (field p 0 4) (field p 4 4) (field p 8 4)]
             | none => [Event.mapcache_init]) ++ apply_scalars s.recs } p hmp
      refine ⟨_, T, rfl, ?_, fun h => (by cases h), fun p2 hp2 => ?_⟩
      · show (apply_magic_pfns env s.recs _).trace = _
        rw [h1]
        simp only [mapcache_call, List.append_assoc]
      · cases hp2
        exact ⟨h2, h3⟩

/-- C23 (amended) at the state in which the load of `example_metadata_file`
arrives at `skip_mem`, with the context, magic-pfns and console-pfn records
buffered: the deferred calls are the mapcache call, the console calls and the
whole of `magic_calls`, in which the shared-info mapping of frame 5 stands
behind the clearing of the IO pages 10 and 11 and before that of the dmreq
page 6, and the context restore is last. -/
theorem C23_deferred_metadata_order_witness :
    example_metadata_state.restore_mode ≠ VM_RESTORE_TEMPLATE ∧
    example_load_env.vm_quit_interrupt example_metadata_state.polls = false ∧
    (example_metadata_state.recs.s_hvm_magic_pfns.isSome = true ∧
      example_metadata_state.recs.s_hvm_console_pfn.isSome = true ∧
      example_metadata_state.recs.s_hvm_context.isSome = true ∧
      (apply_deferred example_load_env example_metadata_state).map
          (fun s2 => (s2.io.ret, s2.io.trace)) =
        some (0,
          [Event.mapcache_init,
           Event.clear_domain_page 20,
           Event.set_hvm_param hvm_param.HVM_PARAM_CONSOLE_PFN 20,
           Event.set_hvm_param hvm_param.HVM_PARAM_IO_PFN_FIRST 10,
           Event.set_hvm_param hvm_param.HVM_PARAM_IO_PFN_LAST 11,
           Event.clear_domain_page 10,
           Event.clear_domain_page 11,
           Event.add_to_physmap_shared_info 5,
           Event.clear_domain_page 6,
           Event.set_hvm_param hvm_param.HVM_PARAM_DMREQ_VCPU_PFN 7,
           Event.set_hvm_param hvm_param.HVM_PARAM_DMREQ_PFN 6,
           Event.dmreq_init,
           Event.hvm_setcontext [1, 2]])) ∧
    ∃ s2 T, apply_deferred example_load_env example_metadata_state = some s2 ∧
      s2.io.trace = example_metadata_state.io.trace ++
        (mapcache_call example_metadata_state.recs ++
          apply_scalars example_metadata_state.recs ++ T) ∧
      (example_metadata_state.recs.s_hvm_magic_pfns = none →
        T = apply_context example_metadata_state.recs) ∧
      (∀ p, example_metadata_state.recs.s_hvm_magic_pfns = some p →
        T <+: magic_calls p (apply_context example_metadata_state.recs) ∧
        (s2.io.ret = 0 → T = magic_calls p (apply_context example_metadata_state.recs))) :=
  ⟨by decide, by decide, ⟨by decide, by decide, by decide, by decide⟩,
    (C23_deferred_metadata_order example_load_env example_metadata_state
      (by decide) (by decide)).2.2⟩

/-! ## The size fields of the zero-bitmap and page-offsets records -/

theorem read_at (a d c : List Nat) (n : Nat) (hn : d.length = n) :
    ((a ++ d ++ c).drop a.length).take n = d := by
  subst hn
  rw [List.append_assoc, List.drop_left, List.take_left]

theorem read_at2 (a d1 d c : List Nat) (n k : Nat) (hk : d1.length = k) (hn : d.length = n) :
    ((a ++ (d1 ++ d ++ c)).drop (a.length + k)).take n = d := by
  subst hn hk
  have : a ++ (d1 ++ d ++ c) = (a ++ d1) ++ d ++ c := by simp only [List.append_assoc]
  rw [this, ← List.length_append]
  exact read_at (a ++ d1) d c _ rfl

/-- The skip of `vm_restore_memory` over a record that starts with a marker
and a size field that holds the length of the whole record. -/
theorem restore_record_skips (env : LoadEnv) (st : LoadState) (a rest b : List Nat)
    (marker : Int) (size : Nat)
    (hm : marker = XC_SAVE_ID_PAGE_OFFSETS ∨ marker = XC_SAVE_ID_ZERO_BITMAP)
    (hf : st.io.f =
      { data := a ++ (enc_i32 marker ++ enc_u32 size ++ rest ++ b), pos := a.length })
    (hsz : 8 + rest.length = size) (h32 : size < 4294967296) :
    restore_record env st =
      ({ st with io := { st.io with
          f := { data := a ++ (enc_i32 marker ++ enc_u32 size ++ rest ++ b),
                 pos := a.length + size },
          ret := 0 } }, ctl.next) := by
  have hmr : -2147483648 ≤ marker ∧ marker < 2147483648 ∧ marker ≠ 0 := by
    rcases hm with h | h <;> rw [h] <;> decide
  have hd : dec_i32 (enc_i32 marker) = marker := dec_i32_enc_i32 _ hmr.1 hmr.2.1
  have e1 : ((a ++ (enc_i32 marker ++ enc_u32 size ++ rest ++ b)).drop a.length).take 4 =
      enc_i32 marker := by
    have := read_at a (enc_i32 marker) (enc_u32 size ++ rest ++ b) 4 (enc_i32_length _)
    simpa only [List.append_assoc] using this
  have e2 : ((a ++ (enc_i32 marker ++ enc_u32 size ++ rest ++ b)).drop (a.length + 4)).take 4 =
      enc_u32 size := by
    have := read_at2 a (enc_i32 marker) (enc_u32 size) (rest ++ b) 4 4 (enc_i32_length _)
      (enc_u32_length _)
    simpa only [List.append_assoc] using this
  have hfield : field (enc_u32 size) 0 4 = size := by
    rw [field_zero _ _ (enc_u32_length _)]
    exact le_value_enc_u32 _ h32
  obtain ⟨io, rm, dl, polls, vc, prog, g, recs, lli⟩ := st
  obtain ⟨f, ret, dc, trace⟩ := io
  simp only at hf
  subst hf
  unfold restore_record uxenvm_load_read filebuf_read
  simp only [e1, enc_i32_length, ne_eq, not_true_eq_false, if_false, hd, if_neg hmr.2.2,
    if_pos hm]
  unfold restore_skip_record uxenvm_load_read_struct filebuf_read filebuf_seek
  simp only [sizeof_xc_save_generic, sizeof_marker, Nat.add_sub_cancel, e2,
    enc_u32_length, ne_eq, not_true_eq_false, if_false, hfield]
  have hnn : ¬ (((a.length + 4 + 4 : Nat) : Int) + (((size : Nat) : Int) - ((8 : Nat) : Int)) < 0) := by
    omega
  have hpos : ((((a.length + 4 + 4 : Nat) : Int) + (((size : Nat) : Int) - ((8 : Nat) : Int)))).toNat =
      a.length + size := by
    omega
  simp only [show (8 : Nat) - 4 = 4 from rfl, e2, enc_u32_length, ne_eq, not_true_eq_false,
    if_false, hfield, if_neg hnn, hpos]
  have hne : ¬ (((a.length + 4 + 4 : Nat) : Int) + (((size : Nat) : Int) - ((8 : Nat) : Int)) = -1) := by
    omega
  rw [if_neg hne]

theorem filebuf_read_eq (D : List Nat) (o n : Nat) (d : List Nat)
    (h : (D.drop o).take n = d) (hl : d.length = n) :
    filebuf_read { data := D, pos := o } n = (d, { data := D, pos := o + n }) := by
  unfold filebuf_read
  simp only [h, hl]

theorem filebuf_seek_cur_nat (f : filebuf) (n : Nat) :
    filebuf_seek f (n : Int) FILEBUF_SEEK_CUR =
      (((f.pos + n : Nat) : Int), { f with pos := f.pos + n }) := by
  unfold filebuf_seek
  dsimp only
  rw [if_neg (by omega)]
  congr 2

theorem uxenvm_load_read_at {α : Type} (io : io_state) (size : Nat) (out : io_state → α)
    (k : List Nat → io_state → α) (d : List Nat) (f1 : filebuf)
    (h : filebuf_read io.f size = (d, f1)) (hl : d.length = size) :
    uxenvm_load_read io size out k = k d { io with f := f1, ret := (size : Int) } := by
  unfold uxenvm_load_read
  simp only [h, hl, ne_eq, not_true_eq_false, if_false]

theorem uxenvm_load_read_struct_at {α : Type} (io : io_state) (size : Nat)
    (out : io_state → α) (k : List Nat → io_state → α) (d : List Nat) (f1 : filebuf)
    (h : filebuf_read io.f (size - sizeof_marker) = (d, f1))
    (hl : d.length = size - sizeof_marker) :
    uxenvm_load_read_struct io size out k =
      k d { io with f := f1, ret := ((size - sizeof_marker : Nat) : Int) } := by
  unfold uxenvm_load_read_struct
  simp only [h, hl, ne_eq, not_true_eq_false, if_false]

theorem load_switch_page_offsets (env : LoadEnv) (pc : Bool) (st : LoadState) :
    load_switch env pc st XC_SAVE_ID_PAGE_OFFSETS =
      uxenvm_load_read_struct st.io sizeof_xc_save_vm_page_offsets (goto_out st) fun p io =>
        let r := filebuf_seek io.f ((field p 4 4 * 8 : Nat) : Int) FILEBUF_SEEK_CUR
        if r.1 = -1 then goto_out st { io with f := r.2, ret := -EIO_errno }
        else ({ st with io := { io with f := r.2, ret := 0 } }, ctl.next) := by
  unfold load_switch
  rw [if_neg (by decide), if_neg (by decide), if_neg (by decide), if_neg (by decide),
    if_neg (by decide), if_neg (by decide), if_neg (by decide), if_neg (by decide),
    if_neg (by decide), if_neg (by decide), if_neg (by decide), if_neg (by decide),
    if_neg (by decide), if_neg (by decide), if_pos rfl]

/-- The parse of a page-offsets record by the record loop of
`uxenvm_loadvm_execute` ends behind the record. -/
theorem load_record_page_offsets (env : LoadEnv) (pc : Bool) (st : LoadState)
    (a b pad : List Nat) (po : Nat → Nat) (nr : Nat)
    (hf : st.io.f = { data := a ++ (page_offsets_record pad po nr ++ b), pos := a.length })
    (h32 : 16 + nr * 8 < 4294967296) :
    load_record env pc st =
      ({ st with io := { st.io with
          f := { data := a ++ (page_offsets_record pad po nr ++ b),
                 pos := a.length + (16 + nr * 8) },
          ret := 0 } }, ctl.next) := by
  have hdata : a ++ (page_offsets_record pad po nr ++ b) =
      a ++ (enc_i32 XC_SAVE_ID_PAGE_OFFSETS ++
        (enc_u32 (sizeof_xc_save_vm_page_offsets + nr * 8) ++ enc_u32 nr ++ take_pad 4 pad) ++
        (enc_u64_list ((List.range nr).map po) ++ b)) := by
    unfold page_offsets_record
    simp only [List.append_assoc]
  have hhl : (enc_u32 (sizeof_xc_save_vm_page_offsets + nr * 8) ++ enc_u32 nr ++
      take_pad 4 pad).length = 12 := by
    simp only [List.length_append, enc_u32_length, take_pad_length]
  have e1 : ((a ++ (page_offsets_record pad po nr ++ b)).drop a.length).take 4 =
      enc_i32 XC_SAVE_ID_PAGE_OFFSETS := by
    rw [hdata]
    have := read_at a (enc_i32 XC_SAVE_ID_PAGE_OFFSETS)
      ((enc_u32 (sizeof_xc_save_vm_page_offsets + nr * 8) ++ enc_u32 nr ++ take_pad 4 pad) ++
        (enc_u64_list ((List.range nr).map po) ++ b)) 4 (enc_i32_length _)
    simpa only [List.append_assoc] using this
  have e2 : ((a ++ (page_offsets_record pad po nr ++ b)).drop (a.length + 4)).take 12 =
      enc_u32 (sizeof_xc_save_vm_page_offsets + nr * 8) ++ enc_u32 nr ++ take_pad 4 pad := by
    rw [hdata]
    exact read_at2 a (enc_i32 XC_SAVE_ID_PAGE_OFFSETS) _ _ 12 4 (enc_i32_length _) hhl
  have hfield : field (enc_u32 (sizeof_xc_save_vm_page_offsets + nr * 8) ++ enc_u32 nr ++
      take_pad 4 pad) 4 4 = nr := by
    unfold field
    have := buf_read_at (enc_u32 (sizeof_xc_save_vm_page_offsets + nr * 8)) (enc_u32 nr)
      (take_pad 4 pad)
    rw [enc_u32_length, enc_u32_length] at this
    rw [this]
    exact le_value_enc_u32 nr (by omega)
  have hd : dec_i32 (enc_i32 XC_SAVE_ID_PAGE_OFFSETS) = XC_SAVE_ID_PAGE_OFFSETS := by decide
  have hlen : (a ++ (page_offsets_record pad po nr ++ b)).length =
      a.length + (16 + nr * 8) + b.length := by
    rw [List.length_append, List.length_append, page_offsets_record_length]
    omega
  obtain ⟨io, rm, dl, polls, vc, prog, g, recs, lli⟩ := st
  obtain ⟨f, ret, dc, trace⟩ := io
  simp only at hf
  subst hf
  rw [load_record_marker env pc _ (by dsimp only; rw [hlen]; omega)
    (by dsimp only; rw [e1, hd]; decide)]
  dsimp only
  rw [e1, hd, load_switch_page_offsets]
  rw [uxenvm_load_read_struct_at _ _ _ _ _ _
    (filebuf_read_eq _ (a.length + 4) 12 _ e2 hhl) hhl]
  dsimp only
  rw [hfield, filebuf_seek_cur_nat]
  dsimp only
  rw [if_neg (by omega)]
  congr 4
  omega

/-- The shape of the zero-bitmap record: the size field holds the length of
the payload plus the 12 bytes of the header. -/
theorem zero_bitmap_record_shape (lz4 : LZ4) (hc : Bool) (zb : List Nat) (zbs : Nat) :
    ∃ payload, zero_bitmap_record lz4 hc zb zbs =
        enc_i32 XC_SAVE_ID_ZERO_BITMAP ++ enc_u32 (payload.length + 12) ++ enc_u32 zbs ++
          payload ∧
      payload.length ≤ zbs := by
  unfold zero_bitmap_record
  dsimp only
  by_cases h : (uxenvm_compress_lz4 lz4 hc (buf_read zb 0 zbs)).length ≥ zbs
  · refine ⟨buf_read zb 0 zbs, ?_, ?_⟩
    · simp only [h, decide_True, if_true]
      unfold buf_read
      rw [take_pad_length]
      rfl
    · unfold buf_read
      rw [take_pad_length]
  · refine ⟨uxenvm_compress_lz4 lz4 hc (buf_read zb 0 zbs), ?_, by omega⟩
    simp only [h, decide_False, Bool.false_eq_true, if_false]
    rfl

/-- The parse of a zero-bitmap record by the record loop of
`uxenvm_loadvm_execute` leaves the cursor behind the record, whatever becomes
of the payload. -/
theorem load_record_zero_bitmap_pos (env : LoadEnv) (pc : Bool) (st : LoadState)
    (a b payload : List Nat) (zbs : Nat)
    (hf : st.io.f =
      { data := a ++ (enc_i32 XC_SAVE_ID_ZERO_BITMAP ++ enc_u32 (payload.length + 12) ++
          enc_u32 zbs ++ payload ++ b), pos := a.length })
    (h32 : payload.length + 12 < 4294967296) :
    (load_record env pc st).1.io.f =
      { data := a ++ (enc_i32 XC_SAVE_ID_ZERO_BITMAP ++ enc_u32 (payload.length + 12) ++
          enc_u32 zbs ++ payload ++ b), pos := a.length + (payload.length + 12) } := by
  have hdata : a ++ (enc_i32 XC_SAVE_ID_ZERO_BITMAP ++ enc_u32 (payload.length + 12) ++
      enc_u32 zbs ++ payload ++ b) =
      a ++ (enc_i32 XC_SAVE_ID_ZERO_BITMAP ++
        (enc_u32 (payload.length + 12) ++ enc_u32 zbs) ++ (payload ++ b)) := by
    simp only [List.append_assoc]
  have hdata2 : a ++ (enc_i32 XC_SAVE_ID_ZERO_BITMAP ++ enc_u32 (payload.length + 12) ++
      enc_u32 zbs ++ payload ++ b) =
      a ++ ((enc_i32 XC_SAVE_ID_ZERO_BITMAP ++ enc_u32 (payload.length + 12) ++
        enc_u32 zbs) ++ payload ++ b) := by
    simp only [List.append_assoc]
  have hhl : (enc_u32 (payload.length + 12) ++ enc_u32 zbs).length = 8 := by
    simp only [List.length_append, enc_u32_length]
  have e1 : ((a ++ (enc_i32 XC_SAVE_ID_ZERO_BITMAP ++ enc_u32 (payload.length + 12) ++
      enc_u32 zbs ++ payload ++ b)).drop a.length).take 4 =
      enc_i32 XC_SAVE_ID_ZERO_BITMAP := by
    rw [hdata]
    have := read_at a (enc_i32 XC_SAVE_ID_ZERO_BITMAP)
      ((enc_u32 (payload.length + 12) ++ enc_u32 zbs) ++ (payload ++ b)) 4 (enc_i32_length _)
    simpa only [List.append_assoc] using this
  have e2 : ((a ++ (enc_i32 XC_SAVE_ID_ZERO_BITMAP ++ enc_u32 (payload.length + 12) ++
      enc_u32 zbs ++ payload ++ b)).drop (a.length + 4)).take 8 =
      enc_u32 (payload.length + 12) ++ enc_u32 zbs := by
    rw [hdata]
    exact read_at2 a (enc_i32 XC_SAVE_ID_ZERO_BITMAP) _ _ 8 4 (enc_i32_length _) hhl
  have e3 : ((a ++ (enc_i32 XC_SAVE_ID_ZERO_BITMAP ++ enc_u32 (payload.length + 12) ++
      enc_u32 zbs ++ payload ++ b)).drop (a.length + 4 + 8)).take payload.length =
      payload := by
    rw [hdata2, Nat.add_assoc]
    exact read_at2 a _ payload b _ 12
      (by simp only [List.length_append, enc_i32_length, enc_u32_length]) rfl
  have hfield : field (enc_u32 (payload.length + 12) ++ enc_u32 zbs) 0 4 =
      payload.length + 12 := by
    unfold field
    have := buf_read_at [] (enc_u32 (payload.length + 12)) (enc_u32 zbs)
    rw [enc_u32_length] at this
    rw [List.nil_append, List.length_nil] at this
    rw [this]
    exact le_value_enc_u32 _ h32
  have hd : dec_i32 (enc_i32 XC_SAVE_ID_ZERO_BITMAP) = XC_SAVE_ID_ZERO_BITMAP := by decide
  have hlen : (a ++ (enc_i32 XC_SAVE_ID_ZERO_BITMAP ++ enc_u32 (payload.length + 12) ++
      enc_u32 zbs ++ payload ++ b)).length = a.length + (payload.length + 12) + b.length := by
    simp only [List.length_append, enc_i32_length, enc_u32_length]
    omega
  obtain ⟨io, rm, dl, polls, vc, prog, g, recs, lli⟩ := st
  obtain ⟨f, ret, dc, trace⟩ := io
  simp only at hf
  subst hf
  rw [load_record_marker env pc _ (by dsimp only; rw [hlen]; omega)
    (by dsimp only; rw [e1, hd]; decide)]
  dsimp only
  rw [e1, hd, load_switch_zero_bitmap]
  unfold load_zero_bitmap_record
  rw [uxenvm_load_read_struct_at _ _ _ _ _ _
    (filebuf_read_eq _ (a.length + 4) 8 _ e2 hhl) hhl]
  dsimp only
  rw [hfield, if_neg (by unfold sizeof_xc_save_zero_bitmap; omega)]
  have e12 : payload.length + 12 - sizeof_xc_save_zero_bitmap = payload.length := by
    unfold sizeof_xc_save_zero_bitmap
    omega
  rw [e12, uxenvm_load_read_at _ _ _ _ _ _
    (filebuf_read_eq _ (a.length + 4 + 8) payload.length _ e3 rfl) rfl]
  dsimp only
  have hpos : a.length + 4 + 8 + payload.length = a.length + (payload.length + 12) := by omega
  rw [hpos]
  unfold goto_out
  refine ite_cases (fun (r : LoadState × ctl) => r.1.io.f = _) _ _ _ rfl ?_
  refine check_restore_clone_split (fun (r : LoadState × ctl) => r.1.io.f = _) _ _ _
    (fun _ => ?_) (fun _ _ => rfl) (fun _ _ _ => rfl) (fun _ _ _ => ?_)
  · exact ite_cases (fun (r : LoadState × ctl) => r.1.io.f = _) _ _ _ rfl rfl
  · exact ite_cases (fun (r : LoadState × ctl) => r.1.io.f = _) _ _ _ rfl rfl

theorem zero_bitmap_record_size_field (lz4 : LZ4) (hc : Bool) (zb : List Nat) (zbs : Nat)
    (hz : zbs + 12 < 4294967296) :
    field ((zero_bitmap_record lz4 hc zb zbs).drop 4) 0 4 =
      (zero_bitmap_record lz4 hc zb zbs).length := by
  obtain ⟨payload, hrec, hle⟩ := zero_bitmap_record_shape lz4 hc zb zbs
  rw [hrec]
  have h1 : (enc_i32 XC_SAVE_ID_ZERO_BITMAP ++ enc_u32 (payload.length + 12) ++ enc_u32 zbs ++
      payload).drop 4 = [] ++ enc_u32 (payload.length + 12) ++ (enc_u32 zbs ++ payload) := by
    rw [List.nil_append, List.append_assoc, List.append_assoc,
      List.drop_append_of_le_length (by rw [enc_i32_length])]
    have : (enc_i32 XC_SAVE_ID_ZERO_BITMAP).drop 4 = [] :=
      List.drop_of_length_le (by rw [enc_i32_length])
    rw [this, List.nil_append]
  rw [h1]
  unfold field
  have := buf_read_at [] (enc_u32 (payload.length + 12)) (enc_u32 zbs ++ payload)
  rw [enc_u32_length, List.length_nil] at this
  rw [this, le_value_enc_u32 _ (by omega)]
  simp only [List.nil_append, List.length_append, enc_i32_length, enc_u32_length]
  omega

theorem page_offsets_record_size_field (pad : List Nat) (po : Nat → Nat) (nr : Nat)
    (hn : 16 + nr * 8 < 4294967296) :
    field ((page_offsets_record pad po nr).drop 4) 0 4 = 16 + nr * 8 := by
  have h1 : (page_offsets_record pad po nr).drop 4 =
      [] ++ enc_u32 (sizeof_xc_save_vm_page_offsets + nr * 8) ++
        (enc_u32 nr ++ take_pad 4 pad ++ enc_u64_list ((List.range nr).map po)) := by
    unfold page_offsets_record
    rw [List.nil_append, List.append_assoc, List.append_assoc, List.append_assoc,
      List.drop_append_of_le_length (by rw [enc_i32_length])]
    have : (enc_i32 XC_SAVE_ID_PAGE_OFFSETS).drop 4 = [] :=
      List.drop_of_length_le (by rw [enc_i32_length])
    rw [this, List.nil_append, List.append_assoc]
  rw [h1]
  unfold field
  have := buf_read_at [] (enc_u32 (sizeof_xc_save_vm_page_offsets + nr * 8))
    (enc_u32 nr ++ take_pad 4 pad ++ enc_u64_list ((List.range nr).map po))
  rw [enc_u32_length, List.length_nil] at this
  rw [this, le_value_enc_u32 _ (by unfold sizeof_xc_save_vm_page_offsets; omega)]
  rfl

/-- The skip of `vm_restore_memory` over a zero-bitmap record ends behind it. -/
theorem restore_record_zero_bitmap (env : LoadEnv) (st : LoadState) (lz4 : LZ4) (hc : Bool)
    (zb : List Nat) (zbs : Nat) (a b : List Nat)
    (hf : st.io.f =
      { data := a ++ (zero_bitmap_record lz4 hc zb zbs ++ b), pos := a.length })
    (hz : zbs + 12 < 4294967296) :
    restore_record env st =
      ({ st with io := { st.io with
          f := { data := a ++ (zero_bitmap_record lz4 hc zb zbs ++ b),
                 pos := a.length + (zero_bitmap_record lz4 hc zb zbs).length },
          ret := 0 } }, ctl.next) := by
  obtain ⟨payload, hrec, hle⟩ := zero_bitmap_record_shape lz4 hc zb zbs
  have hrec2 : zero_bitmap_record lz4 hc zb zbs ++ b =
      enc_i32 XC_SAVE_ID_ZERO_BITMAP ++ enc_u32 (payload.length + 12) ++
        (enc_u32 zbs ++ payload) ++ b := by
    rw [hrec]
    simp only [List.append_assoc]
  have hl : (zero_bitmap_record lz4 hc zb zbs).length = payload.length + 12 := by
    rw [hrec]
    simp only [List.length_append, enc_i32_length, enc_u32_length]
    omega
  rw [hrec2] at hf
  rw [hrec2, hl]
  exact restore_record_skips env st a (enc_u32 zbs ++ payload) b XC_SAVE_ID_ZERO_BITMAP
    (payload.length + 12) (Or.inr rfl) hf
    (by simp only [List.length_append, enc_u32_length]; omega) (by omega)

/-- The skip of `vm_restore_memory` over a page-offsets record ends behind it. -/
theorem restore_record_page_offsets (env : LoadEnv) (st : LoadState) (pad : List Nat)
    (po : Nat → Nat) (nr : Nat) (a b : List Nat)
    (hf : st.io.f = { data := a ++ (page_offsets_record pad po nr ++ b), pos := a.length })
    (hn : 16 + nr * 8 < 4294967296) :
    restore_record env st =
      ({ st with io := { st.io with
          f := { data := a ++ (page_offsets_record pad po nr ++ b),
                 pos := a.length + (16 + nr * 8) },
          ret := 0 } }, ctl.next) := by
  have hrec2 : page_offsets_record pad po nr ++ b =
      enc_i32 XC_SAVE_ID_PAGE_OFFSETS ++ enc_u32 (16 + nr * 8) ++
        (enc_u32 nr ++ take_pad 4 pad ++ enc_u64_list ((List.range nr).map po)) ++ b := by
    unfold page_offsets_record sizeof_xc_save_vm_page_offsets
    simp only [List.append_assoc]
  rw [hrec2] at hf
  rw [hrec2]
  exact restore_record_skips env st a _ b XC_SAVE_ID_PAGE_OFFSETS (16 + nr * 8) (Or.inl rfl) hf
    (by
      simp only [List.length_append, enc_u32_length, take_pad_length, enc_u64_list_length,
        List.length_map, List.length_range]
      omega) hn

/-- C27: the size field of the zero-bitmap record and of the page-offsets
record holds the total length of the record (12 bytes of header plus the
stored payload; 16 bytes of header plus 8 times `pfn_off_nr`), so that from
the marker of such a record both the skip of `vm_restore_memory` (marker and
size read, seek over size - 8) and the parse of `uxenvm_loadvm_execute` leave
the cursor on the first byte behind the record, the marker of the next one. -/
theorem C27_record_size_fields (env : LoadEnv) (pc : Bool) (st : LoadState) (lz4 : LZ4)
    (hc : Bool) (zb : List Nat) (zbs : Nat) (pad : List Nat) (po : Nat → Nat) (nr : Nat)
    (a b : List Nat)
    (hz : zbs + 12 < 4294967296) (hn : 16 + nr * 8 < 4294967296) :
    (field ((zero_bitmap_record lz4 hc zb zbs).drop 4) 0 4 =
        (zero_bitmap_record lz4 hc zb zbs).length ∧
      (zero_bitmap_record lz4 hc zb zbs).length =
        12 + ((zero_bitmap_record lz4 hc zb zbs).drop 12).length) ∧
    (field ((page_offsets_record pad po nr).drop 4) 0 4 =
        (page_offsets_record pad po nr).length ∧
      (page_offsets_record pad po nr).length = 16 + 8 * nr) ∧
    ((a ++ (zero_bitmap_record lz4 hc zb zbs ++ b)).drop
        (a.length + (zero_bitmap_record lz4 hc zb zbs).length) = b ∧
      (a ++ (page_offsets_record pad po nr ++ b)).drop
        (a.length + (page_offsets_record pad po nr).length) = b) ∧
    ((restore_record env { st with io := { st.io with
          f := { data := a ++ (zero_bitmap_record lz4 hc zb zbs ++ b),
                 pos := a.length } } }).1.io.f =
        { data := a ++ (zero_bitmap_record lz4 hc zb zbs ++ b),
          pos := a.length + (zero_bitmap_record lz4 hc zb zbs).length } ∧
      (restore_record env { st with io := { st.io with
          f := { data := a ++ (zero_bitmap_record lz4 hc zb zbs ++ b),
                 pos := a.length } } }).2 = ctl.next) ∧
    ((restore_record env { st with io := { st.io with
          f := { data := a ++ (page_offsets_record pad po nr ++ b),
                 pos := a.length } } }).1.io.f =
        { data := a ++ (page_offsets_record pad po nr ++ b),
          pos := a.length + (page_offsets_record pad po nr).length } ∧
      (restore_record env { st with io := { st.io with
          f := { data := a ++ (page_offsets_record pad po nr ++ b),
                 pos := a.length } } }).2 = ctl.next) ∧
    (load_record env pc { st with io := { st.io with
          f := { data := a ++ (zero_bitmap_record lz4 hc zb zbs ++ b),
                 pos := a.length } } }).1.io.f =
        { data := a ++ (zero_bitmap_record lz4 hc zb zbs ++ b),
          pos := a.length + (zero_bitmap_record lz4 hc zb zbs).length } ∧
    ((load_record env pc { st with io := { st.io with
          f := { data := a ++ (page_offsets_record pad po nr ++ b),
                 pos := a.length } } }).1.io.f =
        { data := a ++ (page_offsets_record pad po nr ++ b),
          pos := a.length + (page_offsets_record pad po nr).length } ∧
      (load_record env pc { st with io := { st.io with
          f := { data := a ++ (page_offsets_record pad po nr ++ b),
                 pos := a.length } } }).2 = ctl.next) := by
  have hdrop : ∀ r : List Nat, (a ++ (r ++ b)).drop (a.length + r.length) = b := by
    intro r
    rw [← List.append_assoc, ← List.length_append]
    exact List.drop_left _ _
  refine ⟨⟨zero_bitmap_record_size_field lz4 hc zb zbs hz, ?_⟩, ⟨?_, ?_⟩,
    ⟨hdrop _, hdrop _⟩, ?_, ?_, ?_, ?_⟩
  · have := zero_bitmap_record_length lz4 hc zb zbs
    rw [List.length_drop]
    omega
  · rw [page_offsets_record_size_field pad po nr hn, page_offsets_record_length]
  · rw [page_offsets_record_length]
    omega
  · rw [restore_record_zero_bitmap env _ lz4 hc zb zbs a b rfl hz]
    exact ⟨rfl, rfl⟩
  · rw [restore_record_page_offsets env _ pad po nr a b rfl hn, page_offsets_record_length]
    exact ⟨rfl, rfl⟩
  · obtain ⟨payload, hrec, hle⟩ := zero_bitmap_record_shape lz4 hc zb zbs
    have hl : (zero_bitmap_record lz4 hc zb zbs).length = payload.length + 12 := by
      rw [hrec]
      simp only [List.length_append, enc_i32_length, enc_u32_length]
      omega
    have hrec2 : zero_bitmap_record lz4 hc zb zbs ++ b =
        enc_i32 XC_SAVE_ID_ZERO_BITMAP ++ enc_u32 (payload.length + 12) ++ enc_u32 zbs ++
          payload ++ b := by
      rw [hrec]
    rw [hrec2, hl]
    exact load_record_zero_bitmap_pos env pc _ a b payload zbs rfl (by omega)
  · rw [load_record_page_offsets env pc _ a b pad po nr rfl hn, page_offsets_record_length]
    exact ⟨rfl, rfl⟩

/-- C27 at a concrete input: a bitmap of 8 bytes and an index of two entries
between a prefix and a next record. -/
theorem C27_record_size_fields_witness :
    8 + 12 < 4294967296 ∧ 16 + 2 * 8 < 4294967296 ∧
    (field ((zero_bitmap_record stored_lz4 false [1, 0, 0, 0, 0, 0, 0, 0] 8).drop 4) 0 4 =
        (zero_bitmap_record stored_lz4 false [1, 0, 0, 0, 0, 0, 0, 0] 8).length ∧
      (zero_bitmap_record stored_lz4 false [1, 0, 0, 0, 0, 0, 0, 0] 8).length =
        12 + ((zero_bitmap_record stored_lz4 false [1, 0, 0, 0, 0, 0, 0, 0] 8).drop 12).length) ∧
    (field ((page_offsets_record [] (fun i => 8 + i) 2).drop 4) 0 4 =
        (page_offsets_record [] (fun i => 8 + i) 2).length ∧
      (page_offsets_record [] (fun i => 8 + i) 2).length = 16 + 8 * 2) ∧
    (restore_record example_load_env
        { load_init example_globals [] VM_RESTORE_NORMAL with
          io := { (load_init example_globals [] VM_RESTORE_NORMAL).io with
            f := { data := [1, 2, 3] ++
                     (zero_bitmap_record stored_lz4 false [1, 0, 0, 0, 0, 0, 0, 0] 8 ++ enc_i32 0),
                   pos := [1, 2, 3].length } } }).2 = ctl.next ∧
    (load_record example_load_env false
        { load_init example_globals [] VM_RESTORE_NORMAL with
          io := { (load_init example_globals [] VM_RESTORE_NORMAL).io with
            f := { data := [1, 2, 3] ++ (page_offsets_record [] (fun i => 8 + i) 2 ++ enc_i32 0),
                   pos := [1, 2, 3].length } } }).2 = ctl.next :=
  let h := C27_record_size_fields example_load_env false
    (load_init example_globals [] VM_RESTORE_NORMAL) stored_lz4 false [1, 0, 0, 0, 0, 0, 0, 0] 8
    [] (fun i => 8 + i) 2 [1, 2, 3] (enc_i32 0) (by decide) (by decide)
  ⟨by decide, by decide, h.1, h.2.1, h.2.2.2.1.2, h.2.2.2.2.2.2.2⟩

/-! ## The cursor after `uxenvm_load_readbatch` -/

theorem populate_direct_cursor (env : LoadEnv) (io : io_state) (batch : Nat)
    (pfn_type : List Nat) (decompress lazy : Bool) (cs : Int)
    (hret : (populate_direct env io batch pfn_type decompress lazy cs).ret = 0) :
    (populate_direct env io batch pfn_type decompress lazy cs).f =
      { data := io.f.data,
        pos := io.f.pos +
          (if lazy = true ∧ decompress = true then to_u32 cs else batch <<< PAGE_SHIFT) } := by
  have hE : EIO_errno ≠ 0 := by decide
  revert hret
  unfold populate_direct
  dsimp only
  rw [filebuf_seek_cur_nat]
  cases hm : env.xc_map_foreign_bulk pfn_type with
  | none =>
    dsimp only
    split_ifs <;> intro hret <;> simp_all
  | some pfn_err =>
    dsimp only
    unfold filebuf_read
    dsimp only
    split_ifs <;> intro hret <;> simp_all

theorem submit_job_f (env : LoadEnv) (io : io_state) (batch : Nat) (pfn_type : List Nat)
    (compress_buf : List Nat) (compress_size : Int) (sp pc : Bool) :
    (submit_job env io batch pfn_type compress_buf compress_size sp pc).f = io.f := by
  unfold submit_job
  dsimp only
  split_ifs <;> rfl

theorem to_u32_nonneg (x : Int) (h0 : 0 ≤ x) (h1 : x < 2147483648) : to_u32 x = x.toNat := by
  unfold to_u32
  rw [Int.emod_eq_of_lt h0 (by omega)]

/-- C28: a call of `uxenvm_load_readbatch` that returns 0 on a well-formed
record (a compressed size that is -1 or not negative) leaves the cursor
`4 * count` bytes of frame list behind its start, plus `count * 4096` for a
raw batch, or plus 4 and the compressed size for a compressed batch
(`4 + count * 4096` for the size -1), whatever the values of `single_page`,
`do_lazy_load` and `populate_compressed` and the strategy taken: lazy skip,
direct read or the pool. -/
theorem C28_readbatch_cursor (env : LoadEnv) (io : io_state) (batch : Nat)
    (decompress single_page do_lazy_load populate_compressed : Bool)
    (hwf : decompress = true →
      -1 ≤ dec_i32 ((io.f.data.drop (io.f.pos + batch * 4)).take 4))
    (hret : (uxenvm_load_readbatch env io batch decompress single_page do_lazy_load
      populate_compressed).ret = 0) :
    (uxenvm_load_readbatch env io batch decompress single_page do_lazy_load
        populate_compressed).f =
      { data := io.f.data,
        pos := io.f.pos + 4 * batch +
          (if decompress = true then
            4 + (if dec_i32 ((io.f.data.drop (io.f.pos + batch * 4)).take 4) = -1
              then batch * 4096
              else (dec_i32 ((io.f.data.drop (io.f.pos + batch * 4)).take 4)).toNat)
          else batch * 4096) } := by
  have hsh : batch <<< PAGE_SHIFT = batch * 4096 := by
    rw [Nat.shiftLeft_eq]
    rfl
  revert hret
  unfold uxenvm_load_readbatch uxenvm_load_read
  dsimp only
  by_cases h1 : (filebuf_read io.f (batch * 4)).1.length = batch * 4
  · rw [if_neg (not_not.mpr h1)]
    have hp1 : (filebuf_read io.f (batch * 4)).2 =
        { data := io.f.data, pos := io.f.pos + batch * 4 } := by
      unfold filebuf_read at h1 ⊢
      dsimp only at h1 ⊢
      rw [h1]
    rw [hp1]
    cases decompress with
    | false =>
      rw [if_neg (by decide)]
      intro hret
      rw [populate_direct_cursor _ _ _ _ _ _ _ hret]
      dsimp only
      rw [if_neg (by simp), if_neg (by decide), hsh]
      congr 1
      omega
    | true =>
      rw [if_pos rfl, if_pos rfl]
      have hc : (filebuf_read { data := io.f.data, pos := io.f.pos + batch * 4 } 4).1 =
          (io.f.data.drop (io.f.pos + batch * 4)).take 4 := rfl
      rw [hc]
      generalize hcs : (io.f.data.drop (io.f.pos + batch * 4)).take 4 = c
      rw [hcs] at hwf
      by_cases h2 : c.length = 4
      · rw [if_neg (not_not.mpr h2)]
        have hp2 : (filebuf_read { data := io.f.data, pos := io.f.pos + batch * 4 } 4).2 =
            { data := io.f.data, pos := io.f.pos + batch * 4 + 4 } := by
          unfold filebuf_read
          dsimp only
          rw [hcs, h2]
        rw [hp2]
        have hr := (to_i32_range (le_value c)).2
        have hw := hwf rfl
        by_cases h3 : dec_i32 c = -1
        · rw [h3]
          rw [if_pos rfl, if_pos rfl]
          rw [if_pos (by simp)]
          intro hret
          rw [populate_direct_cursor _ _ _ _ _ _ _ hret]
          dsimp only
          rw [if_neg (by simp), hsh]
          congr 1
          omega
        · rw [if_neg h3, if_neg h3]
          have h0 : 0 ≤ dec_i32 c := by omega
          have hr2 : dec_i32 c < 2147483648 := hr
          generalize (batch_frames env.K batch (filebuf_read io.f (batch * 4)).1
            do_lazy_load).2 = L
          cases L with
          | true =>
            rw [if_pos (by simp)]
            intro hret
            rw [populate_direct_cursor _ _ _ _ _ _ _ hret]
            dsimp only
            rw [if_pos ⟨rfl, rfl⟩, to_u32_nonneg _ h0 hr2]
            congr 1
            omega
          | false =>
            rw [if_neg (by simp), if_neg (by omega)]
            by_cases h4 : (filebuf_read { data := io.f.data, pos := io.f.pos + batch * 4 + 4 }
                (dec_i32 c).toNat).1.length = (dec_i32 c).toNat
            · rw [if_neg (not_not.mpr h4)]
              intro _
              rw [submit_job_f]
              dsimp only
              unfold filebuf_read at h4 ⊢
              dsimp only at h4 ⊢
              rw [h4]
              congr 1
              omega
            · rw [if_pos h4]
              intro hret
              exact absurd (show -EIO_errno = 0 from hret) (by decide)
      · rw [if_pos h2]
        intro hret
        exact absurd (show -EIO_errno = 0 from hret) (by decide)
  · rw [if_pos h1]
    intro hret
    exact absurd (show -EIO_errno = 0 from hret) (by decide)

/-- C28 at a raw batch of one page that is skipped by the lazy strategy: the
cursor ends 4 + 4096 bytes behind the start. -/
theorem C28_readbatch_cursor_witness :
    (uxenvm_load_readbatch example_load_env
        (load_init example_globals (enc_u32 0) VM_RESTORE_NORMAL).io 1 false false true
        false).ret = 0 ∧
    (uxenvm_load_readbatch example_load_env
        (load_init example_globals (enc_u32 0) VM_RESTORE_NORMAL).io 1 false false true
        false).f = { data := enc_u32 0, pos := 4100 } :=
  ⟨by decide,
    C28_readbatch_cursor example_load_env
      (load_init example_globals (enc_u32 0) VM_RESTORE_NORMAL).io 1 false false true false
      (fun h => absurd h (by decide)) (by decide)⟩

/-! ## The bounds of the page-offsets index -/

theorem write_pages_max_gpfn_index (env : SaveEnv)
    (hK : env.K.PCI_HOLE_START_PFN ≤ env.K.PCI_HOLE_END_PFN) :
    poi_pfn_index env.K (write_pages_max_gpfn env) = env.vm_mem_mb * 256 := by
  have hsh : env.vm_mem_mb <<< (20 - UXEN_PAGE_SHIFT) = env.vm_mem_mb * 256 := by
    rw [Nat.shiftLeft_eq]
    rfl
  unfold poi_pfn_index skip_pci_hole write_pages_max_gpfn
  rw [hsh]
  split_ifs <;> omega

theorem write_pages_index_fields (env : SaveEnv) (info : vm_save_info) (f0 : List Nat)
    (hgp : 0 ≤ env.xc_domain_maximum_gpfn) :
    (uxenvm_savevm_write_pages env info f0).max_gpfn = write_pages_max_gpfn env ∧
    (uxenvm_savevm_write_pages env info f0).pfn_off_nr =
      poi_pfn_index env.K (write_pages_max_gpfn env) := by
  unfold uxenvm_savevm_write_pages write_pages_max_gpfn
  rw [if_neg (by omega)]
  exact ⟨rfl, rfl⟩

/-- No entry at or beyond `poi_pfn_index(max_gpfn)` is ever written. -/
theorem write_pages_in_bounds (env : SaveEnv) (info : vm_save_info) (f0 : List Nat)
    (hK : env.K.PCI_HOLE_START_PFN ≤ env.K.PCI_HOLE_END_PFN) (k : Nat)
    (hk : poi_pfn_index env.K (uxenvm_savevm_write_pages env info f0).max_gpfn ≤ k) :
    (uxenvm_savevm_write_pages env info f0).pfn_off k = 0 := by
  refine write_pages_only_runs env info f0 k (fun b _ p _ i _ hv heq => ?_)
  have := poi_pfn_index_lt env.K hK _ _ hv
  omega

/-- C29: with `N = vm_mem_mb * 256`, the PCI hole not empty and `N` plus the
size of the hole below `2^32` (so that the `uint32_t` `max_gpfn` does not
wrap), in a save that gets past its first query: every frame accepted by
`poi_valid_pfn` has a `poi_pfn_index` below `N`; the writer writes no entry of
the index but slots of such frames, so that every entry at or beyond `N` is
untouched; the `pfn_off_nr` of the page-offsets record is `N`, and so is the
number of entries of the index read back; the lazy loader computes from the
record the `max_gpfn` of the saver; and a frame that passes the two checks of
`vm_lazy_load_page` (not in the hole, below `max_gpfn`) has its index below
`N`. -/
theorem C29_index_in_bounds (env : SaveEnv) (info : vm_save_info) (f0 : List Nat)
    (hK : env.K.PCI_HOLE_START_PFN < env.K.PCI_HOLE_END_PFN)
    (hgp : 0 ≤ env.xc_domain_maximum_gpfn)
    (h32 : env.vm_mem_mb * 256 + (env.K.PCI_HOLE_END_PFN - env.K.PCI_HOLE_START_PFN) <
      4294967296) :
    (∀ g, poi_valid_pfn env.K (uxenvm_savevm_write_pages env info f0).max_gpfn g = true →
      poi_pfn_index env.K g < env.vm_mem_mb * 256) ∧
    (index_only_runs env.K (uxenvm_savevm_write_pages env info f0).max_gpfn
        (uxenvm_savevm_write_pages env info f0).log
        (uxenvm_savevm_write_pages env info f0).pfn_off ∧
      ∀ k, env.vm_mem_mb * 256 ≤ k → (uxenvm_savevm_write_pages env info f0).pfn_off k = 0) ∧
    ((uxenvm_savevm_write_pages env info f0).max_gpfn < 4294967296 ∧
      (uxenvm_savevm_write_pages env info f0).pfn_off_nr = env.vm_mem_mb * 256) ∧
    (saved_index (uxenvm_savevm_write_pages env info f0)).pfn_off.length =
      env.vm_mem_mb * 256 ∧
    (∀ pre rest pos0, pre.length ≠ 0 →
      ∃ lli, lazy_map_index env.K
          { data := pre ++ page_offsets_record env.padding
              (uxenvm_savevm_write_pages env info f0).pfn_off
              (uxenvm_savevm_write_pages env info f0).pfn_off_nr ++ rest,
            pos := pos0 } pre.length = .ok (some lli) ∧
        lli.max_gpfn = (uxenvm_savevm_write_pages env info f0).max_gpfn ∧
        lli.pfn_off.length = env.vm_mem_mb * 256) ∧
    (∀ gpfn, ¬(gpfn ≥ env.K.PCI_HOLE_START_PFN ∧ gpfn < env.K.PCI_HOLE_END_PFN) →
      ¬(gpfn ≥ (saved_index (uxenvm_savevm_write_pages env info f0)).max_gpfn) →
      skip_pci_hole env.K gpfn <
        (saved_index (uxenvm_savevm_write_pages env info f0)).pfn_off.length) := by
  have hidx := write_pages_max_gpfn_index env (Nat.le_of_lt hK)
  obtain ⟨hmax, hnr⟩ := write_pages_index_fields env info f0 hgp
  rw [hidx] at hnr
  have hsh : env.vm_mem_mb <<< (20 - UXEN_PAGE_SHIFT) = env.vm_mem_mb * 256 := by
    rw [Nat.shiftLeft_eq]
    rfl
  have hlen : (saved_index (uxenvm_savevm_write_pages env info f0)).pfn_off.length =
      env.vm_mem_mb * 256 := by
    unfold saved_index
    rw [List.length_map, List.length_range, hnr]
  have hm32 : (uxenvm_savevm_write_pages env info f0).max_gpfn < 4294967296 := by
    rw [hmax]
    unfold write_pages_max_gpfn
    rw [hsh]
    split <;> omega
  refine ⟨?_, ⟨write_pages_only_runs env info f0, ?_⟩, ⟨hm32, hnr⟩, hlen, ?_, ?_⟩
  · intro g hg
    rw [hmax] at hg
    have := poi_pfn_index_lt env.K (Nat.le_of_lt hK) _ g hg
    rwa [hidx] at this
  · intro k hk
    refine write_pages_in_bounds env info f0 (Nat.le_of_lt hK) k ?_
    rw [hmax, hidx]
    exact hk
  · intro pre rest pos0 hpre
    rw [hnr, lazy_map_index_record env.K pre env.padding rest _ _ pos0 hpre (by omega)]
    refine ⟨_, rfl, ?_, ?_⟩
    · rw [hmax]
      unfold write_pages_max_gpfn
      rw [hsh]
    · rw [List.length_map, List.length_range]
  · intro gpfn h1 h2
    rw [hlen]
    have hv : poi_valid_pfn env.K (write_pages_max_gpfn env) gpfn = true := by
      have h3 : (saved_index (uxenvm_savevm_write_pages env info f0)).max_gpfn =
          write_pages_max_gpfn env := hmax
      rw [h3] at h2
      unfold poi_valid_pfn
      simp only [Bool.and_eq_true, Bool.or_eq_true, decide_eq_true_eq]
      omega
    have := poi_pfn_index_lt env.K (Nat.le_of_lt hK) _ gpfn hv
    rwa [hidx] at this

/-- C29 at the example save of three frames with 1 MB of memory: `N` is 256,
and no entry at or beyond 256 is written. -/
theorem C29_index_in_bounds_witness :
    example_mixed_env.K.PCI_HOLE_START_PFN < example_mixed_env.K.PCI_HOLE_END_PFN ∧
    0 ≤ example_mixed_env.xc_domain_maximum_gpfn ∧
    example_mixed_env.vm_mem_mb * 256 +
        (example_mixed_env.K.PCI_HOLE_END_PFN - example_mixed_env.K.PCI_HOLE_START_PFN) <
      4294967296 ∧
    (uxenvm_savevm_write_pages example_mixed_env example_per_page_info []).pfn_off_nr =
      example_mixed_env.vm_mem_mb * 256 ∧
    (saved_index
      (uxenvm_savevm_write_pages example_mixed_env example_per_page_info [])).pfn_off.length =
      example_mixed_env.vm_mem_mb * 256 ∧
    ∀ k, example_mixed_env.vm_mem_mb * 256 ≤ k →
      (uxenvm_savevm_write_pages example_mixed_env example_per_page_info []).pfn_off k = 0 :=
  let h := C29_index_in_bounds example_mixed_env example_per_page_info [] (by decide)
    (by decide) (by decide)
  ⟨by decide, by decide, by decide, h.2.2.1.2, h.2.2.2.1, h.2.1.2⟩

/-! ## Save: the return value of `uxenvm_savevm_write_info` -/

theorem vcpu_loop_ret (env : WriteInfoEnv) (n j : Nat) (ret : Int) (m : Nat) :
    (vcpu_loop env n j ret m).1 =
      if n = 0 then ret else (env.xc_vcpu_getinfo (j + n - 1)).1 := by
  induction n generalizing j ret m with
  | zero => rfl
  | succ n ih =>
    unfold vcpu_loop
    dsimp only
    rw [ih, if_neg (Nat.succ_ne_zero n)]
    by_cases h : n = 0
    · subst h
      rw [if_pos rfl]
      rfl
    · rw [if_neg h]
      congr 2
      omega

/-- C30 (failing input): a domain with one vCPU whose `xc_vcpu_getinfo`
returns -1 while the TSC-info, domain-info and both HVM-context queries
succeed. `uxenvm_savevm_write_info` returns -1, and `vm_save_execute` ends with
`ret = 1`, closes the file for deletion and does not write the pages. In
general, when those queries succeed the function returns the value of the
`xc_vcpu_getinfo` call for the last vCPU, or the 1 of `xc_domain_getinfo` when
there is no vCPU to query. -/
theorem C30_failed_vcpu_query_fails_save :
    (¬ example_info_env.xc_domain_get_tsc_info.1 < 0 ∧
      example_info_env.xc_domain_getinfo.1 = 1 ∧
      example_info_env.xc_domain_getinfo.2.1 = example_info_env.vm_id ∧
      example_info_env.xc_domain_hvm_getcontext_size = 2 ∧
      example_info_env.xc_domain_hvm_getcontext.1 = 2) ∧
    (uxenvm_savevm_write_info example_info_env example_consts example_globals [] [] 0).ret =
      -1 ∧
    ((vm_save_execute example_info_exec_env example_mixed_env example_per_page_info).ret = 1 ∧
      (vm_save_execute example_info_exec_env example_mixed_env
        example_per_page_info).closed_for_deletion = true ∧
      (vm_save_execute example_info_exec_env example_mixed_env
        example_per_page_info).finish_status = some 1 ∧
      (vm_save_execute example_info_exec_env example_mixed_env
        example_per_page_info).pages.isSome = false) ∧
    ∀ (env : WriteInfoEnv) (K : Consts) (g : vm_globals) (f0 dm_state_buf : List Nat)
      (dm_state_size : Int),
      ¬ env.xc_domain_get_tsc_info.1 < 0 →
      env.xc_domain_getinfo.1 = 1 → env.xc_domain_getinfo.2.1 = env.vm_id →
      0 ≤ env.xc_domain_hvm_getcontext_size →
      to_u32 env.xc_domain_hvm_getcontext.1 ≠ 4294967295 →
      (uxenvm_savevm_write_info env K g f0 dm_state_buf dm_state_size).ret =
        if 0 ≤ env.xc_domain_getinfo.2.2 then
          (env.xc_vcpu_getinfo env.xc_domain_getinfo.2.2.toNat).1
        else 1 := by
  refine ⟨by decide, by decide, by decide, ?_⟩
  intro env K g f0 dm_state_buf dm_state_size h1 h2 h3 h4 h5
  unfold uxenvm_savevm_write_info
  dsimp only
  rw [if_neg h1, if_neg (by rw [h2, h3]; simp), if_neg (by omega), if_neg (by omega),
    if_neg h5]
  show (vcpu_loop env (env.xc_domain_getinfo.2.2 + 1).toNat 0 env.xc_domain_getinfo.1 0).1 = _
  rw [vcpu_loop_ret, h2]
  by_cases h : 0 ≤ env.xc_domain_getinfo.2.2
  · rw [if_pos h, if_neg (by omega)]
    congr 2
    omega
  · rw [if_neg h, if_pos (by omega)]

/-! ## Save: termination and the batches of the page loop -/

theorem fill_batch_eq (p2m_size pfn n batch : Nat)
    (h : batch ≤ min MAX_BATCH_SIZE (p2m_size - pfn)) :
    fill_batch p2m_size pfn n batch = min (batch + n) (min MAX_BATCH_SIZE (p2m_size - pfn)) := by
  induction n generalizing batch with
  | zero =>
    unfold fill_batch
    omega
  | succ n ih =>
    unfold fill_batch
    split
    · rw [ih _ (by omega)]
      omega
    · omega

theorem fill_batch_min (p2m_size pfn : Nat) :
    fill_batch p2m_size pfn MAX_BATCH_SIZE 0 = min 1023 (p2m_size - pfn) := by
  rw [fill_batch_eq _ _ _ _ (Nat.zero_le _)]
  unfold MAX_BATCH_SIZE
  omega

theorem capture_calls_append (a b : List Event) :
    capture_calls (a ++ b) = capture_calls a ++ capture_calls b := by
  induction a with
  | nil => rfl
  | cons e a ih =>
    cases e <;> simp [capture_calls, ih]

theorem requested_frames_append (a b : List (Nat × Nat)) :
    requested_frames (a ++ b) = requested_frames a ++ requested_frames b := by
  induction a with
  | nil => rfl
  | cons e a ih =>
    obtain ⟨x, y⟩ := e
    simp [requested_frames, ih]

theorem save_batch_capture_calls (env : SaveEnv) (info : vm_save_info) (p2m_size m : Nat)
    (s : save_state) :
    capture_calls (save_batch env info p2m_size m s).trace =
      capture_calls s.trace ++ [(s.pfn, fill_batch p2m_size s.pfn MAX_BATCH_SIZE 0)] ∧
    (save_batch env info p2m_size m s).pfn =
      s.pfn + fill_batch p2m_size s.pfn MAX_BATCH_SIZE 0 ∧
    (save_batch env info p2m_size m s).polls = s.polls := by
  have key : ∀ x : List Nat, capture_calls (s.trace ++
      [Event.memory_capture s.pfn (fill_batch p2m_size s.pfn MAX_BATCH_SIZE 0) info.free_mem] ++
      (if x.length ≠ 0 then [Event.populate_physmap x] else [])) =
      capture_calls s.trace ++ [(s.pfn, fill_batch p2m_size s.pfn MAX_BATCH_SIZE 0)] := by
    intro x
    rw [capture_calls_append, capture_calls_append]
    split <;> simp [capture_calls]
  unfold save_batch
  simp only
  split
  · exact ⟨key _, rfl, rfl⟩
  · exact ⟨key _, rfl, rfl⟩

/-- Fuel beyond the number of frames left plus one does not change the result
of the page loop: the loop is left by its own test. -/
theorem write_pages_loop_fuel (env : SaveEnv) (info : vm_save_info) (p2m_size m n : Nat)
    (s : save_state) (h : p2m_size - s.pfn < n) (k : Nat) :
    write_pages_loop env info p2m_size m (n + k) s = write_pages_loop env info p2m_size m n s := by
  induction n generalizing s with
  | zero => omega
  | succ n ih =>
    have e : n + 1 + k = (n + k) + 1 := by omega
    rw [e]
    unfold write_pages_loop
    split
    · rename_i hc
      refine ih _ ?_
      rw [(save_batch_capture_calls env info p2m_size m _).2.1, fill_batch_min]
      dsimp only
      omega
    · rfl

/-- The requests of the page loop when no flag is raised: from `s.pfn` they
cover the frames up to `p2m_size` in order, each of `min 1023 (p2m_size - pfn)`
frames. -/
theorem write_pages_loop_requests (env : SaveEnv) (info : vm_save_info) (p2m_size m n : Nat)
    (s : save_state) (hna : not_aborted env) (h : p2m_size - s.pfn < n) :
    ∃ cs, capture_calls (write_pages_loop env info p2m_size m n s).trace =
        capture_calls s.trace ++ cs ∧
      requested_frames cs = List.range' s.pfn (p2m_size - s.pfn) ∧
      ∀ c ∈ cs, c.2 = min 1023 (p2m_size - c.1) ∧ 1 ≤ c.2 ∧ c.2 ≤ 1023 := by
  induction n generalizing s with
  | zero => omega
  | succ n ih =>
    unfold write_pages_loop
    split
    · rename_i hc
      obtain ⟨h1, h2, _⟩ := save_batch_capture_calls env info p2m_size m
        { s with polls := s.polls + 1 }
      rw [fill_batch_min] at h1 h2
      dsimp only at h1 h2
      obtain ⟨cs, e1, e2, e3⟩ := ih (save_batch env info p2m_size m
        { s with polls := s.polls + 1 }) (by rw [h2]; omega)
      refine ⟨(s.pfn, min 1023 (p2m_size - s.pfn)) :: cs, ?_, ?_, ?_⟩
      · rw [e1, h1, List.append_assoc]
        rfl
      · unfold requested_frames
        rw [e2, h2]
        have e : p2m_size - s.pfn =
            (p2m_size - (s.pfn + min 1023 (p2m_size - s.pfn))) + min 1023 (p2m_size - s.pfn) := by
          omega
        conv_rhs => rw [e]
        rw [List.range'_append_1]
      · intro c hcm
        rcases List.mem_cons.mp hcm with hcm | hcm
        · rw [hcm]
          dsimp only
          omega
        · exact e3 c hcm
    · rename_i hc
      refine ⟨[], (List.append_nil _).symm, ?_, fun c hcm => absurd hcm (List.not_mem_nil _)⟩
      have : p2m_size - s.pfn = 0 := by
        have := hna s.polls
        by_contra h0
        exact hc ⟨by omega, this.1, this.2⟩
      rw [this]
      rfl

theorem write_pages_trace_eq (env : SaveEnv) (info : vm_save_info) (f0 : List Nat)
    (hneg : ¬ env.xc_domain_maximum_gpfn < 0) :
    (uxenvm_savevm_write_pages env info f0).trace = (write_pages_loop_end env info f0).trace ∧
    (uxenvm_savevm_write_pages env info f0).p2m_size =
      (env.xc_domain_maximum_gpfn + 1).toNat := by
  unfold uxenvm_savevm_write_pages
  rw [if_neg hneg]
  exact ⟨rfl, rfl⟩

/-- C25: the page loop of `uxenvm_savevm_write_pages` is left by its own test
for every `p2m_size`: fuel beyond `p2m_size - pfn + 1` loop tests does not
change its result, whatever the flags do. When no abort or interrupt is
raised, the capture calls of a save request every frame of `[0, p2m_size)`
exactly once and in increasing order, each call for `min 1023 (p2m_size - pfn)`
frames from its first frame `pfn`, at least one and at most 1023. -/
theorem C25_page_loop_batches (env : SaveEnv) (info : vm_save_info) (f0 : List Nat) :
    (∀ (p2m_size m : Nat) (s : save_state) (k : Nat),
      write_pages_loop env info p2m_size m (p2m_size - s.pfn + 1 + k) s =
        write_pages_loop env info p2m_size m (p2m_size - s.pfn + 1) s) ∧
    (not_aborted env →
      requested_frames (capture_calls (uxenvm_savevm_write_pages env info f0).trace) =
        List.range (uxenvm_savevm_write_pages env info f0).p2m_size ∧
      ∀ c ∈ capture_calls (uxenvm_savevm_write_pages env info f0).trace,
        c.2 = min 1023 ((uxenvm_savevm_write_pages env info f0).p2m_size - c.1) ∧
        1 ≤ c.2 ∧ c.2 ≤ 1023) := by
  refine ⟨fun p2m_size m s k => write_pages_loop_fuel env info p2m_size m _ s (by omega) k, ?_⟩
  intro hna
  by_cases hneg : env.xc_domain_maximum_gpfn < 0
  · have h0 : uxenvm_savevm_write_pages env info f0 =
        { ret := -EPERM, f := f0, p2m_size := 0, zero_bitmap := [], max_gpfn := 0,
          pfn_off := fun _ => 0, pfn_off_nr := 0, page_batch_offset := 0,
          page_offsets_offset := 0, loop_end := f0.length, trace := [], log := [] } := by
      unfold uxenvm_savevm_write_pages
      rw [if_pos hneg]
    rw [h0]
    exact ⟨rfl, fun c hc => absurd hc (List.not_mem_nil _)⟩
  · obtain ⟨ht, hp⟩ := write_pages_trace_eq env info f0 hneg
    rw [ht, hp]
    obtain ⟨cs, e1, e2, e3⟩ := write_pages_loop_requests env info
      (env.xc_domain_maximum_gpfn + 1).toNat (write_pages_max_gpfn env)
      ((env.xc_domain_maximum_gpfn + 1).toNat + 1)
      { f := f0,
        zero_bitmap := List.replicate (((env.xc_domain_maximum_gpfn + 1).toNat + 7) / 8) 0,
        pfn_off := fun _ => 0, gpfn_info_list := env.gpfn_info_list0, compress_size := 0,
        mem_pos := 0, total_pages := 0, pfn := 0, polls := 0, trace := [], log := [] }
      hna (by dsimp only; omega)
    have e1' : capture_calls (write_pages_loop_end env info f0).trace = cs := by
      unfold write_pages_loop_end
      rw [e1]
      rfl
    rw [e1']
    refine ⟨?_, e3⟩
    rw [e2, List.range_eq_range']
    rfl

/-! ## Save: the record and the runs of a batch -/

theorem scan_normal_stop (gl : Nat → gpfn_info) (rem j : Nat)
    (h : scan_normal gl rem j < j + rem) :
    (gl (scan_normal gl rem j)).type ≠ XENMEM_MCGI_TYPE_NORMAL := by
  induction rem generalizing j with
  | zero =>
    unfold scan_normal at h
    omega
  | succ rem ih =>
    unfold scan_normal at h ⊢
    split
    · rename_i hn
      rw [if_pos hn] at h
      exact ih (j + 1) (by omega)
    · rename_i hn
      exact hn

theorem normal_entries_append (gl : Nat → gpfn_info) (j a b : Nat) :
    normal_entries gl j (a + b) = normal_entries gl j a ++ normal_entries gl (j + a) b := by
  unfold normal_entries
  rw [Nat.add_comm a b, ← List.range'_append_1, List.filter_append]

theorem normal_entries_none (gl : Nat → gpfn_info) (j n : Nat)
    (h : ∀ k, j ≤ k → k < j + n → (gl k).type ≠ XENMEM_MCGI_TYPE_NORMAL) :
    normal_entries gl j n = [] := by
  unfold normal_entries
  rw [List.filter_eq_nil_iff]
  intro k hk
  rw [List.mem_range'_1] at hk
  simpa using h k hk.1 hk.2

theorem normal_entries_all (gl : Nat → gpfn_info) (j n : Nat)
    (h : ∀ k, j ≤ k → k < j + n → (gl k).type = XENMEM_MCGI_TYPE_NORMAL) :
    normal_entries gl j n = List.range' j n := by
  unfold normal_entries
  rw [List.filter_eq_self]
  intro k hk
  rw [List.mem_range'_1] at hk
  simpa using h k hk.1 hk.2

theorem run_entries_append (a b : List (Nat × Nat)) :
    run_entries (a ++ b) = run_entries a ++ run_entries b := by
  induction a with
  | nil => rfl
  | cons e a ih =>
    obtain ⟨x, y⟩ := e
    simp [run_entries, ih]

theorem runs_length_append (a b : List (Nat × Nat)) :
    runs_length (a ++ b) = runs_length a + runs_length b := by
  induction a with
  | nil => simp [runs_length]
  | cons e a ih =>
    obtain ⟨x, y⟩ := e
    simp [runs_length, ih]
    omega

theorem run_entries_length (a : List (Nat × Nat)) :
    (run_entries a).length = runs_length a := by
  induction a with
  | nil => rfl
  | cons e a ih =>
    obtain ⟨x, y⟩ := e
    simp [run_entries, runs_length, ih]

theorem compress_run_single_page_batch (lz4 : LZ4) (K : Consts) (info : vm_save_info)
    (max_gpfn : Nat) (mem : List Nat) (gl : Nat → gpfn_info) (pfn run n i : Nat)
    (s : batch_state) :
    (compress_run_single_page lz4 K info max_gpfn mem gl pfn run n i s)._batch = s._batch := by
  induction n generalizing i s with
  | zero => rfl
  | succ n ih =>
    unfold compress_run_single_page
    rw [ih]
    rfl

theorem write_run_batch (lz4 : LZ4) (K : Consts) (info : vm_save_info) (max_gpfn : Nat)
    (mem : List Nat) (gl : Nat → gpfn_info) (pfn run b_run : Nat) (s : batch_state) :
    (write_run lz4 K info max_gpfn mem gl pfn run b_run s)._batch = s._batch - (b_run : Int) := by
  unfold write_run
  cases hm : info.compress_mode
  · rfl
  · cases hs : info.single_page
    · rfl
    · simp only [if_true]
      rw [compress_run_single_page_batch]

theorem finish_batch_batch (lz4 : LZ4) (info : vm_save_info) (s : batch_state) :
    (finish_batch lz4 info s)._batch = s._batch := by
  unfold finish_batch
  cases hm : info.compress_mode
  · rfl
  · cases hs : info.single_page <;> rfl

theorem write_run_f_ext (lz4 : LZ4) (K : Consts) (info : vm_save_info) (max_gpfn : Nat)
    (mem : List Nat) (gl : Nat → gpfn_info) (pfn run b_run : Nat) (s : batch_state) :
    ∃ x, (write_run lz4 K info max_gpfn mem gl pfn run b_run s).f = s.f ++ x := by
  cases hm : info.compress_mode
  · unfold write_run
    rw [hm]
    exact ⟨_, rfl⟩
  · exact ⟨[], by rw [write_run_f_lz4 _ _ _ _ _ _ _ _ _ _ hm, List.append_nil]⟩

theorem run_loop_f_ext (lz4 : LZ4) (K : Consts) (info : vm_save_info) (max_gpfn : Nat)
    (mem : List Nat) (gl : Nat → gpfn_info) (pfn batch n j : Nat) (s : batch_state) :
    ∃ x, (run_loop lz4 K info max_gpfn mem gl pfn batch n j s).f = s.f ++ x := by
  induction n generalizing j s with
  | zero => exact ⟨[], (List.append_nil _).symm⟩
  | succ n ih =>
    unfold run_loop
    split
    · dsimp only
      split
      · obtain ⟨x, hx⟩ := ih (scan_normal gl (batch - scan_not_normal gl (batch - j) j)
          (scan_not_normal gl (batch - j) j))
          (write_run lz4 K info max_gpfn mem gl pfn (scan_not_normal gl (batch - j) j)
            (scan_normal gl (batch - scan_not_normal gl (batch - j) j)
              (scan_not_normal gl (batch - j) j) - scan_not_normal gl (batch - j) j) s)
        obtain ⟨y, hy⟩ := write_run_f_ext lz4 K info max_gpfn mem gl pfn
          (scan_not_normal gl (batch - j) j)
          (scan_normal gl (batch - scan_not_normal gl (batch - j) j)
            (scan_not_normal gl (batch - j) j) - scan_not_normal gl (batch - j) j) s
        exact ⟨y ++ x, by rw [hx, hy, List.append_assoc]⟩
      · exact ih _ _
    · exact ⟨[], (List.append_nil _).symm⟩

theorem finish_batch_f_ext (lz4 : LZ4) (info : vm_save_info) (s : batch_state) :
    ∃ x, (finish_batch lz4 info s).f = s.f ++ x := by
  unfold finish_batch
  cases hm : info.compress_mode
  · exact ⟨[], (List.append_nil _).symm⟩
  · cases hs : info.single_page
    · exact ⟨_, List.append_assoc _ _ _⟩
    · exact ⟨_, List.append_assoc _ _ _⟩

theorem normal_entries_zero (gl : Nat → gpfn_info) (j : Nat) : normal_entries gl j 0 = [] := rfl

/-- The runs written by the run loop from entry `j`, with at least
`batch - j` iterations allowed: their entries are the Normal entries of
`[j, batch)` in order, `_batch` goes down by their total length, and every run
is a maximal block of Normal entries. -/
theorem run_loop_spec (lz4 : LZ4) (K : Consts) (info : vm_save_info) (m : Nat)
    (mem : List Nat) (gl : Nat → gpfn_info) (pfn batch n j : Nat) (s : batch_state)
    (hj : j ≤ batch) (hn : batch - j ≤ n)
    (hI : j = 0 ∨ j = batch ∨ (gl j).type ≠ XENMEM_MCGI_TYPE_NORMAL) :
    ∃ new, (run_loop lz4 K info m mem gl pfn batch n j s).runs = s.runs ++ new ∧
      run_entries new = normal_entries gl j (batch - j) ∧
      (run_loop lz4 K info m mem gl pfn batch n j s)._batch =
        s._batch - (runs_length new : Int) ∧
      ∀ p ∈ new, 1 ≤ p.2 ∧ p.1 + p.2 ≤ batch ∧
        (p.1 = 0 ∨ (gl (p.1 - 1)).type ≠ XENMEM_MCGI_TYPE_NORMAL) ∧
        (p.1 + p.2 = batch ∨ (gl (p.1 + p.2)).type ≠ XENMEM_MCGI_TYPE_NORMAL) := by
  induction n generalizing j s with
  | zero =>
    have hjb : batch - j = 0 := by omega
    refine ⟨[], (List.append_nil _).symm, ?_, ?_, fun p hp => absurd hp (List.not_mem_nil _)⟩
    · rw [hjb]
      rfl
    · unfold run_loop runs_length
      simp
  | succ n ih =>
    by_cases hjb : j = batch
    · unfold run_loop
      rw [if_neg (not_not.mpr hjb)]
      refine ⟨[], (List.append_nil _).symm, ?_, ?_, fun p hp => absurd hp (List.not_mem_nil _)⟩
      · rw [hjb, Nat.sub_self]
        rfl
      · unfold runs_length
        simp
    · unfold run_loop
      rw [if_pos hjb]
      dsimp only
      have hr1 := scan_not_normal_ge gl (batch - j) j
      have hr2 := scan_not_normal_le gl (batch - j) j
      have hr3 := fun k => scan_not_normal_spec gl (batch - j) j k
      have hr4 := scan_not_normal_stop gl (batch - j) j
      generalize scan_not_normal gl (batch - j) j = run at hr1 hr2 hr3 hr4 ⊢
      have hs1 := scan_normal_ge gl (batch - run) run
      have hs2 := scan_normal_le gl (batch - run) run
      have hs3 := fun k => scan_normal_spec gl (batch - run) run k
      have hs4 := scan_normal_stop gl (batch - run) run
      have hs5 := scan_normal_gt gl (batch - run) run
      generalize scan_normal gl (batch - run) run = j2 at hs1 hs2 hs3 hs4 hs5 ⊢
      have hsplit : normal_entries gl j (batch - j) =
          normal_entries gl run (j2 - run) ++ normal_entries gl j2 (batch - j2) := by
        have e1 : batch - j = (run - j) + ((j2 - run) + (batch - j2)) := by omega
        rw [e1, normal_entries_append, normal_entries_append,
          normal_entries_none gl j (run - j) (fun k h1 h2 => hr3 k h1 (by omega)),
          List.nil_append]
        have e2 : j + (run - j) = run := by omega
        have e3 : run + (j2 - run) = j2 := by omega
        rw [e2, e3]
      have hI2 : j2 = 0 ∨ j2 = batch ∨ (gl j2).type ≠ XENMEM_MCGI_TYPE_NORMAL := by
        by_cases h : j2 = batch
        · exact Or.inr (Or.inl h)
        · exact Or.inr (Or.inr (hs4 (by omega)))
      by_cases hrun : run = j2
      · rw [if_neg (not_not.mpr hrun)]
        have hrb : run = batch := by
          by_contra hne
          have := hs5 (by omega) (hr4 (by omega))
          omega
        obtain ⟨new, h1, h2, h3, h4⟩ := ih j2 s (by omega) (by omega) hI2
        refine ⟨new, h1, ?_, h3, h4⟩
        rw [h2, hsplit, ← hrun, Nat.sub_self]
        rfl
      · rw [if_pos hrun]
        obtain ⟨new, h1, h2, h3, h4⟩ := ih j2
          (write_run lz4 K info m mem gl pfn run (j2 - run) s) (by omega) (by omega) hI2
        refine ⟨(run, j2 - run) :: new, ?_, ?_, ?_, ?_⟩
        · rw [h1, write_run_runs, List.append_assoc]
          rfl
        · unfold run_entries
          rw [h2, hsplit,
            normal_entries_all gl run (j2 - run) (fun k k1 k2 => hs3 k k1 (by omega))]
        · have hl : runs_length ((run, j2 - run) :: new) = (j2 - run) + runs_length new := rfl
          rw [h3, write_run_batch, hl]
          push_cast
          omega
        · intro p hp
          rcases List.mem_cons.mp hp with hp | hp
          · rw [hp]
            dsimp only
            have e3 : run + (j2 - run) = j2 := by omega
            rw [e3]
            refine ⟨by omega, by omega, ?_, ?_⟩
            · by_cases hrj : run = j
              · have hnorm : (gl run).type = XENMEM_MCGI_TYPE_NORMAL :=
                  hs3 run (Nat.le_refl _) (by omega)
                rcases hI with h | h | h
                · exact Or.inl (by omega)
                · exact absurd h hjb
                · rw [hrj] at hnorm
                  exact absurd hnorm h
              · exact Or.inr (hr3 (run - 1) (by omega) (by omega))
            · by_cases h : j2 = batch
              · exact Or.inl h
              · exact Or.inr (hs4 (by omega))
          · exact h4 p hp

theorem classify_pfn_batch_list (fm : Bool) (mem : List Nat) (pfn n j : Nat)
    (s : classify_state) :
    (classify fm mem pfn n j s).pfn_batch =
      s.pfn_batch ++ ((List.range' j n).filter fun k =>
        decide (rescan_type mem (s.gpfn_info_list k) = XENMEM_MCGI_TYPE_NORMAL)).map
          fun k => pfn + k := by
  induction n generalizing j s with
  | zero =>
    unfold classify
    simp
  | succ n ih =>
    unfold classify
    rw [ih, classify_step_pfn_batch, List.range'_succ, List.filter_cons]
    have hc : (List.range' (j + 1) n).filter (fun k =>
        decide (rescan_type mem ((classify_step fm mem pfn j s).gpfn_info_list k) =
          XENMEM_MCGI_TYPE_NORMAL)) =
        (List.range' (j + 1) n).filter (fun k =>
          decide (rescan_type mem (s.gpfn_info_list k) = XENMEM_MCGI_TYPE_NORMAL)) := by
      apply List.filter_congr
      intro k hk
      rw [List.mem_range'_1] at hk
      rw [classify_step_gl, if_neg (by omega)]
    rw [hc]
    by_cases h : rescan_type mem (s.gpfn_info_list j) = XENMEM_MCGI_TYPE_NORMAL
    · rw [if_pos h, if_pos (by simpa using h), List.map_cons, List.append_assoc]
      rfl
    · rw [if_neg h, if_neg (by simpa using h)]

theorem nonzero_normal_frames_ne_nil (b : batch_log) :
    nonzero_normal_frames b ≠ [] ↔
      ∃ j, j < b.batch ∧ (b.captured j).type = XENMEM_MCGI_TYPE_NORMAL ∧
        page_is_zero b.capture.mem_buffer (b.captured j).offset = false := by
  unfold nonzero_normal_frames
  constructor
  · intro h
    obtain ⟨g, hg⟩ := List.exists_mem_of_ne_nil _ h
    simp only [List.mem_map, List.mem_filter, List.mem_range'_1, Bool.and_eq_true,
      decide_eq_true_eq, Bool.not_eq_true'] at hg
    obtain ⟨j, ⟨⟨_, hj⟩, h1, h2⟩, _⟩ := hg
    exact ⟨j, by omega, h1, h2⟩
  · rintro ⟨j, hj, h1, h2⟩
    refine List.ne_nil_of_mem (a := b.pfn + j) ?_
    simp only [List.mem_map, List.mem_filter, List.mem_range'_1, Bool.and_eq_true,
      decide_eq_true_eq, Bool.not_eq_true']
    exact ⟨j, ⟨⟨Nat.zero_le _, by omega⟩, h1, h2⟩, rfl⟩

theorem batch_header_eq (info : vm_save_info) (f pfn_batch : List Nat) :
    batch_header info f pfn_batch =
      f ++ enc_u32 (batch_marker info.compress_mode info.single_page pfn_batch.length) ++
        enc_u32_list pfn_batch := by
  unfold batch_header
  cases info.compress_mode <;> rfl

theorem filter_range_length_le (p : Nat → Bool) (j n : Nat) :
    ((List.range' j n).filter p).length ≤ n := by
  have := List.length_filter_le p (List.range' j n)
  rwa [List.length_range'] at this

/-- C26: one iteration of the page loop in which the capture completes the
whole batch (`batch_done == batch`). The frame list of the batch consists of
the frames captured as Normal whose page is not zero, in increasing order; a
page-batch record is appended to the file exactly when there is such a frame,
and then its marker is not 0 and decodes to the length of the frame list,
which follows the marker, with the payload behind it. The runs written as
payload are maximal blocks of Normal entries; their entries, in the order
written, are those of the frame list, their total length is the length of the
frame list, and the counter of stray pages ends at 0. -/
theorem C26_batch_record (env : SaveEnv) (info : vm_save_info) (p2m_size m : Nat)
    (s : save_state)
    (hfull : (env.xc_domain_memory_capture s.pfn (fill_batch p2m_size s.pfn MAX_BATCH_SIZE 0)
      info.free_mem).batch_done = fill_batch p2m_size s.pfn MAX_BATCH_SIZE 0) :
    ∃ e : batch_log, (save_batch env info p2m_size m s).log = s.log ++ [e] ∧
      e.pfn = s.pfn ∧ e.batch = fill_batch p2m_size s.pfn MAX_BATCH_SIZE 0 ∧
      e.pfn_batch = nonzero_normal_frames e ∧
      (e.pfn_batch ≠ [] ↔
        ∃ j, j < e.batch ∧ (e.captured j).type = XENMEM_MCGI_TYPE_NORMAL ∧
          page_is_zero e.capture.mem_buffer (e.captured j).offset = false) ∧
      (e.pfn_batch = [] → (save_batch env info p2m_size m s).f = s.f) ∧
      (e.pfn_batch ≠ [] →
        batch_marker info.compress_mode info.single_page e.pfn_batch.length ≠ 0 ∧
        uxenvm_load_batch_decode (dec_i32 (enc_u32
            (batch_marker info.compress_mode info.single_page e.pfn_batch.length))) =
          .ok ((e.pfn_batch.length : Int), decide (info.compress_mode = VM_SAVE_COMPRESS_LZ4),
            decide (info.compress_mode = VM_SAVE_COMPRESS_LZ4) && info.single_page) ∧
        ∃ payload, (save_batch env info p2m_size m s).f =
          s.f ++ enc_u32 (batch_marker info.compress_mode info.single_page
            e.pfn_batch.length) ++ enc_u32_list e.pfn_batch ++ payload) ∧
      (run_entries e.runs).map (fun j => e.pfn + j) = e.pfn_batch ∧
      runs_length e.runs = e.pfn_batch.length ∧
      e.stray = 0 ∧
      runs_maximal e := by
  have hb : fill_batch p2m_size s.pfn MAX_BATCH_SIZE 0 ≤ MAX_BATCH_SIZE := by
    rw [fill_batch_min]
    unfold MAX_BATCH_SIZE
    omega
  unfold save_batch
  simp only
  generalize fill_batch p2m_size s.pfn MAX_BATCH_SIZE 0 = batch at hfull hb ⊢
  generalize env.xc_domain_memory_capture s.pfn batch info.free_mem = cap at hfull ⊢
  generalize hgl0 : (fun j => if j < cap.batch_done then cap.info.getD j (s.gpfn_info_list j)
    else s.gpfn_info_list j) = gl0
  have hlist := classify_pfn_batch_list info.free_mem cap.mem_buffer s.pfn cap.batch_done 0
    { gpfn_info_list := gl0, pfn_batch := [], zero_bitmap := s.zero_bitmap,
      rezero_pfns := [], rezero := 0, _zero := 0, clone := 0 }
  have hgl := classify_gl info.free_mem cap.mem_buffer s.pfn cap.batch_done 0
    { gpfn_info_list := gl0, pfn_batch := [], zero_bitmap := s.zero_bitmap,
      rezero_pfns := [], rezero := 0, _zero := 0, clone := 0 }
  generalize classify info.free_mem cap.mem_buffer s.pfn cap.batch_done 0
    { gpfn_info_list := gl0, pfn_batch := [], zero_bitmap := s.zero_bitmap,
      rezero_pfns := [], rezero := 0, _zero := 0, clone := 0 } = c at hlist hgl ⊢
  simp only [List.nil_append] at hlist hgl
  rw [hfull] at hlist hgl
  have hpb : c.pfn_batch =
      (normal_entries c.gpfn_info_list 0 batch).map (fun j => s.pfn + j) := by
    rw [hlist]
    unfold normal_entries
    congr 1
    apply List.filter_congr
    intro k hk
    rw [List.mem_range'_1] at hk
    rw [hgl k, if_pos ⟨hk.1, hk.2⟩]
  have hnz : c.pfn_batch =
      ((List.range' 0 batch).filter fun j =>
        decide ((gl0 j).type = XENMEM_MCGI_TYPE_NORMAL) &&
          !page_is_zero cap.mem_buffer (gl0 j).offset).map (fun j => s.pfn + j) := by
    rw [hlist]
    congr 1
    apply List.filter_congr
    intro k _
    by_cases h : rescan_type cap.mem_buffer (gl0 k) = XENMEM_MCGI_TYPE_NORMAL
    · have := (rescan_type_normal _ _).mp h
      simp [h, this.1, this.2]
    · have h2 := mt (rescan_type_normal cap.mem_buffer (gl0 k)).mpr h
      by_cases ht : (gl0 k).type = XENMEM_MCGI_TYPE_NORMAL
      · have hz : page_is_zero cap.mem_buffer (gl0 k).offset = true := by
          cases hz : page_is_zero cap.mem_buffer (gl0 k).offset
          · exact absurd ⟨ht, hz⟩ h2
          · rfl
        simp [h, ht, hz]
      · simp [h, ht]
  have hlen : c.pfn_batch.length ≤ batch := by
    rw [hlist, List.length_map]
    exact filter_range_length_le _ _ _
  split
  · rename_i hne
    have hne2 : c.pfn_batch ≠ [] := fun h => hne (by rw [h]; rfl)
    obtain ⟨new, h1, h2, h3, h4⟩ := run_loop_spec env.lz4 env.K info m cap.mem_buffer
      c.gpfn_info_list s.pfn batch batch 0
      (batch_start info s (batch_header info s.f c.pfn_batch) c.pfn_batch.length)
      (Nat.zero_le _) (by omega) (Or.inl rfl)
    rw [Nat.sub_zero] at h2
    have hruns : (finish_batch env.lz4 info (run_loop env.lz4 env.K info m cap.mem_buffer
        c.gpfn_info_list s.pfn batch batch 0
        (batch_start info s (batch_header info s.f c.pfn_batch) c.pfn_batch.length))).runs =
        new := by
      rw [finish_batch_runs, h1]
      rfl
    have hent : (run_entries new).map (fun j => s.pfn + j) = c.pfn_batch := by
      rw [h2, hpb]
    have hrl : runs_length new = c.pfn_batch.length := by
      rw [← run_entries_length, ← hent, List.length_map]
    refine ⟨_, rfl, rfl, rfl, ?_, ?_, ?_, ?_, ?_, ?_, ?_, ?_⟩
    · exact hnz
    · show c.pfn_batch ≠ [] ↔ _
      rw [hnz]
      exact nonzero_normal_frames_ne_nil
        { pfn := s.pfn, batch := batch, capture := cap, captured := gl0,
          classified := c.gpfn_info_list, pfn_batch := c.pfn_batch, record_pos := s.f.length,
          runs := new, stray := 0 }
    · intro h
      exact absurd h hne2
    · intro _
      have hc1 : 1 ≤ c.pfn_batch.length := Nat.pos_of_ne_zero hne
      refine ⟨?_, batch_marker_decode info.compress_mode info.single_page c.pfn_batch.length
        hc1 (by omega), ?_⟩
      · show batch_marker info.compress_mode info.single_page c.pfn_batch.length ≠ 0
        unfold batch_marker
        split <;> omega
      · obtain ⟨x, hx⟩ := run_loop_f_ext env.lz4 env.K info m cap.mem_buffer
          c.gpfn_info_list s.pfn batch batch 0
          (batch_start info s (batch_header info s.f c.pfn_batch) c.pfn_batch.length)
        obtain ⟨y, hy⟩ := finish_batch_f_ext env.lz4 info
          (run_loop env.lz4 env.K info m cap.mem_buffer
            c.gpfn_info_list s.pfn batch batch 0
            (batch_start info s (batch_header info s.f c.pfn_batch) c.pfn_batch.length))
        refine ⟨x ++ y, ?_⟩
        show (finish_batch env.lz4 info _).f = _
        rw [hy, hx]
        show batch_header info s.f c.pfn_batch ++ x ++ y = _
        rw [batch_header_eq, List.append_assoc _ x y]
    · show (run_entries (finish_batch env.lz4 info _).runs).map _ = c.pfn_batch
      rw [hruns]
      exact hent
    · show runs_length (finish_batch env.lz4 info _).runs = c.pfn_batch.length
      rw [hruns]
      exact hrl
    · show (finish_batch env.lz4 info _)._batch = 0
      rw [finish_batch_batch, h3, hrl]
      show ((c.pfn_batch.length : Nat) : Int) - _ = 0
      omega
    · intro p hp
      have hp2 : p ∈ new := by
        have : p ∈ (finish_batch env.lz4 info (run_loop env.lz4 env.K info m cap.mem_buffer
            c.gpfn_info_list s.pfn batch batch 0
            (batch_start info s (batch_header info s.f c.pfn_batch)
              c.pfn_batch.length))).runs := hp
        rwa [hruns] at this
      obtain ⟨a1, a2, a3, a4⟩ := h4 p hp2
      refine ⟨a1, a2, ?_, a3, a4⟩
      have hp3 : p ∈ (run_loop env.lz4 env.K info m cap.mem_buffer
          c.gpfn_info_list s.pfn batch batch 0
          (batch_start info s (batch_header info s.f c.pfn_batch) c.pfn_batch.length)).runs := by
        rw [h1]
        exact List.mem_append.mpr (Or.inr hp2)
      rcases run_loop_runs _ _ _ _ _ _ _ _ _ _ _ p hp3 with h | h
      · exact absurd h (List.not_mem_nil _)
      · exact h
  · rename_i hne
    have h0 : c.pfn_batch = [] := List.length_eq_zero.mp (not_not.mp hne)
    refine ⟨_, rfl, rfl, rfl, ?_, ?_, ?_, ?_, rfl, rfl, rfl, ?_⟩
    · show [] = _
      rw [← h0]
      exact hnz
    · show ([] : List Nat) ≠ [] ↔ _
      constructor
      · intro h
        exact absurd rfl h
      · intro h
        have := (nonzero_normal_frames_ne_nil
          { pfn := s.pfn, batch := batch, capture := cap, captured := gl0,
            classified := c.gpfn_info_list, pfn_batch := [], record_pos := s.f.length,
            runs := [], stray := 0 }).mpr h
        exact absurd (hnz.symm.trans h0) this
    · intro _
      rfl
    · intro h
      exact absurd rfl h
    · intro p hp
      exact absurd hp (List.not_mem_nil _)

/-- C26 at the first batch of the example save of three frames: the capture
completes the batch, the runs written have the length of the frame list and no
stray page is left. -/
theorem C26_batch_record_witness :
    (example_mixed_env.xc_domain_memory_capture example_first_state.pfn
        (fill_batch 3 example_first_state.pfn MAX_BATCH_SIZE 0)
        example_per_page_info.free_mem).batch_done =
      fill_batch 3 example_first_state.pfn MAX_BATCH_SIZE 0 ∧
    ∃ e : batch_log,
      (save_batch example_mixed_env example_per_page_info 3 256 example_first_state).log =
        example_first_state.log ++ [e] ∧
      runs_length e.runs = e.pfn_batch.length ∧ e.stray = 0 :=
  ⟨by decide,
    let ⟨e, h1, _, _, _, _, _, _, _, h9, h10, _⟩ :=
      C26_batch_record example_mixed_env example_per_page_info 3 256 example_first_state
        (by decide)
    ⟨e, h1, h9, h10⟩⟩

end VmSave
